import Mathlib

/-!
# Crowd-density mesh editor: planar triangulation and geometric queries

A shallow embedding of the JavaScript sources under `Assignment/A-1`:

* `js/constants.js`, `js/state.js`, `js/geometry.js`, `js/simulation.js`, `js/ui.js`
  (the modular variant),
* `script.js` (the single-file variant),
* `crowd_simulation_javascript.js` (the WebGL renderer variant).

Two models of numbers are used.  The main one takes exact rationals (`ℚ`) in place of
IEEE doubles: what is proved about it and depends on the value of an arithmetic expression
holds in exact arithmetic.  Distances returned by `Math.hypot` / `Math.sqrt` are compared
there through their exact squares.  The namespace `F64` evaluates the edge pipeline of the
modular variant (`crossProduct`, `doEdgesCross`, `generateInitialEdges`, `triangulate`,
`handleEdgeIntersections`, `initSimulation`, `scaleObstacle`) in IEEE-754 binary64, every
operation rounded as the engine rounds it; it shows where rounding makes the code depart
from the exact model.
-/

namespace CrowdSim

/-! ## Data model -/

/-- A 2D point `{x, y}`. -/
structure Point where
  x : ℚ
  y : ℚ
deriving DecidableEq, Repr

/-- A vertex object of `state.vertices`: a point together with the optional `fixed`
property (absent in the source means `undefined`, which is falsy). -/
structure Vertex extends Point where
  fixed : Bool := false
deriving DecidableEq, Repr

/-- An edge `[a, b]`: a two-element array of vertex indices. -/
abbrev Edge := Nat × Nat

/-- A triangle `[i, j, k]`: a three-element array of vertex indices. -/
abbrev Triangle := Nat × Nat × Nat

/-- The element `vertices[i]` read as a point.  Every read performed by the embedded code
on a well-formed state is in range; outside the array the model returns the origin. -/
def vtx (vs : List Vertex) (i : Nat) : Point :=
  (vs.getD i { x := 0, y := 0, fixed := false }).toPoint

/-! ## `js/constants.js` -/

def BBOX_POINT_COUNT : Nat := 4
def INNER_POINT_COUNT : Nat := 12
def OBSTACLE_POINT_COUNT : Nat := 4
def PERSON_EDGE_BUFFER : ℚ := 5
def MAX_SCALE_FACTOR : ℚ := 3 / 2
def MIN_SCALE_FACTOR : ℚ := 1 / 2

/-- The value `BBOX_POINT_COUNT + INNER_POINT_COUNT` that every function recomputes as its
local `obstacleStartIndex`. -/
def obstacleStartIndex : Nat := BBOX_POINT_COUNT + INNER_POINT_COUNT

/-! ## `js/geometry.js` -/

/-- Source: `crossProduct(p0, p1, p2)`, in exact arithmetic: the value of the expression on
rationals, without the rounding of the engine's binary64 operations (for those see
`F64.crossProduct`). -/
def crossProduct (p0 p1 p2 : Point) : ℚ :=
  (p1.x - p0.x) * (p2.y - p0.y) - (p1.y - p0.y) * (p2.x - p0.x)

/-- Source: `doEdgesCross(a1, b1, a2, b2)` reading `state.vertices`, in exact arithmetic
(`F64.doEdgesCross` is the test as binary64 evaluates it: there a cross product can be rounded
to `0`, and the result can depend on the order of the arguments). -/
def doEdgesCross (vs : List Vertex) (a1 b1 a2 b2 : Nat) : Bool :=
  if a1 = a2 ∨ a1 = b2 ∨ b1 = a2 ∨ b1 = b2 then false
  else
    let p0 := vtx vs a1
    let p1 := vtx vs b1
    let p2 := vtx vs a2
    let p3 := vtx vs b2
    let dir1 := crossProduct p0 p1 p2 * crossProduct p0 p1 p3
    let dir2 := crossProduct p2 p3 p0 * crossProduct p2 p3 p1
    decide (dir1 < 0) && decide (dir2 < 0)

/-- Source: `isPointInTriangle(p, p0, p1, p2)`. -/
def isPointInTriangle (p p0 p1 p2 : Point) : Bool :=
  let denom := (p1.y - p2.y) * (p0.x - p2.x) + (p2.x - p1.x) * (p0.y - p2.y)
  if denom = 0 then false
  else
    let a := ((p1.y - p2.y) * (p.x - p2.x) + (p2.x - p1.x) * (p.y - p2.y)) / denom
    let b := ((p2.y - p0.y) * (p.x - p2.x) + (p0.x - p2.x) * (p.y - p2.y)) / denom
    let c := 1 - a - b
    decide (a ≥ 0) && decide (a ≤ 1) && decide (b ≥ 0) && decide (b ≤ 1)
      && decide (c ≥ 0) && decide (c ≤ 1)

/-- The four corner points held in `obstacle.points` (always an array of length four: it
is created by a four-element literal and only ever replaced by a `map` of itself). -/
structure Quad where
  p0 : Point
  p1 : Point
  p2 : Point
  p3 : Point
deriving DecidableEq, Repr

/-- Source: `Array.prototype.map` on the four obstacle points. -/
def Quad.map (f : Point → Point) (q : Quad) : Quad :=
  { p0 := f q.p0, p1 := f q.p1, p2 := f q.p2, p3 := f q.p3 }

/-- The `state.obstacle` object. -/
structure Obstacle where
  x : ℚ
  y : ℚ
  width : ℚ
  height : ℚ
  rotation : ℚ
  points : Quad
deriving DecidableEq, Repr

/-- Source: `isPointInsideObstacle(point)`; `none` is the initial `obstacle = null`. -/
def isPointInsideObstacle (obstacle : Option Obstacle) (point : Point) : Bool :=
  match obstacle with
  | none => false
  | some o =>
    let minX := min (min (min o.points.p0.x o.points.p1.x) o.points.p2.x) o.points.p3.x
    let maxX := max (max (max o.points.p0.x o.points.p1.x) o.points.p2.x) o.points.p3.x
    let minY := min (min (min o.points.p0.y o.points.p1.y) o.points.p2.y) o.points.p3.y
    let maxY := max (max (max o.points.p0.y o.points.p1.y) o.points.p2.y) o.points.p3.y
    decide (point.x > minX) && decide (point.x < maxX)
      && decide (point.y > minY) && decide (point.y < maxY)

/-- The point `(xx, yy)` of the segment from `(x1, y1)` to `(x2, y2)` that
`distanceToLineSegment(x, y, x1, y1, x2, y2)` measures the distance to, in exact arithmetic. -/
def closestPoint (x y x1 y1 x2 y2 : ℚ) : ℚ × ℚ :=
  let A := x - x1
  let B := y - y1
  let C := x2 - x1
  let D := y2 - y1
  let dot := A * C + B * D
  let lenSq := C * C + D * D
  let param : ℚ := if lenSq ≠ 0 then dot / lenSq else -1
  let xx := if param < 0 then x1 else if param > 1 then x2 else x1 + param * C
  let yy := if param < 0 then y1 else if param > 1 then y2 else y1 + param * D
  (xx, yy)

/-- Source: `distanceToLineSegment(x, y, x1, y1, x2, y2)`.  `hypot` stands for `Math.hypot`,
which the language leaves implementation-approximated and whose result is a binary64
number; the arithmetic before it is exact. -/
def distanceToLineSegment (hypot : ℚ → ℚ → ℚ) (x y x1 y1 x2 y2 : ℚ) : ℚ :=
  let A := x - x1
  let B := y - y1
  let C := x2 - x1
  let D := y2 - y1
  let dot := A * C + B * D
  let lenSq := C * C + D * D
  let param : ℚ := if lenSq ≠ 0 then dot / lenSq else -1
  let xx := if param < 0 then x1 else if param > 1 then x2 else x1 + param * C
  let yy := if param < 0 then y1 else if param > 1 then y2 else y1 + param * D
  hypot (x - xx) (y - yy)

/-- The exact sum of squares `(x - xx)² + (y - yy)²` of the two arguments that
`distanceToLineSegment(x, y, x1, y1, x2, y2)` hands to `Math.hypot`: the square of the value
an exact `Math.hypot` would return.  The source returns the binary64 result of
`Math.hypot`, not this value. -/
def distanceToLineSegmentSq (x y x1 y1 x2 y2 : ℚ) : ℚ :=
  let A := x - x1
  let B := y - y1
  let C := x2 - x1
  let D := y2 - y1
  let dot := A * C + B * D
  let lenSq := C * C + D * D
  let param : ℚ := if lenSq ≠ 0 then dot / lenSq else -1
  let xx := if param < 0 then x1 else if param > 1 then x2 else x1 + param * C
  let yy := if param < 0 then y1 else if param > 1 then y2 else y1 + param * D
  (x - xx) * (x - xx) + (y - yy) * (y - yy)

/-- Source: `isPointTooCloseToEdges(point, buffer)` for a non-negative `buffer`
(`distance < buffer` is compared on squares). -/
def isPointTooCloseToEdges (vs : List Vertex) (edges : List Edge) (point : Point)
    (buffer : ℚ) : Bool :=
  edges.any fun edge =>
    let p0 := vtx vs edge.1
    let p1 := vtx vs edge.2
    decide (distanceToLineSegmentSq point.x point.y p0.x p0.y p1.x p1.y < buffer * buffer)

/-- Source: `isLineOfSightClear(p1_idx, p2_idx)`. -/
def isLineOfSightClear (vs : List Vertex) (p1_idx p2_idx : Nat) : Bool :=
  !(List.range OBSTACLE_POINT_COUNT).any fun i =>
    doEdgesCross vs p1_idx p2_idx (obstacleStartIndex + i)
      (obstacleStartIndex + ((i + 1) % OBSTACLE_POINT_COUNT))

/-- Source: `doesEdgeIntersectObstacle(p1_idx, p2_idx)`. -/
def doesEdgeIntersectObstacle (vs : List Vertex) (p1_idx p2_idx : Nat) : Bool :=
  (List.range OBSTACLE_POINT_COUNT).any fun i =>
    doEdgesCross vs p1_idx p2_idx (obstacleStartIndex + i)
      (obstacleStartIndex + ((i + 1) % OBSTACLE_POINT_COUNT))

/-! ### Edge keys: `e.sort().join('-')`

`Array.prototype.sort` without a comparator orders its elements by their string forms.
For a two-element array of vertex indices this swaps the entries exactly when the decimal
string of the second is smaller than that of the first (so `[4, 16]` becomes `[16, 4]`).
The sort is in place: it also reorders the array stored in `state.edges`. -/

/-- Decimal digits of `n`, most significant first, accumulated in front of `acc`. -/
def decimalDigitsAux : Nat → Nat → List Nat → List Nat
  | 0, _, acc => acc
  | fuel + 1, n, acc =>
    if n < 10 then n :: acc else decimalDigitsAux fuel (n / 10) (n % 10 :: acc)

/-- The characters of `String(n)` as digits (character order on `'0'..'9'` is digit
order). -/
def decimalDigits (n : Nat) : List Nat := decimalDigitsAux (n + 1) n []

/-- String comparison `s < t` on digit strings: lexicographic, a proper prefix is smaller. -/
def strLt : List Nat → List Nat → Bool
  | [], [] => false
  | [], _ :: _ => true
  | _ :: _, [] => false
  | a :: l, b :: r => decide (a < b) || (decide (a = b) && strLt l r)

/-- Source: `e.sort()` on a two-element array of indices. -/
def sortEdge (e : Edge) : Edge :=
  if strLt (decimalDigits e.2) (decimalDigits e.1) then (e.2, e.1) else e

/-- Source: `Set.prototype.add` on a set of keys `"a-b"`, kept in insertion order.  A key
string `"a-b"` is represented by the pair `(a, b)` it is joined from (and split back into
by `split('-').map(Number)`); two key strings are equal exactly when the pairs are. -/
def setAdd (s : List Edge) (k : Edge) : List Edge :=
  if k ∈ s then s else s ++ [k]

/-- Source: `new Set(keys)`. -/
def setOf (keys : List Edge) : List Edge := keys.foldl setAdd []

/-- Source: `isValidTriangle(i, j, k, existingEdges, bannedEdges)`. -/
def isValidTriangle (vs : List Vertex) (i j k : Nat) (existingEdges bannedEdges : List Edge) :
    Bool :=
  let p0 := vtx vs i
  let p1 := vtx vs j
  let p2 := vtx vs k
  if crossProduct p0 p1 p2 = 0 then false
  else
    let triEdges : List Edge := [sortEdge (i, j), sortEdge (j, k), sortEdge (k, i)]
    if triEdges.any (fun edge => decide (edge ∈ bannedEdges)) then false
    else if triEdges.any (fun newEdge =>
        !decide (newEdge ∈ existingEdges) &&
          existingEdges.any (fun existingEdge =>
            doEdgesCross vs newEdge.1 newEdge.2 existingEdge.1 existingEdge.2)) then false
    else if (List.range vs.length).any (fun v_idx =>
        !(decide (v_idx = i) || decide (v_idx = j) || decide (v_idx = k)) &&
          isPointInTriangle (vtx vs v_idx) p0 p1 p2) then false
    else true

/-- The index triples `i < j < k < n` in the order the three nested loops of `triangulate`
visit them. -/
def triples (n : Nat) : List Triangle :=
  (List.range n).flatMap fun i =>
    ((List.range n).filter fun j => i < j).flatMap fun j =>
      ((List.range n).filter fun k => j < k).map fun k => (i, j, k)

/-- One iteration of the innermost loop body of `triangulate`: the state is the pair
(`newTriangles`, `tempEdges`). -/
def triangulateStep (vs : List Vertex) (bannedEdges : List Edge)
    (acc : List Triangle × List Edge) (t : Triangle) : List Triangle × List Edge :=
  if isValidTriangle vs t.1 t.2.1 t.2.2 acc.2 bannedEdges then
    (acc.1 ++ [t],
      [sortEdge (t.1, t.2.1), sortEdge (t.2.1, t.2.2), sortEdge (t.2.2, t.1)].foldl setAdd acc.2)
  else acc

/-- Source: `triangulate(options)`: the value passed to `state.setTriangles`.  `edges` is
`state.edges` and `banned` is `options.bannedEdges || []`. -/
def triangulate (vs : List Vertex) (edges banned : List Edge) : List Triangle :=
  ((triples vs.length).foldl (triangulateStep vs (setOf (banned.map sortEdge)))
    ([], setOf (edges.map sortEdge))).1

/-- The contents of `state.edges` after `triangulate`: `e.sort()` reorders every stored
edge array in place. -/
def edgesAfterTriangulate (edges : List Edge) : List Edge := edges.map sortEdge

/-- Undirected membership test used throughout the source:
`(e[0] === a && e[1] === b) || (e[0] === b && e[1] === a)`. -/
def sameEdge (a b : Nat) (e : Edge) : Bool :=
  (decide (e.1 = a) && decide (e.2 = b)) || (decide (e.1 = b) && decide (e.2 = a))

/-- Source: `state.edges.some(e => ...)` with the undirected test. -/
def hasEdge (edges : List Edge) (a b : Nat) : Bool := edges.any (sameEdge a b)


/-! ## `js/state.js` -/

/-- The values of `state.interactionMode`. -/
inductive Mode where
  | select
  | addEdge
  | removeEdge
  | movePoint
  | movePerson
deriving DecidableEq, Repr

/-- The `type` field of `state.selected`. -/
inductive SelectedType where
  | vertex
  | person
  | edge
  | obstacle
deriving DecidableEq, Repr

/-- The `state.selected` object `{ type, index, extra }`. -/
structure Selected where
  type : Option SelectedType
  index : Option Nat
  extra : Option Edge
deriving DecidableEq, Repr

/-- The module state of `js/state.js`, together with the text last written to the
selection-info element by `updateSelectionInfo`. -/
structure State where
  vertices : List Vertex
  edges : List Edge
  triangles : List Triangle
  people : List Point
  obstacle : Option Obstacle
  interactionMode : Mode
  selectedVertex : Option Nat
  selectedPerson : Option Nat
  isDragging : Bool
  selected : Selected
  firstVertexForEdge : Option Nat
  currentScaleFactor : ℚ
  selectionInfo : String
deriving DecidableEq, Repr

/-- The initial values of the `let` bindings of `js/state.js`. -/
def State.initial : State :=
  { vertices := [], edges := [], triangles := [], people := [], obstacle := none,
    interactionMode := Mode.select, selectedVertex := none, selectedPerson := none,
    isDragging := false, selected := { type := none, index := none, extra := none },
    firstVertexForEdge := none, currentScaleFactor := 1, selectionInfo := "" }

/-- The width and height attributes of the canvas element (set by the page, not by the
scripts). -/
structure Canvas where
  width : ℚ
  height : ℚ
deriving DecidableEq, Repr

/-! ## `js/simulation.js` -/

/-- A candidate edge `{ from, to, dist }`; `distSq` is the square of `dist`. -/
structure Candidate where
  from_ : Nat
  to_ : Nat
  distSq : ℚ
deriving DecidableEq, Repr

/-- The square of `Math.hypot(p1.x - p2.x, p1.y - p2.y)`. -/
def hypotSq (p1 p2 : Point) : ℚ :=
  (p1.x - p2.x) * (p1.x - p2.x) + (p1.y - p2.y) * (p1.y - p2.y)

/-- The candidate pushed for the index pair `(i, j)`. -/
def mkCandidate (vs : List Vertex) (i j : Nat) : Candidate :=
  { from_ := i, to_ := j, distSq := hypotSq (vtx vs i) (vtx vs j) }

/-- The `candidateEdges` array of `generateInitialEdges` before sorting: the three nested
loops (boundary to inner, inner to inner, obstacle to inner), in push order. -/
def candidateEdges (vs : List Vertex) : List Candidate :=
  ((List.range BBOX_POINT_COUNT).flatMap fun i =>
      (List.range' BBOX_POINT_COUNT INNER_POINT_COUNT).map fun j => mkCandidate vs i j)
  ++ ((List.range' BBOX_POINT_COUNT INNER_POINT_COUNT).flatMap fun i =>
      ((List.range' BBOX_POINT_COUNT INNER_POINT_COUNT).filter fun j => i < j).map
        fun j => mkCandidate vs i j)
  ++ ((List.range' obstacleStartIndex (vs.length - obstacleStartIndex)).flatMap fun i =>
      (List.range' BBOX_POINT_COUNT INNER_POINT_COUNT).map fun j => mkCandidate vs i j)

/-- Source: `candidateEdges.sort((a, b) => a.dist - b.dist)`: a stable ascending sort by
distance (insertion before the first element that is not smaller keeps ties in order). -/
def sortCandidates (cs : List Candidate) : List Candidate :=
  cs.insertionSort fun a b => a.distSq ≤ b.distSq

/-- One iteration of the acceptance loop of `generateInitialEdges`; the state is the pair
(`finalEdges`, `obstacleConnectionCounts`). -/
def generateStep (vs : List Vertex) (acc : List Edge × List Nat) (edge : Candidate) :
    List Edge × List Nat :=
  if doesEdgeIntersectObstacle vs edge.from_ edge.to_ then acc
  else if acc.1.any (fun finalEdge => doEdgesCross vs edge.from_ edge.to_ finalEdge.1 finalEdge.2)
  then acc
  else if edge.from_ ≥ obstacleStartIndex then
    if acc.2.getD edge.from_ 0 ≥ 3 then acc
    else if !isLineOfSightClear vs edge.from_ edge.to_ then acc
    else (acc.1 ++ [(edge.from_, edge.to_)], acc.2.set edge.from_ (acc.2.getD edge.from_ 0 + 1))
  else (acc.1 ++ [(edge.from_, edge.to_)], acc.2)

/-- Source: `generateInitialEdges(constraintEdges)`. -/
def generateInitialEdges (vs : List Vertex) (constraintEdges : List Edge) : List Edge :=
  ((sortCandidates (candidateEdges vs)).foldl (generateStep vs)
    (constraintEdges, List.replicate vs.length 0)).1

/-- The `constraintEdges` literal: the boundary loop and the obstacle loop starting at
index `start`. -/
def constraintEdgesAt (start : Nat) : List Edge :=
  [(0, 1), (1, 2), (2, 3), (3, 0), (start, start + 1), (start + 1, start + 2),
    (start + 2, start + 3), (start + 3, start)]

/-- Source: `recomputeEdgesAndTriangulate()`.  `generateInitialEdges` builds fresh edge
arrays, which the following `triangulate()` then sorts in place. -/
def recomputeEdgesAndTriangulate (s : State) : State :=
  let newEdges := generateInitialEdges s.vertices (constraintEdgesAt obstacleStartIndex)
  { s with edges := edgesAfterTriangulate newEdges,
           triangles := triangulate s.vertices newEdges [] }

/-- The undirected `findIndex` used to locate an edge to delete:
`edges.findIndex(e => (e[0] === r[0] && e[1] === r[1]) || (e[0] === r[1] && e[1] === r[0]))`
followed by `splice(index, 1)` when the index is not `-1`. -/
def spliceEdge (edges : List Edge) (r : Edge) : List Edge :=
  edges.eraseIdx (edges.findIdx (sameEdge r.1 r.2))

/-- The inner `for (j ...)` loop of `handleEdgeIntersections` for a fixed `i`, started at
`j`; `fuel` bounds the remaining iterations (at most `edges.length` of them, since `j`
grows by one per iteration and the array never grows). -/
def intersectionsInner (vs : List Vertex) (i : Nat) : Nat → Nat → List Edge → List Edge
  | 0, _, edges => edges
  | fuel + 1, j, edges =>
    if j < edges.length then
      let e1 := edges.getD i (0, 0)
      let e2 := edges.getD j (0, 0)
      if e1.1 = e2.1 ∨ e1.1 = e2.2 ∨ e1.2 = e2.1 ∨ e1.2 = e2.2 then
        intersectionsInner vs i fuel (j + 1) edges
      else if doEdgesCross vs e1.1 e1.2 e2.1 e2.2 then
        let dist1 := hypotSq (vtx vs e1.1) (vtx vs e1.2)
        let dist2 := hypotSq (vtx vs e2.1) (vtx vs e2.2)
        let edgeToRemove := if dist1 > dist2 then e1 else e2
        intersectionsInner vs i fuel (j + 1) (spliceEdge edges edgeToRemove)
      else intersectionsInner vs i fuel (j + 1) edges
    else edges

/-- The outer `for (i ...)` loop of `handleEdgeIntersections`, started at `i`. -/
def intersectionsOuter (vs : List Vertex) : Nat → Nat → List Edge → List Edge
  | 0, _, edges => edges
  | fuel + 1, i, edges =>
    if i < edges.length then
      intersectionsOuter vs fuel (i + 1) (intersectionsInner vs i edges.length (i + 1) edges)
    else edges

/-- Source: `handleEdgeIntersections()`: the resulting `state.edges`.  Both loops run at
most `edges.length` iterations, so the fuel never runs out before the loop condition
fails. -/
def handleEdgeIntersections (vs : List Vertex) (edges : List Edge) : List Edge :=
  intersectionsOuter vs edges.length 0 edges

/-- Writes the four obstacle points into `state.vertices[obstacleStartIndex + i]` as fresh
objects `{ ...newPoints[i] }` (no `fixed` property). -/
def setObstacleVertices (vs : List Vertex) (q : Quad) : List Vertex :=
  (((vs.set obstacleStartIndex { toPoint := q.p0 }).set (obstacleStartIndex + 1)
    { toPoint := q.p1 }).set (obstacleStartIndex + 2) { toPoint := q.p2 }).set
      (obstacleStartIndex + 3) { toPoint := q.p3 }

/-- Source: `Math.round(x)` on a rational: the nearest integer, halves rounded up. -/
def mathRound (x : ℚ) : Int := Int.floor (x + 1 / 2)

/-- The common tail of `scaleObstacle` and `rotateObstacle` once `obstacle.points` and the
four obstacle vertices are updated: recompute edges, resolve crossings, drop the people
inside the obstacle and triangulate.  Returns the new state and `removedPeopleCount`. -/
def afterObstacleTransform (s : State) : State × Nat :=
  let s1 := recomputeEdgesAndTriangulate s
  let edges2 := handleEdgeIntersections s1.vertices s1.edges
  let newPeople := s1.people.filter fun person => !isPointInsideObstacle s1.obstacle person
  let removedPeopleCount := s1.people.length - newPeople.length
  ({ s1 with edges := edgesAfterTriangulate edges2,
             people := newPeople,
             triangles := triangulate s1.vertices edges2 [] }, removedPeopleCount)

/-- The assignments `state.obstacle.points = newPoints` and
`state.vertices[obstacleStartIndex + i] = { ...newPoints[i] }` shared by `scaleObstacle` and
`rotateObstacle`. -/
def withObstaclePoints (s : State) (o : Obstacle) (newPoints : Quad) : State :=
  { s with obstacle := some { o with points := newPoints },
           vertices := setObstacleVertices s.vertices newPoints }

/-- The `newPoints` of `scaleObstacle`: every point scaled about the obstacle centre by
`ratio = newScale / state.currentScaleFactor`. -/
def scaledPoints (o : Obstacle) (ratio : ℚ) : Quad :=
  o.points.map fun point =>
    { x := o.x + (point.x - o.x) * ratio,
      y := o.y + (point.y - o.y) * ratio }

/-- The message built at the end of `scaleObstacle`. -/
def scaleMessage (newScale : ℚ) (removedPeopleCount : Nat) : String :=
  let msg := "Obstacle scaled to " ++ toString (mathRound (newScale * 100)) ++ "%"
  if removedPeopleCount > 0 then
    msg ++ " | Removed " ++ toString removedPeopleCount ++ " person(s) that entered obstacle."
  else msg

/-- Source: `scaleObstacle(factorChange)`.  With `state.obstacle === null` the source
throws on the destructuring; the model leaves the state unchanged. -/
def scaleObstacle (s : State) (factorChange : ℚ) : State :=
  let newScale := s.currentScaleFactor + factorChange
  if newScale > MAX_SCALE_FACTOR ∨ newScale < MIN_SCALE_FACTOR then s
  else
    match s.obstacle with
    | none => s
    | some o =>
      let r := afterObstacleTransform
        (withObstaclePoints s o (scaledPoints o (newScale / s.currentScaleFactor)))
      { r.1 with currentScaleFactor := newScale, selectionInfo := scaleMessage newScale r.2 }

/-- The double nearest to `Math.cos(15 * Math.PI / 180)`, as an exact rational. -/
def cos15 : ℚ := 8700286382685973 / 9007199254740992

/-- The double nearest to `Math.sin(15 * Math.PI / 180)`, as an exact rational. -/
def sin15 : ℚ := 291404338770025 / 1125899906842624

/-- The `newPoints` of `rotateObstacle`: every point rotated about the obstacle centre. -/
def rotatedPoints (o : Obstacle) : Quad :=
  o.points.map fun point =>
    { x := o.x + (point.x - o.x) * cos15 - (point.y - o.y) * sin15,
      y := o.y + (point.x - o.x) * sin15 + (point.y - o.y) * cos15 }

/-- The message built at the end of `rotateObstacle`. -/
def rotateMessage (removedPeopleCount : Nat) : String :=
  let msg := "Obstacle rotated by 15°."
  if removedPeopleCount > 0 then
    msg ++ " Removed " ++ toString removedPeopleCount ++ " person(s) that entered obstacle."
  else msg

/-- Source: `rotateObstacle()`. -/
def rotateObstacle (s : State) : State :=
  match s.obstacle with
  | none => s
  | some o =>
    let r := afterObstacleTransform (withObstaclePoints s o (rotatedPoints o))
    { r.1 with selectionInfo := rotateMessage r.2 }

/-- The corner and obstacle layout computed at the start of `initSimulation` from the
canvas size: `padding`, `rectWidth`, `rectHeight`, `obstacleX`, `obstacleY`. -/
def initPadding : ℚ := 40

def rectWidth (cv : Canvas) : ℚ := cv.width - 2 * initPadding

def rectHeight (cv : Canvas) : ℚ := cv.height - 2 * initPadding

def obstacleX (cv : Canvas) : ℚ := initPadding + (rectWidth cv - 100) / 2

def obstacleY (cv : Canvas) : ℚ := initPadding + (rectHeight cv - 70) / 2

/-- The object passed to `state.setObstacle` by `initSimulation`. -/
def initObstacle (cv : Canvas) : Obstacle :=
  { x := obstacleX cv + 100 / 2, y := obstacleY cv + 70 / 2,
    width := 100, height := 70, rotation := 0,
    points :=
      { p0 := { x := obstacleX cv, y := obstacleY cv },
        p1 := { x := obstacleX cv + 100, y := obstacleY cv },
        p2 := { x := obstacleX cv + 100, y := obstacleY cv + 70 },
        p3 := { x := obstacleX cv, y := obstacleY cv + 70 } } }

/-- The four boundary corners pushed first by `initSimulation`, all `fixed: true`. -/
def initCorners (cv : Canvas) : List Vertex :=
  [{ x := initPadding, y := initPadding, fixed := true },
   { x := initPadding + rectWidth cv, y := initPadding, fixed := true },
   { x := initPadding + rectWidth cv, y := initPadding + rectHeight cv, fixed := true },
   { x := initPadding, y := initPadding + rectHeight cv, fixed := true }]

/-- The inner point drawn from the two `Math.random()` values `r`. -/
def innerPointOf (cv : Canvas) (r : ℚ × ℚ) : Point :=
  { x := initPadding + 50 + r.1 * (rectWidth cv - 100),
    y := initPadding + 50 + r.2 * (rectHeight cv - 100) }

/-- The person drawn from the two `Math.random()` values `r` (in `initSimulation` and in
`addPerson`). -/
def personOf (cv : Canvas) (r : ℚ × ℚ) : Point :=
  { x := initPadding + 20 + r.1 * (rectWidth cv - 40),
    y := initPadding + 20 + r.2 * (rectHeight cv - 40) }

/-- A pair of values returned by `Math.random()`: each lies in `[0, 1)`. -/
def isRandomPair (r : ℚ × ℚ) : Prop := 0 ≤ r.1 ∧ r.1 < 1 ∧ 0 ≤ r.2 ∧ r.2 < 1

instance (r : ℚ × ℚ) : Decidable (isRandomPair r) := by
  unfold isRandomPair; infer_instance

/-- The vertex array built by `initSimulation`: corners, accepted inner points, obstacle
points. -/
def initVertices (cv : Canvas) (inner : List (ℚ × ℚ)) : List Vertex :=
  initCorners cv ++ inner.map (fun r => { toPoint := innerPointOf cv r })
    ++ [{ toPoint := (initObstacle cv).points.p0 }, { toPoint := (initObstacle cv).points.p1 },
        { toPoint := (initObstacle cv).points.p2 }, { toPoint := (initObstacle cv).points.p3 }]

/-- The edge array produced by `generateInitialEdges` inside `initSimulation`, before the
final `triangulate()` sorts its entries. -/
def initEdges (cv : Canvas) (inner : List (ℚ × ℚ)) : List Edge :=
  generateInitialEdges (initVertices cv inner)
    (constraintEdgesAt (BBOX_POINT_COUNT + inner.length))

/-- Source: `initSimulation()`.  `inner` and `people` are the `Math.random()` pairs of the
draws that leave the two `do ... while` loops (one pair per accepted point); rejected draws
leave no trace in the state.  The bindings not assigned by `initSimulation` (interaction
mode, drag state, selection, `currentScaleFactor`, the selection-info text) keep the values
of the previous state `s`. -/
def initSimulation (s : State) (cv : Canvas) (inner people : List (ℚ × ℚ)) : State :=
  { s with
    vertices := initVertices cv inner
    edges := edgesAfterTriangulate (initEdges cv inner)
    triangles := triangulate (initVertices cv inner) (initEdges cv inner) []
    people := people.map (personOf cv)
    obstacle := some (initObstacle cv) }

/-- The exit condition of the inner-point loop of `initSimulation` for an accepted draw. -/
def innerAccepted (cv : Canvas) (r : ℚ × ℚ) : Prop :=
  isRandomPair r ∧ isPointInsideObstacle (some (initObstacle cv)) (innerPointOf cv r) = false

instance (cv : Canvas) (r : ℚ × ℚ) : Decidable (innerAccepted cv r) := by
  unfold innerAccepted; infer_instance

/-- The exit condition of the person loop (`initSimulation`, `addPerson`) for an accepted
draw, against the obstacle, vertices and edges current at that moment. -/
def personAccepted (cv : Canvas) (obstacle : Option Obstacle) (vs : List Vertex)
    (edges : List Edge) (r : ℚ × ℚ) : Prop :=
  isRandomPair r ∧ isPointInsideObstacle obstacle (personOf cv r) = false ∧
    isPointTooCloseToEdges vs edges (personOf cv r) PERSON_EDGE_BUFFER = false

instance (cv : Canvas) (obstacle : Option Obstacle) (vs : List Vertex) (edges : List Edge)
    (r : ℚ × ℚ) : Decidable (personAccepted cv obstacle vs edges r) := by
  unfold personAccepted; infer_instance

/-- Source: `addPerson()` with the accepted draw `r`. -/
def addPerson (s : State) (cv : Canvas) (r : ℚ × ℚ) : State :=
  { s with
    people := s.people ++ [personOf cv r]
    edges := edgesAfterTriangulate s.edges
    triangles := triangulate s.vertices s.edges []
    selectionInfo := "Added a person. Total: " ++ toString (s.people.length + 1) }

/-- Source: `removePerson()`. -/
def removePerson (s : State) : State :=
  if s.people.length > 0 then
    { s with
      people := s.people.dropLast
      edges := edgesAfterTriangulate s.edges
      triangles := triangulate s.vertices s.edges []
      selectionInfo := "Removed a person. Total: " ++ toString (s.people.length - 1) }
  else { s with selectionInfo := "No people to remove." }

/-! ## `js/ui.js` -/

/-- The loop state `(minDist, closest)` of the three `findClosest...` functions; `none`
stands for `Infinity` and for "nothing found". -/
def closestStep {α : Type} (thresholdSq : ℚ) (acc : Option (ℚ × α)) (c : ℚ × α) :
    Option (ℚ × α) :=
  match acc with
  | none => if c.1 < thresholdSq then some c else none
  | some m => if c.1 < m.1 ∧ c.1 < thresholdSq then some c else some m

/-- Source: `findClosestVertex(x, y, threshold)`; `none` is the result `-1`. -/
def findClosestVertex (vs : List Vertex) (x y : ℚ) (threshold : ℚ) : Option Nat :=
  (((List.range vs.length).map fun i => (hypotSq (vtx vs i) { x := x, y := y }, i)).foldl
    (closestStep (threshold * threshold)) none).map Prod.snd

/-- Source: `findClosestEdge(x, y, threshold)`; `none` is the result `null`. -/
def findClosestEdge (vs : List Vertex) (edges : List Edge) (x y : ℚ) (threshold : ℚ) :
    Option Edge :=
  ((edges.map fun edge =>
      (distanceToLineSegmentSq x y (vtx vs edge.1).x (vtx vs edge.1).y
        (vtx vs edge.2).x (vtx vs edge.2).y, edge)).foldl
    (closestStep (threshold * threshold)) none).map Prod.snd

/-- Source: `findClosestPerson(x, y, threshold)`, returning the `index` field. -/
def findClosestPerson (people : List Point) (x y : ℚ) (threshold : ℚ) : Option Nat :=
  (((List.range people.length).map fun i =>
      (hypotSq (people.getD i { x := 0, y := 0 }) { x := x, y := y }, i)).foldl
    (closestStep (threshold * threshold)) none).map Prod.snd

/-- The mode names used in element ids and messages. -/
def Mode.name : Mode → String
  | Mode.select => "select"
  | Mode.addEdge => "add-edge"
  | Mode.removeEdge => "remove-edge"
  | Mode.movePoint => "move-point"
  | Mode.movePerson => "move-person"

/-- The `fixed` property of `state.vertices[i]`. -/
def isFixed (vs : List Vertex) (i : Nat) : Bool :=
  (vs.getD i { x := 0, y := 0, fixed := false }).fixed

/-- Source: `handleMouseDown(e)`; `(x, y)` are the canvas coordinates computed from the
event in the first three lines of the handler. -/
def handleMouseDown (s : State) (x y : ℚ) : State :=
  match s.interactionMode with
  | Mode.movePoint =>
    match findClosestVertex s.vertices x y 15 with
    | none => s
    | some closest =>
      if closest < obstacleStartIndex ∧ isFixed s.vertices closest = false then
        { s with selectedVertex := some closest, isDragging := true,
                 selectionInfo := "Moving vertex " ++ toString closest }
      else if isFixed s.vertices closest then
        { s with selectionInfo := "This vertex is fixed and cannot be moved." }
      else s
  | Mode.movePerson =>
    match findClosestPerson s.people x y 10 with
    | none => s
    | some index =>
      { s with selectedPerson := some index, isDragging := true,
               selectionInfo := "Moving person " ++ toString (index + 1) }
  | Mode.removeEdge =>
    match findClosestEdge s.vertices s.edges x y 10 with
    | none => s
    | some edgeToRemove =>
      let isBboxEdge := edgeToRemove.1 < 4 ∧ edgeToRemove.2 < 4
      let isObstacleEdge :=
        edgeToRemove.1 ≥ obstacleStartIndex ∧ edgeToRemove.2 ≥ obstacleStartIndex
      if isBboxEdge ∨ isObstacleEdge then
        { s with selectionInfo := "Cannot remove a boundary edge." }
      else
        let edgeIndex := s.edges.findIdx (sameEdge edgeToRemove.1 edgeToRemove.2)
        if edgeIndex < s.edges.length then
          let spliced := s.edges.eraseIdx edgeIndex
          { s with edges := edgesAfterTriangulate spliced,
                   triangles := triangulate s.vertices spliced [edgeToRemove],
                   selectionInfo := "Edge removed." }
        else s
  | Mode.addEdge =>
    match findClosestVertex s.vertices x y 15 with
    | none => s
    | some clickedVertex =>
      match s.firstVertexForEdge with
      | none =>
        { s with firstVertexForEdge := some clickedVertex,
                 selectionInfo := "Selected vertex " ++ toString clickedVertex ++
                   ". Now select the second vertex." }
      | some first =>
        if first = clickedVertex then
          { s with selectionInfo := "Cannot add edge to same vertex.",
                   firstVertexForEdge := none }
        else if hasEdge s.edges first clickedVertex then
          { s with selectionInfo := "Edge already exists.", firstVertexForEdge := none }
        else if !isLineOfSightClear s.vertices first clickedVertex then
          { s with selectionInfo := "Edge crosses obstacle, cannot add.",
                   firstVertexForEdge := none }
        else if s.edges.any (fun edge => doEdgesCross s.vertices first clickedVertex edge.1 edge.2)
        then
          { s with selectionInfo := "New edge would intersect existing edge.",
                   firstVertexForEdge := none }
        else
          { s with edges := edgesAfterTriangulate (s.edges ++ [(first, clickedVertex)]),
                   triangles := triangulate s.vertices (s.edges ++ [(first, clickedVertex)]) [],
                   selectionInfo := "Edge added between vertex " ++ toString first ++
                     " and vertex " ++ toString clickedVertex ++ ".",
                   firstVertexForEdge := none }
  | Mode.select =>
    match findClosestVertex s.vertices x y 15 with
    | some vertexIdx =>
      { s with selected := { type := some SelectedType.vertex, index := some vertexIdx,
                             extra := none },
               selectionInfo := "<strong>Vertex Selected:</strong> Index " ++ toString vertexIdx }
    | none =>
      match findClosestPerson s.people x y 10 with
      | some index =>
        { s with selected := { type := some SelectedType.person, index := some index,
                               extra := none },
                 selectionInfo :=
                   "<strong>Person Selected:</strong> Index " ++ toString (index + 1) }
      | none =>
        match findClosestEdge s.vertices s.edges x y 10 with
        | some edge =>
          { s with selected := { type := some SelectedType.edge, index := none,
                                 extra := some edge },
                   selectionInfo := "<strong>Edge Selected:</strong> Between Vertex " ++
                     toString edge.1 ++ " and Vertex " ++ toString edge.2 }
        | none =>
          if isPointInsideObstacle s.obstacle { x := x, y := y } then
            { s with selected := { type := some SelectedType.obstacle, index := none,
                                   extra := none },
                     selectionInfo := "<strong>Obstacle Selected</strong>" }
          else
            { s with selected := { type := none, index := none, extra := none },
                     selectionInfo := "Nothing selected." }

/-- The assignments `v.x = x; v.y = y` on the vertex object at index `i`. -/
def moveVertexTo (vs : List Vertex) (i : Nat) (x y : ℚ) : List Vertex :=
  vs.set i { vs.getD i { x := 0, y := 0, fixed := false } with x := x, y := y }

/-- The assignments `p.x = x; p.y = y` on the person object at index `i`. -/
def movePersonTo (people : List Point) (i : Nat) (x y : ℚ) : List Point :=
  people.set i { x := x, y := y }

/-- Source: `handleMouseMove(e)`; `(x, y)` are the coordinates computed from the event. -/
def handleMouseMove (s : State) (x y : ℚ) : State :=
  if s.isDragging = false then s
  else
    match s.selectedVertex with
    | some sel =>
      let padding := (vtx s.vertices 0).x
      let bbox_max_x := (vtx s.vertices 1).x
      let bbox_max_y := (vtx s.vertices 2).y
      if isPointInsideObstacle s.obstacle { x := x, y := y } = true ∨ x < padding ∨
          x > bbox_max_x ∨ y < padding ∨ y > bbox_max_y then s
      else recomputeEdgesAndTriangulate { s with vertices := moveVertexTo s.vertices sel x y }
    | none =>
      match s.selectedPerson with
      | some sel => { s with people := movePersonTo s.people sel x y }
      | none => s

/-- Source: `handleMouseUp()` (also bound to `mouseleave`). -/
def handleMouseUp (s : State) : State :=
  let s1 := { s with isDragging := false, selectedVertex := none, selectedPerson := none }
  if s1.interactionMode = Mode.movePerson then
    { s1 with edges := edgesAfterTriangulate s1.edges,
              triangles := triangulate s1.vertices s1.edges [] }
  else s1

/-- Source: `setInteractionMode(mode)`. -/
def setInteractionMode (s : State) (mode : Mode) : State :=
  { s with interactionMode := mode, selectionInfo := "Mode set to: " ++ mode.name }

/-- The click handler of the `deselect-btn` button. -/
def deselect (s : State) : State :=
  { s with selected := { type := none, index := none, extra := none },
           selectionInfo := "Nothing selected." }

/-! ## The modular variant as a transition system -/

/-- The events wired up by `initializeEventListeners`, with the random draws consumed by
the handlers that call `Math.random()`. -/
inductive Event where
  | mouseDown (x y : ℚ)
  | mouseMove (x y : ℚ)
  | mouseUp
  | setMode (mode : Mode)
  | reset (inner people : List (ℚ × ℚ))
  | addPerson (r : ℚ × ℚ)
  | removePerson
  | scaleObstacle (factorChange : ℚ)
  | rotateObstacle
  | deselect

/-- The draws handed to `initSimulation` are ones its loops accept: twelve inner points
outside the obstacle, twenty people outside the obstacle and not within
`PERSON_EDGE_BUFFER` of a generated edge. -/
def initAccepted (cv : Canvas) (inner people : List (ℚ × ℚ)) : Prop :=
  inner.length = INNER_POINT_COUNT ∧ people.length = 20 ∧
    (∀ r ∈ inner, innerAccepted cv r) ∧
    (∀ r ∈ people, personAccepted cv (some (initObstacle cv)) (initVertices cv inner)
      (initEdges cv inner) r)

instance (cv : Canvas) (inner people : List (ℚ × ℚ)) : Decidable (initAccepted cv inner people) := by
  unfold initAccepted; infer_instance

/-- The draws carried by an event are ones the handler accepts in state `s`. -/
def Event.enabled (cv : Canvas) (s : State) : Event → Prop
  | Event.reset inner people => initAccepted cv inner people
  | Event.addPerson r => personAccepted cv s.obstacle s.vertices s.edges r
  | _ => True

/-- The state after the handler of an event has run. -/
def Event.apply (cv : Canvas) (s : State) : Event → State
  | Event.mouseDown x y => handleMouseDown s x y
  | Event.mouseMove x y => handleMouseMove s x y
  | Event.mouseUp => handleMouseUp s
  | Event.setMode mode => setInteractionMode s mode
  | Event.reset inner people => initSimulation s cv inner people
  | Event.addPerson r => CrowdSim.addPerson s cv r
  | Event.removePerson => CrowdSim.removePerson s
  | Event.scaleObstacle factorChange => CrowdSim.scaleObstacle s factorChange
  | Event.rotateObstacle => CrowdSim.rotateObstacle s
  | Event.deselect => CrowdSim.deselect s

/-- The states reachable from the `initSimulation()` call of `js/main.js` by events
satisfying `allowed`. -/
inductive Reachable (cv : Canvas) (allowed : Event → Prop) : State → Prop where
  | init (inner people : List (ℚ × ℚ)) (h : initAccepted cv inner people) :
      Reachable cv allowed (initSimulation State.initial cv inner people)
  | step (s : State) (e : Event) (hs : Reachable cv allowed s) (ha : allowed e)
      (he : e.enabled cv s) : Reachable cv allowed (e.apply cv s)

/-! ## `script.js`: the single-file variant

Its geometry functions (`crossProduct`, `doEdgesCross`, `isPointInTriangle`,
`isPointInsideObstacle`, `distanceToLineSegment`, `isPointTooCloseToEdges`,
`isLineOfSightClear`, `doesEdgeIntersectObstacle`, `isValidTriangle`, `triangulate`,
`generateInitialEdges`, `findClosestVertex`, `findClosestEdge`, `findClosestPerson`) have the
same bodies as the modular ones, reading the globals of `script.js` instead of `state.*`;
the definitions above are used for both.  Vertex objects of `script.js` never carry a
`fixed` property (the field stays `false` and is never read). -/

namespace Script

/-- The global `let` bindings of `script.js`, with the text of the status element. -/
structure State where
  vertices : List Vertex
  edges : List Edge
  triangles : List Triangle
  people : List Point
  obstacle : Option Obstacle
  interactionMode : Mode
  selectedVertex : Option Nat
  selectedPerson : Option Nat
  isDragging : Bool
  status : String
deriving DecidableEq, Repr

/-- The initial values of the globals. -/
def State.initial : State :=
  { vertices := [], edges := [], triangles := [], people := [], obstacle := none,
    interactionMode := Mode.select, selectedVertex := none, selectedPerson := none,
    isDragging := false, status := "" }

/-- The vertex array built by `initSimulation` of `script.js`: the four corners are pushed
as plain `{ x, y }` objects. -/
def initVertices (cv : Canvas) (inner : List (ℚ × ℚ)) : List Vertex :=
  [{ x := initPadding, y := initPadding },
   { x := initPadding + rectWidth cv, y := initPadding },
   { x := initPadding + rectWidth cv, y := initPadding + rectHeight cv },
   { x := initPadding, y := initPadding + rectHeight cv }]
    ++ inner.map (fun r => { toPoint := innerPointOf cv r })
    ++ [{ toPoint := (initObstacle cv).points.p0 }, { toPoint := (initObstacle cv).points.p1 },
        { toPoint := (initObstacle cv).points.p2 }, { toPoint := (initObstacle cv).points.p3 }]

/-- Source: `initSimulation()` of `script.js`, for accepted draws `inner` and `people`. -/
def initSimulation (s : State) (cv : Canvas) (inner people : List (ℚ × ℚ)) : State :=
  let vs := initVertices cv inner
  let es := generateInitialEdges vs (constraintEdgesAt (BBOX_POINT_COUNT + inner.length))
  { s with
    vertices := vs
    edges := edgesAfterTriangulate es
    triangles := triangulate vs es []
    people := people.map (personOf cv)
    obstacle := some (initObstacle cv)
    status := "Simulation initialized. Select an interaction mode to begin." }

/-- Source: `setInteractionMode(mode)` of `script.js`. -/
def setInteractionMode (s : State) (mode : Mode) : State :=
  { s with interactionMode := mode, status := "Mode set to: " ++ mode.name }

/-- Source: the `mousedown` listener of `script.js`. -/
def mousedownHandler (s : State) (x y : ℚ) : State :=
  match s.interactionMode with
  | Mode.movePoint =>
    match findClosestVertex s.vertices x y 15 with
    | none => s
    | some closest =>
      if closest < obstacleStartIndex then
        { s with selectedVertex := some closest, isDragging := true,
                 status := "Moving vertex " ++ toString closest }
      else s
  | Mode.movePerson =>
    match findClosestPerson s.people x y 10 with
    | none => s
    | some index =>
      { s with selectedPerson := some index, isDragging := true,
               status := "Moving person " ++ toString (index + 1) }
  | Mode.removeEdge =>
    match findClosestEdge s.vertices s.edges x y 10 with
    | none => s
    | some edgeToRemove =>
      let isBboxEdge := edgeToRemove.1 < 4 ∧ edgeToRemove.2 < 4
      let isObstacleEdge :=
        edgeToRemove.1 ≥ obstacleStartIndex ∧ edgeToRemove.2 ≥ obstacleStartIndex
      if isBboxEdge ∨ isObstacleEdge then
        { s with status := "Cannot remove a boundary edge." }
      else
        let edgeIndex := s.edges.findIdx (sameEdge edgeToRemove.1 edgeToRemove.2)
        if edgeIndex < s.edges.length then
          let spliced := s.edges.eraseIdx edgeIndex
          { s with edges := edgesAfterTriangulate spliced,
                   triangles := triangulate s.vertices spliced [edgeToRemove],
                   status := "Edge removed." }
        else s
  | _ => s

/-- Source: the `mousemove` listener of `script.js`. -/
def mousemoveHandler (s : State) (x y : ℚ) : State :=
  if s.isDragging = false then s
  else
    match s.selectedVertex with
    | some sel =>
      let padding := (vtx s.vertices 0).x
      let bbox_max_x := (vtx s.vertices 1).x
      let bbox_max_y := (vtx s.vertices 2).y
      if isPointInsideObstacle s.obstacle { x := x, y := y } = true ∨ x < padding ∨
          x > bbox_max_x ∨ y < padding ∨ y > bbox_max_y then s
      else
        let vs := moveVertexTo s.vertices sel x y
        let es := generateInitialEdges vs (constraintEdgesAt (vs.length - OBSTACLE_POINT_COUNT))
        { s with vertices := vs, edges := edgesAfterTriangulate es,
                 triangles := triangulate vs es [] }
    | none =>
      match s.selectedPerson with
      | some sel => { s with people := movePersonTo s.people sel x y }
      | none => s

end Script

/-! ## `crowd_simulation_javascript.js`: the WebGL renderer variant

The rendering state (WebGL handles, colours as RGBA arrays, `selected` flags, the current
mode and drag bookkeeping) is left out; a triangle's `color` is recorded as the name of the
entry of `this.colors` it was copied from. -/

namespace WebGL

/-- A vertex object `{ id, x, y, isObstacleVertex }`. -/
structure GVertex where
  id : Nat
  x : ℚ
  y : ℚ
  isObstacleVertex : Bool
deriving DecidableEq, Repr

/-- An edge object `{ id, vertex1, vertex2 }`; the endpoints are vertex indices. -/
structure GEdge where
  id : Nat
  vertex1 : Nat
  vertex2 : Nat
deriving DecidableEq, Repr

/-- The three triangle colours of `this.colors`. -/
inductive DensityColor where
  | triangleUnder
  | triangleOptimal
  | triangleOver
deriving DecidableEq, Repr

/-- A triangle object `{ id, vertex1, vertex2, vertex3, density, color }`. -/
structure GTriangle where
  id : Nat
  vertex1 : Nat
  vertex2 : Nat
  vertex3 : Nat
  density : Nat
  color : DensityColor
deriving DecidableEq, Repr

/-- A dot object `{ id, x, y, triangleIndex }`; `none` stands for the index `-1`. -/
structure Dot where
  id : Nat
  x : ℚ
  y : ℚ
  triangleIndex : Option Nat
deriving DecidableEq, Repr

/-- The data fields of `EnhancedCrowdSimulationRenderer`. -/
structure State where
  vertices : List GVertex
  edges : List GEdge
  triangles : List GTriangle
  dots : List Dot
  vertexIdCounter : Nat
  edgeIdCounter : Nat
  triangleIdCounter : Nat
  dotIdCounter : Nat
  targetDensity : Int
deriving DecidableEq, Repr

/-- The data fields after `clearAll()` (with the constructor's `targetDensity = 4`). -/
def State.cleared : State :=
  { vertices := [], edges := [], triangles := [], dots := [], vertexIdCounter := 0,
    edgeIdCounter := 0, triangleIdCounter := 0, dotIdCounter := 0, targetDensity := 4 }

/-- The element `this.vertices[i]`; reads by the embedded code on a well-formed state are in
range, outside the array the model returns a vertex at the origin. -/
def vertexAt (vs : List GVertex) (i : Nat) : GVertex :=
  vs.getD i { id := 0, x := 0, y := 0, isObstacleVertex := false }

/-- Source: `pointInTriangle(x, y, triangle)`. -/
def pointInTriangle (vs : List GVertex) (x y : ℚ) (triangle : GTriangle) : Bool :=
  let v1 := vertexAt vs triangle.vertex1
  let v2 := vertexAt vs triangle.vertex2
  let v3 := vertexAt vs triangle.vertex3
  let denom := (v2.y - v3.y) * (v1.x - v3.x) + (v3.x - v2.x) * (v1.y - v3.y)
  if |denom| < 1 / 10000000000 then false
  else
    let a := ((v2.y - v3.y) * (x - v3.x) + (v3.x - v2.x) * (y - v3.y)) / denom
    let b := ((v3.y - v1.y) * (x - v3.x) + (v1.x - v3.x) * (y - v3.y)) / denom
    let c := 1 - a - b
    decide (a ≥ 0) && decide (b ≥ 0) && decide (c ≥ 0)

/-- Source: `findTriangleContaining(x, y)`; `none` is the result `-1`. -/
def findTriangleContaining (vs : List GVertex) (triangles : List GTriangle) (x y : ℚ) :
    Option Nat :=
  let i := triangles.findIdx (pointInTriangle vs x y)
  if i < triangles.length then some i else none

/-- The colour chosen by `updateTriangleDensity` for a count. -/
def densityColor (targetDensity : Int) (count : Nat) : DensityColor :=
  if (count : Int) < targetDensity then DensityColor.triangleUnder
  else if (count : Int) = targetDensity then DensityColor.triangleOptimal
  else DensityColor.triangleOver

/-- Source: `updateTriangleDensity(triangleIndex)`: the new `this.triangles`. -/
def updateTriangleDensity (triangles : List GTriangle) (dots : List Dot) (targetDensity : Int)
    (triangleIndex : Nat) : List GTriangle :=
  if triangleIndex ≥ triangles.length then triangles
  else
    let count := (dots.filter fun dot => dot.triangleIndex = some triangleIndex).length
    triangles.modify
      (fun triangle => { triangle with density := count, color := densityColor targetDensity count })
      triangleIndex

/-- Source: `getDensityStatus(count)`. -/
def getDensityStatus (targetDensity : Int) (count : Nat) : String :=
  if (count : Int) < targetDensity then "Under-populated"
  else if (count : Int) = targetDensity then "Optimal density"
  else "Over-populated"

/-- Source: `updateAllTriangleDensities()`. -/
def updateAllTriangleDensities (s : State) : State :=
  let dots := s.dots.map fun dot =>
    match findTriangleContaining s.vertices s.triangles dot.x dot.y with
    | some newTriangleIndex => { dot with triangleIndex := some newTriangleIndex }
    | none => dot
  { s with
    dots := dots
    triangles := (List.range s.triangles.length).foldl
      (fun ts i => updateTriangleDensity ts dots s.targetDensity i) s.triangles }

/-- Source: `new Set(values)` followed by `Array.from`: the distinct values in first-insertion
order. -/
def distinctInOrder (values : List Nat) : List Nat :=
  values.foldl (fun acc v => if v ∈ acc then acc else acc ++ [v]) []

/-- Source: `edgesFormTriangle(edge1, edge2, edge3)`: every key of `connections` holds a
list of length 2, one entry per endpoint slot equal to that key. -/
def edgesFormTriangle (edge1 edge2 edge3 : GEdge) : Bool :=
  let ends := [edge1.vertex1, edge1.vertex2, edge2.vertex1, edge2.vertex2,
    edge3.vertex1, edge3.vertex2]
  ends.all fun v => ends.count v = 2

/-- Source: `findTriangleFromEdges(edge1, edge2, edge3)` with the current value `nextId` of
`this.triangleIdCounter`; `none` is `null`. -/
def findTriangleFromEdges (nextId : Nat) (edge1 edge2 edge3 : GEdge) : Option GTriangle :=
  let vertexArray := distinctInOrder [edge1.vertex1, edge1.vertex2, edge2.vertex1,
    edge2.vertex2, edge3.vertex1, edge3.vertex2]
  if vertexArray.length ≠ 3 then none
  else if edgesFormTriangle edge1 edge2 edge3 then
    some { id := nextId, vertex1 := vertexArray.getD 0 0, vertex2 := vertexArray.getD 1 0,
           vertex3 := vertexArray.getD 2 0, density := 0,
           color := DensityColor.triangleUnder }
  else none

/-- The element `this.edges[i]` inside the loops of `updateTriangulation` (always in
range there). -/
def edgeAt (es : List GEdge) (i : Nat) : GEdge :=
  es.getD i { id := 0, vertex1 := 0, vertex2 := 0 }

/-- Source: `updateTriangulation()`. -/
def updateTriangulation (s : State) : State :=
  let r := (triples s.edges.length).foldl
    (fun (acc : List GTriangle × Nat) t =>
      match findTriangleFromEdges acc.2 (edgeAt s.edges t.1) (edgeAt s.edges t.2.1)
          (edgeAt s.edges t.2.2) with
      | some triangle => (acc.1 ++ [triangle], acc.2 + 1)
      | none => acc)
    ([], s.triangleIdCounter)
  updateAllTriangleDensities { s with triangles := r.1, triangleIdCounter := r.2 }

/-- Source: `addVertex(x, y)`. -/
def addVertex (s : State) (x y : ℚ) : State :=
  { s with
    vertices := s.vertices ++ [{ id := s.vertexIdCounter, x := x, y := y,
                                 isObstacleVertex := false }]
    vertexIdCounter := s.vertexIdCounter + 1 }

/-- Source: `edgeExists(v1, v2)`. -/
def edgeExists (es : List GEdge) (v1 v2 : Nat) : Bool :=
  es.any fun edge =>
    (decide (edge.vertex1 = v1) && decide (edge.vertex2 = v2)) ||
      (decide (edge.vertex1 = v2) && decide (edge.vertex2 = v1))

/-- Source: `addEdge(vertex1Index, vertex2Index)`. -/
def addEdge (s : State) (vertex1Index vertex2Index : Nat) : State :=
  if edgeExists s.edges vertex1Index vertex2Index then s
  else
    updateTriangulation { s with
      edges := s.edges ++ [{ id := s.edgeIdCounter, vertex1 := vertex1Index,
                             vertex2 := vertex2Index }]
      edgeIdCounter := s.edgeIdCounter + 1 }

/-- Source: the body of `handleDeleteEdgeClick` once `findClosestEdge` has returned the
index `edgeIndex` (not `-1`). -/
def deleteEdgeAt (s : State) (edgeIndex : Nat) : State :=
  updateTriangulation { s with edges := s.edges.eraseIdx edgeIndex }

/-- Source: `addDot(x, y)`. -/
def addDot (s : State) (x y : ℚ) : State :=
  match findTriangleContaining s.vertices s.triangles x y with
  | none => s
  | some triangleIndex =>
    let dots := s.dots ++ [{ id := s.dotIdCounter, x := x, y := y,
                             triangleIndex := some triangleIndex }]
    { s with
      dots := dots
      dotIdCounter := s.dotIdCounter + 1
      triangles := updateTriangleDensity s.triangles dots s.targetDensity triangleIndex }

/-- Source: `moveDot(dot, newX, newY)` for the dot object stored at `this.dots[i]`. -/
def moveDot (s : State) (i : Nat) (newX newY : ℚ) : State :=
  match s.dots.get? i with
  | none => s
  | some dot =>
    let oldTriangleIndex := dot.triangleIndex
    match findTriangleContaining s.vertices s.triangles newX newY with
    | none => { s with dots := s.dots.set i { dot with x := newX, y := newY } }
    | some newTriangleIndex =>
      let dots := s.dots.set i
        { dot with x := newX, y := newY, triangleIndex := some newTriangleIndex }
      let ts1 :=
        match oldTriangleIndex with
        | some old =>
          if old ≠ newTriangleIndex then
            updateTriangleDensity s.triangles dots s.targetDensity old
          else s.triangles
        | none => s.triangles
      { s with dots := dots,
               triangles := updateTriangleDensity ts1 dots s.targetDensity newTriangleIndex }

/-- Source: the `input` listener of the density slider. -/
def setTargetDensity (s : State) (value : Int) : State :=
  updateAllTriangleDensities { s with targetDensity := value }

/-- The operations on dots, edges and densities. -/
inductive Op where
  | addDot (x y : ℚ)
  | moveDot (i : Nat) (newX newY : ℚ)
  | addEdge (vertex1Index vertex2Index : Nat)
  | deleteEdge (edgeIndex : Nat)
  | updateAllTriangleDensities
  | setTargetDensity (value : Int)

/-- The arguments of an operation refer to existing objects. -/
def Op.enabled (s : State) : Op → Prop
  | Op.moveDot i _ _ => i < s.dots.length
  | Op.addEdge v1 v2 => v1 < s.vertices.length ∧ v2 < s.vertices.length
  | Op.deleteEdge edgeIndex => edgeIndex < s.edges.length
  | _ => True

/-- The state after an operation. -/
def Op.apply (s : State) : Op → State
  | Op.addDot x y => WebGL.addDot s x y
  | Op.moveDot i newX newY => WebGL.moveDot s i newX newY
  | Op.addEdge v1 v2 => WebGL.addEdge s v1 v2
  | Op.deleteEdge edgeIndex => WebGL.deleteEdgeAt s edgeIndex
  | Op.updateAllTriangleDensities => WebGL.updateAllTriangleDensities s
  | Op.setTargetDensity value => WebGL.setTargetDensity s value

/-- The states reachable from a layout without dots by the operations of `Op`. -/
inductive Reachable : State → Prop where
  | init (s : State) (h : s.dots = []) : Reachable s
  | step (s : State) (op : Op) (hs : Reachable s) (he : op.enabled s) : Reachable (op.apply s)

/-- The test `pointInTriangle(dot.x, dot.y, this.triangles[dot.triangleIndex])` for a dot
whose `triangleIndex` is not `-1`; an index outside `this.triangles` fails it. -/
def dotInStoredTriangle (s : State) (dot : Dot) : Bool :=
  match dot.triangleIndex with
  | none => true
  | some i =>
    match s.triangles.get? i with
    | some triangle => pointInTriangle s.vertices dot.x dot.y triangle
    | none => false

/-- Two triangle lists with the same vertex indices, entry by entry. -/
def SameShape (l l' : List GTriangle) : Prop :=
  List.Forall₂ (fun t t' => t.vertex1 = t'.vertex1 ∧ t.vertex2 = t'.vertex2 ∧
    t.vertex3 = t'.vertex3) l l'

/-- A dot that lies in some triangle stores the index of the first triangle containing it. -/
def Assigned (s : State) : Prop :=
  ∀ d ∈ s.dots, ∀ i, findTriangleContaining s.vertices s.triangles d.x d.y = some i →
    d.triangleIndex = some i

end WebGL

/-! ## Invariants of the modular variant -/

/-- No two edges of `es` cross: `doEdgesCross` is false on every pair (it is false by
definition on pairs sharing an endpoint index). -/
def NoCross (vs : List Vertex) (es : List Edge) : Prop :=
  ∀ e ∈ es, ∀ f ∈ es, doEdgesCross vs e.1 e.2 f.1 f.2 = false

/-- None of the four obstacle edges crosses any of the four boundary edges. -/
def obstacleClearOfBoundary (vs : List Vertex) : Prop :=
  ∀ i, i < 4 → ∀ j, j < 4 →
    doEdgesCross vs (obstacleStartIndex + i) (obstacleStartIndex + (i + 1) % 4) j ((j + 1) % 4)
      = false

instance (vs : List Vertex) : Decidable (obstacleClearOfBoundary vs) := by
  unfold obstacleClearOfBoundary; infer_instance

/-- The points `a, b, c, d` in cyclic order have `b - a = c - d` (opposite sides parallel and
equal). -/
def Parallelogram (a b c d : Point) : Prop :=
  b.x - a.x = c.x - d.x ∧ b.y - a.y = c.y - d.y

/-- The structural facts maintained by every handler of the modular variant, on the four
bindings they concern. -/
structure InvCore (vs : List Vertex) (es : List Edge) (ob : Option Obstacle)
    (sel : Option Nat) : Prop where
  len : vs.length = 20
  fixed : ∀ i, i < 4 → isFixed vs i = true
  bpar : Parallelogram (vtx vs 0) (vtx vs 1) (vtx vs 2) (vtx vs 3)
  opar : Parallelogram (vtx vs 16) (vtx vs 17) (vtx vs 18) (vtx vs 19)
  qpar : ∀ o, ob = some o → Parallelogram o.points.p0 o.points.p1 o.points.p2 o.points.p3
  selected : ∀ v, sel = some v → 4 ≤ v ∧ v < 16
  nocross : obstacleClearOfBoundary vs → NoCross vs es

/-- The invariant of a state. -/
def Inv (s : State) : Prop := InvCore s.vertices s.edges s.obstacle s.selectedVertex

/-- The event is a call of `scaleObstacle` or `rotateObstacle`. -/
def Event.isObstacleTransform : Event → Bool
  | Event.scaleObstacle _ => true
  | Event.rotateObstacle => true
  | _ => false

/-- The event switches the interaction mode to move-person. -/
def Event.entersMovePerson : Event → Bool
  | Event.setMode Mode.movePerson => true
  | _ => false

/-- The obstacle is the one `initSimulation` creates and no vertex lies strictly inside its
bounds. -/
def VerticesOutside (cv : Canvas) (s : State) : Prop :=
  s.obstacle = some (initObstacle cv) ∧
    ∀ v ∈ s.vertices, isPointInsideObstacle (some (initObstacle cv)) v.toPoint = false

/-- The move-person mode is not active, no person is selected for dragging and no person
lies strictly inside the obstacle bounds. -/
def PeopleOutside (s : State) : Prop :=
  s.interactionMode ≠ Mode.movePerson ∧ s.selectedPerson = none ∧
    ∀ p ∈ s.people, isPointInsideObstacle s.obstacle p = false

instance (vs : List Vertex) (es : List Edge) : Decidable (NoCross vs es) := by
  unfold NoCross; infer_instance

/-- Every one of the eight constraint edges (boundary loop, obstacle loop) occurs in `es`,
in either orientation. -/
def ConstraintsKept (es : List Edge) : Prop :=
  ∀ c ∈ constraintEdgesAt obstacleStartIndex, hasEdge es c.1 c.2 = true

/-- The point `q` lies strictly inside the segment from `a` to `b`: `q = a + t (b - a)` for
some `0 < t < 1`. -/
def StrictlyInside (q a b : Point) : Prop :=
  ∃ t : ℚ, 0 < t ∧ t < 1 ∧ q.x = a.x + t * (b.x - a.x) ∧ q.y = a.y + t * (b.y - a.y)

/-- The four endpoints of the segments `p0 p1` and `p2 p3` lie on one line. -/
def SegmentsCollinear (p0 p1 p2 p3 : Point) : Prop :=
  crossProduct p0 p1 p2 = 0 ∧ crossProduct p0 p1 p3 = 0

/-- The segments `p0 p1` and `p2 p3` properly cross: they are not collinear and meet in a
single point lying strictly inside both. -/
def ProperlyCross (p0 p1 p2 p3 : Point) : Prop :=
  ¬ SegmentsCollinear p0 p1 p2 p3 ∧
    ∃! q : Point, StrictlyInside q p0 p1 ∧ StrictlyInside q p2 p3

/-- The point `p` is a convex combination of `p0`, `p1`, `p2`. -/
def ConvexCombination (p p0 p1 p2 : Point) : Prop :=
  ∃ a b c : ℚ, 0 ≤ a ∧ 0 ≤ b ∧ 0 ≤ c ∧ a + b + c = 1 ∧
    p.x = a * p0.x + b * p1.x + c * p2.x ∧ p.y = a * p0.y + b * p1.y + c * p2.y

/-- The squared distance from `(x, y)` to the point of parameter `t` on the segment from
`(x1, y1)` to `(x2, y2)`. -/
def sqDistAt (x y x1 y1 x2 y2 t : ℚ) : ℚ :=
  (x - (x1 + t * (x2 - x1))) * (x - (x1 + t * (x2 - x1)))
    + (y - (y1 + t * (y2 - y1))) * (y - (y1 + t * (y2 - y1)))

/-- The four obstacle vertices `state.vertices[16..19]` are the four `obstacle.points`. -/
def ObstacleSynced (s : State) : Prop :=
  ∀ o, s.obstacle = some o →
    vtx s.vertices 16 = o.points.p0 ∧ vtx s.vertices 17 = o.points.p1 ∧
    vtx s.vertices 18 = o.points.p2 ∧ vtx s.vertices 19 = o.points.p3

/-- The obstacle object after the assignment `obstacle.points = q`. -/
def Obstacle.withPoints (o : Obstacle) (q : Quad) : Obstacle := { o with points := q }

/-- The edge `e` joins a boundary vertex to an interior vertex, two interior vertices (first
index smaller), or an obstacle vertex (below `n`) to an interior vertex: the three shapes
pushed by the loops of `generateInitialEdges`. -/
def GeneratedKind (n : Nat) (e : Edge) : Prop :=
  (e.1 < 4 ∧ 4 ≤ e.2 ∧ e.2 < 16) ∨ (4 ≤ e.1 ∧ e.1 < e.2 ∧ e.2 < 16) ∨
    (16 ≤ e.1 ∧ e.1 < n ∧ 4 ≤ e.2 ∧ e.2 < 16)

/-- The edges `generateInitialEdges` pushed after the copied constraint edges. -/
def generatedEdges (vs : List Vertex) (constraintEdges : List Edge) : List Edge :=
  (generateInitialEdges vs constraintEdges).drop constraintEdges.length

/-- The number of edges of `es` having `v` as an endpoint. -/
def endpointCount (es : List Edge) (v : Nat) : Nat :=
  es.countP fun e => decide (e.1 = v) || decide (e.2 = v)

/-- No undirected edge occurs twice in `es`. -/
def NoDuplicateEdge (es : List Edge) : Prop :=
  es.Pairwise fun e f => sameEdge e.1 e.2 f = false

/-- The invariant of the acceptance loop of `generateInitialEdges` on the generated edges
`g` and the array `obstacleConnectionCounts`. -/
structure GenInv (n : Nat) (g : List Edge) (counts : List Nat) : Prop where
  len : counts.length = n
  kind : ∀ e ∈ g, GeneratedKind n e
  count : ∀ v, 16 ≤ v → g.countP (fun e => decide (e.1 = v)) = counts.getD v 0 ∧
    counts.getD v 0 ≤ 3
  distinct : g.Pairwise fun e f => e ≠ f

instance (es : List Edge) : Decidable (NoDuplicateEdge es) := by
  unfold NoDuplicateEdge; infer_instance

/-! ## `js/drawing.js`: the fill colour of a triangle -/

/-- The three `fillStyle` values chosen by `drawTriangles`. -/
inductive FillColor where
  | red
  | blue
  | green
deriving DecidableEq, Repr

/-- Source: `countPeopleInTriangle(p0, p1, p2)`. -/
def countPeopleInTriangle (people : List Point) (p0 p1 p2 : Point) : Nat :=
  (people.filter fun p => isPointInTriangle p p0 p1 p2).length

/-- Source: the colour choice of `drawTriangles` for a count (`rgba(255, 0, 0, 0.6)`,
`rgba(0, 0, 255, 0.6)`, `rgba(0, 255, 0, 0.6)`). -/
def fillColor (count : Nat) : FillColor :=
  if count > 4 then FillColor.red else if count < 4 then FillColor.blue else FillColor.green

namespace WebGL

/-! ### Obstacle connection (`crowd_simulation_javascript.js`) -/

/-- The callback of `this.dots.forEach` in `updateAllTriangleDensities`: the dot after its
reassignment. -/
def reassignDot (vs : List GVertex) (ts : List GTriangle) (dot : Dot) : Dot :=
  match findTriangleContaining vs ts dot.x dot.y with
  | some newTriangleIndex => { dot with triangleIndex := some newTriangleIndex }
  | none => dot

/-- Source: `linesIntersect(p1, p2, p3, p4)`. -/
def linesIntersect (p1 p2 p3 p4 : GVertex) : Bool :=
  let denom := (p4.y - p3.y) * (p2.x - p1.x) - (p4.x - p3.x) * (p2.y - p1.y)
  if |denom| < 1 / 10000000000 then false
  else
    let ua := ((p4.x - p3.x) * (p1.y - p3.y) - (p4.y - p3.y) * (p1.x - p3.x)) / denom
    let ub := ((p2.x - p1.x) * (p1.y - p3.y) - (p2.y - p1.y) * (p1.x - p3.x)) / denom
    decide (ua ≥ 0) && decide (ua ≤ 1) && decide (ub ≥ 0) && decide (ub ≤ 1)

/-- Source: `edgeIntersectsObstacle(v1Index, v2Index, obstacle)`; of the obstacle object
only `obstacle.vertexIndices` is read. -/
def edgeIntersectsObstacle (vs : List GVertex) (v1Index v2Index : Nat)
    (vertexIndices : List Nat) : Bool :=
  (List.range vertexIndices.length).any fun i =>
    linesIntersect (vertexAt vs v1Index) (vertexAt vs v2Index)
      (vertexAt vs (vertexIndices.getD i 0))
      (vertexAt vs (vertexIndices.getD ((i + 1) % vertexIndices.length) 0))

/-- An entry `{index, distance}` of `closestVertices`, with the distance squared. -/
structure Closest where
  index : Nat
  distanceSq : ℚ
deriving DecidableEq, Repr

/-- The sorted `closestVertices` array built by `connectObstacleToTriangulation` for one
obstacle corner: every vertex that is not an obstacle vertex, ascending by distance (stable
sort). -/
def closestVertices (vs : List GVertex) (vertexIndices : List Nat) (obstacleVertexIndex : Nat) :
    List Closest :=
  (((List.range vs.length).filter fun i => !vertexIndices.contains i).map fun i =>
    { index := i,
      distanceSq :=
        ((vertexAt vs i).x - (vertexAt vs obstacleVertexIndex).x)
            * ((vertexAt vs i).x - (vertexAt vs obstacleVertexIndex).x)
          + ((vertexAt vs i).y - (vertexAt vs obstacleVertexIndex).y)
            * ((vertexAt vs i).y - (vertexAt vs obstacleVertexIndex).y) }).insertionSort
    fun a b => a.distanceSq ≤ b.distanceSq

/-- The body of the inner `for` loop of `connectObstacleToTriangulation` for one entry of
`closestVertices` (`distance < 200` is compared on squares). -/
def connectStep (vertexIndices : List Nat) (obstacleVertexIndex : Nat) (s : State)
    (c : Closest) : State :=
  if c.distanceSq < 200 * 200 ∧ edgeExists s.edges obstacleVertexIndex c.index = false then
    if edgeIntersectsObstacle s.vertices obstacleVertexIndex c.index vertexIndices = false then
      addEdge s obstacleVertexIndex c.index
    else s
  else s

/-- Source: `connectObstacleToTriangulation(obstacle)`. -/
def connectObstacleToTriangulation (s : State) (vertexIndices : List Nat) : State :=
  vertexIndices.foldl
    (fun s obstacleVertexIndex =>
      ((closestVertices s.vertices vertexIndices obstacleVertexIndex).take 2).foldl
        (connectStep vertexIndices obstacleVertexIndex) s)
    s

end WebGL

/-! ## `app.js`: the triangle mesh editor -/

namespace App

/-- A vertex object `{ id, x, y }`. -/
structure AVertex where
  id : Nat
  x : ℚ
  y : ℚ
deriving DecidableEq, Repr

/-- An edge object; `vertex1` and `vertex2` are vertex ids. -/
structure AEdge where
  vertex1 : Nat
  vertex2 : Nat
deriving DecidableEq, Repr

/-- The three triangle colours of `this.colors`. -/
inductive Color where
  | underPopulated
  | optimal
  | overPopulated
deriving DecidableEq, Repr

/-- A triangle object `{ id, vertices: [v1, v2, v3], color }`; `color` is absent (`none`)
until `updateTriangleColors` assigns it. -/
structure ATriangle where
  id : Nat
  vertices : Nat × Nat × Nat
  color : Option Color
deriving DecidableEq, Repr

/-- A dot object `{ x, y, triangleId }`. -/
structure ADot where
  x : ℚ
  y : ℚ
  triangleId : Nat
deriving DecidableEq, Repr

/-- Source: `this.vertices.find(v => v.id === id)`. -/
def findVertex (vs : List AVertex) (id : Nat) : Option AVertex :=
  vs.find? fun v => v.id = id

/-- Source: `isPointInTriangle(point, triangle)`. -/
def isPointInTriangle (vs : List AVertex) (point : Point) (triangle : ATriangle) : Bool :=
  match findVertex vs triangle.vertices.1, findVertex vs triangle.vertices.2.1,
      findVertex vs triangle.vertices.2.2 with
  | some v1, some v2, some v3 =>
    let denom := (v2.y - v3.y) * (v1.x - v3.x) + (v3.x - v2.x) * (v1.y - v3.y)
    if |denom| < 1 / 10000000000 then false
    else
      let a := ((v2.y - v3.y) * (point.x - v3.x) + (v3.x - v2.x) * (point.y - v3.y)) / denom
      let b := ((v3.y - v1.y) * (point.x - v3.x) + (v1.x - v3.x) * (point.y - v3.y)) / denom
      let c := 1 - a - b
      decide (a ≥ 0) && decide (b ≥ 0) && decide (c ≥ 0)
  | _, _, _ => false

/-- Source: `findTriangleAt(pos)`; `none` is `null`. -/
def findTriangleAt (vs : List AVertex) (triangles : List ATriangle) (pos : Point) :
    Option ATriangle :=
  triangles.find? (isPointInTriangle vs pos)

/-- Source: the test `this.edges.some(e => (e.vertex1 === a && e.vertex2 === b) ||
(e.vertex1 === b && e.vertex2 === a))` of `updateTriangles`. -/
def edgeSome (es : List AEdge) (a b : Nat) : Bool :=
  es.any fun e =>
    (decide (e.vertex1 = a) && decide (e.vertex2 = b)) ||
      (decide (e.vertex1 = b) && decide (e.vertex2 = a))

/-- The colour chosen by `updateTriangleColors` for a count. -/
def colorFor (targetDensity : Int) (dotsInTriangle : Nat) : Color :=
  if (dotsInTriangle : Int) < targetDensity then Color.underPopulated
  else if (dotsInTriangle : Int) = targetDensity then Color.optimal
  else Color.overPopulated

/-- Source: `updateTriangleColors()`: the new `this.triangles`. -/
def updateTriangleColors (triangles : List ATriangle) (dots : List ADot) (targetDensity : Int) :
    List ATriangle :=
  triangles.map fun triangle =>
    { triangle with
      color := some (colorFor targetDensity
        (dots.filter fun dot => dot.triangleId = triangle.id).length) }

/-- The id `this.vertices[i].id` (reads inside the loops of `updateTriangles` are in
range). -/
def idAt (vs : List AVertex) (i : Nat) : Nat := (vs.getD i { id := 0, x := 0, y := 0 }).id

/-- One iteration of the innermost loop of `updateTriangles`; the state is the pair
(`this.triangles`, `triangleId`). -/
def updateTrianglesStep (vs : List AVertex) (es : List AEdge) (acc : List ATriangle × Nat)
    (t : Nat × Nat × Nat) : List ATriangle × Nat :=
  let v1 := idAt vs t.1
  let v2 := idAt vs t.2.1
  let v3 := idAt vs t.2.2
  if edgeSome es v1 v2 && edgeSome es v2 v3 && edgeSome es v3 v1 then
    (acc.1 ++ [{ id := acc.2, vertices := (v1, v2, v3), color := none }], acc.2 + 1)
  else acc

/-- Source: `updateTriangles()`: the new `this.triangles`. -/
def updateTriangles (vs : List AVertex) (es : List AEdge) (dots : List ADot)
    (targetDensity : Int) : List ATriangle :=
  updateTriangleColors ((triples vs.length).foldl (updateTrianglesStep vs es) ([], 0)).1
    dots targetDensity

end App

/-- The triple `q` lists the three entries of `p` in some order. -/
def sameTriple (p q : Nat × Nat × Nat) : Prop :=
  (q.1 = p.1 ∧ q.2.1 = p.2.1 ∧ q.2.2 = p.2.2) ∨ (q.1 = p.1 ∧ q.2.1 = p.2.2 ∧ q.2.2 = p.2.1) ∨
  (q.1 = p.2.1 ∧ q.2.1 = p.1 ∧ q.2.2 = p.2.2) ∨ (q.1 = p.2.1 ∧ q.2.1 = p.2.2 ∧ q.2.2 = p.1) ∨
  (q.1 = p.2.2 ∧ q.2.1 = p.1 ∧ q.2.2 = p.2.1) ∨ (q.1 = p.2.2 ∧ q.2.1 = p.2.1 ∧ q.2.2 = p.1)

instance (p q : Nat × Nat × Nat) : Decidable (sameTriple p q) := by
  unfold sameTriple; infer_instance

/-- The edge object `e` joins `a` and `b`, in one of the two orientations. -/
def joins (e : WebGL.GEdge) (a b : Nat) : Prop :=
  (e.vertex1 = a ∧ e.vertex2 = b) ∨ (e.vertex1 = b ∧ e.vertex2 = a)

instance (e : WebGL.GEdge) (a b : Nat) : Decidable (joins e a b) := by
  unfold joins; infer_instance

/-- The vertex triples of the triangles found by `updateTriangulation`
(crowd_simulation_javascript.js), in the order found. -/
def crowdTriples (s : WebGL.State) : List (Nat × Nat × Nat) :=
  (WebGL.updateTriangulation s).triangles.map fun t => (t.vertex1, t.vertex2, t.vertex3)

/-- The vertex triples of the triangles found by `updateTriangles` (app.js), in the order
found. -/
def appTriples (vs : List App.AVertex) (es : List App.AEdge) (dots : List App.ADot)
    (targetDensity : Int) : List (Nat × Nat × Nat) :=
  (App.updateTriangles vs es dots targetDensity).map fun t => t.vertices

/-- The edge list of app.js holding the same endpoint pairs as the edge list of
crowd_simulation_javascript.js. -/
def toAppEdges (es : List WebGL.GEdge) : List App.AEdge :=
  es.map fun e => { vertex1 := e.vertex1, vertex2 := e.vertex2 }

/-! ## Concrete inputs used by the evaluated examples -/

/-- Four corners of a square, in the order of the boundary corners. -/
def squareVertices : List Vertex :=
  [{ x := 0, y := 0 }, { x := 4, y := 0 }, { x := 4, y := 4 }, { x := 0, y := 4 }]

/-- The four sides of the square. -/
def squareEdges : List Edge := [(0, 1), (1, 2), (2, 3), (3, 0)]

/-- An 800 by 600 canvas (boundary corners `(40,40)`, `(760,40)`, `(760,560)`, `(40,560)`). -/
def cv0 : Canvas := { width := 800, height := 600 }

/-- Twelve accepted inner-point draws. -/
def inner0 : List (ℚ × ℚ) :=
  [(1/10, 1/10), (1/2, 1/10), (9/10, 1/5), (1/5, 1/2), (181/310, 1/2), (1/10, 9/10),
   (1/2, 9/10), (9/10, 4/5), (3/10, 3/10), (7/10, 3/10), (3/10, 7/10), (7/10, 7/10)]

/-- Twenty accepted person draws. -/
def people0 : List (ℚ × ℚ) :=
  [(1/10, 1/5), (1/10, 2/5), (1/10, 3/5), (1/10, 4/5), (1/5, 1/10), (1/5, 1/2), (1/5, 9/10),
   (3/10, 1/5), (3/10, 3/5), (2/5, 1/10), (2/5, 7/10), (1/2, 1/5), (1/2, 4/5), (3/5, 3/10),
   (3/5, 9/10), (7/10, 1/10), (7/10, 1/2), (4/5, 3/10), (4/5, 7/10), (9/10, 1/2)]

/-- The vertex array `initVertices cv0 inner0`, written out. -/
def verts0 : List Vertex :=
  [{ x := 40, y := 40, fixed := true }, { x := 760, y := 40, fixed := true },
   { x := 760, y := 560, fixed := true }, { x := 40, y := 560, fixed := true },
   { x := 152, y := 132 }, { x := 400, y := 132 }, { x := 648, y := 174 },
   { x := 214, y := 300 }, { x := 452, y := 300 }, { x := 152, y := 468 },
   { x := 400, y := 468 }, { x := 648, y := 426 }, { x := 276, y := 216 },
   { x := 524, y := 216 }, { x := 276, y := 384 }, { x := 524, y := 384 },
   { x := 350, y := 265 }, { x := 450, y := 265 }, { x := 450, y := 335 },
   { x := 350, y := 335 }]

/-- The edge array `initEdges cv0 inner0` returned by `generateInitialEdges`, written out. -/
def edges0 : List Edge :=
  [(0, 1), (1, 2), (2, 3), (3, 0), (16, 17), (17, 18), (18, 19), (19, 16), (17, 8), (18, 8),
   (16, 12), (17, 13), (18, 15), (19, 14), (7, 12), (7, 14), (8, 13), (8, 15), (6, 13),
   (11, 15), (16, 14), (16, 7), (17, 5), (18, 10), (19, 10), (0, 4), (3, 9), (4, 12), (5, 12),
   (5, 13), (9, 14), (10, 14), (10, 15), (13, 15), (1, 6), (2, 11), (4, 7), (7, 9), (6, 15),
   (4, 5), (9, 10), (5, 6), (10, 11), (6, 11), (0, 7), (3, 7), (0, 5), (1, 5), (2, 10), (3, 10),
   (1, 11)]

/-- The triangle array computed by `triangulate` for `verts0` and `edges0`, written out. -/
def triangles0 : List Triangle :=
  [(0, 1, 5), (0, 3, 7), (0, 4, 5), (0, 4, 7), (1, 2, 11), (1, 5, 6), (1, 6, 11), (2, 3, 10),
   (2, 10, 11), (3, 7, 9), (3, 9, 10), (4, 5, 12), (4, 7, 12), (5, 6, 13), (5, 12, 16),
   (5, 13, 17), (5, 16, 17), (6, 11, 15), (6, 13, 15), (7, 9, 14), (7, 12, 16), (7, 14, 16),
   (8, 13, 15), (8, 13, 17), (8, 15, 18), (8, 17, 18), (9, 10, 14), (10, 11, 15), (10, 14, 19),
   (10, 15, 18), (10, 18, 19), (14, 16, 19), (16, 17, 18), (16, 18, 19)]

/-- The state after the `initSimulation()` call of `js/main.js` for the draws above. -/
def state0 : State := initSimulation State.initial cv0 inner0 people0

/-- The state `state0` with its vertex, edge, triangle and people arrays written out. -/
def demoState : State :=
  { State.initial with
    vertices := verts0
    edges := edgesAfterTriangulate edges0
    triangles := triangles0
    people := people0.map (personOf cv0)
    obstacle := some (initObstacle cv0) }

/-- The state `demoState` in add-edge mode with vertex 5 already selected as first vertex. -/
def addEdgeDemo : State :=
  { demoState with interactionMode := Mode.addEdge, firstVertexForEdge := some 5 }

/-- The state `demoState` in remove-edge mode. -/
def removeEdgeDemo : State := { demoState with interactionMode := Mode.removeEdge }

/-- The state `demoState` in move-point mode. -/
def movePointDemo : State := { demoState with interactionMode := Mode.movePoint }

/-- The state of `script.js` after its `initSimulation()` call for the draws `inner0`,
`people0` on the canvas `cv0`, with the move-point mode selected. -/
def scriptMovePoint : Script.State :=
  Script.setInteractionMode (Script.initSimulation Script.State.initial cv0 inner0 people0)
    Mode.movePoint

/-- The boundary square of the WebGL variant on an 800 by 600 canvas (margin 60) with its
four sides, as built by `generateRandomLayout`, and the diagonal `0-2` added. -/
def webglSquare : WebGL.State :=
  WebGL.addEdge (WebGL.addEdge (WebGL.addEdge (WebGL.addEdge (WebGL.addEdge
    (WebGL.addVertex (WebGL.addVertex (WebGL.addVertex (WebGL.addVertex WebGL.State.cleared
      60 60) 740 60) 740 540) 60 540) 0 1) 1 2) 2 3) 3 0) 0 2

/-- The state `webglSquare` after `addDot(300, 200)` and `moveDot` of that dot to
`(10, 10)`, a position outside the boundary square. -/
def webglMovedOut : WebGL.State :=
  WebGL.moveDot (WebGL.addDot webglSquare 300 200) 0 10 10

/-- The state `webglSquare` after `addDot(300, 200)`. -/
def webglOneDot : WebGL.State := WebGL.addDot webglSquare 300 200

/-- The state `state0` after one click on the scale-up button (`scaleObstacle(0.1)`). -/
def state0Scaled : State := (Event.scaleObstacle (1 / 10)).apply cv0 state0

/-- The state `state0` after one click on the rotate button. -/
def state0Rotated : State := Event.rotateObstacle.apply cv0 state0

/-- The state `state0` after selecting the move-person mode, pressing on person 0 at
`(128, 156)` and moving the pointer to the obstacle centre `(400, 300)`. -/
def state0Dragged : State :=
  (Event.mouseMove 400 300).apply cv0
    ((Event.mouseDown 128 156).apply cv0 ((Event.setMode Mode.movePerson).apply cv0 state0))

/-! ## IEEE-754 binary64 rounding of the scale factor -/

/-- The number of halvings that bring `n` below 2 (`⌊log₂ n⌋` for `n ≥ 1`); `fuel` bounds the
recursion. -/
def log2Fuel : Nat → Nat → Nat
  | 0, _ => 0
  | fuel + 1, n => if n ≥ 2 then log2Fuel fuel (n / 2) + 1 else 0

/-- The power `2 ^ e` for an integer exponent. -/
def pow2 (e : Int) : ℚ :=
  if e ≥ 0 then ((2 ^ e.toNat : Nat) : ℚ) else 1 / ((2 ^ (-e).toNat : Nat) : ℚ)

/-- Rounding to the nearest integer, ties to the even one. -/
def roundHalfEven (q : ℚ) : Int :=
  let f := Int.floor q
  let r := q - f
  if r < 1 / 2 then f else if r > 1 / 2 then f + 1 else if f % 2 = 0 then f else f + 1

/-- The binary64 value nearest to the rational `x` (round to nearest, ties to even, 53-bit
significand), as an exact rational.  Overflow and subnormal numbers are outside the range
of the scale factor and are not modelled. -/
def toDouble (x : ℚ) : ℚ :=
  if x = 0 then 0
  else
    let a := |x|
    let e0 : Int := (log2Fuel a.num.natAbs a.num.natAbs : Int) - (log2Fuel a.den a.den : Int)
    let e := if pow2 e0 ≤ a then e0 else e0 - 1
    let ulp := pow2 (e - 52)
    (if x < 0 then -1 else 1) * (roundHalfEven (a / ulp) : ℚ) * ulp

/-- Source: `scaleObstacle(factorChange)` with the sum
`state.currentScaleFactor + factorChange` of its first line evaluated in binary64, as the
engine evaluates it, on the binary64 value of the literal `factorChange`; the remaining
arithmetic stays exact. -/
def scaleObstacleDouble (s : State) (factorChange : ℚ) : State :=
  scaleObstacle s (toDouble (s.currentScaleFactor + toDouble factorChange) - s.currentScaleFactor)

/-- The state after `n` clicks on the scale-up button (`scaleObstacle(0.1)`) from `state0`,
in binary64. -/
def scaledUpDouble : Nat → State
  | 0 => state0
  | n + 1 => scaleObstacleDouble (scaledUpDouble n) (1 / 10)

/-- The state after `n` calls `scaleObstacle(0.1)` from `state0` in exact arithmetic. -/
def scaledUpExact : Nat → State
  | 0 => state0
  | n + 1 => scaleObstacle (scaledUpExact n) (1 / 10)

/-- Six vertices: a horizontal segment `0-1` of length 10 and two vertical segments `2-3`
and `4-5` of length 20 crossing it at `x = 2` and `x = 8`. -/
def crossVertices : List Vertex :=
  [{ x := 0, y := 0 }, { x := 10, y := 0 }, { x := 2, y := -10 }, { x := 2, y := 10 },
   { x := 8, y := -10 }, { x := 8, y := 10 }]

/-- The three edges drawn on `crossVertices`. -/
def crossEdges : List Edge := [(0, 1), (2, 3), (4, 5)]

/-- The WebGL boundary square (margin 60 on an 800 by 600 canvas) with its four sides, one
inner vertex 4 at `(300, 250)`, and the four vertices 5 to 8 and four edges of a 100 by 60
obstacle centred at `(400, 300)`, as `createObstacle` has built them when it calls
`connectObstacleToTriangulation`. -/
def obstacleDemo : WebGL.State :=
  WebGL.addEdge (WebGL.addEdge (WebGL.addEdge (WebGL.addEdge
    (WebGL.addVertex (WebGL.addVertex (WebGL.addVertex (WebGL.addVertex
      (WebGL.addVertex
        (WebGL.addEdge (WebGL.addEdge (WebGL.addEdge (WebGL.addEdge
          (WebGL.addVertex (WebGL.addVertex (WebGL.addVertex (WebGL.addVertex
            WebGL.State.cleared 60 60) 740 60) 740 540) 60 540) 0 1) 1 2) 2 3) 3 0)
        300 250)
      350 270) 450 270) 450 330) 350 330)
    5 6) 6 7) 7 8) 8 5

/-! ## IEEE-754 binary64 arithmetic

Every finite binary64 number is an integer multiple of `2 ^ -1074`.  A number is held as a
sign, a magnitude `mag` and a shift `exp`, and stands for `± mag * 2 ^ exp * 2 ^ -1074`
(one number has several such forms).  Each operation computes the exact result and rounds it
to the nearest binary64 number, ties to the even significand, as the engine does for `+`,
`-`, `*` and `/`.  Overflow to an infinity does not occur for the magnitudes met in the
simulation and is not modelled.  The operations are written with the primitive operations
of `Nat` and `Bool`, which evaluate directly. -/

namespace F64

/-- A finite binary64 number `± mag * 2 ^ exp * 2 ^ -1074`. -/
structure Num where
  neg : Bool
  mag : Nat
  exp : Nat
deriving DecidableEq, Repr

/-- One step of the search for the leading bit of `n`: the bit position `lo` is raised by
`k` when `n` has a bit at position `lo + k` or above. -/
def stepLo (n lo k : Nat) : Nat :=
  bif Nat.ble (Nat.pow 2 (Nat.add lo k)) n then Nat.add lo k else lo

/-- The position of the leading bit of `n`, for `0 < n < 2 ^ 128`. -/
def log2Narrow (n : Nat) : Nat :=
  stepLo n (stepLo n (stepLo n (stepLo n (stepLo n (stepLo n (stepLo n 0 64) 32) 16) 8) 4) 2) 1

/-- The position of the leading bit of `n`, for `0 < n < 2 ^ 4096`. -/
def log2Wide (n : Nat) : Nat :=
  stepLo n (stepLo n (stepLo n (stepLo n (stepLo n (stepLo n (stepLo n (stepLo n (stepLo n
    (stepLo n (stepLo n (stepLo n 0 2048) 1024) 512) 256) 128) 64) 32) 16) 8) 4) 2) 1

/-- The position `⌊log₂ n⌋` of the leading bit of `n`, for `0 < n < 2 ^ 4096`. -/
def log2 (n : Nat) : Nat :=
  bif Nat.ble (Nat.pow 2 128) n then log2Wide n else log2Narrow n

/-- The number of bits of `n` beyond the 53 that a significand holds. -/
def excess (n : Nat) : Nat :=
  bif Nat.ble (Nat.pow 2 53) n then Nat.sub (log2 n) 52 else 0

/-- The integer nearest to `n / 2 ^ s`, the even one on a tie. -/
def roundShift (n s : Nat) : Nat :=
  bif Nat.beq s 0 then n
  else bif Nat.blt (Nat.pow 2 s) (Nat.mul 2 (Nat.mod n (Nat.pow 2 s))) ||
      (Nat.beq (Nat.mul 2 (Nat.mod n (Nat.pow 2 s))) (Nat.pow 2 s) &&
        Nat.beq (Nat.mod (Nat.shiftRight n s) 2) 1)
  then Nat.succ (Nat.shiftRight n s) else Nat.shiftRight n s

/-- The larger of two numbers. -/
def maxNat (a b : Nat) : Nat := bif Nat.ble a b then b else a

/-- The smaller of two numbers. -/
def minNat (a b : Nat) : Nat := bif Nat.ble a b then a else b

/-- The number `± n * 2 ^ e * 2 ^ -(1074 + extra)` with its last `s` bits rounded away. -/
def roundTo (neg : Bool) (extra n e s : Nat) : Num :=
  { neg := neg, mag := roundShift n s, exp := Nat.sub (Nat.add e s) extra }

/-- The binary64 number nearest to `± n * 2 ^ e * 2 ^ -(1074 + extra)`: the magnitude is
cut to 53 significant bits and to no bit below `2 ^ -1074`. -/
def round (neg : Bool) (extra n e : Nat) : Num :=
  roundTo neg extra n e (maxNat (excess n) (Nat.sub extra e))

/-- The sum of `± x * 2 ^ e` and `± y * 2 ^ e` (in units of `2 ^ -1074`), rounded; a sum of
opposite numbers is `+0`. -/
def addAligned (an bn : Bool) (x y e : Nat) : Num :=
  bif an == bn then round an 0 (Nat.add x y) e
  else bif Nat.beq x y then { neg := false, mag := 0, exp := 0 }
  else bif Nat.ble y x then round an 0 (Nat.sub x y) e
  else round bn 0 (Nat.sub y x) e

/-- The sum `a + b` with both magnitudes brought to the shift `e`, the smaller of the two
shifts. -/
def addAt (a b : Num) (e : Nat) : Num :=
  addAligned a.neg b.neg (Nat.shiftLeft a.mag (Nat.sub a.exp e))
    (Nat.shiftLeft b.mag (Nat.sub b.exp e)) e

/-- The binary64 sum `a + b`. -/
def add (a b : Num) : Num := addAt a b (minNat a.exp b.exp)

/-- The binary64 difference `a - b`. -/
def sub (a b : Num) : Num := add a { neg := !b.neg, mag := b.mag, exp := b.exp }

/-- The binary64 product `a * b` (the exact product is in units of `2 ^ -2148`). -/
def mul (a b : Num) : Num :=
  round (a.neg != b.neg) 1074 (Nat.mul a.mag b.mag) (Nat.add a.exp b.exp)

/-- The binary64 quotient `a / b` for `b ≠ 0` with `b.mag < 2 ^ 64`: the quotient of the
magnitudes is taken to 128 further bits, with one more bit set when the division leaves a
remainder (a sticky bit, below the rounding position). -/
def div (a b : Num) : Num :=
  round (a.neg != b.neg) (Nat.add b.exp 129)
    (Nat.add (Nat.mul 2 (Nat.div (Nat.shiftLeft a.mag 128) b.mag))
      (bif Nat.beq (Nat.mod (Nat.shiftLeft a.mag 128) b.mag) 0 then 0 else 1))
    (Nat.add a.exp 1074)

/-- The binary64 number `m * 2 ^ -k` (for `m < 2 ^ 53` and `k ≤ 1074`). -/
def dyadic (m k : Nat) : Num := { neg := false, mag := m, exp := Nat.sub 1074 k }

/-- The binary64 number equal to the natural number `n < 2 ^ 53`. -/
def ofNat (n : Nat) : Num := dyadic n 0

/-- The magnitude of a number as a multiple of `2 ^ -1074`. -/
def magUnits (a : Num) : Nat := Nat.shiftLeft a.mag a.exp

/-- The number as an integer multiple of `2 ^ -1074`. -/
def units (a : Num) : Int :=
  if a.neg then -((magUnits a : Nat) : Int) else ((magUnits a : Nat) : Int)

/-- The rational value of a binary64 number. -/
def value (a : Num) : ℚ := (units a : ℚ) / ((2 ^ 1074 : Nat) : ℚ)

/-- The comparison `a < 0`. -/
def ltZero (a : Num) : Bool := a.neg && !Nat.beq a.mag 0

/-- The comparison `a === 0`. -/
def eqZero (a : Num) : Bool := Nat.beq a.mag 0

/-- The comparison `a < b`. -/
def lt (a b : Num) : Bool := decide (units a < units b)

/-- The comparison `a <= b`. -/
def le (a b : Num) : Bool := decide (units a ≤ units b)

/-- A point `{ x, y }` with binary64 coordinates. -/
structure Pt where
  x : Num
  y : Num
deriving DecidableEq, Repr

/-- The element `state.vertices[i]`. -/
def vtx (vs : List Pt) (i : Nat) : Pt := vs.getD i { x := ofNat 0, y := ofNat 0 }

/-- Source: `crossProduct(p0, p1, p2)` of `js/geometry.js`, every operation in binary64. -/
def crossProduct (p0 p1 p2 : Pt) : Num :=
  sub (mul (sub p1.x p0.x) (sub p2.y p0.y)) (mul (sub p1.y p0.y) (sub p2.x p0.x))

/-- Source: `doEdgesCross(a1, b1, a2, b2)` of `js/geometry.js` in binary64. -/
def doEdgesCross (vs : List Pt) (a1 b1 a2 b2 : Nat) : Bool :=
  if a1 = a2 ∨ a1 = b2 ∨ b1 = a2 ∨ b1 = b2 then false
  else
    let p0 := vtx vs a1
    let p1 := vtx vs b1
    let p2 := vtx vs a2
    let p3 := vtx vs b2
    let dir1 := mul (crossProduct p0 p1 p2) (crossProduct p0 p1 p3)
    let dir2 := mul (crossProduct p2 p3 p0) (crossProduct p2 p3 p1)
    ltZero dir1 && ltZero dir2

/-- Source: `isPointInTriangle(p, p0, p1, p2)` in binary64. -/
def isPointInTriangle (p p0 p1 p2 : Pt) : Bool :=
  let denom := add (mul (sub p1.y p2.y) (sub p0.x p2.x)) (mul (sub p2.x p1.x) (sub p0.y p2.y))
  if eqZero denom then false
  else
    let a := div (add (mul (sub p1.y p2.y) (sub p.x p2.x)) (mul (sub p2.x p1.x) (sub p.y p2.y)))
      denom
    let b := div (add (mul (sub p2.y p0.y) (sub p.x p2.x)) (mul (sub p0.x p2.x) (sub p.y p2.y)))
      denom
    let c := sub (sub (ofNat 1) a) b
    le (ofNat 0) a && le a (ofNat 1) && le (ofNat 0) b && le b (ofNat 1)
      && le (ofNat 0) c && le c (ofNat 1)

/-- Source: `isValidTriangle(i, j, k, existingEdges, bannedEdges)` in binary64. -/
def isValidTriangle (vs : List Pt) (i j k : Nat) (existingEdges bannedEdges : List Edge) :
    Bool :=
  let p0 := vtx vs i
  let p1 := vtx vs j
  let p2 := vtx vs k
  if eqZero (crossProduct p0 p1 p2) then false
  else
    let triEdges : List Edge := [sortEdge (i, j), sortEdge (j, k), sortEdge (k, i)]
    if triEdges.any (fun edge => decide (edge ∈ bannedEdges)) then false
    else if triEdges.any (fun newEdge =>
        !decide (newEdge ∈ existingEdges) &&
          existingEdges.any (fun existingEdge =>
            doEdgesCross vs newEdge.1 newEdge.2 existingEdge.1 existingEdge.2)) then false
    else if (List.range vs.length).any (fun v_idx =>
        !(decide (v_idx = i) || decide (v_idx = j) || decide (v_idx = k)) &&
          isPointInTriangle (vtx vs v_idx) p0 p1 p2) then false
    else true

/-- One iteration of the innermost loop body of `triangulate` in binary64: the state is the
pair (`newTriangles`, `tempEdges`). -/
def triangulateStep (vs : List Pt) (bannedEdges : List Edge)
    (acc : List Triangle × List Edge) (t : Triangle) : List Triangle × List Edge :=
  if isValidTriangle vs t.1 t.2.1 t.2.2 acc.2 bannedEdges then
    (acc.1 ++ [t],
      [sortEdge (t.1, t.2.1), sortEdge (t.2.1, t.2.2), sortEdge (t.2.2, t.1)].foldl setAdd acc.2)
  else acc

/-- Source: `triangulate(options)` in binary64: the value passed to `state.setTriangles`. -/
def triangulate (vs : List Pt) (edges banned : List Edge) : List Triangle :=
  ((triples vs.length).foldl (triangulateStep vs (setOf (banned.map sortEdge)))
    ([], setOf (edges.map sortEdge))).1

/-- Source: `isLineOfSightClear(p1_idx, p2_idx)` in binary64. -/
def isLineOfSightClear (vs : List Pt) (p1_idx p2_idx : Nat) : Bool :=
  !(List.range OBSTACLE_POINT_COUNT).any fun i =>
    doEdgesCross vs p1_idx p2_idx (obstacleStartIndex + i)
      (obstacleStartIndex + ((i + 1) % OBSTACLE_POINT_COUNT))

/-- Source: `doesEdgeIntersectObstacle(p1_idx, p2_idx)` in binary64. -/
def doesEdgeIntersectObstacle (vs : List Pt) (p1_idx p2_idx : Nat) : Bool :=
  (List.range OBSTACLE_POINT_COUNT).any fun i =>
    doEdgesCross vs p1_idx p2_idx (obstacleStartIndex + i)
      (obstacleStartIndex + ((i + 1) % OBSTACLE_POINT_COUNT))

/-- The exact square of a binary64 number, in units of `2 ^ -2148`. -/
def square (a : Num) : Nat := (a.mag * a.mag) <<< (2 * a.exp)

/-- The exact sum of squares `dx * dx + dy * dy` (in units of `2 ^ -2148`) of the two
binary64 differences handed to `Math.hypot(p1.x - p2.x, p1.y - p2.y)`.  `Math.hypot` is
implementation-approximated; lengths are compared through this exact value, which orders
them as any `Math.hypot` does when they are not within rounding distance of each other. -/
def hypotSq (p1 p2 : Pt) : Nat :=
  square (sub p1.x p2.x) + square (sub p1.y p2.y)

/-- A candidate edge `{ from, to, dist }`, with `hypotSq` in place of `dist`. -/
structure Cand where
  from_ : Nat
  to_ : Nat
  distSq : Nat
deriving DecidableEq, Repr

/-- The candidate pushed for the index pair `(i, j)`. -/
def mkCandidate (vs : List Pt) (i j : Nat) : Cand :=
  { from_ := i, to_ := j, distSq := hypotSq (vtx vs i) (vtx vs j) }

/-- The `candidateEdges` array of `generateInitialEdges` before sorting. -/
def candidateEdges (vs : List Pt) : List Cand :=
  ((List.range BBOX_POINT_COUNT).flatMap fun i =>
      (List.range' BBOX_POINT_COUNT INNER_POINT_COUNT).map fun j => mkCandidate vs i j)
  ++ ((List.range' BBOX_POINT_COUNT INNER_POINT_COUNT).flatMap fun i =>
      ((List.range' BBOX_POINT_COUNT INNER_POINT_COUNT).filter fun j => i < j).map
        fun j => mkCandidate vs i j)
  ++ ((List.range' obstacleStartIndex (vs.length - obstacleStartIndex)).flatMap fun i =>
      (List.range' BBOX_POINT_COUNT INNER_POINT_COUNT).map fun j => mkCandidate vs i j)

/-- Source: `candidateEdges.sort((a, b) => a.dist - b.dist)`, a stable ascending sort. -/
def sortCandidates (cs : List Cand) : List Cand :=
  cs.insertionSort fun a b => a.distSq ≤ b.distSq

/-- One iteration of the acceptance loop of `generateInitialEdges` in binary64. -/
def generateStep (vs : List Pt) (acc : List Edge × List Nat) (edge : Cand) :
    List Edge × List Nat :=
  if doesEdgeIntersectObstacle vs edge.from_ edge.to_ then acc
  else if acc.1.any (fun finalEdge => doEdgesCross vs edge.from_ edge.to_ finalEdge.1 finalEdge.2)
  then acc
  else if edge.from_ ≥ obstacleStartIndex then
    if acc.2.getD edge.from_ 0 ≥ 3 then acc
    else if !isLineOfSightClear vs edge.from_ edge.to_ then acc
    else (acc.1 ++ [(edge.from_, edge.to_)], acc.2.set edge.from_ (acc.2.getD edge.from_ 0 + 1))
  else (acc.1 ++ [(edge.from_, edge.to_)], acc.2)

/-- Source: `generateInitialEdges(constraintEdges)` in binary64. -/
def generateInitialEdges (vs : List Pt) (constraintEdges : List Edge) : List Edge :=
  ((sortCandidates (candidateEdges vs)).foldl (generateStep vs)
    (constraintEdges, List.replicate vs.length 0)).1

/-- The inner `for (j ...)` loop of `handleEdgeIntersections` in binary64. -/
def intersectionsInner (vs : List Pt) (i : Nat) : Nat → Nat → List Edge → List Edge
  | 0, _, edges => edges
  | fuel + 1, j, edges =>
    if j < edges.length then
      let e1 := edges.getD i (0, 0)
      let e2 := edges.getD j (0, 0)
      if e1.1 = e2.1 ∨ e1.1 = e2.2 ∨ e1.2 = e2.1 ∨ e1.2 = e2.2 then
        intersectionsInner vs i fuel (j + 1) edges
      else if doEdgesCross vs e1.1 e1.2 e2.1 e2.2 then
        let dist1 := hypotSq (vtx vs e1.1) (vtx vs e1.2)
        let dist2 := hypotSq (vtx vs e2.1) (vtx vs e2.2)
        let edgeToRemove := if dist1 > dist2 then e1 else e2
        intersectionsInner vs i fuel (j + 1) (spliceEdge edges edgeToRemove)
      else intersectionsInner vs i fuel (j + 1) edges
    else edges

/-- The outer `for (i ...)` loop of `handleEdgeIntersections` in binary64. -/
def intersectionsOuter (vs : List Pt) : Nat → Nat → List Edge → List Edge
  | 0, _, edges => edges
  | fuel + 1, i, edges =>
    if i < edges.length then
      intersectionsOuter vs fuel (i + 1) (intersectionsInner vs i edges.length (i + 1) edges)
    else edges

/-- Source: `handleEdgeIntersections()` in binary64: the resulting `state.edges`. -/
def handleEdgeIntersections (vs : List Pt) (edges : List Edge) : List Edge :=
  intersectionsOuter vs edges.length 0 edges

/-- The `state.obstacle` object: its centre and its four points. -/
structure Obstacle where
  x : Num
  y : Num
  p0 : Pt
  p1 : Pt
  p2 : Pt
  p3 : Pt
deriving DecidableEq, Repr

/-- The part of the module state that the edge pipeline reads and writes: the vertex and
edge arrays, the obstacle and the scale factor.  The people and the triangles, which none
of these depend on, are left out. -/
structure State where
  vertices : List Pt
  edges : List Edge
  obstacle : Option Obstacle
  currentScaleFactor : Num
deriving DecidableEq, Repr

/-- The state when the module is loaded (`currentScaleFactor = 1.0`). -/
def State.initial : State :=
  { vertices := [], edges := [], obstacle := none, currentScaleFactor := ofNat 1 }

/-- The object passed to `state.setObstacle` by `initSimulation` on a `width` by `height`
canvas. -/
def initObstacle (width height : Nat) : Obstacle :=
  let padding := ofNat 40
  let rectWidth := sub (ofNat width) (mul (ofNat 2) padding)
  let rectHeight := sub (ofNat height) (mul (ofNat 2) padding)
  let obstacleWidth := ofNat 100
  let obstacleHeight := ofNat 70
  let obstacleX := add padding (div (sub rectWidth obstacleWidth) (ofNat 2))
  let obstacleY := add padding (div (sub rectHeight obstacleHeight) (ofNat 2))
  { x := add obstacleX (div obstacleWidth (ofNat 2)),
    y := add obstacleY (div obstacleHeight (ofNat 2)),
    p0 := { x := obstacleX, y := obstacleY },
    p1 := { x := add obstacleX obstacleWidth, y := obstacleY },
    p2 := { x := add obstacleX obstacleWidth, y := add obstacleY obstacleHeight },
    p3 := { x := obstacleX, y := add obstacleY obstacleHeight } }

/-- Source: `isPointInsideObstacle(point)` (comparisons of stored values only). -/
def isPointInsideObstacle (o : Obstacle) (point : Pt) : Bool :=
  let minX := min (min (min (units o.p0.x) (units o.p1.x)) (units o.p2.x)) (units o.p3.x)
  let maxX := max (max (max (units o.p0.x) (units o.p1.x)) (units o.p2.x)) (units o.p3.x)
  let minY := min (min (min (units o.p0.y) (units o.p1.y)) (units o.p2.y)) (units o.p3.y)
  let maxY := max (max (max (units o.p0.y) (units o.p1.y)) (units o.p2.y)) (units o.p3.y)
  decide (units point.x > minX) && decide (units point.x < maxX)
    && decide (units point.y > minY) && decide (units point.y < maxY)

/-- The inner point drawn from the two `Math.random()` values `r`:
`padding + 50 + Math.random() * (rectWidth - 100)` and the same for `y`. -/
def innerPointOf (width height : Nat) (r : Num × Num) : Pt :=
  let padding := ofNat 40
  let rectWidth := sub (ofNat width) (mul (ofNat 2) padding)
  let rectHeight := sub (ofNat height) (mul (ofNat 2) padding)
  { x := add (add padding (ofNat 50)) (mul r.1 (sub rectWidth (ofNat 100))),
    y := add (add padding (ofNat 50)) (mul r.2 (sub rectHeight (ofNat 100))) }

/-- The vertex array built by `initSimulation`: the four corners, the accepted inner
points, the four obstacle points. -/
def initVertices (width height : Nat) (inner : List (Num × Num)) : List Pt :=
  let padding := ofNat 40
  let rectWidth := sub (ofNat width) (mul (ofNat 2) padding)
  let rectHeight := sub (ofNat height) (mul (ofNat 2) padding)
  let o := initObstacle width height
  [{ x := padding, y := padding }, { x := add padding rectWidth, y := padding },
   { x := add padding rectWidth, y := add padding rectHeight },
   { x := padding, y := add padding rectHeight }]
    ++ inner.map (innerPointOf width height) ++ [o.p0, o.p1, o.p2, o.p3]

/-- A value `Math.random()` can return: a multiple of `2 ^ -53` in `[0, 1)`. -/
def isRandom (a : Num) : Bool :=
  !a.neg && Nat.ble 1021 a.exp && lt a (ofNat 1)

/-- A draw accepted by the inner-point loop of `initSimulation`: two values of
`Math.random()` giving a point outside the obstacle. -/
def innerAccepted (width height : Nat) (r : Num × Num) : Bool :=
  isRandom r.1 && isRandom r.2
    && !isPointInsideObstacle (initObstacle width height) (innerPointOf width height r)

/-- Source: `initSimulation()`, as far as vertices, edges and obstacle go.  The final
`triangulate()` sorts every stored edge in place. -/
def initSimulation (s : State) (width height : Nat) (inner : List (Num × Num)) : State :=
  { s with
    vertices := initVertices width height inner
    edges := edgesAfterTriangulate (generateInitialEdges (initVertices width height inner)
      (constraintEdgesAt (BBOX_POINT_COUNT + inner.length)))
    obstacle := some (initObstacle width height) }

/-- The `newPoints` of `scaleObstacle`:
`centerX + (point.x - centerX) * (newScale / state.currentScaleFactor)`. -/
def scaledPoint (o : Obstacle) (newScale currentScaleFactor : Num) (point : Pt) : Pt :=
  { x := add o.x (mul (sub point.x o.x) (div newScale currentScaleFactor)),
    y := add o.y (mul (sub point.y o.y) (div newScale currentScaleFactor)) }

/-- The four assignments `state.vertices[obstacleStartIndex + i] = { ...newPoints[i] }`. -/
def setObstacleVertices (vs : List Pt) (o : Obstacle) : List Pt :=
  (((vs.set obstacleStartIndex o.p0).set (obstacleStartIndex + 1) o.p1).set
    (obstacleStartIndex + 2) o.p2).set (obstacleStartIndex + 3) o.p3

/-- The edge array after `recomputeEdgesAndTriangulate(); handleEdgeIntersections();` and
the final `triangulate()` of `scaleObstacle` and `rotateObstacle`: each `triangulate()`
sorts every stored edge in place. -/
def edgesAfterTransform (vs : List Pt) : List Edge :=
  edgesAfterTriangulate (handleEdgeIntersections vs
    (edgesAfterTriangulate (generateInitialEdges vs (constraintEdgesAt obstacleStartIndex))))

/-- Source: `scaleObstacle(factorChange)`, as far as vertices, edges, obstacle and scale
factor go. -/
def scaleObstacle (s : State) (factorChange : Num) : State :=
  let newScale := add s.currentScaleFactor factorChange
  if lt (dyadic 3 1) newScale ∨ lt newScale (dyadic 1 1) then s
  else
    match s.obstacle with
    | none => s
    | some o =>
      let o1 : Obstacle :=
        { o with p0 := scaledPoint o newScale s.currentScaleFactor o.p0,
                 p1 := scaledPoint o newScale s.currentScaleFactor o.p1,
                 p2 := scaledPoint o newScale s.currentScaleFactor o.p2,
                 p3 := scaledPoint o newScale s.currentScaleFactor o.p3 }
      let vs := setObstacleVertices s.vertices o1
      { vertices := vs, edges := edgesAfterTransform vs, obstacle := some o1,
        currentScaleFactor := newScale }

/-- The exact position of a binary64 point. -/
def Pt.toPoint (p : Pt) : Point := { x := value p.x, y := value p.y }

/-- The four obstacle edges do not cross the four boundary edges, as `doEdgesCross`
evaluates it in binary64. -/
def obstacleClearOfBoundary (vs : List Pt) : Prop :=
  ∀ i, i < 4 → ∀ j, j < 4 →
    doEdgesCross vs (obstacleStartIndex + i) (obstacleStartIndex + (i + 1) % 4) j ((j + 1) % 4)
      = false

instance (vs : List Pt) : Decidable (obstacleClearOfBoundary vs) := by
  unfold obstacleClearOfBoundary; infer_instance

/-- The condition under which the acceptance loop of `generateInitialEdges` pushes the
candidate from `a` to `b`, given `finalEdges` and `obstacleConnectionCounts`. -/
def accepts (vs : List Pt) (acc : List Edge × List Nat) (a b : Nat) : Bool :=
  !doesEdgeIntersectObstacle vs a b &&
    !acc.1.any (fun finalEdge => doEdgesCross vs a b finalEdge.1 finalEdge.2) &&
    (decide (a < obstacleStartIndex) ||
      (decide (acc.2.getD a 0 < 3) && isLineOfSightClear vs a b))

/-- The state of the acceptance loop after it has pushed the candidate from `a` to `b`. -/
def push (acc : List Edge × List Nat) (a b : Nat) : List Edge × List Nat :=
  if a ≥ obstacleStartIndex then (acc.1 ++ [(a, b)], acc.2.set a (acc.2.getD a 0 + 1))
  else (acc.1 ++ [(a, b)], acc.2)

/-- Successive candidates of a sorted list have lengths whose squares differ by more than
one part in `2 ^ 12`. -/
def wellSeparated : List Cand → Bool
  | a :: b :: rest =>
    Nat.ble (a.distSq * (2 ^ 12 + 1)) (b.distSq * 2 ^ 12) && wellSeparated (b :: rest)
  | _ => true

/-- The acceptance loop run over the candidates `ps` against a list of expected decisions:
the final state when every decision is as expected. -/
def replay (vs : List Pt) :
    List (Nat × Nat) → List Bool → List Edge × List Nat → Option (List Edge × List Nat)
  | [], [], acc => some acc
  | p :: ps, b :: bs, acc =>
    bif accepts vs acc p.1 p.2 == b then replay vs ps bs (bif b then push acc p.1 p.2 else acc)
    else none
  | _, _, _ => none

end F64


/-- Twelve pairs of values of `Math.random()` (multiples of `2 ^ -52`) for the inner-point
loop of `initSimulation`. -/
def innerF : List (F64.Num × F64.Num) :=
  [(F64.dyadic 3 3, F64.dyadic 21 6),
   (F64.dyadic 5133213302722160 53, F64.dyadic 5705439627800712 53),
   (F64.dyadic 59 6, F64.dyadic 11 4), (F64.dyadic 13 5, F64.dyadic 15 4),
   (F64.dyadic 7 5, F64.dyadic 7 6), (F64.dyadic 53 6, F64.dyadic 11 5),
   (F64.dyadic 49 6, F64.dyadic 3 6), (F64.dyadic 45 6, F64.dyadic 57 6),
   (F64.dyadic 1 5, F64.dyadic 11 6),
   (F64.dyadic 5480695718967824 53, F64.dyadic 4933853736086056 53),
   (F64.dyadic 27 6, F64.dyadic 21 5), (F64.dyadic 21 6, F64.dyadic 3 5)]

/-- The binary64 number nearest to `0.1`. -/
def tenthF : F64.Num := F64.dyadic 3602879701896397 55

/-- The binary64 state after `initSimulation()` on an 800 by 600 canvas with the draws
`innerF`. -/
def stateF : F64.State := F64.initSimulation F64.State.initial 800 600 innerF

/-- The state `stateF` after one click on the scale-up button (`scaleObstacle(0.1)`). -/
def stateFScaled : F64.State := F64.scaleObstacle stateF tenthF

/-- The vertex array of `stateFScaled`: the corners of the boundary, the twelve inner points
and the corners `(345, 261.5)`, `(455, 261.5)`, `(455, 338.5)`, `(345, 338.5)` of the scaled
obstacle. -/
def vertsF : List F64.Pt :=
  [⟨F64.ofNat 40, F64.ofNat 40⟩, ⟨F64.ofNat 760, F64.ofNat 40⟩, ⟨F64.ofNat 760, F64.ofNat 560⟩,
   ⟨F64.ofNat 40, F64.ofNat 560⟩,
   ⟨F64.dyadic 2580 3, F64.dyadic 14580 6⟩,
   ⟨F64.dyadic 7799297227762556 44, F64.dyadic 6263540188677712 44⟩,
   ⟨F64.dyadic 42340 6, F64.dyadic 6060 4⟩, ⟨F64.dyadic 10940 5, F64.dyadic 7740 4⟩,
   ⟨F64.dyadic 7220 5, F64.dyadic 8700 6⟩, ⟨F64.dyadic 38620 6, F64.dyadic 7500 5⟩,
   ⟨F64.dyadic 36140 6, F64.dyadic 7020 6⟩, ⟨F64.dyadic 33660 6, F64.dyadic 29700 6⟩,
   ⟨F64.dyadic 3500 5, F64.dyadic 10380 6⟩,
   ⟨F64.dyadic 8220076716185039 44, F64.dyadic 5630598636880533 44⟩,
   ⟨F64.dyadic 22500 6, F64.dyadic 11700 5⟩, ⟨F64.dyadic 18780 6, F64.dyadic 4140 5⟩,
   ⟨F64.dyadic 6069304185323520 44, F64.dyadic 4600356650614784 44⟩,
   ⟨F64.dyadic 8004444650209280 44, F64.dyadic 4600356650614784 44⟩,
   ⟨F64.dyadic 8004444650209280 44, F64.dyadic 5954954976034816 44⟩,
   ⟨F64.dyadic 6069304185323520 44, F64.dyadic 5954954976034816 44⟩]

/-- The candidate pairs of `vertsF` in the order `candidateEdges.sort(...)` leaves them. -/
def orderF : List (Nat × Nat) :=
  [(18, 5), (18, 13), (19, 14), (16, 4), (5, 13), (17, 13), (8, 15), (5, 14), (17, 5), (19, 5),
   (4, 15), (16, 14), (18, 14), (19, 4), (7, 14), (8, 12), (19, 13), (13, 14), (9, 10), (4, 8),
   (16, 13), (5, 11), (16, 5), (17, 4), (0, 12), (4, 14), (16, 15), (18, 11), (19, 7),
   (17, 14), (17, 9), (11, 13), (6, 9), (6, 11), (9, 13), (5, 7), (4, 13), (18, 4), (16, 8),
   (4, 5), (18, 9), (18, 7), (7, 11), (12, 15), (17, 10), (11, 14), (5, 9), (6, 13), (7, 13),
   (2, 6), (1, 10), (17, 15), (0, 8), (18, 6), (17, 11), (19, 15), (5, 6), (19, 11), (16, 7),
   (4, 12), (10, 13), (19, 8), (17, 6), (9, 11), (14, 15), (17, 7), (1, 9), (2, 11), (18, 10),
   (16, 12), (4, 7), (13, 15), (16, 9), (17, 8), (8, 14), (18, 15), (16, 10), (0, 15), (4, 10),
   (16, 11), (5, 15), (10, 15), (5, 10), (19, 9), (4, 9), (9, 14), (6, 10), (19, 12), (8, 13),
   (18, 8), (5, 8), (6, 14), (3, 7), (4, 11), (12, 14), (19, 10), (19, 6), (9, 15), (10, 14),
   (6, 7), (16, 6), (0, 4), (8, 10), (1, 6), (10, 11), (7, 15), (17, 12), (2, 9), (7, 9),
   (7, 8), (3, 14), (4, 6), (2, 5), (2, 13), (5, 12), (18, 12), (8, 9), (12, 13), (7, 12),
   (3, 12), (1, 13), (11, 15), (2, 7), (7, 10), (3, 4), (6, 15), (8, 11), (1, 5), (0, 14),
   (3, 5), (2, 14), (10, 12), (3, 8), (1, 15), (1, 4), (1, 11), (3, 13), (2, 10), (3, 11),
   (6, 8), (9, 12), (3, 15), (0, 13), (0, 5), (11, 12), (1, 14), (0, 10), (0, 7), (1, 8),
   (2, 4), (6, 12), (0, 9), (1, 7), (2, 15), (0, 11), (3, 6), (3, 9), (1, 12), (2, 8), (3, 10),
   (0, 6), (2, 12)]

/-- The decisions of the acceptance loop of `generateInitialEdges` on `orderF`, in order:
`true` where the candidate is pushed. -/
def flagsF : List Bool :=
  [true, true, true, true, true, true, true, true, false, true, true, false, false, true, true,
   true, false, false, true, true, false, true, false, true, true, false, false, true, false,
   false, true, true, true, true, true, true, false, false, false, false, false, false, true,
   false, false, false, false, true, false, true, true, false, true, false, false, false,
   false, false, false, true, false, false, false, false, false, false, true, true, false,
   false, true, false, false, false, false, false, false, true, true, false, false, true,
   false, false, true, false, false, false, false, false, false, false, true, false, false,
   false, false, false, false, false, false, false, false, true, false, false, false, false,
   false, false, false, false, false, false, false, false, false, false, true, true, false,
   false, true, false, false, false, false, false, false, false, false, false, false, true,
   false, false, false, false, false, false, false, false, false, false, false, false, false,
   false, false, false, false, false, false, false, false, false, false, false, false, false,
   false, false]

/-- The edge array returned by `generateInitialEdges` for `vertsF`. -/
def genF : List Edge :=
  [(0, 1), (1, 2), (2, 3), (3, 0), (16, 17), (17, 18), (18, 19), (19, 16), (18, 5), (18, 13),
   (19, 14), (16, 4), (5, 13), (17, 13), (8, 15), (5, 14), (19, 5), (4, 15), (19, 4), (7, 14),
   (8, 12), (9, 10), (4, 8), (5, 11), (17, 4), (0, 12), (18, 11), (17, 9), (11, 13), (6, 9),
   (6, 11), (9, 13), (5, 7), (7, 11), (6, 13), (2, 6), (1, 10), (0, 8), (4, 12), (1, 9),
   (2, 11), (4, 7), (0, 15), (4, 10), (10, 15), (4, 9), (3, 7), (1, 6), (7, 12), (3, 12),
   (2, 7), (1, 15)]

/-- The array `genF` once `triangulate()` has sorted its entries in place. -/
def sortedF : List Edge :=
  [(0, 1), (1, 2), (2, 3), (0, 3), (16, 17), (17, 18), (18, 19), (16, 19), (18, 5), (13, 18),
   (14, 19), (16, 4), (13, 5), (13, 17), (15, 8), (14, 5), (19, 5), (15, 4), (19, 4), (14, 7),
   (12, 8), (10, 9), (4, 8), (11, 5), (17, 4), (0, 12), (11, 18), (17, 9), (11, 13), (6, 9),
   (11, 6), (13, 9), (5, 7), (11, 7), (13, 6), (2, 6), (1, 10), (0, 8), (12, 4), (1, 9),
   (11, 2), (4, 7), (0, 15), (10, 4), (10, 15), (4, 9), (3, 7), (1, 6), (12, 7), (12, 3),
   (2, 7), (1, 15)]

/-- The array `sortedF` after `handleEdgeIntersections()`. -/
def resolvedF : List Edge :=
  [(0, 1), (1, 2), (2, 3), (0, 3), (16, 17), (18, 19), (16, 19), (18, 5), (13, 18), (14, 19),
   (16, 4), (13, 5), (13, 17), (15, 8), (14, 5), (19, 5), (15, 4), (19, 4), (14, 7), (12, 8),
   (10, 9), (4, 8), (11, 5), (17, 4), (0, 12), (11, 18), (17, 9), (11, 13), (6, 9), (11, 6),
   (13, 9), (5, 7), (11, 7), (13, 6), (2, 6), (1, 10), (0, 8), (12, 4), (1, 9), (11, 2),
   (4, 7), (0, 15), (10, 4), (10, 15), (4, 9), (3, 7), (1, 6), (12, 7), (12, 3), (2, 7),
   (1, 15)]

/-! ## Lemmas: loops as folds, key sets -/

theorem foldl_invariant {α β : Type} (P : β → Prop) (f : β → α → β) (l : List α) (b : β)
    (h0 : P b) (hstep : ∀ b a, a ∈ l → P b → P (f b a)) : P (l.foldl f b) := by
  induction l generalizing b with
  | nil => simpa using h0
  | cons a l ih =>
    simp only [List.foldl_cons]
    apply ih
    · exact hstep b a (List.mem_cons_self a l) h0
    · intro b' a' ha' hb'
      exact hstep b' a' (List.mem_cons_of_mem a ha') hb'

theorem mem_setAdd (s : List Edge) (k x : Edge) : x ∈ setAdd s k ↔ x ∈ s ∨ x = k := by
  unfold setAdd
  split
  · constructor
    · intro h; exact Or.inl h
    · rintro (h | h)
      · exact h
      · subst h; assumption
  · simp

theorem mem_foldl_setAdd (l s : List Edge) (x : Edge) :
    x ∈ l.foldl setAdd s ↔ x ∈ s ∨ x ∈ l := by
  induction l generalizing s with
  | nil => simp
  | cons a l ih =>
    simp only [List.foldl_cons, ih, mem_setAdd, List.mem_cons]
    tauto

theorem mem_setOf (l : List Edge) (x : Edge) : x ∈ setOf l ↔ x ∈ l := by
  simp [setOf, mem_foldl_setAdd]

theorem crossProduct_swap (p0 p1 p2 : Point) :
    crossProduct p1 p0 p2 = - crossProduct p0 p1 p2 := by
  unfold crossProduct; ring

theorem doEdgesCross_swap_left (vs : List Vertex) (a b c d : Nat) :
    doEdgesCross vs b a c d = doEdgesCross vs a b c d := by
  unfold doEdgesCross
  by_cases h : a = c ∨ a = d ∨ b = c ∨ b = d
  · have h' : b = c ∨ b = d ∨ a = c ∨ a = d := by tauto
    simp [h, h']
  · have h' : ¬ (b = c ∨ b = d ∨ a = c ∨ a = d) := by tauto
    simp only [h, h', if_false]
    rw [crossProduct_swap (vtx vs a) (vtx vs b) (vtx vs c),
      crossProduct_swap (vtx vs a) (vtx vs b) (vtx vs d)]
    rw [mul_comm (crossProduct (vtx vs c) (vtx vs d) (vtx vs b))]
    simp

theorem doEdgesCross_symm (vs : List Vertex) (a b c d : Nat) :
    doEdgesCross vs c d a b = doEdgesCross vs a b c d := by
  unfold doEdgesCross
  by_cases h : a = c ∨ a = d ∨ b = c ∨ b = d
  · have h' : c = a ∨ c = b ∨ d = a ∨ d = b := by
      rcases h with h | h | h | h <;> simp [h]
    simp [h, h']
  · have h' : ¬ (c = a ∨ c = b ∨ d = a ∨ d = b) := by
      intro h'; apply h
      rcases h' with h' | h' | h' | h' <;> simp [h']
    simp only [h, h', if_false]
    exact Bool.and_comm _ _

theorem doEdgesCross_swap_right (vs : List Vertex) (a b c d : Nat) :
    doEdgesCross vs a b d c = doEdgesCross vs a b c d := by
  rw [← doEdgesCross_symm, doEdgesCross_swap_left, doEdgesCross_symm]

theorem sortEdge_cases (e : Edge) : sortEdge e = e ∨ sortEdge e = (e.2, e.1) := by
  unfold sortEdge; split <;> simp

theorem doEdgesCross_sortEdge_left (vs : List Vertex) (e : Edge) (c d : Nat) :
    doEdgesCross vs (sortEdge e).1 (sortEdge e).2 c d = doEdgesCross vs e.1 e.2 c d := by
  rcases sortEdge_cases e with h | h <;> rw [h]
  exact doEdgesCross_swap_left vs e.1 e.2 c d

theorem doEdgesCross_sortEdge_right (vs : List Vertex) (e : Edge) (a b : Nat) :
    doEdgesCross vs a b (sortEdge e).1 (sortEdge e).2 = doEdgesCross vs a b e.1 e.2 := by
  rcases sortEdge_cases e with h | h <;> rw [h]
  exact doEdgesCross_swap_right vs a b e.1 e.2

theorem sameEdge_sortEdge (a b : Nat) : sameEdge a b (sortEdge (a, b)) = true := by
  rcases sortEdge_cases (a, b) with h | h <;> rw [h] <;> simp [sameEdge]


/-! ## `triangulate`: what an accepted triangle satisfies -/

/-- Every triangle pushed by `triangulate` passed `isValidTriangle` against the key set
accumulated at that moment. -/
theorem triangulate_mem_valid (vs : List Vertex) (edges banned : List Edge) (t : Triangle)
    (h : t ∈ triangulate vs edges banned) :
    ∃ existing, isValidTriangle vs t.1 t.2.1 t.2.2 existing (setOf (banned.map sortEdge)) = true := by
  unfold triangulate at h
  revert h
  refine foldl_invariant
    (fun acc : List Triangle × List Edge => t ∈ acc.1 →
      ∃ existing, isValidTriangle vs t.1 t.2.1 t.2.2 existing (setOf (banned.map sortEdge)) = true)
    _ _ _ (by simp) ?_
  intro acc a _ ih
  unfold triangulateStep
  split
  · next hv =>
    intro hmem
    rcases List.mem_append.mp hmem with h1 | h1
    · exact ih h1
    · rw [List.mem_singleton] at h1
      subst h1
      exact ⟨acc.2, hv⟩
  · exact ih

theorem isValidTriangle_nondegenerate (vs : List Vertex) (i j k : Nat) (ex bn : List Edge)
    (h : isValidTriangle vs i j k ex bn = true) :
    crossProduct (vtx vs i) (vtx vs j) (vtx vs k) ≠ 0 := by
  intro h0
  simp [isValidTriangle, h0] at h

theorem isValidTriangle_empty (vs : List Vertex) (i j k : Nat) (ex bn : List Edge)
    (h : isValidTriangle vs i j k ex bn = true) (v : Nat) (hv : v < vs.length)
    (hi : v ≠ i) (hj : v ≠ j) (hk : v ≠ k) :
    isPointInTriangle (vtx vs v) (vtx vs i) (vtx vs j) (vtx vs k) = false := by
  unfold isValidTriangle at h
  simp only [] at h
  split at h
  · exact absurd h (by simp)
  split at h
  · exact absurd h (by simp)
  split at h
  · exact absurd h (by simp)
  split at h
  · exact absurd h (by simp)
  · next hn =>
    rw [Bool.not_eq_true, List.any_eq_false] at hn
    have := hn v (List.mem_range.mpr hv)
    simpa [hi, hj, hk] using this

theorem isValidTriangle_not_banned (vs : List Vertex) (i j k : Nat) (ex bn : List Edge)
    (h : isValidTriangle vs i j k ex bn = true) :
    sortEdge (i, j) ∉ bn ∧ sortEdge (j, k) ∉ bn ∧ sortEdge (k, i) ∉ bn := by
  unfold isValidTriangle at h
  simp only [] at h
  split at h
  · exact absurd h (by simp)
  split at h
  · exact absurd h (by simp)
  · next hn =>
    simpa using hn

theorem isValidTriangle_sides (vs : List Vertex) (i j k : Nat) (ex bn : List Edge)
    (h : isValidTriangle vs i j k ex bn = true) :
    ∀ e ∈ [sortEdge (i, j), sortEdge (j, k), sortEdge (k, i)],
      e ∈ ex ∨ ∀ f ∈ ex, doEdgesCross vs e.1 e.2 f.1 f.2 = false := by
  unfold isValidTriangle at h
  simp only [] at h
  split at h
  · exact absurd h (by simp)
  split at h
  · exact absurd h (by simp)
  split at h
  · exact absurd h (by simp)
  · next hn =>
    rw [Bool.not_eq_true, List.any_eq_false] at hn
    intro e he
    have h1 := hn e he
    by_cases hmem : e ∈ ex
    · exact Or.inl hmem
    · right
      intro f hf
      have h2 : (ex.any fun existingEdge => doEdgesCross vs e.1 e.2 existingEdge.1 existingEdge.2)
          = false := by
        simpa [hmem] using h1
      rw [List.any_eq_false] at h2
      simpa using h2 f hf


/-- The three sides of every accepted triangle are keys of the working set, and every key of
the working set is an initial key or crosses no initial key. -/
theorem triangulate_sides_good (vs : List Vertex) (edges banned : List Edge) (t : Triangle)
    (h : t ∈ triangulate vs edges banned) :
    ∀ e ∈ [sortEdge (t.1, t.2.1), sortEdge (t.2.1, t.2.2), sortEdge (t.2.2, t.1)],
      e ∈ edges.map sortEdge ∨
        ∀ f ∈ edges.map sortEdge, doEdgesCross vs e.1 e.2 f.1 f.2 = false := by
  have key := foldl_invariant
    (fun acc : List Triangle × List Edge =>
      (∀ x ∈ setOf (edges.map sortEdge), x ∈ acc.2) ∧
      (∀ x ∈ acc.2, x ∈ edges.map sortEdge ∨
        ∀ f ∈ edges.map sortEdge, doEdgesCross vs x.1 x.2 f.1 f.2 = false) ∧
      (∀ t ∈ acc.1,
        ∀ e ∈ [sortEdge (t.1, t.2.1), sortEdge (t.2.1, t.2.2), sortEdge (t.2.2, t.1)], e ∈ acc.2))
    (triangulateStep vs (setOf (banned.map sortEdge))) (triples vs.length)
    ([], setOf (edges.map sortEdge))
    ⟨fun x hx => hx, fun x hx => Or.inl ((mem_setOf _ _).mp hx), by simp⟩
    (by
      intro acc a _ ih
      obtain ⟨ih1, ih2, ih3⟩ := ih
      unfold triangulateStep
      split
      · next hv =>
        have hs := isValidTriangle_sides vs a.1 a.2.1 a.2.2 acc.2 _ hv
        refine ⟨?_, ?_, ?_⟩
        · intro x hx
          exact (mem_foldl_setAdd _ _ _).mpr (Or.inl (ih1 x hx))
        · intro x hx
          rcases (mem_foldl_setAdd _ _ _).mp hx with hx | hx
          · exact ih2 x hx
          · rcases hs x hx with h1 | h1
            · exact ih2 x h1
            · right
              intro f hf
              exact h1 f (ih1 f ((mem_setOf _ _).mpr hf))
        · intro t' ht' e he
          rcases List.mem_append.mp ht' with h1 | h1
          · exact (mem_foldl_setAdd _ _ _).mpr (Or.inl (ih3 t' h1 e he))
          · rw [List.mem_singleton] at h1
            subst h1
            exact (mem_foldl_setAdd _ _ _).mpr (Or.inr he)
      · exact ⟨ih1, ih2, ih3⟩)
  intro e he
  exact key.2.1 e (key.2.2 t h e he)

/-! ## Claims C2 and C3 -/

/-- C2 (refuted as stated): on the square with its four sides as the edge set, `triangulate`
returns the triangle `[0, 1, 2]`, whose side `(2, 0)` is the diagonal, which is not an
edge of `state.edges`. -/
theorem triangulate_side_not_in_edges :
    (0, 1, 2) ∈ triangulate squareVertices squareEdges [] ∧
      hasEdge (edgesAfterTriangulate squareEdges) 2 0 = false := by
  decide!

/-- C2 (amended): after `triangulate`, each of the three sides `[i, j]`, `[j, k]`, `[k, i]` of
every triangle in `state.triangles`, taken with its two indices in the order `e.sort()`
leaves them, is either an (undirected) edge of `state.edges` or a synthesized side for which
`doEdgesCross(side[0], side[1], e[0], e[1])`, the test `isValidTriangle` evaluates, is false
for every edge `e` of `state.edges`.  No property of the arithmetic is used:
`F64.triangulate_sides_binary64` is the same statement for the binary64 evaluation. -/
theorem triangulate_sides_edge_or_noncrossing (vs : List Vertex) (edges banned : List Edge)
    (i j k : Nat) (h : (i, j, k) ∈ triangulate vs edges banned) :
    ∀ s ∈ [sortEdge (i, j), sortEdge (j, k), sortEdge (k, i)],
      hasEdge (edgesAfterTriangulate edges) s.1 s.2 = true ∨
        ∀ f ∈ edgesAfterTriangulate edges, doEdgesCross vs s.1 s.2 f.1 f.2 = false := by
  intro s hs
  rcases triangulate_sides_good vs edges banned (i, j, k) h s hs with h1 | h1
  · left
    unfold hasEdge edgesAfterTriangulate
    rw [List.any_eq_true]
    exact ⟨s, h1, by simp [sameEdge]⟩
  · right
    exact h1

/-- Witness for C2 (amended) on the square. -/
theorem triangulate_sides_edge_or_noncrossing_witness :
    (0, 1, 2) ∈ triangulate squareVertices squareEdges [] ∧
      ∀ s ∈ [sortEdge (0, 1), sortEdge (1, 2), sortEdge (2, 0)],
        hasEdge (edgesAfterTriangulate squareEdges) s.1 s.2 = true ∨
          ∀ f ∈ edgesAfterTriangulate squareEdges,
            doEdgesCross squareVertices s.1 s.2 f.1 f.2 = false :=
  ⟨by decide!, triangulate_sides_edge_or_noncrossing squareVertices squareEdges [] 0 1 2
    (by decide!)⟩

/-- C3: after `triangulate`, every triangle `[i, j, k]` of `state.triangles` has
non-collinear vertices (`crossProduct` is non-zero) and no other vertex index `v` passes
the closed test `isPointInTriangle(vertices[v], vertices[i], vertices[j], vertices[k])`. -/
theorem triangulate_nondegenerate_and_empty (vs : List Vertex) (edges banned : List Edge)
    (i j k : Nat) (h : (i, j, k) ∈ triangulate vs edges banned) :
    crossProduct (vtx vs i) (vtx vs j) (vtx vs k) ≠ 0 ∧
      ∀ v, v < vs.length → v ≠ i → v ≠ j → v ≠ k →
        isPointInTriangle (vtx vs v) (vtx vs i) (vtx vs j) (vtx vs k) = false := by
  obtain ⟨ex, hv⟩ := triangulate_mem_valid vs edges banned (i, j, k) h
  exact ⟨isValidTriangle_nondegenerate vs i j k ex _ hv,
    fun v hlt hi hj hk => isValidTriangle_empty vs i j k ex _ hv v hlt hi hj hk⟩

/-- Witness for C3 on the square. -/
theorem triangulate_nondegenerate_and_empty_witness :
    (0, 1, 2) ∈ triangulate squareVertices squareEdges [] ∧
      (crossProduct (vtx squareVertices 0) (vtx squareVertices 1) (vtx squareVertices 2) ≠ 0 ∧
        ∀ v, v < squareVertices.length → v ≠ 0 → v ≠ 1 → v ≠ 2 →
          isPointInTriangle (vtx squareVertices v) (vtx squareVertices 0)
            (vtx squareVertices 1) (vtx squareVertices 2) = false) :=
  ⟨by decide!, triangulate_nondegenerate_and_empty squareVertices squareEdges [] 0 1 2
    (by decide!)⟩


/-! ## Edge keys are canonical -/

theorem foldl_digits_shift (l : List Nat) (v : Nat) :
    l.foldl (fun acc d => 10 * acc + d) v
      = v * 10 ^ l.length + l.foldl (fun acc d => 10 * acc + d) 0 := by
  induction l generalizing v with
  | nil => simp
  | cons a l ih =>
    simp only [List.foldl_cons, List.length_cons]
    rw [ih (10 * v + a), ih (10 * 0 + a)]
    ring

theorem decimalDigitsAux_value (fuel n : Nat) (acc : List Nat) (h : n < fuel) :
    (decimalDigitsAux fuel n acc).foldl (fun a d => 10 * a + d) 0
      = n * 10 ^ acc.length + acc.foldl (fun a d => 10 * a + d) 0 := by
  induction fuel generalizing n acc with
  | zero => omega
  | succ fuel ih =>
    unfold decimalDigitsAux
    split
    · simp only [List.foldl_cons]
      rw [foldl_digits_shift]
      simp
    · next hn =>
      have hlt : n / 10 < fuel := by omega
      rw [ih (n / 10) (n % 10 :: acc) hlt]
      simp only [List.foldl_cons, List.length_cons]
      rw [foldl_digits_shift acc (10 * 0 + n % 10)]
      have : n = 10 * (n / 10) + n % 10 := (Nat.div_add_mod n 10).symm
      generalize n / 10 = q at *
      generalize n % 10 = r at *
      subst this
      ring

theorem decimalDigits_value (n : Nat) :
    (decimalDigits n).foldl (fun a d => 10 * a + d) 0 = n := by
  unfold decimalDigits
  rw [decimalDigitsAux_value (n + 1) n [] (Nat.lt_succ_self n)]
  simp

theorem decimalDigits_injective (a b : Nat) (h : decimalDigits a = decimalDigits b) : a = b := by
  have ha := decimalDigits_value a
  rw [h, decimalDigits_value] at ha
  exact ha.symm

theorem strLt_asymm (l r : List Nat) (h : strLt l r = true) : strLt r l = false := by
  induction l generalizing r with
  | nil => cases r <;> simp [strLt] at *
  | cons a l ih =>
    cases r with
    | nil => simp [strLt] at h
    | cons b r =>
      simp only [strLt, Bool.or_eq_true, Bool.and_eq_true, decide_eq_true_eq] at h
      simp only [strLt, Bool.or_eq_false_iff, Bool.and_eq_false_iff, decide_eq_false_iff_not]
      rcases h with h | ⟨h1, h2⟩
      · exact ⟨by omega, Or.inl (by omega)⟩
      · exact ⟨by omega, Or.inr (ih r h2)⟩

theorem strLt_total (l r : List Nat) (h : l ≠ r) : strLt l r = true ∨ strLt r l = true := by
  induction l generalizing r with
  | nil =>
    cases r with
    | nil => exact absurd rfl h
    | cons b r => simp [strLt]
  | cons a l ih =>
    cases r with
    | nil => simp [strLt]
    | cons b r =>
      simp only [strLt, Bool.or_eq_true, Bool.and_eq_true, decide_eq_true_eq]
      rcases Nat.lt_trichotomy a b with hab | hab | hab
      · exact Or.inl (Or.inl hab)
      · subst hab
        have hne : l ≠ r := fun hlr => h (by rw [hlr])
        rcases ih r hne with h1 | h1
        · exact Or.inl (Or.inr ⟨rfl, h1⟩)
        · exact Or.inr (Or.inr ⟨rfl, h1⟩)
      · exact Or.inr (Or.inl hab)

/-- The key of an edge does not depend on the order of its endpoints. -/
theorem sortEdge_comm (a b : Nat) : sortEdge (b, a) = sortEdge (a, b) := by
  by_cases hab : a = b
  · subst hab; rfl
  · have hne : decimalDigits a ≠ decimalDigits b := fun h => hab (decimalDigits_injective a b h)
    unfold sortEdge
    simp only []
    rcases strLt_total _ _ hne with h | h
    · rw [h, strLt_asymm _ _ h]; simp
    · rw [h, strLt_asymm _ _ h]; simp

theorem sortEdge_of_sameEdge (a b : Nat) (e : Edge) (h : sameEdge a b e = true) :
    sortEdge e = sortEdge (a, b) := by
  unfold sameEdge at h
  simp only [Bool.or_eq_true, Bool.and_eq_true, decide_eq_true_eq] at h
  rcases h with ⟨h1, h2⟩ | ⟨h1, h2⟩
  · have : e = (a, b) := Prod.ext h1 h2
    rw [this]
  · have : e = (b, a) := Prod.ext h1 h2
    rw [this, sortEdge_comm]

theorem sameEdge_sortEdge_iff (a b : Nat) (e : Edge) :
    sameEdge a b (sortEdge e) = sameEdge a b e := by
  rcases sortEdge_cases e with h | h <;> rw [h]
  unfold sameEdge
  rw [Bool.eq_iff_iff]
  simp only [Bool.or_eq_true, Bool.and_eq_true, decide_eq_true_eq]
  tauto

theorem hasEdge_edgesAfterTriangulate (edges : List Edge) (a b : Nat) :
    hasEdge (edgesAfterTriangulate edges) a b = hasEdge edges a b := by
  unfold hasEdge edgesAfterTriangulate
  induction edges with
  | nil => rfl
  | cons e es ih => simp only [List.map_cons, List.any_cons, ih, sameEdge_sortEdge_iff]


/-! ## Claims C6 to C9: the mouse handlers of `js/ui.js` -/

theorem closestStep_foldl_mem {α : Type} (t : ℚ) (l : List (ℚ × α)) (acc r : ℚ × α)
    (h : l.foldl (closestStep t) (some acc) = some r) : r = acc ∨ r ∈ l := by
  induction l generalizing acc with
  | nil => simp at h; exact Or.inl h.symm
  | cons c l ih =>
    simp only [List.foldl_cons, closestStep] at h
    split at h
    · rcases ih c h with h1 | h1
      · exact Or.inr (h1 ▸ List.mem_cons_self _ _)
      · exact Or.inr (List.mem_cons_of_mem _ h1)
    · rcases ih acc h with h1 | h1
      · exact Or.inl h1
      · exact Or.inr (List.mem_cons_of_mem _ h1)

theorem closestStep_foldl_none_mem {α : Type} (t : ℚ) (l : List (ℚ × α)) (r : ℚ × α)
    (h : l.foldl (closestStep t) none = some r) : r ∈ l := by
  induction l with
  | nil => simp at h
  | cons c l ih =>
    simp only [List.foldl_cons, closestStep] at h
    split at h
    · rcases closestStep_foldl_mem t l c r h with h1 | h1
      · exact h1 ▸ List.mem_cons_self _ _
      · exact List.mem_cons_of_mem _ h1
    · exact List.mem_cons_of_mem _ (ih h)

/-- The edge returned by `findClosestEdge` is an element of `state.edges`. -/
theorem findClosestEdge_mem (vs : List Vertex) (edges : List Edge) (x y t : ℚ) (e : Edge)
    (h : findClosestEdge vs edges x y t = some e) : e ∈ edges := by
  unfold findClosestEdge at h
  rw [Option.map_eq_some'] at h
  obtain ⟨r, hr, hre⟩ := h
  have := closestStep_foldl_none_mem _ _ r hr
  rw [List.mem_map] at this
  obtain ⟨e', he', hr'⟩ := this
  subst hr'
  simpa [← hre] using he'

/-- The index returned by `findClosestVertex` is an index of `state.vertices`. -/
theorem findClosestVertex_lt (vs : List Vertex) (x y t : ℚ) (c : Nat)
    (h : findClosestVertex vs x y t = some c) : c < vs.length := by
  unfold findClosestVertex at h
  rw [Option.map_eq_some'] at h
  obtain ⟨r, hr, hre⟩ := h
  have := closestStep_foldl_none_mem _ _ r hr
  rw [List.mem_map] at this
  obtain ⟨i, hi, hr'⟩ := this
  subst hr'
  simpa [← hre] using hi

/-- C6: in add-edge mode with a first vertex `a` selected, a click that picks vertex `b` is
rejected with `state.vertices`, `state.edges`, `state.triangles` and `state.people`
unchanged when `a = b`, or the undirected edge is already stored, or the segment crosses an
obstacle edge, or `doEdgesCross(a, b, e0, e1)` holds for a stored edge; otherwise
`state.edges` is the old list with `[a, b]` appended (entry by entry the same undirected
edge: the following `triangulate()` sorts each stored pair in place), one longer, and
`state.triangles` is recomputed from it, with vertices and people unchanged. -/
theorem addEdge_atomic (s : State) (x y : ℚ) (a b : Nat)
    (hmode : s.interactionMode = Mode.addEdge) (hfirst : s.firstVertexForEdge = some a)
    (hclick : findClosestVertex s.vertices x y 15 = some b) :
    ((a = b ∨ hasEdge s.edges a b = true ∨ isLineOfSightClear s.vertices a b = false ∨
        ∃ e ∈ s.edges, doEdgesCross s.vertices a b e.1 e.2 = true) →
      (handleMouseDown s x y).vertices = s.vertices ∧
      (handleMouseDown s x y).edges = s.edges ∧
      (handleMouseDown s x y).triangles = s.triangles ∧
      (handleMouseDown s x y).people = s.people) ∧
    (¬ (a = b ∨ hasEdge s.edges a b = true ∨ isLineOfSightClear s.vertices a b = false ∨
        ∃ e ∈ s.edges, doEdgesCross s.vertices a b e.1 e.2 = true) →
      List.Forall₂ (fun e' e => sameEdge e.1 e.2 e' = true)
        (handleMouseDown s x y).edges (s.edges ++ [(a, b)]) ∧
      (handleMouseDown s x y).edges.length = s.edges.length + 1 ∧
      (handleMouseDown s x y).triangles = triangulate s.vertices (s.edges ++ [(a, b)]) [] ∧
      (handleMouseDown s x y).vertices = s.vertices ∧
      (handleMouseDown s x y).people = s.people) := by
  have hany : (s.edges.any fun edge => doEdgesCross s.vertices a b edge.1 edge.2) = true ↔
      ∃ e ∈ s.edges, doEdgesCross s.vertices a b e.1 e.2 = true := by
    rw [List.any_eq_true]
  constructor
  · intro hrej
    unfold handleMouseDown
    simp only [hmode, hfirst, hclick]
    by_cases h1 : a = b
    · simp [h1]
    by_cases h2 : hasEdge s.edges a b = true
    · simp [h1, h2]
    by_cases h3 : isLineOfSightClear s.vertices a b = false
    · simp [h1, h2, h3]
    have h4 : (s.edges.any fun edge => doEdgesCross s.vertices a b edge.1 edge.2) = true := by
      rw [hany]
      rcases hrej with h | h | h | h
      · exact absurd h h1
      · exact absurd h h2
      · exact absurd h h3
      · exact h
    simp [h1, h2, h3, h4]
  · intro hacc
    have h1 : ¬ a = b := fun h => hacc (Or.inl h)
    have h2 : ¬ hasEdge s.edges a b = true := fun h => hacc (Or.inr (Or.inl h))
    have h3 : ¬ isLineOfSightClear s.vertices a b = false :=
      fun h => hacc (Or.inr (Or.inr (Or.inl h)))
    have h4 : ¬ (s.edges.any fun edge => doEdgesCross s.vertices a b edge.1 edge.2) = true :=
      fun h => hacc (Or.inr (Or.inr (Or.inr (hany.mp h))))
    have h3' : isLineOfSightClear s.vertices a b = true := by simpa using h3
    have h4' : (s.edges.any fun edge => doEdgesCross s.vertices a b edge.1 edge.2) = false := by
      simpa using h4
    have heq : handleMouseDown s x y =
        { s with edges := edgesAfterTriangulate (s.edges ++ [(a, b)]),
                 triangles := triangulate s.vertices (s.edges ++ [(a, b)]) [],
                 selectionInfo := "Edge added between vertex " ++ toString a ++
                   " and vertex " ++ toString b ++ ".",
                 firstVertexForEdge := none } := by
      unfold handleMouseDown
      simp only [hmode, hfirst, hclick]
      rw [if_neg h1, if_neg h2, h3', h4']
      simp
    rw [heq]
    refine ⟨?_, ?_, rfl, rfl, rfl⟩
    · unfold edgesAfterTriangulate
      rw [List.forall₂_map_left_iff]
      exact List.forall₂_same.mpr (fun e _ => by rw [sameEdge_sortEdge_iff]; simp [sameEdge])
    · simp [edgesAfterTriangulate]

/-- Witness for C6: with vertex 5 selected, a click on vertex 16 at `(350, 265)` meets no
rejection condition and the edge count grows by one. -/
theorem addEdge_atomic_witness :
    addEdgeDemo.interactionMode = Mode.addEdge ∧
    addEdgeDemo.firstVertexForEdge = some 5 ∧
    findClosestVertex addEdgeDemo.vertices 350 265 15 = some 16 ∧
    (handleMouseDown addEdgeDemo 350 265).edges.length = addEdgeDemo.edges.length + 1 ∧
    (handleMouseDown addEdgeDemo 350 265).vertices = addEdgeDemo.vertices :=
  ⟨rfl, rfl, by decide!,
    ((addEdge_atomic addEdgeDemo 350 265 5 16 rfl rfl (by decide!)).2 (by decide!)).2.1,
    ((addEdge_atomic addEdgeDemo 350 265 5 16 rfl rfl (by decide!)).2 (by decide!)).2.2.2.1⟩

/-- C7: in remove-edge mode, a click that picks an edge whose two endpoints are both
boundary corners (indices below 4) or both obstacle vertices (indices at least
`BBOX_POINT_COUNT + INNER_POINT_COUNT`) yields the message
`Cannot remove a boundary edge.` and leaves `state.edges` and `state.triangles` (and the
vertices and people) unchanged. -/
theorem removeEdge_protected_rejected (s : State) (x y : ℚ) (e : Edge)
    (hmode : s.interactionMode = Mode.removeEdge)
    (hpick : findClosestEdge s.vertices s.edges x y 10 = some e)
    (hprot : (e.1 < 4 ∧ e.2 < 4) ∨
      (e.1 ≥ BBOX_POINT_COUNT + INNER_POINT_COUNT ∧ e.2 ≥ BBOX_POINT_COUNT + INNER_POINT_COUNT)) :
    (handleMouseDown s x y).selectionInfo = "Cannot remove a boundary edge." ∧
    (handleMouseDown s x y).edges = s.edges ∧
    (handleMouseDown s x y).triangles = s.triangles ∧
    (handleMouseDown s x y).vertices = s.vertices ∧
    (handleMouseDown s x y).people = s.people := by
  have hp : (e.1 < 4 ∧ e.2 < 4) ∨ (e.1 ≥ obstacleStartIndex ∧ e.2 ≥ obstacleStartIndex) := hprot
  unfold handleMouseDown
  simp only [hmode, hpick]
  rw [if_pos hp]
  exact ⟨rfl, rfl, rfl, rfl, rfl⟩

/-- Witness for C7: a click at `(400, 40)` picks the top boundary edge `[0, 1]`. -/
theorem removeEdge_protected_rejected_witness :
    removeEdgeDemo.interactionMode = Mode.removeEdge ∧
    findClosestEdge removeEdgeDemo.vertices removeEdgeDemo.edges 400 40 10 = some (0, 1) ∧
    (handleMouseDown removeEdgeDemo 400 40).selectionInfo = "Cannot remove a boundary edge." ∧
    (handleMouseDown removeEdgeDemo 400 40).edges = removeEdgeDemo.edges ∧
    (handleMouseDown removeEdgeDemo 400 40).triangles = removeEdgeDemo.triangles ∧
    (handleMouseDown removeEdgeDemo 400 40).vertices = removeEdgeDemo.vertices ∧
    (handleMouseDown removeEdgeDemo 400 40).people = removeEdgeDemo.people :=
  ⟨rfl, by decide!,
    removeEdge_protected_rejected removeEdgeDemo 400 40 (0, 1) rfl (by decide!)
      (Or.inl (by decide))⟩

theorem sameEdge_self (e : Edge) : sameEdge e.1 e.2 e = true := by
  simp [sameEdge]

theorem sameEdge_trans_symm (e g h : Edge) (hg : sameEdge e.1 e.2 g = true)
    (hh : sameEdge e.1 e.2 h = true) : sameEdge g.1 g.2 h = true := by
  unfold sameEdge at *
  simp only [Bool.or_eq_true, Bool.and_eq_true, decide_eq_true_eq] at *
  rcases hg with ⟨h1, h2⟩ | ⟨h1, h2⟩ <;> rcases hh with ⟨h3, h4⟩ | ⟨h3, h4⟩
  · exact Or.inl ⟨by omega, by omega⟩
  · exact Or.inr ⟨by omega, by omega⟩
  · exact Or.inr ⟨by omega, by omega⟩
  · exact Or.inl ⟨by omega, by omega⟩

/-- In a list without duplicate undirected edges, deleting the first entry equal to `e`
leaves no entry equal to `e`. -/
theorem eraseIdx_findIdx_no_sameEdge (l : List Edge) (e : Edge)
    (hnodup : l.Pairwise (fun f g => sameEdge f.1 f.2 g = false)) :
    (l.eraseIdx (l.findIdx (sameEdge e.1 e.2))).any (sameEdge e.1 e.2) = false := by
  induction l with
  | nil => rfl
  | cons g l ih =>
    rw [List.pairwise_cons] at hnodup
    by_cases hg : sameEdge e.1 e.2 g = true
    · rw [List.findIdx_cons, hg]
      simp only [cond_true, List.eraseIdx_cons_zero]
      rw [List.any_eq_false]
      intro h hh hsame
      have := sameEdge_trans_symm e g h hg hsame
      rw [hnodup.1 h hh] at this
      exact absurd this (by simp)
    · rw [List.findIdx_cons]
      simp only [hg, cond_false, List.eraseIdx_cons_succ, List.any_cons, Bool.false_or]
      exact ih hnodup.2

theorem findIdx_lt_of_mem_sameEdge (l : List Edge) (e : Edge) (h : e ∈ l) :
    l.findIdx (sameEdge e.1 e.2) < l.length :=
  List.findIdx_lt_length_of_exists ⟨e, h, sameEdge_self e⟩

/-- C8: in remove-edge mode, a click that picks a non-protected edge `(a, b)` of a
duplicate-free `state.edges` leaves no undirected edge `(a, b)` in `state.edges`, lowers the
edge count by exactly one, and no triangle of the recomputed `state.triangles` has `(a, b)`
as one of its three sides. -/
theorem removeEdge_bans_edge (s : State) (x y : ℚ) (e : Edge)
    (hmode : s.interactionMode = Mode.removeEdge)
    (hpick : findClosestEdge s.vertices s.edges x y 10 = some e)
    (hfree : ¬ ((e.1 < 4 ∧ e.2 < 4) ∨
      (e.1 ≥ BBOX_POINT_COUNT + INNER_POINT_COUNT ∧ e.2 ≥ BBOX_POINT_COUNT + INNER_POINT_COUNT)))
    (hnodup : s.edges.Pairwise (fun f g => sameEdge f.1 f.2 g = false)) :
    hasEdge (handleMouseDown s x y).edges e.1 e.2 = false ∧
    (handleMouseDown s x y).edges.length + 1 = s.edges.length ∧
    ∀ t ∈ (handleMouseDown s x y).triangles,
      ∀ side ∈ [(t.1, t.2.1), (t.2.1, t.2.2), (t.2.2, t.1)], sameEdge e.1 e.2 side = false := by
  have hmem : e ∈ s.edges := findClosestEdge_mem _ _ _ _ _ _ hpick
  have hidx := findIdx_lt_of_mem_sameEdge s.edges e hmem
  have hp : ¬ ((e.1 < 4 ∧ e.2 < 4) ∨ (e.1 ≥ obstacleStartIndex ∧ e.2 ≥ obstacleStartIndex)) :=
    hfree
  have heq : handleMouseDown s x y =
      { s with edges := edgesAfterTriangulate
                 (s.edges.eraseIdx (s.edges.findIdx (sameEdge e.1 e.2))),
               triangles := triangulate s.vertices
                 (s.edges.eraseIdx (s.edges.findIdx (sameEdge e.1 e.2))) [e],
               selectionInfo := "Edge removed." } := by
    unfold handleMouseDown
    simp only [hmode, hpick]
    rw [if_neg hp, if_pos hidx]
  rw [heq]
  refine ⟨?_, ?_, ?_⟩
  · show hasEdge (edgesAfterTriangulate _) e.1 e.2 = false
    rw [hasEdge_edgesAfterTriangulate]
    exact eraseIdx_findIdx_no_sameEdge s.edges e hnodup
  · show (edgesAfterTriangulate _).length + 1 = s.edges.length
    unfold edgesAfterTriangulate
    rw [List.length_map, List.length_eraseIdx, if_pos hidx]
    omega
  · intro t ht side hside
    obtain ⟨ex, hv⟩ := triangulate_mem_valid _ _ _ t ht
    have hnb := isValidTriangle_not_banned _ _ _ _ _ _ hv
    by_contra hsame
    rw [Bool.not_eq_false] at hsame
    have hkey : sortEdge side = sortEdge e := sortEdge_of_sameEdge e.1 e.2 side hsame
    have hin : sortEdge side ∈ setOf ([e].map sortEdge) := by
      rw [mem_setOf, hkey]; simp
    simp only [List.mem_cons, List.mem_singleton, List.not_mem_nil, or_false] at hside
    rcases hside with h | h | h <;> subst h
    · exact hnb.1 hin
    · exact hnb.2.1 hin
    · exact hnb.2.2 hin

/-- Witness for C8: a click at `(96, 86)` picks the inner edge `[0, 4]`. -/
theorem removeEdge_bans_edge_witness :
    removeEdgeDemo.interactionMode = Mode.removeEdge ∧
    findClosestEdge removeEdgeDemo.vertices removeEdgeDemo.edges 96 86 10 = some (0, 4) ∧
    removeEdgeDemo.edges.Pairwise (fun f g => sameEdge f.1 f.2 g = false) ∧
    (hasEdge (handleMouseDown removeEdgeDemo 96 86).edges 0 4 = false ∧
      (handleMouseDown removeEdgeDemo 96 86).edges.length + 1 = removeEdgeDemo.edges.length ∧
      ∀ t ∈ (handleMouseDown removeEdgeDemo 96 86).triangles,
        ∀ side ∈ [(t.1, t.2.1), (t.2.1, t.2.2), (t.2.2, t.1)], sameEdge 0 4 side = false) :=
  ⟨rfl, by decide!, by decide!,
    removeEdge_bans_edge removeEdgeDemo 96 86 (0, 4) rfl (by decide!) (by decide) (by decide!)⟩

/-- In move-point mode `handleMouseDown` changes at most the drag selection and the
message. -/
theorem handleMouseDown_movePoint (s : State) (x0 y0 : ℚ)
    (hmode : s.interactionMode = Mode.movePoint) :
    (handleMouseDown s x0 y0).vertices = s.vertices ∧
    (handleMouseDown s x0 y0).edges = s.edges ∧
    (handleMouseDown s x0 y0).triangles = s.triangles ∧
    (handleMouseDown s x0 y0).people = s.people ∧
    (handleMouseDown s x0 y0).obstacle = s.obstacle ∧
    ((handleMouseDown s x0 y0).isDragging = s.isDragging ∨
      ∃ c, findClosestVertex s.vertices x0 y0 15 = some c ∧ c < obstacleStartIndex ∧
        isFixed s.vertices c = false ∧ (handleMouseDown s x0 y0).selectedVertex = some c) := by
  unfold handleMouseDown
  simp only [hmode]
  cases hc : findClosestVertex s.vertices x0 y0 15 with
  | none => simp
  | some c =>
    simp only []
    split
    · next h => exact ⟨rfl, rfl, rfl, rfl, rfl, Or.inr ⟨c, rfl, h.1, h.2, rfl⟩⟩
    · split
      · exact ⟨rfl, rfl, rfl, rfl, rfl, Or.inl rfl⟩
      · exact ⟨rfl, rfl, rfl, rfl, rfl, Or.inl rfl⟩

/-- C9: a move-point request (a press at `(x0, y0)` in move-point mode with no drag in
progress, followed by a pointer move to `(x, y)`) leaves every vertex, `state.edges` and
`state.triangles` unchanged whenever the picked vertex is fixed or is an obstacle vertex, or
`(x, y)` is strictly inside the obstacle bounds, or `(x, y)` is outside the boundary
rectangle spanned by vertices 0, 1 and 2 (vertex 0 being the corner `(padding, padding)`). -/
theorem moveVertex_rejection_atomic (s : State) (x0 y0 x y : ℚ)
    (hmode : s.interactionMode = Mode.movePoint) (hidle : s.isDragging = false)
    (hcorner : (vtx s.vertices 0).y = (vtx s.vertices 0).x)
    (hrej : (∃ c, findClosestVertex s.vertices x0 y0 15 = some c ∧
        (isFixed s.vertices c = true ∨ c ≥ BBOX_POINT_COUNT + INNER_POINT_COUNT)) ∨
      isPointInsideObstacle s.obstacle { x := x, y := y } = true ∨
      x < (vtx s.vertices 0).x ∨ x > (vtx s.vertices 1).x ∨
      y < (vtx s.vertices 0).y ∨ y > (vtx s.vertices 2).y) :
    (handleMouseMove (handleMouseDown s x0 y0) x y).vertices = s.vertices ∧
    (handleMouseMove (handleMouseDown s x0 y0) x y).edges = s.edges ∧
    (handleMouseMove (handleMouseDown s x0 y0) x y).triangles = s.triangles := by
  obtain ⟨hv, he, ht, _, ho, hdrag⟩ := handleMouseDown_movePoint s x0 y0 hmode
  generalize handleMouseDown s x0 y0 = s1 at *
  unfold handleMouseMove
  by_cases hd : s1.isDragging = false
  · rw [if_pos hd]; exact ⟨hv, he, ht⟩
  rw [if_neg hd]
  cases hsel : s1.selectedVertex with
  | none =>
    simp only []
    cases s1.selectedPerson with
    | none => exact ⟨hv, he, ht⟩
    | some p => exact ⟨hv, he, ht⟩
  | some sel =>
    simp only []
    have hcond : isPointInsideObstacle s1.obstacle { x := x, y := y } = true ∨
        x < (vtx s1.vertices 0).x ∨ x > (vtx s1.vertices 1).x ∨
        y < (vtx s1.vertices 0).x ∨ y > (vtx s1.vertices 2).y := by
      rw [hv, ho]
      rcases hrej with ⟨c, hc, hfix⟩ | h | h | h | h | h
      · exfalso
        rcases hdrag with h | ⟨c', hc', hlt, hnf, _⟩
        · rw [hidle] at h; exact hd h
        · rw [hc] at hc'
          cases hc'
          rcases hfix with hf | hf
          · rw [hnf] at hf; exact absurd hf (by simp)
          · unfold obstacleStartIndex at hlt; omega
      · exact Or.inl h
      · exact Or.inr (Or.inl h)
      · exact Or.inr (Or.inr (Or.inl h))
      · exact Or.inr (Or.inr (Or.inr (Or.inl (hcorner ▸ h))))
      · exact Or.inr (Or.inr (Or.inr (Or.inr h)))
    rw [if_pos hcond]
    exact ⟨hv, he, ht⟩

/-- Witness for C9: a press on the fixed corner 0 at `(41, 41)` followed by a move to
`(100, 100)`. -/
theorem moveVertex_rejection_atomic_witness :
    movePointDemo.interactionMode = Mode.movePoint ∧ movePointDemo.isDragging = false ∧
    (vtx movePointDemo.vertices 0).y = (vtx movePointDemo.vertices 0).x ∧
    findClosestVertex movePointDemo.vertices 41 41 15 = some 0 ∧
    isFixed movePointDemo.vertices 0 = true ∧
    ((handleMouseMove (handleMouseDown movePointDemo 41 41) 100 100).vertices
        = movePointDemo.vertices ∧
      (handleMouseMove (handleMouseDown movePointDemo 41 41) 100 100).edges
        = movePointDemo.edges ∧
      (handleMouseMove (handleMouseDown movePointDemo 41 41) 100 100).triangles
        = movePointDemo.triangles) :=
  ⟨rfl, rfl, by decide!, by decide!, by decide!,
    moveVertex_rejection_atomic movePointDemo 41 41 100 100 rfl rfl (by decide!)
      (Or.inl ⟨0, by decide!, Or.inl (by decide!)⟩)⟩

/-! ## Claim C10: boundary corners in `script.js` -/

theorem vtx_set (vs : List Vertex) (i j : Nat) (v : Vertex) :
    vtx (vs.set i v) j = if i = j ∧ i < vs.length then v.toPoint else vtx vs j := by
  unfold vtx
  rw [List.getD_eq_getElem?_getD, List.getD_eq_getElem?_getD, List.getElem?_set]
  by_cases hij : i = j
  · subst hij
    by_cases hlt : i < vs.length
    · simp [hlt]
    · have : vs[i]? = none := List.getElem?_eq_none (by omega)
      simp [hlt, this]
  · simp [hij]

theorem vtx_moveVertexTo_self (vs : List Vertex) (i : Nat) (x y : ℚ) (h : i < vs.length) :
    vtx (moveVertexTo vs i x y) i = { x := x, y := y } := by
  unfold moveVertexTo
  rw [vtx_set]
  simp [h]

/-- C10 (refuted as stated): in `script.js`, on the initial layout of an 800 by 600 canvas
in move-point mode, a press at `(41, 41)` picks the boundary corner 0 and the following
pointer move to `(45, 45)` relocates that corner from `(40, 40)` to `(45, 45)`. -/
theorem script_corner_drag_moves_corner :
    findClosestVertex scriptMovePoint.vertices 41 41 15 = some 0 ∧
    vtx scriptMovePoint.vertices 0 = { x := 40, y := 40 } ∧
    vtx (Script.mousemoveHandler (Script.mousedownHandler scriptMovePoint 41 41) 45 45).vertices 0
      = { x := 45, y := 45 } := by
  decide!

/-- C10 (amended): in `script.js` a move-point drag (a press, then a pointer move to
`(x, y)`) that picks a boundary corner `c` (index 0 to 3) is handled like
the drag of an inner vertex: the vertices are unchanged when `(x, y)` is strictly inside the
obstacle bounds or outside `[vertices[0].x, vertices[1].x]` by
`[vertices[0].x, vertices[2].y]`, and otherwise the corner `c` is moved to `(x, y)`. -/
theorem script_corner_drag (s : Script.State) (x0 y0 x y : ℚ) (c : Nat)
    (hmode : s.interactionMode = Mode.movePoint)
    (hpick : findClosestVertex s.vertices x0 y0 15 = some c) (hc : c < BBOX_POINT_COUNT) :
    ((isPointInsideObstacle s.obstacle { x := x, y := y } = true ∨
        x < (vtx s.vertices 0).x ∨ x > (vtx s.vertices 1).x ∨
        y < (vtx s.vertices 0).x ∨ y > (vtx s.vertices 2).y) →
      (Script.mousemoveHandler (Script.mousedownHandler s x0 y0) x y).vertices = s.vertices) ∧
    (¬ (isPointInsideObstacle s.obstacle { x := x, y := y } = true ∨
        x < (vtx s.vertices 0).x ∨ x > (vtx s.vertices 1).x ∨
        y < (vtx s.vertices 0).x ∨ y > (vtx s.vertices 2).y) →
      vtx (Script.mousemoveHandler (Script.mousedownHandler s x0 y0) x y).vertices c
        = { x := x, y := y }) := by
  have hlt : c < obstacleStartIndex := by
    unfold BBOX_POINT_COUNT at hc
    unfold obstacleStartIndex BBOX_POINT_COUNT INNER_POINT_COUNT
    omega
  have hlen : c < s.vertices.length := findClosestVertex_lt _ _ _ _ _ hpick
  have hdown : Script.mousedownHandler s x0 y0 =
      { s with selectedVertex := some c, isDragging := true,
               status := "Moving vertex " ++ toString c } := by
    unfold Script.mousedownHandler
    simp only [hmode, hpick]
    rw [if_pos hlt]
  rw [hdown]
  unfold Script.mousemoveHandler
  simp only [Bool.true_eq_false, if_false]
  constructor
  · intro hrej
    rw [if_pos hrej]
  · intro hacc
    rw [if_neg hacc]
    exact vtx_moveVertexTo_self s.vertices c x y hlen

/-- Witness for C10 (amended) on the initial layout of `script.js`. -/
theorem script_corner_drag_witness :
    scriptMovePoint.interactionMode = Mode.movePoint ∧
    findClosestVertex scriptMovePoint.vertices 41 41 15 = some 0 ∧
    vtx (Script.mousemoveHandler (Script.mousedownHandler scriptMovePoint 41 41) 45 45).vertices 0
      = { x := 45, y := 45 } :=
  ⟨rfl, by decide!,
    (script_corner_drag scriptMovePoint 41 41 45 45 0 rfl (by decide!) (by decide)).2
      (by decide!)⟩

/-! ## Claim C4: dots and their stored triangle in the WebGL variant -/

namespace WebGL

/-- The vertex indices of a triangle: all that `pointInTriangle` reads from it. -/
theorem pointInTriangle_congr (vs : List GVertex) (x y : ℚ) (t t' : GTriangle)
    (h1 : t.vertex1 = t'.vertex1) (h2 : t.vertex2 = t'.vertex2) (h3 : t.vertex3 = t'.vertex3) :
    pointInTriangle vs x y t = pointInTriangle vs x y t' := by
  unfold pointInTriangle
  rw [h1, h2, h3]

theorem SameShape.refl (l : List GTriangle) : SameShape l l :=
  List.forall₂_same.mpr (fun _ _ => ⟨rfl, rfl, rfl⟩)

theorem SameShape.trans {l1 l2 l3 : List GTriangle} (h12 : SameShape l1 l2)
    (h23 : SameShape l2 l3) : SameShape l1 l3 := by
  unfold SameShape at *
  induction h12 generalizing l3 with
  | nil => cases h23; exact List.Forall₂.nil
  | cons hab _ ih =>
    cases h23 with
    | cons hbc htl =>
      exact List.Forall₂.cons ⟨hab.1.trans hbc.1, hab.2.1.trans hbc.2.1, hab.2.2.trans hbc.2.2⟩
        (ih htl)

theorem findTriangleContaining_congr (vs : List GVertex) (l l' : List GTriangle) (x y : ℚ)
    (h : SameShape l l') :
    findTriangleContaining vs l x y = findTriangleContaining vs l' x y := by
  unfold findTriangleContaining
  have hidx : l.findIdx (pointInTriangle vs x y) = l'.findIdx (pointInTriangle vs x y) := by
    unfold SameShape at h
    induction h with
    | nil => rfl
    | cons hab _ ih =>
      rw [List.findIdx_cons, List.findIdx_cons,
        pointInTriangle_congr vs x y _ _ hab.1 hab.2.1 hab.2.2, ih]
  have hlen : l.length = l'.length := List.Forall₂.length_eq h
  simp only [hlen, hidx]

theorem get?_congr (l l' : List GTriangle) (h : SameShape l l') (i : Nat) (t : GTriangle)
    (ht : l.get? i = some t) :
    ∃ t', l'.get? i = some t' ∧ t.vertex1 = t'.vertex1 ∧ t.vertex2 = t'.vertex2 ∧
      t.vertex3 = t'.vertex3 := by
  unfold SameShape at h
  induction h generalizing i with
  | nil => simp at ht
  | cons hab _ ih =>
    cases i with
    | zero =>
      simp only [List.get?_cons_zero, Option.some.injEq] at ht
      subst ht
      exact ⟨_, rfl, hab⟩
    | succ i => exact ih i ht

theorem modify_sameShape (f : GTriangle → GTriangle)
    (hf : ∀ t, t.vertex1 = (f t).vertex1 ∧ t.vertex2 = (f t).vertex2 ∧ t.vertex3 = (f t).vertex3)
    (l : List GTriangle) (i : Nat) : SameShape l (l.modify f i) := by
  unfold SameShape
  induction l generalizing i with
  | nil => cases i <;> exact List.Forall₂.nil
  | cons a l ih =>
    cases i with
    | zero => exact List.Forall₂.cons (hf a) (SameShape.refl l)
    | succ i => exact List.Forall₂.cons ⟨rfl, rfl, rfl⟩ (ih i)

theorem updateTriangleDensity_sameShape (ts : List GTriangle) (dots : List Dot) (td : Int)
    (i : Nat) : SameShape ts (updateTriangleDensity ts dots td i) := by
  unfold updateTriangleDensity
  split
  · exact SameShape.refl ts
  · show SameShape ts (List.modify _ i ts)
    refine modify_sameShape _ ?_ ts i
    intro t
    exact ⟨rfl, rfl, rfl⟩

theorem updateAll_triangles_sameShape (ts : List GTriangle) (dots : List Dot) (td : Int)
    (is : List Nat) :
    SameShape ts (is.foldl (fun ts i => updateTriangleDensity ts dots td i) ts) := by
  induction is generalizing ts with
  | nil => exact SameShape.refl ts
  | cons i is ih =>
    exact SameShape.trans (updateTriangleDensity_sameShape ts dots td i) (ih _)

theorem assigned_of_sameShape (s s' : State) (hv : s'.vertices = s.vertices)
    (hd : s'.dots = s.dots) (ht : SameShape s.triangles s'.triangles) (h : Assigned s) :
    Assigned s' := by
  intro d hdm i hi
  rw [hv, ← findTriangleContaining_congr _ _ _ _ _ ht] at hi
  rw [hd] at hdm
  exact h d hdm i hi

theorem updateAllTriangleDensities_assigned (s : State) :
    Assigned (updateAllTriangleDensities s) := by
  intro d hd i hi
  unfold updateAllTriangleDensities at hd hi
  simp only [] at hd hi
  rw [← findTriangleContaining_congr _ _ _ _ _ (updateAll_triangles_sameShape _ _ _ _)] at hi
  rw [List.mem_map] at hd
  obtain ⟨d0, _, hd0⟩ := hd
  cases hf : findTriangleContaining s.vertices s.triangles d0.x d0.y with
  | none =>
    rw [hf] at hd0
    subst hd0
    rw [hf] at hi
    exact absurd hi (by simp)
  | some j =>
    rw [hf] at hd0
    subst hd0
    simp only [] at hi ⊢
    rw [hf] at hi
    exact hi

theorem updateTriangulation_assigned (s : State) : Assigned (updateTriangulation s) := by
  unfold updateTriangulation
  exact updateAllTriangleDensities_assigned _

theorem addDot_assigned (s : State) (x y : ℚ) (h : Assigned s) : Assigned (addDot s x y) := by
  unfold addDot
  cases hf : findTriangleContaining s.vertices s.triangles x y with
  | none => exact h
  | some j =>
    intro d hd i hi
    simp only [] at hd hi
    rw [← findTriangleContaining_congr _ _ _ _ _ (updateTriangleDensity_sameShape _ _ _ _)] at hi
    rcases List.mem_append.mp hd with hd | hd
    · exact h d hd i hi
    · rw [List.mem_singleton] at hd
      subst hd
      simp only [] at hi ⊢
      rw [hf] at hi
      exact hi

theorem moveDot_assigned (s : State) (k : Nat) (x y : ℚ) (h : Assigned s) :
    Assigned (moveDot s k x y) := by
  unfold moveDot
  cases hk : s.dots.get? k with
  | none => exact h
  | some dot =>
    simp only []
    cases hf : findTriangleContaining s.vertices s.triangles x y with
    | none =>
      intro d hd i hi
      simp only [] at hd hi
      rcases List.mem_or_eq_of_mem_set hd with hd | hd
      · exact h d hd i hi
      · subst hd
        simp only [] at hi
        rw [hf] at hi
        exact absurd hi (by simp)
    | some j =>
      intro d hd i hi
      simp only [] at hd hi
      have hshape : SameShape s.triangles
          (updateTriangleDensity
            (match dot.triangleIndex with
              | some old =>
                if old ≠ j then
                  updateTriangleDensity s.triangles
                    (s.dots.set k { dot with x := x, y := y, triangleIndex := some j })
                    s.targetDensity old
                else s.triangles
              | none => s.triangles)
            (s.dots.set k { dot with x := x, y := y, triangleIndex := some j })
            s.targetDensity j) := by
        refine SameShape.trans ?_ (updateTriangleDensity_sameShape _ _ _ _)
        cases dot.triangleIndex with
        | none => exact SameShape.refl _
        | some old =>
          simp only []
          split
          · exact updateTriangleDensity_sameShape _ _ _ _
          · exact SameShape.refl _
      rw [← findTriangleContaining_congr _ _ _ _ _ hshape] at hi
      rcases List.mem_or_eq_of_mem_set hd with hd | hd
      · exact h d hd i hi
      · subst hd
        simp only [] at hi ⊢
        rw [hf] at hi
        exact hi

theorem reachable_assigned (s : State) (h : Reachable s) : Assigned s := by
  induction h with
  | init s h0 =>
    intro d hd
    rw [h0] at hd
    exact absurd hd (List.not_mem_nil d)
  | step s op _ _ ih =>
    cases op with
    | addDot x y => exact addDot_assigned s x y ih
    | moveDot i x y => exact moveDot_assigned s i x y ih
    | addEdge v1 v2 =>
      show Assigned (addEdge s v1 v2)
      unfold addEdge
      split
      · exact ih
      · exact updateTriangulation_assigned _
    | deleteEdge k => exact updateTriangulation_assigned _
    | updateAllTriangleDensities => exact updateAllTriangleDensities_assigned s
    | setTargetDensity v => exact updateAllTriangleDensities_assigned _

theorem findTriangleContaining_spec (vs : List GVertex) (ts : List GTriangle) (x y : ℚ)
    (i : Nat) (h : findTriangleContaining vs ts x y = some i) :
    ∃ t, ts.get? i = some t ∧ pointInTriangle vs x y t = true := by
  unfold findTriangleContaining at h
  simp only [] at h
  split at h
  · next hlt =>
    simp only [Option.some.injEq] at h
    subst h
    refine ⟨ts.get ⟨_, hlt⟩, List.get?_eq_get hlt, ?_⟩
    exact List.findIdx_getElem (w := hlt)
  · exact absurd h (by simp)

end WebGL

/-- C4: in the WebGL variant, after `addDot(300, 200)` on the boundary square with a diagonal
and `moveDot` of that dot to `(10, 10)`, a position in no triangle, the state is reachable
and its dot keeps `triangleIndex` 0 although `pointInTriangle(10, 10, triangles[0])` is
false; `updateAllTriangleDensities()` leaves the index as it is and counts the dot in
triangle 0. -/
theorem webgl_moved_dot_keeps_stale_index :
    WebGL.Reachable webglMovedOut ∧
    (∃ d ∈ webglMovedOut.dots, d.triangleIndex = some 0 ∧
      WebGL.dotInStoredTriangle webglMovedOut d = false) ∧
    (∃ d ∈ (WebGL.updateAllTriangleDensities webglMovedOut).dots, d.triangleIndex = some 0 ∧
      WebGL.dotInStoredTriangle (WebGL.updateAllTriangleDensities webglMovedOut) d = false) ∧
    ((WebGL.updateAllTriangleDensities webglMovedOut).triangles.map fun t => t.density)
      = [1, 0] :=
  ⟨WebGL.Reachable.step _ (WebGL.Op.moveDot 0 10 10)
      (WebGL.Reachable.step _ (WebGL.Op.addDot 300 200)
        (WebGL.Reachable.init webglSquare (by decide!)) trivial)
      (show 0 < (WebGL.addDot webglSquare 300 200).dots.length by decide!),
    by decide!, by decide!, by decide!⟩

/-- In every state reachable by `addDot`, `moveDot`, `addEdge`, edge deletion and
`updateAllTriangleDensities`, every dot whose position lies in at least one current
triangle (`findTriangleContaining(dot.x, dot.y)` is an index `i`, not `-1`) stores that index
as its `triangleIndex` and passes `pointInTriangle(dot.x, dot.y, triangles[i])`. -/
theorem webgl_assignment_consistency (s : WebGL.State) (h : WebGL.Reachable s)
    (d : WebGL.Dot) (hd : d ∈ s.dots) (i : Nat)
    (hi : WebGL.findTriangleContaining s.vertices s.triangles d.x d.y = some i) :
    d.triangleIndex = some i ∧ WebGL.dotInStoredTriangle s d = true := by
  have h1 := WebGL.reachable_assigned s h d hd i hi
  refine ⟨h1, ?_⟩
  obtain ⟨t, ht, hp⟩ := WebGL.findTriangleContaining_spec _ _ _ _ _ hi
  unfold WebGL.dotInStoredTriangle
  rw [h1]
  simp only [ht]
  exact hp

/-- The dot added at `(300, 200)` on the boundary square is assigned to the triangle that
holds it. -/
theorem webgl_assignment_consistency_witness :
    WebGL.Reachable webglOneDot ∧
    ({ id := 0, x := 300, y := 200, triangleIndex := some 0 } : WebGL.Dot) ∈ webglOneDot.dots ∧
    WebGL.findTriangleContaining webglOneDot.vertices webglOneDot.triangles 300 200 = some 0 ∧
    WebGL.dotInStoredTriangle webglOneDot
      { id := 0, x := 300, y := 200, triangleIndex := some 0 } = true :=
  ⟨WebGL.Reachable.step _ (WebGL.Op.addDot 300 200)
      (WebGL.Reachable.init webglSquare (by decide!)) trivial,
    by decide!, by decide!,
    (webgl_assignment_consistency webglOneDot
      (WebGL.Reachable.step _ (WebGL.Op.addDot 300 200)
        (WebGL.Reachable.init webglSquare (by decide!)) trivial)
      { id := 0, x := 300, y := 200, triangleIndex := some 0 } (by decide!) 0 (by decide!)).2⟩

/-! ## The no-crossing invariant of the modular variant in exact arithmetic -/

theorem doEdgesCross_self (vs : List Vertex) (a b : Nat) : doEdgesCross vs a b a b = false := by
  simp [doEdgesCross]

theorem NoCross.subset {vs : List Vertex} {es es' : List Edge} (h : NoCross vs es)
    (hsub : ∀ e ∈ es', e ∈ es) : NoCross vs es' :=
  fun e he f hf => h e (hsub e he) f (hsub f hf)

theorem NoCross.append_one {vs : List Vertex} {es : List Edge} (h : NoCross vs es) (a b : Nat)
    (hnew : ∀ f ∈ es, doEdgesCross vs a b f.1 f.2 = false) : NoCross vs (es ++ [(a, b)]) := by
  intro e he f hf
  rcases List.mem_append.mp he with he | he <;> rcases List.mem_append.mp hf with hf | hf
  · exact h e he f hf
  · rw [List.mem_singleton] at hf
    subst hf
    rw [doEdgesCross_symm]
    exact hnew e he
  · rw [List.mem_singleton] at he
    subst he
    exact hnew f hf
  · rw [List.mem_singleton] at he hf
    subst he hf
    exact doEdgesCross_self vs a b

theorem NoCross.sorted {vs : List Vertex} {es : List Edge} (h : NoCross vs es) :
    NoCross vs (edgesAfterTriangulate es) := by
  intro e he f hf
  unfold edgesAfterTriangulate at he hf
  rw [List.mem_map] at he hf
  obtain ⟨e0, he0, rfl⟩ := he
  obtain ⟨f0, hf0, rfl⟩ := hf
  rw [doEdgesCross_sortEdge_left, doEdgesCross_sortEdge_right]
  exact h e0 he0 f0 hf0

theorem NoCross.eraseIdx {vs : List Vertex} {es : List Edge} (h : NoCross vs es) (i : Nat) :
    NoCross vs (es.eraseIdx i) :=
  h.subset (fun _ he => List.mem_of_mem_eraseIdx he)

theorem generateStep_noCross (vs : List Vertex) (acc : List Edge × List Nat) (c : Candidate)
    (h : NoCross vs acc.1) : NoCross vs (generateStep vs acc c).1 := by
  unfold generateStep
  split
  · exact h
  split
  · exact h
  · next _ hany =>
    have hnew : ∀ f ∈ acc.1, doEdgesCross vs c.from_ c.to_ f.1 f.2 = false := by
      intro f hf
      have := hany
      rw [Bool.not_eq_true, List.any_eq_false] at this
      simpa using this f hf
    split
    · split
      · exact h
      · split
        · exact h
        · exact h.append_one _ _ hnew
    · exact h.append_one _ _ hnew

/-- The edge list returned by `generateInitialEdges` is crossing-free whenever the
constraint edges are. -/
theorem generateInitialEdges_noCross (vs : List Vertex) (cons : List Edge)
    (h : NoCross vs cons) : NoCross vs (generateInitialEdges vs cons) := by
  unfold generateInitialEdges
  exact foldl_invariant (fun acc : List Edge × List Nat => NoCross vs acc.1) _ _ _ h
    (fun acc c _ hacc => generateStep_noCross vs acc c hacc)

theorem spliceEdge_subset (es : List Edge) (r e : Edge) (h : e ∈ spliceEdge es r) : e ∈ es :=
  List.mem_of_mem_eraseIdx h

theorem intersectionsInner_subset (vs : List Vertex) (i fuel j : Nat) (es : List Edge) :
    ∀ e ∈ intersectionsInner vs i fuel j es, e ∈ es := by
  induction fuel generalizing j es with
  | zero => intro e he; exact he
  | succ fuel ih =>
    intro e he
    unfold intersectionsInner at he
    split at he
    · simp only [] at he
      split at he
      · exact ih _ _ e he
      · split at he
        · exact spliceEdge_subset _ _ _ (ih _ _ e he)
        · exact ih _ _ e he
    · exact he

theorem intersectionsOuter_subset (vs : List Vertex) (fuel i : Nat) (es : List Edge) :
    ∀ e ∈ intersectionsOuter vs fuel i es, e ∈ es := by
  induction fuel generalizing i es with
  | zero => intro e he; exact he
  | succ fuel ih =>
    intro e he
    unfold intersectionsOuter at he
    split at he
    · exact intersectionsInner_subset _ _ _ _ _ e (ih _ _ e he)
    · exact he

/-- Crossing resolution only deletes edges. -/
theorem handleEdgeIntersections_subset (vs : List Vertex) (es : List Edge) :
    ∀ e ∈ handleEdgeIntersections vs es, e ∈ es :=
  intersectionsOuter_subset vs es.length 0 es

theorem parallelogram_opposite_first (a b c d : Point) (h : Parallelogram a b c d) :
    ¬ (crossProduct a b c * crossProduct a b d < 0) := by
  obtain ⟨hx, hy⟩ := h
  have heq : crossProduct a b c = crossProduct a b d := by
    unfold crossProduct
    have hcx : c.x = d.x + (b.x - a.x) := by linarith
    have hcy : c.y = d.y + (b.y - a.y) := by linarith
    rw [hcx, hcy]
    ring
  rw [heq]
  exact not_lt.mpr (mul_self_nonneg _)

theorem parallelogram_opposite_second (a b c d : Point) (h : Parallelogram a b c d) :
    ¬ (crossProduct b c d * crossProduct b c a < 0) := by
  obtain ⟨hx, hy⟩ := h
  have heq : crossProduct b c d = crossProduct b c a := by
    unfold crossProduct
    have hcx : d.x = a.x + (c.x - b.x) := by linarith
    have hcy : d.y = a.y + (c.y - b.y) := by linarith
    rw [hcx, hcy]
    ring
  rw [heq]
  exact not_lt.mpr (mul_self_nonneg _)

/-- Opposite sides `(i0, i1)` and `(i2, i3)` of a parallelogram do not cross. -/
theorem doEdgesCross_parallelogram_first (vs : List Vertex) (i0 i1 i2 i3 : Nat)
    (h : Parallelogram (vtx vs i0) (vtx vs i1) (vtx vs i2) (vtx vs i3)) :
    doEdgesCross vs i0 i1 i2 i3 = false := by
  unfold doEdgesCross
  split
  · rfl
  · simp only [Bool.and_eq_false_iff, decide_eq_false_iff_not]
    exact Or.inl (parallelogram_opposite_first _ _ _ _ h)

/-- Opposite sides `(i1, i2)` and `(i3, i0)` of a parallelogram do not cross. -/
theorem doEdgesCross_parallelogram_second (vs : List Vertex) (i0 i1 i2 i3 : Nat)
    (h : Parallelogram (vtx vs i0) (vtx vs i1) (vtx vs i2) (vtx vs i3)) :
    doEdgesCross vs i1 i2 i3 i0 = false := by
  unfold doEdgesCross
  split
  · rfl
  · simp only [Bool.and_eq_false_iff, decide_eq_false_iff_not]
    exact Or.inl (parallelogram_opposite_second _ _ _ _ h)

theorem doEdgesCross_shared_aa (vs : List Vertex) (a b d : Nat) :
    doEdgesCross vs a b a d = false := by
  simp [doEdgesCross]

theorem doEdgesCross_shared_ab (vs : List Vertex) (a b c : Nat) :
    doEdgesCross vs a b c a = false := by
  simp [doEdgesCross]

theorem doEdgesCross_shared_ba (vs : List Vertex) (a b d : Nat) :
    doEdgesCross vs a b b d = false := by
  simp [doEdgesCross]

theorem doEdgesCross_shared_bb (vs : List Vertex) (a b c : Nat) :
    doEdgesCross vs a b c b = false := by
  simp [doEdgesCross]

/-- The eight constraint edges are crossing-free when the boundary and the obstacle are
parallelograms and no obstacle edge crosses a boundary edge. -/
theorem constraintEdges_noCross (vs : List Vertex)
    (hb : Parallelogram (vtx vs 0) (vtx vs 1) (vtx vs 2) (vtx vs 3))
    (ho : Parallelogram (vtx vs 16) (vtx vs 17) (vtx vs 18) (vtx vs 19))
    (hc : obstacleClearOfBoundary vs) : NoCross vs (constraintEdgesAt obstacleStartIndex) := by
  have b1 : doEdgesCross vs 0 1 2 3 = false := doEdgesCross_parallelogram_first vs 0 1 2 3 hb
  have b2 : doEdgesCross vs 1 2 3 0 = false := doEdgesCross_parallelogram_second vs 0 1 2 3 hb
  have b3 : doEdgesCross vs 2 3 0 1 = false := by rw [doEdgesCross_symm]; exact b1
  have b4 : doEdgesCross vs 3 0 1 2 = false := by rw [doEdgesCross_symm]; exact b2
  have o1 : doEdgesCross vs 16 17 18 19 = false :=
    doEdgesCross_parallelogram_first vs 16 17 18 19 ho
  have o2 : doEdgesCross vs 17 18 19 16 = false :=
    doEdgesCross_parallelogram_second vs 16 17 18 19 ho
  have o3 : doEdgesCross vs 18 19 16 17 = false := by rw [doEdgesCross_symm]; exact o1
  have o4 : doEdgesCross vs 19 16 17 18 = false := by rw [doEdgesCross_symm]; exact o2
  have c00 : doEdgesCross vs 16 17 0 1 = false := by
    simpa [obstacleStartIndex, BBOX_POINT_COUNT, INNER_POINT_COUNT] using hc 0 (by omega) 0 (by omega)
  have d00 : doEdgesCross vs 0 1 16 17 = false := by
    rw [doEdgesCross_symm]; exact c00
  have c01 : doEdgesCross vs 16 17 1 2 = false := by
    simpa [obstacleStartIndex, BBOX_POINT_COUNT, INNER_POINT_COUNT] using hc 0 (by omega) 1 (by omega)
  have d01 : doEdgesCross vs 1 2 16 17 = false := by
    rw [doEdgesCross_symm]; exact c01
  have c02 : doEdgesCross vs 16 17 2 3 = false := by
    simpa [obstacleStartIndex, BBOX_POINT_COUNT, INNER_POINT_COUNT] using hc 0 (by omega) 2 (by omega)
  have d02 : doEdgesCross vs 2 3 16 17 = false := by
    rw [doEdgesCross_symm]; exact c02
  have c03 : doEdgesCross vs 16 17 3 0 = false := by
    simpa [obstacleStartIndex, BBOX_POINT_COUNT, INNER_POINT_COUNT] using hc 0 (by omega) 3 (by omega)
  have d03 : doEdgesCross vs 3 0 16 17 = false := by
    rw [doEdgesCross_symm]; exact c03
  have c10 : doEdgesCross vs 17 18 0 1 = false := by
    simpa [obstacleStartIndex, BBOX_POINT_COUNT, INNER_POINT_COUNT] using hc 1 (by omega) 0 (by omega)
  have d10 : doEdgesCross vs 0 1 17 18 = false := by
    rw [doEdgesCross_symm]; exact c10
  have c11 : doEdgesCross vs 17 18 1 2 = false := by
    simpa [obstacleStartIndex, BBOX_POINT_COUNT, INNER_POINT_COUNT] using hc 1 (by omega) 1 (by omega)
  have d11 : doEdgesCross vs 1 2 17 18 = false := by
    rw [doEdgesCross_symm]; exact c11
  have c12 : doEdgesCross vs 17 18 2 3 = false := by
    simpa [obstacleStartIndex, BBOX_POINT_COUNT, INNER_POINT_COUNT] using hc 1 (by omega) 2 (by omega)
  have d12 : doEdgesCross vs 2 3 17 18 = false := by
    rw [doEdgesCross_symm]; exact c12
  have c13 : doEdgesCross vs 17 18 3 0 = false := by
    simpa [obstacleStartIndex, BBOX_POINT_COUNT, INNER_POINT_COUNT] using hc 1 (by omega) 3 (by omega)
  have d13 : doEdgesCross vs 3 0 17 18 = false := by
    rw [doEdgesCross_symm]; exact c13
  have c20 : doEdgesCross vs 18 19 0 1 = false := by
    simpa [obstacleStartIndex, BBOX_POINT_COUNT, INNER_POINT_COUNT] using hc 2 (by omega) 0 (by omega)
  have d20 : doEdgesCross vs 0 1 18 19 = false := by
    rw [doEdgesCross_symm]; exact c20
  have c21 : doEdgesCross vs 18 19 1 2 = false := by
    simpa [obstacleStartIndex, BBOX_POINT_COUNT, INNER_POINT_COUNT] using hc 2 (by omega) 1 (by omega)
  have d21 : doEdgesCross vs 1 2 18 19 = false := by
    rw [doEdgesCross_symm]; exact c21
  have c22 : doEdgesCross vs 18 19 2 3 = false := by
    simpa [obstacleStartIndex, BBOX_POINT_COUNT, INNER_POINT_COUNT] using hc 2 (by omega) 2 (by omega)
  have d22 : doEdgesCross vs 2 3 18 19 = false := by
    rw [doEdgesCross_symm]; exact c22
  have c23 : doEdgesCross vs 18 19 3 0 = false := by
    simpa [obstacleStartIndex, BBOX_POINT_COUNT, INNER_POINT_COUNT] using hc 2 (by omega) 3 (by omega)
  have d23 : doEdgesCross vs 3 0 18 19 = false := by
    rw [doEdgesCross_symm]; exact c23
  have c30 : doEdgesCross vs 19 16 0 1 = false := by
    simpa [obstacleStartIndex, BBOX_POINT_COUNT, INNER_POINT_COUNT] using hc 3 (by omega) 0 (by omega)
  have d30 : doEdgesCross vs 0 1 19 16 = false := by
    rw [doEdgesCross_symm]; exact c30
  have c31 : doEdgesCross vs 19 16 1 2 = false := by
    simpa [obstacleStartIndex, BBOX_POINT_COUNT, INNER_POINT_COUNT] using hc 3 (by omega) 1 (by omega)
  have d31 : doEdgesCross vs 1 2 19 16 = false := by
    rw [doEdgesCross_symm]; exact c31
  have c32 : doEdgesCross vs 19 16 2 3 = false := by
    simpa [obstacleStartIndex, BBOX_POINT_COUNT, INNER_POINT_COUNT] using hc 3 (by omega) 2 (by omega)
  have d32 : doEdgesCross vs 2 3 19 16 = false := by
    rw [doEdgesCross_symm]; exact c32
  have c33 : doEdgesCross vs 19 16 3 0 = false := by
    simpa [obstacleStartIndex, BBOX_POINT_COUNT, INNER_POINT_COUNT] using hc 3 (by omega) 3 (by omega)
  have d33 : doEdgesCross vs 3 0 19 16 = false := by
    rw [doEdgesCross_symm]; exact c33
  intro e he f hf
  simp only [constraintEdgesAt, obstacleStartIndex, BBOX_POINT_COUNT, INNER_POINT_COUNT,
    Nat.reduceAdd, List.mem_cons, List.mem_singleton, List.not_mem_nil, or_false] at he hf
  rcases he with rfl | rfl | rfl | rfl | rfl | rfl | rfl | rfl <;>
    rcases hf with rfl | rfl | rfl | rfl | rfl | rfl | rfl | rfl <;>
    simp only [b1, b2, b3, b4, o1, o2, o3, o4, c00, d00, c01, d01, c02, d02, c03, d03, c10, d10, c11, d11, c12, d12, c13, d13, c20, d20, c21, d21, c22, d22, c23, d23, c30, d30, c31, d31, c32, d32, c33, d33,
      doEdgesCross_shared_aa, doEdgesCross_shared_ab, doEdgesCross_shared_ba,
      doEdgesCross_shared_bb]

theorem isFixed_set (vs : List Vertex) (i j : Nat) (v : Vertex) :
    isFixed (vs.set i v) j = if i = j ∧ i < vs.length then v.fixed else isFixed vs j := by
  unfold isFixed
  rw [List.getD_eq_getElem?_getD, List.getD_eq_getElem?_getD, List.getElem?_set]
  by_cases hij : i = j
  · subst hij
    by_cases hlt : i < vs.length
    · simp [hlt]
    · have : vs[i]? = none := List.getElem?_eq_none (by omega)
      simp [hlt, this]
  · simp [hij]

theorem vtx_moveVertexTo_ne (vs : List Vertex) (i j : Nat) (x y : ℚ) (h : i ≠ j) :
    vtx (moveVertexTo vs i x y) j = vtx vs j := by
  unfold moveVertexTo
  rw [vtx_set]
  simp [h]

theorem isFixed_moveVertexTo_ne (vs : List Vertex) (i j : Nat) (x y : ℚ) (h : i ≠ j) :
    isFixed (moveVertexTo vs i x y) j = isFixed vs j := by
  unfold moveVertexTo
  rw [isFixed_set]
  simp [h]

theorem length_moveVertexTo (vs : List Vertex) (i : Nat) (x y : ℚ) :
    (moveVertexTo vs i x y).length = vs.length := by
  simp [moveVertexTo]

theorem length_setObstacleVertices (vs : List Vertex) (q : Quad) :
    (setObstacleVertices vs q).length = vs.length := by
  simp [setObstacleVertices]

theorem vtx_setObstacleVertices_lt (vs : List Vertex) (q : Quad) (j : Nat) (h : j < 16) :
    vtx (setObstacleVertices vs q) j = vtx vs j := by
  unfold setObstacleVertices obstacleStartIndex BBOX_POINT_COUNT INNER_POINT_COUNT
  rw [vtx_set, vtx_set, vtx_set, vtx_set]
  have h1 : ¬ (4 + 12 + 3 = j) := by omega
  have h2 : ¬ (4 + 12 + 2 = j) := by omega
  have h3 : ¬ (4 + 12 + 1 = j) := by omega
  have h4 : ¬ (4 + 12 = j) := by omega
  simp [h1, h2, h3, h4]

theorem isFixed_setObstacleVertices_lt (vs : List Vertex) (q : Quad) (j : Nat) (h : j < 16) :
    isFixed (setObstacleVertices vs q) j = isFixed vs j := by
  unfold setObstacleVertices obstacleStartIndex BBOX_POINT_COUNT INNER_POINT_COUNT
  rw [isFixed_set, isFixed_set, isFixed_set, isFixed_set]
  have h1 : ¬ (4 + 12 + 3 = j) := by omega
  have h2 : ¬ (4 + 12 + 2 = j) := by omega
  have h3 : ¬ (4 + 12 + 1 = j) := by omega
  have h4 : ¬ (4 + 12 = j) := by omega
  simp [h1, h2, h3, h4]

theorem vtx_setObstacleVertices_obstacle (vs : List Vertex) (q : Quad) (h : vs.length = 20) :
    vtx (setObstacleVertices vs q) 16 = q.p0 ∧ vtx (setObstacleVertices vs q) 17 = q.p1 ∧
    vtx (setObstacleVertices vs q) 18 = q.p2 ∧ vtx (setObstacleVertices vs q) 19 = q.p3 := by
  unfold setObstacleVertices obstacleStartIndex BBOX_POINT_COUNT INNER_POINT_COUNT
  refine ⟨?_, ?_, ?_, ?_⟩ <;>
    (rw [vtx_set, vtx_set, vtx_set, vtx_set]; simp [h])

theorem parallelogram_scale (a b c d : Point) (ox oy k : ℚ) (h : Parallelogram a b c d) :
    Parallelogram
      { x := ox + (a.x - ox) * k, y := oy + (a.y - oy) * k }
      { x := ox + (b.x - ox) * k, y := oy + (b.y - oy) * k }
      { x := ox + (c.x - ox) * k, y := oy + (c.y - oy) * k }
      { x := ox + (d.x - ox) * k, y := oy + (d.y - oy) * k } := by
  obtain ⟨hx, hy⟩ := h
  constructor
  · show ox + (b.x - ox) * k - (ox + (a.x - ox) * k) = ox + (c.x - ox) * k - (ox + (d.x - ox) * k)
    linear_combination k * hx
  · show oy + (b.y - oy) * k - (oy + (a.y - oy) * k) = oy + (c.y - oy) * k - (oy + (d.y - oy) * k)
    linear_combination k * hy

theorem parallelogram_rotate (a b c d : Point) (ox oy cs sn : ℚ) (h : Parallelogram a b c d) :
    Parallelogram
      { x := ox + (a.x - ox) * cs - (a.y - oy) * sn, y := oy + (a.x - ox) * sn + (a.y - oy) * cs }
      { x := ox + (b.x - ox) * cs - (b.y - oy) * sn, y := oy + (b.x - ox) * sn + (b.y - oy) * cs }
      { x := ox + (c.x - ox) * cs - (c.y - oy) * sn, y := oy + (c.x - ox) * sn + (c.y - oy) * cs }
      { x := ox + (d.x - ox) * cs - (d.y - oy) * sn, y := oy + (d.x - ox) * sn + (d.y - oy) * cs } := by
  obtain ⟨hx, hy⟩ := h
  constructor
  · show ox + (b.x - ox) * cs - (b.y - oy) * sn - (ox + (a.x - ox) * cs - (a.y - oy) * sn)
      = ox + (c.x - ox) * cs - (c.y - oy) * sn - (ox + (d.x - ox) * cs - (d.y - oy) * sn)
    linear_combination cs * hx - sn * hy
  · show oy + (b.x - ox) * sn + (b.y - oy) * cs - (oy + (a.x - ox) * sn + (a.y - oy) * cs)
      = oy + (c.x - ox) * sn + (c.y - oy) * cs - (oy + (d.x - ox) * sn + (d.y - oy) * cs)
    linear_combination sn * hx + cs * hy

/-- Regenerating the edges from the current vertices re-establishes the invariant. -/
theorem invCore_regenerate (vs : List Vertex) (ob : Option Obstacle) (sel : Option Nat)
    (hlen : vs.length = 20) (hfixed : ∀ i, i < 4 → isFixed vs i = true)
    (hb : Parallelogram (vtx vs 0) (vtx vs 1) (vtx vs 2) (vtx vs 3))
    (ho : Parallelogram (vtx vs 16) (vtx vs 17) (vtx vs 18) (vtx vs 19))
    (hq : ∀ o, ob = some o → Parallelogram o.points.p0 o.points.p1 o.points.p2 o.points.p3)
    (hsel : ∀ v, sel = some v → 4 ≤ v ∧ v < 16) :
    InvCore vs (generateInitialEdges vs (constraintEdgesAt obstacleStartIndex)) ob sel :=
  { len := hlen, fixed := hfixed, bpar := hb, opar := ho, qpar := hq, selected := hsel,
    nocross := fun hc => generateInitialEdges_noCross vs _ (constraintEdges_noCross vs hb ho hc) }

theorem InvCore.edges_of {vs : List Vertex} {es es' : List Edge} {ob : Option Obstacle}
    {sel : Option Nat} (h : InvCore vs es ob sel) (he : NoCross vs es → NoCross vs es') :
    InvCore vs es' ob sel :=
  { len := h.len, fixed := h.fixed, bpar := h.bpar, opar := h.opar, qpar := h.qpar,
    selected := h.selected, nocross := fun hc => he (h.nocross hc) }

theorem InvCore.select {vs : List Vertex} {es : List Edge} {ob : Option Obstacle}
    {sel : Option Nat} (h : InvCore vs es ob sel) (sel' : Option Nat)
    (hs : ∀ v, sel' = some v → 4 ≤ v ∧ v < 16) : InvCore vs es ob sel' :=
  { len := h.len, fixed := h.fixed, bpar := h.bpar, opar := h.opar, qpar := h.qpar,
    selected := hs, nocross := h.nocross }

theorem inv_handleMouseDown (s : State) (x y : ℚ) (h : Inv s) : Inv (handleMouseDown s x y) := by
  unfold handleMouseDown
  cases hm : s.interactionMode with
  | movePoint =>
    simp only []
    cases hc : findClosestVertex s.vertices x y 15 with
    | none => exact h
    | some c =>
      simp only []
      split
      · next hcond =>
        refine InvCore.select h _ ?_
        intro v hv
        simp only [Option.some.injEq] at hv
        subst hv
        refine ⟨?_, hcond.1⟩
        by_contra hlt
        have := h.fixed c (by omega)
        rw [hcond.2] at this
        exact absurd this (by simp)
      · split
        · exact h
        · exact h
  | movePerson =>
    simp only []
    cases findClosestPerson s.people x y 10 with
    | none => exact h
    | some i => exact h
  | removeEdge =>
    simp only []
    cases findClosestEdge s.vertices s.edges x y 10 with
    | none => exact h
    | some e =>
      simp only []
      split
      · exact h
      · split
        · exact InvCore.edges_of h (fun hn => (hn.eraseIdx _).sorted)
        · exact h
  | addEdge =>
    simp only []
    cases findClosestVertex s.vertices x y 15 with
    | none => exact h
    | some b =>
      simp only []
      cases s.firstVertexForEdge with
      | none => exact h
      | some a =>
        simp only []
        split
        · exact h
        split
        · exact h
        split
        · exact h
        split
        · exact h
        · next _ _ _ hany =>
          refine InvCore.edges_of h (fun hn => (hn.append_one a b ?_).sorted)
          intro f hf
          have := hany
          rw [Bool.not_eq_true, List.any_eq_false] at this
          simpa using this f hf
  | select =>
    simp only []
    cases findClosestVertex s.vertices x y 15 with
    | some v => exact h
    | none =>
      simp only []
      cases findClosestPerson s.people x y 10 with
      | some i => exact h
      | none =>
        simp only []
        cases findClosestEdge s.vertices s.edges x y 10 with
        | some e => exact h
        | none =>
          simp only []
          split
          · exact h
          · exact h

theorem inv_recompute (s : State) (hlen : s.vertices.length = 20)
    (hfixed : ∀ i, i < 4 → isFixed s.vertices i = true)
    (hb : Parallelogram (vtx s.vertices 0) (vtx s.vertices 1) (vtx s.vertices 2) (vtx s.vertices 3))
    (ho : Parallelogram (vtx s.vertices 16) (vtx s.vertices 17) (vtx s.vertices 18)
      (vtx s.vertices 19))
    (hq : ∀ o, s.obstacle = some o →
      Parallelogram o.points.p0 o.points.p1 o.points.p2 o.points.p3)
    (hsel : ∀ v, s.selectedVertex = some v → 4 ≤ v ∧ v < 16) :
    Inv (recomputeEdgesAndTriangulate s) := by
  have key0 := invCore_regenerate s.vertices s.obstacle s.selectedVertex hlen hfixed hb ho hq hsel
  have key : InvCore s.vertices
      (edgesAfterTriangulate
        (generateInitialEdges s.vertices (constraintEdgesAt obstacleStartIndex)))
      s.obstacle s.selectedVertex :=
    { len := key0.len, fixed := key0.fixed, bpar := key0.bpar, opar := key0.opar,
      qpar := key0.qpar, selected := key0.selected,
      nocross := fun hc => NoCross.sorted (key0.nocross hc) }
  unfold Inv recomputeEdgesAndTriangulate
  dsimp only
  exact key

theorem inv_handleMouseMove (s : State) (x y : ℚ) (h : Inv s) : Inv (handleMouseMove s x y) := by
  unfold handleMouseMove
  split
  · exact h
  cases hsel : s.selectedVertex with
  | none =>
    simp only []
    cases s.selectedPerson with
    | none => exact h
    | some p => exact InvCore.select h none (fun v hv => absurd hv (by simp))
  | some sel =>
    simp only []
    split
    · exact h
    · obtain ⟨h4, h16⟩ := h.selected sel hsel
      apply inv_recompute
      · show (moveVertexTo s.vertices sel x y).length = 20
        rw [length_moveVertexTo]; exact h.len
      · intro i hi
        show isFixed (moveVertexTo s.vertices sel x y) i = true
        rw [isFixed_moveVertexTo_ne _ _ _ _ _ (by omega)]
        exact h.fixed i hi
      · show Parallelogram (vtx (moveVertexTo s.vertices sel x y) 0) _ _ _
        rw [vtx_moveVertexTo_ne _ _ 0 _ _ (by omega), vtx_moveVertexTo_ne _ _ 1 _ _ (by omega),
          vtx_moveVertexTo_ne _ _ 2 _ _ (by omega), vtx_moveVertexTo_ne _ _ 3 _ _ (by omega)]
        exact h.bpar
      · show Parallelogram (vtx (moveVertexTo s.vertices sel x y) 16) _ _ _
        rw [vtx_moveVertexTo_ne _ _ 16 _ _ (by omega), vtx_moveVertexTo_ne _ _ 17 _ _ (by omega),
          vtx_moveVertexTo_ne _ _ 18 _ _ (by omega), vtx_moveVertexTo_ne _ _ 19 _ _ (by omega)]
        exact h.opar
      · exact h.qpar
      · intro v hv
        exact h.selected v (hsel ▸ hv)

theorem inv_handleMouseUp (s : State) (h : Inv s) : Inv (handleMouseUp s) := by
  unfold handleMouseUp
  simp only []
  split
  · exact InvCore.edges_of (InvCore.select h none (fun v hv => absurd hv (by simp)))
      (fun hn => hn.sorted)
  · exact InvCore.select h none (fun v hv => absurd hv (by simp))

theorem inv_addPerson (s : State) (cv : Canvas) (r : ℚ × ℚ) (h : Inv s) :
    Inv (addPerson s cv r) :=
  InvCore.edges_of h (fun hn => hn.sorted)

theorem inv_removePerson (s : State) (h : Inv s) : Inv (removePerson s) := by
  unfold removePerson
  split
  · exact InvCore.edges_of h (fun hn => hn.sorted)
  · exact h

theorem length_twelve_cases (l : List (ℚ × ℚ)) (h : l.length = 12) :
    ∃ a1 a2 a3 a4 a5 a6 a7 a8 a9 a10 a11 a12, l = [a1, a2, a3, a4, a5, a6, a7, a8, a9, a10, a11, a12] := by
  rcases l with _ | ⟨a1, _ | ⟨a2, _ | ⟨a3, _ | ⟨a4, _ | ⟨a5, _ | ⟨a6, _ | ⟨a7, _ | ⟨a8, _ | ⟨a9, _ | ⟨a10, _ | ⟨a11, _ | ⟨a12, _ | ⟨x13, rest⟩⟩⟩⟩⟩⟩⟩⟩⟩⟩⟩⟩⟩ <;>
    simp only [List.length_cons, List.length_nil] at h <;>
    first
      | omega
      | exact ⟨_, _, _, _, _, _, _, _, _, _, _, _, rfl⟩

theorem initSimulation_invCore (cv : Canvas) (inner : List (ℚ × ℚ)) (sel : Option Nat)
    (hlen : inner.length = INNER_POINT_COUNT) (hsel : ∀ v, sel = some v → 4 ≤ v ∧ v < 16) :
    InvCore (initVertices cv inner) (edgesAfterTriangulate (initEdges cv inner))
      (some (initObstacle cv)) sel := by
  obtain ⟨a1, a2, a3, a4, a5, a6, a7, a8, a9, a10, a11, a12, rfl⟩ := length_twelve_cases inner hlen
  have hpar : Parallelogram (initObstacle cv).points.p0 (initObstacle cv).points.p1
      (initObstacle cv).points.p2 (initObstacle cv).points.p3 := by
    constructor <;> simp [initObstacle]
  have key0 := invCore_regenerate
    (initVertices cv [a1, a2, a3, a4, a5, a6, a7, a8, a9, a10, a11, a12])
    (some (initObstacle cv)) sel rfl
    (by
      intro i hi
      rcases i with _ | _ | _ | _ | i
      · rfl
      · rfl
      · rfl
      · rfl
      · omega)
    (by constructor <;> simp [initVertices, initCorners, vtx])
    hpar
    (by
      intro o ho
      simp only [Option.some.injEq] at ho
      subst ho
      exact hpar)
    hsel
  exact
    { len := key0.len, fixed := key0.fixed, bpar := key0.bpar, opar := key0.opar,
      qpar := key0.qpar, selected := key0.selected,
      nocross := fun hc => NoCross.sorted (key0.nocross hc) }

theorem inv_initSimulation (s : State) (cv : Canvas) (inner people : List (ℚ × ℚ))
    (hacc : initAccepted cv inner people) (hsel : ∀ v, s.selectedVertex = some v → 4 ≤ v ∧ v < 16) :
    Inv (initSimulation s cv inner people) := by
  have key := initSimulation_invCore cv inner s.selectedVertex hacc.1 hsel
  unfold Inv initSimulation
  dsimp only
  exact key

theorem inv_afterObstacleTransform (s : State) (hlen : s.vertices.length = 20)
    (hfixed : ∀ i, i < 4 → isFixed s.vertices i = true)
    (hb : Parallelogram (vtx s.vertices 0) (vtx s.vertices 1) (vtx s.vertices 2) (vtx s.vertices 3))
    (ho : Parallelogram (vtx s.vertices 16) (vtx s.vertices 17) (vtx s.vertices 18)
      (vtx s.vertices 19))
    (hq : ∀ o, s.obstacle = some o →
      Parallelogram o.points.p0 o.points.p1 o.points.p2 o.points.p3)
    (hsel : ∀ v, s.selectedVertex = some v → 4 ≤ v ∧ v < 16) :
    InvCore (afterObstacleTransform s).1.vertices (afterObstacleTransform s).1.edges
      (afterObstacleTransform s).1.obstacle (afterObstacleTransform s).1.selectedVertex := by
  have key0 := invCore_regenerate s.vertices s.obstacle s.selectedVertex hlen hfixed hb ho hq hsel
  have key : InvCore s.vertices
      (edgesAfterTriangulate (handleEdgeIntersections s.vertices
        (edgesAfterTriangulate
          (generateInitialEdges s.vertices (constraintEdgesAt obstacleStartIndex)))))
      s.obstacle s.selectedVertex :=
    { len := key0.len, fixed := key0.fixed, bpar := key0.bpar, opar := key0.opar,
      qpar := key0.qpar, selected := key0.selected,
      nocross := fun hc => NoCross.sorted
        (NoCross.subset (NoCross.sorted (key0.nocross hc))
          (handleEdgeIntersections_subset s.vertices _)) }
  unfold afterObstacleTransform recomputeEdgesAndTriangulate
  dsimp only
  exact key

/-- The structural facts after `obstacle.points` and the four obstacle vertices are
replaced by a parallelogram `q`. -/
theorem inv_transform (s : State) (o : Obstacle) (q : Quad) (h : Inv s)
    (hq : Parallelogram q.p0 q.p1 q.p2 q.p3) :
    Inv (afterObstacleTransform (withObstaclePoints s o q)).1 := by
  have hv : (withObstaclePoints s o q).vertices = setObstacleVertices s.vertices q := rfl
  apply inv_afterObstacleTransform
  · rw [hv, length_setObstacleVertices]; exact h.len
  · intro i hi
    rw [hv, isFixed_setObstacleVertices_lt _ _ _ (by omega)]
    exact h.fixed i hi
  · rw [hv, vtx_setObstacleVertices_lt _ _ 0 (by omega),
      vtx_setObstacleVertices_lt _ _ 1 (by omega),
      vtx_setObstacleVertices_lt _ _ 2 (by omega), vtx_setObstacleVertices_lt _ _ 3 (by omega)]
    exact h.bpar
  · obtain ⟨h0, h1, h2, h3⟩ := vtx_setObstacleVertices_obstacle s.vertices q h.len
    rw [hv, h0, h1, h2, h3]
    exact hq
  · intro o' ho'
    have : o' = { o with points := q } := by
      have h1 : some { o with points := q } = some o' := ho'
      exact (Option.some.inj h1).symm
    subst this
    exact hq
  · exact h.selected

theorem scaleObstacle_rejected (s : State) (d : ℚ)
    (hc : s.currentScaleFactor + d > MAX_SCALE_FACTOR ∨
      s.currentScaleFactor + d < MIN_SCALE_FACTOR) : scaleObstacle s d = s := by
  unfold scaleObstacle
  simp only [hc, if_true]

theorem scaleObstacle_none (s : State) (d : ℚ) (ho : s.obstacle = none) :
    scaleObstacle s d = s := by
  unfold scaleObstacle
  simp only [ho, ite_self]

theorem scaleObstacle_accepted (s : State) (d : ℚ) (o : Obstacle)
    (hc : ¬ (s.currentScaleFactor + d > MAX_SCALE_FACTOR ∨
      s.currentScaleFactor + d < MIN_SCALE_FACTOR)) (ho : s.obstacle = some o) :
    scaleObstacle s d =
      { (afterObstacleTransform (withObstaclePoints s o
          (scaledPoints o ((s.currentScaleFactor + d) / s.currentScaleFactor)))).1 with
        currentScaleFactor := s.currentScaleFactor + d,
        selectionInfo := scaleMessage (s.currentScaleFactor + d)
          (afterObstacleTransform (withObstaclePoints s o
            (scaledPoints o ((s.currentScaleFactor + d) / s.currentScaleFactor)))).2 } := by
  unfold scaleObstacle
  simp only [hc, ho, if_false]

theorem rotateObstacle_none (s : State) (ho : s.obstacle = none) : rotateObstacle s = s := by
  unfold rotateObstacle
  simp only [ho]

theorem rotateObstacle_some (s : State) (o : Obstacle) (ho : s.obstacle = some o) :
    rotateObstacle s =
      { (afterObstacleTransform (withObstaclePoints s o (rotatedPoints o))).1 with
        selectionInfo := rotateMessage
          (afterObstacleTransform (withObstaclePoints s o (rotatedPoints o))).2 } := by
  unfold rotateObstacle
  simp only [ho]

theorem inv_set_scale_info (r : State) (c : ℚ) (m : String) (h : Inv r) :
    Inv { r with currentScaleFactor := c, selectionInfo := m } := h

theorem inv_set_info (r : State) (m : String) (h : Inv r) :
    Inv { r with selectionInfo := m } := h

theorem inv_scaleObstacle (s : State) (factorChange : ℚ) (h : Inv s) :
    Inv (scaleObstacle s factorChange) := by
  by_cases hc : s.currentScaleFactor + factorChange > MAX_SCALE_FACTOR ∨
      s.currentScaleFactor + factorChange < MIN_SCALE_FACTOR
  · rw [scaleObstacle_rejected s _ hc]; exact h
  cases ho : s.obstacle with
  | none => rw [scaleObstacle_none s _ ho]; exact h
  | some o =>
    rw [scaleObstacle_accepted s _ o hc ho]
    exact inv_set_scale_info _ _ _ (inv_transform s o _ h
      (parallelogram_scale _ _ _ _ o.x o.y _ (h.qpar o ho)))

theorem inv_rotateObstacle (s : State) (h : Inv s) : Inv (rotateObstacle s) := by
  cases ho : s.obstacle with
  | none => rw [rotateObstacle_none s ho]; exact h
  | some o =>
    rw [rotateObstacle_some s o ho]
    exact inv_set_info _ _ (inv_transform s o _ h
      (parallelogram_rotate _ _ _ _ o.x o.y cos15 sin15 (h.qpar o ho)))

/-- Every reachable state of the modular variant satisfies the invariant, whatever events
are allowed. -/
theorem reachable_inv (cv : Canvas) (allowed : Event → Prop) (s : State)
    (h : Reachable cv allowed s) : Inv s := by
  induction h with
  | init inner people hacc =>
    exact inv_initSimulation State.initial cv inner people hacc
      (fun v hv => absurd hv (by simp [State.initial]))
  | step s e _ _ he ih =>
    cases e with
    | mouseDown x y => exact inv_handleMouseDown s x y ih
    | mouseMove x y => exact inv_handleMouseMove s x y ih
    | mouseUp => exact inv_handleMouseUp s ih
    | setMode mode => exact ih
    | reset inner people => exact inv_initSimulation s cv inner people he ih.selected
    | addPerson r => exact inv_addPerson s cv r ih
    | removePerson => exact inv_removePerson s ih
    | scaleObstacle d => exact inv_scaleObstacle s d ih
    | rotateObstacle => exact inv_rotateObstacle s ih
    | deselect => exact ih

/-- In exact arithmetic, in every state of the modular variant reachable from
`initSimulation` by any sequence of events (add-edge, remove-edge and move-point gestures,
`scaleObstacle`, `rotateObstacle`, and the remaining handlers as well), provided the four
obstacle edges do not cross the four boundary edges, `doEdgesCross` is false on every pair
of edges of `state.edges` (pairs sharing an endpoint index included).  With the rounding of
binary64 this fails: see `scaling_leaves_crossing_edges`. -/
theorem no_crossing_invariant (cv : Canvas) (s : State) (h : Reachable cv (fun _ => True) s)
    (hclear : obstacleClearOfBoundary s.vertices) :
    ∀ e ∈ s.edges, ∀ f ∈ s.edges, doEdgesCross s.vertices e.1 e.2 f.1 f.2 = false :=
  (reachable_inv cv _ s h).nocross hclear

/-! ### The concrete initial state -/

theorem initVertices0 : initVertices cv0 inner0 = verts0 := by decide!

set_option maxRecDepth 100000 in
theorem initEdges0 : initEdges cv0 inner0 = edges0 := by
  unfold initEdges
  rw [initVertices0]
  decide!

set_option maxRecDepth 100000 in
/-- The draws `inner0` and `people0` are accepted by the loops of `initSimulation`. -/
theorem init0_accepted : initAccepted cv0 inner0 people0 := by
  unfold initAccepted
  rw [initEdges0, initVertices0]
  decide!

/-- The state `state0` is reachable, whatever events are allowed. -/
theorem state0_reachable (allowed : Event → Prop) : Reachable cv0 allowed state0 :=
  Reachable.init inner0 people0 init0_accepted

/-- The exact-arithmetic invariant on the state after one `scaleObstacle(0.1)` on the
initial layout. -/
theorem no_crossing_invariant_witness :
    Reachable cv0 (fun _ => True) state0Scaled ∧
    obstacleClearOfBoundary state0Scaled.vertices ∧
    ∀ e ∈ state0Scaled.edges, ∀ f ∈ state0Scaled.edges,
      doEdgesCross state0Scaled.vertices e.1 e.2 f.1 f.2 = false :=
  ⟨Reachable.step state0 (Event.scaleObstacle (1 / 10)) (state0_reachable _) trivial trivial,
    by decide!,
    no_crossing_invariant cv0 state0Scaled
      (Reachable.step state0 (Event.scaleObstacle (1 / 10)) (state0_reachable _) trivial trivial)
      (by decide!)⟩

/-! ## Claim C5: obstacle exclusion in the modular variant -/

/-- C5 (refuted as stated): from the initial layout on an 800 by 600 canvas, dragging
person 0 to `(400, 300)` in move-person mode puts a person strictly inside the obstacle
bounds, and one `scaleObstacle(0.1)` or one `rotateObstacle()` leaves the inner vertex
`(452, 300)` strictly inside the bounds of the transformed obstacle. -/
theorem obstacle_exclusion_fails :
    (Reachable cv0 (fun _ => True) state0Dragged ∧
      ∃ p ∈ state0Dragged.people, isPointInsideObstacle state0Dragged.obstacle p = true) ∧
    (Reachable cv0 (fun _ => True) state0Scaled ∧
      ∃ v ∈ state0Scaled.vertices,
        isPointInsideObstacle state0Scaled.obstacle v.toPoint = true) ∧
    (Reachable cv0 (fun _ => True) state0Rotated ∧
      ∃ v ∈ state0Rotated.vertices,
        isPointInsideObstacle state0Rotated.obstacle v.toPoint = true) :=
  ⟨⟨Reachable.step _ (Event.mouseMove 400 300)
      (Reachable.step _ (Event.mouseDown 128 156)
        (Reachable.step _ (Event.setMode Mode.movePerson) (state0_reachable _) trivial trivial)
        trivial trivial) trivial trivial, by decide!⟩,
    ⟨Reachable.step state0 (Event.scaleObstacle (1 / 10)) (state0_reachable _) trivial trivial,
      by decide!⟩,
    ⟨Reachable.step state0 Event.rotateObstacle (state0_reachable _) trivial trivial,
      by decide!⟩⟩

theorem handleMouseDown_frame (s : State) (x y : ℚ) :
    (handleMouseDown s x y).vertices = s.vertices ∧
    (handleMouseDown s x y).obstacle = s.obstacle ∧
    (handleMouseDown s x y).people = s.people ∧
    (handleMouseDown s x y).interactionMode = s.interactionMode ∧
    (s.interactionMode ≠ Mode.movePerson →
      (handleMouseDown s x y).selectedPerson = s.selectedPerson) := by
  unfold handleMouseDown
  cases hm : s.interactionMode with
  | movePoint =>
    dsimp only
    cases findClosestVertex s.vertices x y 15 with
    | none => simp [hm]
    | some c =>
      dsimp only
      split
      · simp [hm]
      · split <;> simp [hm]
  | movePerson =>
    dsimp only
    cases findClosestPerson s.people x y 10 with
    | none => simp [hm]
    | some i => simp [hm]
  | removeEdge =>
    dsimp only
    cases findClosestEdge s.vertices s.edges x y 10 with
    | none => simp [hm]
    | some e =>
      dsimp only
      split
      · simp [hm]
      · split <;> simp [hm]
  | addEdge =>
    dsimp only
    cases findClosestVertex s.vertices x y 15 with
    | none => simp [hm]
    | some b =>
      dsimp only
      cases s.firstVertexForEdge with
      | none => simp [hm]
      | some a =>
        dsimp only
        split
        · simp [hm]
        split
        · simp [hm]
        split
        · simp [hm]
        split
        · simp [hm]
        · simp [hm]
  | select =>
    dsimp only
    cases findClosestVertex s.vertices x y 15 with
    | some v => simp [hm]
    | none =>
      dsimp only
      cases findClosestPerson s.people x y 10 with
      | some i => simp [hm]
      | none =>
        dsimp only
        cases findClosestEdge s.vertices s.edges x y 10 with
        | some e => simp [hm]
        | none =>
          dsimp only
          split <;> simp [hm]

theorem handleMouseMove_frame (s : State) (x y : ℚ) :
    (handleMouseMove s x y).obstacle = s.obstacle ∧
    (handleMouseMove s x y).interactionMode = s.interactionMode ∧
    (handleMouseMove s x y).selectedPerson = s.selectedPerson ∧
    ((handleMouseMove s x y).vertices = s.vertices ∨
      ∃ sel, isPointInsideObstacle s.obstacle { x := x, y := y } = false ∧
        (handleMouseMove s x y).vertices = moveVertexTo s.vertices sel x y) ∧
    ((handleMouseMove s x y).people = s.people ∨
      ∃ sel, s.selectedPerson = some sel ∧
        (handleMouseMove s x y).people = movePersonTo s.people sel x y) := by
  unfold handleMouseMove
  split
  · exact ⟨rfl, rfl, rfl, Or.inl rfl, Or.inl rfl⟩
  cases s.selectedVertex with
  | none =>
    dsimp only
    cases hp : s.selectedPerson with
    | none => exact ⟨rfl, rfl, hp, Or.inl rfl, Or.inl rfl⟩
    | some p => exact ⟨rfl, rfl, rfl, Or.inl rfl, Or.inr ⟨p, rfl, rfl⟩⟩
  | some sel =>
    dsimp only
    split
    · exact ⟨rfl, rfl, rfl, Or.inl rfl, Or.inl rfl⟩
    · next hcond =>
      have hin : isPointInsideObstacle s.obstacle { x := x, y := y } = false := by
        by_contra hne
        rw [Bool.not_eq_false] at hne
        exact hcond (Or.inl hne)
      unfold recomputeEdgesAndTriangulate
      exact ⟨rfl, rfl, rfl, Or.inr ⟨sel, hin, rfl⟩, Or.inl rfl⟩

theorem afterObstacleTransform_people (s : State) :
    (afterObstacleTransform s).1.obstacle = s.obstacle ∧
    (afterObstacleTransform s).1.interactionMode = s.interactionMode ∧
    (afterObstacleTransform s).1.selectedPerson = s.selectedPerson ∧
    (afterObstacleTransform s).1.people
      = s.people.filter (fun person => !isPointInsideObstacle s.obstacle person) ∧
    (afterObstacleTransform s).2
      = s.people.length
        - (s.people.filter (fun person => !isPointInsideObstacle s.obstacle person)).length := by
  unfold afterObstacleTransform recomputeEdgesAndTriangulate
  exact ⟨rfl, rfl, rfl, rfl, rfl⟩

theorem initVertices_outside (cv : Canvas) (inner : List (ℚ × ℚ))
    (hcv : 100 ≤ rectWidth cv ∨ 70 ≤ rectHeight cv) (hin : ∀ r ∈ inner, innerAccepted cv r) :
    ∀ v ∈ initVertices cv inner,
      isPointInsideObstacle (some (initObstacle cv)) v.toPoint = false := by
  intro v hv
  unfold initVertices at hv
  rcases List.mem_append.mp hv with hv | hv
  · rcases List.mem_append.mp hv with hv | hv
    · simp only [initCorners, List.mem_cons, List.mem_singleton, List.not_mem_nil,
        or_false] at hv
      simp only [isPointInsideObstacle, initObstacle, obstacleX, obstacleY, gt_iff_lt,
        Bool.and_eq_false_iff, decide_eq_false_iff_not, not_lt]
      have h1 : min (min (min (initPadding + (rectWidth cv - 100) / 2)
          (initPadding + (rectWidth cv - 100) / 2 + 100))
          (initPadding + (rectWidth cv - 100) / 2 + 100))
          (initPadding + (rectWidth cv - 100) / 2) = initPadding + (rectWidth cv - 100) / 2 := by
        simp
      have h2 : min (min (min (initPadding + (rectHeight cv - 70) / 2)
          (initPadding + (rectHeight cv - 70) / 2))
          (initPadding + (rectHeight cv - 70) / 2 + 70))
          (initPadding + (rectHeight cv - 70) / 2 + 70) = initPadding + (rectHeight cv - 70) / 2 := by
        simp
      have h3 : max (max (max (initPadding + (rectWidth cv - 100) / 2)
          (initPadding + (rectWidth cv - 100) / 2 + 100))
          (initPadding + (rectWidth cv - 100) / 2 + 100))
          (initPadding + (rectWidth cv - 100) / 2)
          = initPadding + (rectWidth cv - 100) / 2 + 100 := by
        simp
      have h4 : max (max (max (initPadding + (rectHeight cv - 70) / 2)
          (initPadding + (rectHeight cv - 70) / 2))
          (initPadding + (rectHeight cv - 70) / 2 + 70))
          (initPadding + (rectHeight cv - 70) / 2 + 70)
          = initPadding + (rectHeight cv - 70) / 2 + 70 := by
        simp
      rw [h1, h2, h3, h4]
      rcases hv with rfl | rfl | rfl | rfl <;> dsimp only <;>
        rcases hcv with hc | hc
      · left; left; left; linarith
      · left; right; linarith
      · left; left; right; linarith
      · left; right; linarith
      · left; left; right; linarith
      · right; linarith
      · left; left; left; linarith
      · right; linarith
    · rw [List.mem_map] at hv
      obtain ⟨r, hr, rfl⟩ := hv
      exact (hin r hr).2
  · simp only [List.mem_cons, List.mem_singleton, List.not_mem_nil, or_false] at hv
    simp only [isPointInsideObstacle, initObstacle, gt_iff_lt,
      Bool.and_eq_false_iff, decide_eq_false_iff_not, not_lt]
    rcases hv with rfl | rfl | rfl | rfl <;> dsimp only
    · left; left; left; simp [initObstacle]
    · left; left; right; simp [initObstacle]
    · left; left; right; simp [initObstacle]
    · left; left; left; simp [initObstacle]

theorem mem_moveVertexTo (vs : List Vertex) (i : Nat) (x y : ℚ) (v : Vertex)
    (h : v ∈ moveVertexTo vs i x y) : v ∈ vs ∨ v.toPoint = { x := x, y := y } := by
  unfold moveVertexTo at h
  rcases List.mem_or_eq_of_mem_set h with h | h
  · exact Or.inl h
  · right; rw [h]

theorem verticesOutside_step (cv : Canvas) (s : State) (e : Event)
    (hcv : 100 ≤ rectWidth cv ∨ 70 ≤ rectHeight cv) (ha : e.isObstacleTransform = false)
    (he : e.enabled cv s) (h : VerticesOutside cv s) : VerticesOutside cv (e.apply cv s) := by
  obtain ⟨ho, hv⟩ := h
  cases e with
  | mouseDown x y =>
    obtain ⟨h1, h2, _⟩ := handleMouseDown_frame s x y
    exact ⟨h2.trans ho, by rw [show (Event.apply cv s (Event.mouseDown x y)).vertices
      = s.vertices from h1]; exact hv⟩
  | mouseMove x y =>
    obtain ⟨h1, _, _, h4, _⟩ := handleMouseMove_frame s x y
    refine ⟨h1.trans ho, ?_⟩
    intro v hvm
    rcases h4 with h4 | ⟨sel, hin, h4⟩
    · exact hv v (h4 ▸ hvm)
    · have hvm' : v ∈ moveVertexTo s.vertices sel x y := h4 ▸ hvm
      rcases mem_moveVertexTo _ _ _ _ _ hvm' with h5 | h5
      · exact hv v h5
      · rw [h5, ← ho]; exact hin
  | mouseUp =>
    refine ⟨?_, ?_⟩
    · show (handleMouseUp s).obstacle = _
      unfold handleMouseUp
      dsimp only
      split <;> exact ho
    · show ∀ v ∈ (handleMouseUp s).vertices, _
      unfold handleMouseUp
      dsimp only
      split <;> exact hv
  | setMode mode => exact ⟨ho, hv⟩
  | reset inner people =>
    exact ⟨rfl, initVertices_outside cv inner hcv he.2.2.1⟩
  | addPerson r => exact ⟨ho, hv⟩
  | removePerson =>
    refine ⟨?_, ?_⟩
    · show (removePerson s).obstacle = _
      unfold removePerson
      split <;> exact ho
    · show ∀ v ∈ (removePerson s).vertices, _
      unfold removePerson
      split <;> exact hv
  | scaleObstacle d => exact absurd ha (by simp [Event.isObstacleTransform])
  | rotateObstacle => exact absurd ha (by simp [Event.isObstacleTransform])
  | deselect => exact ⟨ho, hv⟩

theorem reachable_verticesOutside (cv : Canvas) (s : State)
    (hcv : 100 ≤ rectWidth cv ∨ 70 ≤ rectHeight cv)
    (h : Reachable cv (fun e => e.isObstacleTransform = false) s) : VerticesOutside cv s := by
  induction h with
  | init inner people hacc => exact ⟨rfl, initVertices_outside cv inner hcv hacc.2.2.1⟩
  | step s e _ ha he ih => exact verticesOutside_step cv s e hcv ha he ih

theorem peopleOutside_of_fields (s s' : State) (h : PeopleOutside s)
    (hm : s'.interactionMode = s.interactionMode) (hs : s'.selectedPerson = s.selectedPerson)
    (hp : s'.people = s.people) (ho : s'.obstacle = s.obstacle) : PeopleOutside s' := by
  unfold PeopleOutside
  rw [hm, hs, hp, ho]
  exact h

theorem peopleOutside_transform (s : State) (o : Obstacle) (q : Quad) (h : PeopleOutside s) :
    PeopleOutside (afterObstacleTransform (withObstaclePoints s o q)).1 := by
  obtain ⟨h1, h2, h3, h4, _⟩ := afterObstacleTransform_people (withObstaclePoints s o q)
  unfold PeopleOutside
  rw [h1, h2, h3, h4]
  refine ⟨h.1, h.2.1, ?_⟩
  intro p hpm
  have := (List.mem_filter.mp hpm).2
  simpa using this

theorem peopleOutside_set_scale_info (r : State) (c : ℚ) (m : String) (h : PeopleOutside r) :
    PeopleOutside { r with currentScaleFactor := c, selectionInfo := m } := h

theorem peopleOutside_set_info (r : State) (m : String) (h : PeopleOutside r) :
    PeopleOutside { r with selectionInfo := m } := h

theorem peopleOutside_step (cv : Canvas) (s : State) (e : Event)
    (ha : e.entersMovePerson = false) (he : e.enabled cv s) (h : PeopleOutside s) :
    PeopleOutside (e.apply cv s) := by
  have hm := h.1
  have hsel := h.2.1
  have hp := h.2.2
  cases e with
  | mouseDown x y =>
    obtain ⟨_, h2, h3, h4, h5⟩ := handleMouseDown_frame s x y
    exact peopleOutside_of_fields s _ h h4 (h5 hm) h3 h2
  | mouseMove x y =>
    obtain ⟨h1, h2, h3, _, h5⟩ := handleMouseMove_frame s x y
    rcases h5 with h5 | ⟨sel, hs, _⟩
    · exact peopleOutside_of_fields s _ h h2 h3 h5 h1
    · rw [hsel] at hs; exact absurd hs (by simp)
  | mouseUp =>
    show PeopleOutside (handleMouseUp s)
    unfold handleMouseUp
    dsimp only
    split
    · next hmode => exact absurd hmode hm
    · exact ⟨hm, rfl, hp⟩
  | setMode mode =>
    refine ⟨?_, hsel, hp⟩
    show mode ≠ Mode.movePerson
    intro hmode
    subst hmode
    simp [Event.entersMovePerson] at ha
  | reset inner people =>
    refine ⟨hm, hsel, ?_⟩
    intro p hpm
    have hpm' : p ∈ people.map (personOf cv) := hpm
    rw [List.mem_map] at hpm'
    obtain ⟨r, hr, rfl⟩ := hpm'
    exact (he.2.2.2 r hr).2.1
  | addPerson r =>
    refine ⟨hm, hsel, ?_⟩
    intro p hpm
    have hpm' : p ∈ s.people ++ [personOf cv r] := hpm
    rcases List.mem_append.mp hpm' with h1 | h1
    · exact hp p h1
    · rw [List.mem_singleton] at h1
      subst h1
      exact he.2.1
  | removePerson =>
    show PeopleOutside (removePerson s)
    unfold removePerson
    split
    · refine ⟨hm, hsel, ?_⟩
      intro p hpm
      exact hp p (List.mem_of_mem_dropLast hpm)
    · exact ⟨hm, hsel, hp⟩
  | scaleObstacle d =>
    show PeopleOutside (scaleObstacle s d)
    by_cases hc : s.currentScaleFactor + d > MAX_SCALE_FACTOR ∨
        s.currentScaleFactor + d < MIN_SCALE_FACTOR
    · rw [scaleObstacle_rejected s _ hc]; exact h
    cases ho : s.obstacle with
    | none => rw [scaleObstacle_none s _ ho]; exact h
    | some o =>
      rw [scaleObstacle_accepted s _ o hc ho]
      exact peopleOutside_set_scale_info _ _ _ (peopleOutside_transform s o _ h)
  | rotateObstacle =>
    show PeopleOutside (rotateObstacle s)
    cases ho : s.obstacle with
    | none => rw [rotateObstacle_none s ho]; exact h
    | some o =>
      rw [rotateObstacle_some s o ho]
      exact peopleOutside_set_info _ _ (peopleOutside_transform s o _ h)
  | deselect => exact h

theorem reachable_peopleOutside (cv : Canvas) (s : State)
    (h : Reachable cv (fun e => e.entersMovePerson = false) s) : PeopleOutside s := by
  induction h with
  | init inner people hacc =>
    refine ⟨by simp [initSimulation, State.initial], rfl, ?_⟩
    intro p hpm
    have hpm' : p ∈ people.map (personOf cv) := hpm
    rw [List.mem_map] at hpm'
    obtain ⟨r, hr, rfl⟩ := hpm'
    exact (hacc.2.2.2 r hr).2.1
  | step s e _ ha he ih => exact peopleOutside_step cv s e ha he ih

/-- C5 (amended): in the modular variant, on a canvas whose boundary rectangle is at least
as wide or as high as the 100 by 70 obstacle, no vertex position satisfies
`isPointInsideObstacle` in any state reachable from `initSimulation` without `scaleObstacle`
and `rotateObstacle`; and no person position satisfies it in any state reachable from
`initSimulation` without entering the move-person mode (add-edge, remove-edge, move-point,
`addPerson`, `removePerson`, `scaleObstacle` and `rotateObstacle` all allowed). -/
theorem obstacle_exclusion_amended (cv : Canvas) (s : State) :
    (100 ≤ rectWidth cv ∨ 70 ≤ rectHeight cv →
      Reachable cv (fun e => e.isObstacleTransform = false) s →
      ∀ v ∈ s.vertices, isPointInsideObstacle s.obstacle v.toPoint = false) ∧
    (Reachable cv (fun e => e.entersMovePerson = false) s →
      ∀ p ∈ s.people, isPointInsideObstacle s.obstacle p = false) := by
  constructor
  · intro hcv h v hv
    obtain ⟨ho, hvs⟩ := reachable_verticesOutside cv s hcv h
    rw [ho]
    exact hvs v hv
  · intro h
    exact (reachable_peopleOutside cv s h).2.2

/-- Witness for C5 (amended): the initial layout for the vertices, and the state after one
`scaleObstacle(0.1)` for the people. -/
theorem obstacle_exclusion_amended_witness :
    (100 ≤ rectWidth cv0 ∨ 70 ≤ rectHeight cv0) ∧
    Reachable cv0 (fun e => e.isObstacleTransform = false) state0 ∧
    Reachable cv0 (fun e => e.entersMovePerson = false) state0Scaled ∧
    (∀ v ∈ state0.vertices, isPointInsideObstacle state0.obstacle v.toPoint = false) ∧
    (∀ p ∈ state0Scaled.people, isPointInsideObstacle state0Scaled.obstacle p = false) :=
  ⟨by decide!, state0_reachable _,
    Reachable.step state0 (Event.scaleObstacle (1 / 10)) (state0_reachable _) rfl trivial,
    (obstacle_exclusion_amended cv0 state0).1 (by decide!) (state0_reachable _),
    (obstacle_exclusion_amended cv0 state0Scaled).2
      (Reachable.step state0 (Event.scaleObstacle (1 / 10)) (state0_reachable _) rfl trivial)⟩

/-! ## Claims C11, C13, C15: `scaleObstacle`, `rotateObstacle` and reset -/

theorem handleMouseDown_csf (s : State) (x y : ℚ) :
    (handleMouseDown s x y).currentScaleFactor = s.currentScaleFactor := by
  unfold handleMouseDown
  cases hm : s.interactionMode with
  | movePoint =>
    dsimp only
    cases findClosestVertex s.vertices x y 15 with
    | none => rfl
    | some c =>
      dsimp only
      split
      · rfl
      · split <;> rfl
  | movePerson =>
    dsimp only
    cases findClosestPerson s.people x y 10 with
    | none => rfl
    | some i => rfl
  | removeEdge =>
    dsimp only
    cases findClosestEdge s.vertices s.edges x y 10 with
    | none => rfl
    | some e =>
      dsimp only
      split
      · rfl
      · split <;> rfl
  | addEdge =>
    dsimp only
    cases findClosestVertex s.vertices x y 15 with
    | none => rfl
    | some b =>
      dsimp only
      cases s.firstVertexForEdge with
      | none => rfl
      | some a =>
        dsimp only
        split
        · rfl
        split
        · rfl
        split
        · rfl
        split
        · rfl
        · rfl
  | select =>
    dsimp only
    cases findClosestVertex s.vertices x y 15 with
    | some v => rfl
    | none =>
      dsimp only
      cases findClosestPerson s.people x y 10 with
      | some i => rfl
      | none =>
        dsimp only
        cases findClosestEdge s.vertices s.edges x y 10 with
        | some e => rfl
        | none =>
          dsimp only
          split <;> rfl

theorem handleMouseMove_csf (s : State) (x y : ℚ) :
    (handleMouseMove s x y).currentScaleFactor = s.currentScaleFactor := by
  unfold handleMouseMove
  split
  · rfl
  cases s.selectedVertex with
  | none =>
    dsimp only
    cases s.selectedPerson with
    | none => rfl
    | some p => rfl
  | some sel =>
    dsimp only
    split
    · rfl
    · unfold recomputeEdgesAndTriangulate
      rfl

theorem afterObstacleTransform_csf (s : State) :
    (afterObstacleTransform s).1.currentScaleFactor = s.currentScaleFactor := by
  unfold afterObstacleTransform recomputeEdgesAndTriangulate
  rfl

theorem set_scale_info_fields (r : State) (c : ℚ) (m : String) :
    ({ r with currentScaleFactor := c, selectionInfo := m } : State).obstacle = r.obstacle ∧
    ({ r with currentScaleFactor := c, selectionInfo := m } : State).people = r.people ∧
    ({ r with currentScaleFactor := c, selectionInfo := m } : State).vertices = r.vertices ∧
    ({ r with currentScaleFactor := c, selectionInfo := m } : State).edges = r.edges ∧
    ({ r with currentScaleFactor := c, selectionInfo := m } : State).currentScaleFactor = c ∧
    ({ r with currentScaleFactor := c, selectionInfo := m } : State).selectionInfo = m :=
  ⟨rfl, rfl, rfl, rfl, rfl, rfl⟩

theorem set_info_fields (r : State) (m : String) :
    ({ r with selectionInfo := m } : State).obstacle = r.obstacle ∧
    ({ r with selectionInfo := m } : State).people = r.people ∧
    ({ r with selectionInfo := m } : State).vertices = r.vertices ∧
    ({ r with selectionInfo := m } : State).edges = r.edges ∧
    ({ r with selectionInfo := m } : State).currentScaleFactor = r.currentScaleFactor ∧
    ({ r with selectionInfo := m } : State).selectionInfo = m :=
  ⟨rfl, rfl, rfl, rfl, rfl, rfl⟩

theorem scaleObstacle_csf_bounds (s : State) (d : ℚ)
    (h : MIN_SCALE_FACTOR ≤ s.currentScaleFactor ∧ s.currentScaleFactor ≤ MAX_SCALE_FACTOR) :
    MIN_SCALE_FACTOR ≤ (scaleObstacle s d).currentScaleFactor ∧
      (scaleObstacle s d).currentScaleFactor ≤ MAX_SCALE_FACTOR := by
  by_cases hc : s.currentScaleFactor + d > MAX_SCALE_FACTOR ∨
      s.currentScaleFactor + d < MIN_SCALE_FACTOR
  · rw [scaleObstacle_rejected s _ hc]; exact h
  cases ho : s.obstacle with
  | none => rw [scaleObstacle_none s _ ho]; exact h
  | some o =>
    rw [scaleObstacle_accepted s _ o hc ho, (set_scale_info_fields _ _ _).2.2.2.2.1]
    rw [not_or, not_lt, not_lt] at hc
    exact ⟨hc.2, hc.1⟩

theorem rotateObstacle_csf (s : State) :
    (rotateObstacle s).currentScaleFactor = s.currentScaleFactor := by
  cases ho : s.obstacle with
  | none => rw [rotateObstacle_none s ho]
  | some o =>
    rw [rotateObstacle_some s o ho, (set_info_fields _ _).2.2.2.2.1]
    exact afterObstacleTransform_csf (withObstaclePoints s o (rotatedPoints o))

theorem reachable_csf_bounds (cv : Canvas) (allowed : Event → Prop) (s : State)
    (h : Reachable cv allowed s) :
    MIN_SCALE_FACTOR ≤ s.currentScaleFactor ∧ s.currentScaleFactor ≤ MAX_SCALE_FACTOR := by
  induction h with
  | init inner people hacc =>
    show MIN_SCALE_FACTOR ≤ (1 : ℚ) ∧ (1 : ℚ) ≤ MAX_SCALE_FACTOR
    unfold MIN_SCALE_FACTOR MAX_SCALE_FACTOR
    constructor <;> norm_num
  | step s e _ _ _ ih =>
    cases e with
    | mouseDown x y =>
      show _ ≤ (handleMouseDown s x y).currentScaleFactor ∧
        (handleMouseDown s x y).currentScaleFactor ≤ _
      rw [handleMouseDown_csf]; exact ih
    | mouseMove x y =>
      show _ ≤ (handleMouseMove s x y).currentScaleFactor ∧
        (handleMouseMove s x y).currentScaleFactor ≤ _
      rw [handleMouseMove_csf]; exact ih
    | mouseUp =>
      show _ ≤ (handleMouseUp s).currentScaleFactor ∧ (handleMouseUp s).currentScaleFactor ≤ _
      unfold handleMouseUp
      dsimp only
      split <;> exact ih
    | setMode mode => exact ih
    | reset inner people => exact ih
    | addPerson r => exact ih
    | removePerson =>
      show _ ≤ (removePerson s).currentScaleFactor ∧ (removePerson s).currentScaleFactor ≤ _
      unfold removePerson
      split <;> exact ih
    | scaleObstacle d => exact scaleObstacle_csf_bounds s d ih
    | rotateObstacle =>
      show _ ≤ (rotateObstacle s).currentScaleFactor ∧ (rotateObstacle s).currentScaleFactor ≤ _
      rw [rotateObstacle_csf]; exact ih
    | deselect => exact ih

/-- C11: for every state and every `factorChange` with `currentScaleFactor + factorChange`
above `MAX_SCALE_FACTOR` or below `MIN_SCALE_FACTOR`, `scaleObstacle` returns the state
unchanged (obstacle points, vertices, edges, triangles, people and `currentScaleFactor`
included); and `currentScaleFactor` lies in `[0.5, 1.5]` in every state reachable from the
initial value 1.0. -/
theorem scaleObstacle_bound_rejection (cv : Canvas) (s : State) (factorChange : ℚ) :
    ((s.currentScaleFactor + factorChange > MAX_SCALE_FACTOR ∨
        s.currentScaleFactor + factorChange < MIN_SCALE_FACTOR) →
      scaleObstacle s factorChange = s) ∧
    (Reachable cv (fun _ => True) s →
      1 / 2 ≤ s.currentScaleFactor ∧ s.currentScaleFactor ≤ 3 / 2) :=
  ⟨scaleObstacle_rejected s factorChange, reachable_csf_bounds cv _ s⟩

/-- Witness for C11: at factor 1.1 a change of 0.5 is rejected. -/
theorem scaleObstacle_bound_rejection_witness :
    (state0Scaled.currentScaleFactor + 1 / 2 > MAX_SCALE_FACTOR ∨
      state0Scaled.currentScaleFactor + 1 / 2 < MIN_SCALE_FACTOR) ∧
    Reachable cv0 (fun _ => True) state0Scaled ∧
    scaleObstacle state0Scaled (1 / 2) = state0Scaled ∧
    (1 / 2 ≤ state0Scaled.currentScaleFactor ∧ state0Scaled.currentScaleFactor ≤ 3 / 2) :=
  ⟨by decide!,
    Reachable.step state0 (Event.scaleObstacle (1 / 10)) (state0_reachable _) trivial trivial,
    (scaleObstacle_bound_rejection cv0 state0Scaled (1 / 2)).1 (by decide!),
    (scaleObstacle_bound_rejection cv0 state0Scaled (1 / 2)).2
      (Reachable.step state0 (Event.scaleObstacle (1 / 10)) (state0_reachable _) trivial
        trivial)⟩

/-- C13: after an accepted `scaleObstacle` and after `rotateObstacle`, the obstacle carries
the new points, `state.people` is the previous list filtered, in order, by
`!isPointInsideObstacle` against the new obstacle points, and the message is built from the
count `previous length - new length`. -/
theorem people_removal_exact (s : State) (factorChange : ℚ) (o : Obstacle)
    (hacc : ¬ (s.currentScaleFactor + factorChange > MAX_SCALE_FACTOR ∨
      s.currentScaleFactor + factorChange < MIN_SCALE_FACTOR))
    (ho : s.obstacle = some o) :
    ((scaleObstacle s factorChange).obstacle = (withObstaclePoints s o (scaledPoints o
        ((s.currentScaleFactor + factorChange) / s.currentScaleFactor))).obstacle ∧
      (scaleObstacle s factorChange).people = s.people.filter
        (fun person => !isPointInsideObstacle (scaleObstacle s factorChange).obstacle person) ∧
      (scaleObstacle s factorChange).selectionInfo =
        scaleMessage (s.currentScaleFactor + factorChange)
          (s.people.length - (scaleObstacle s factorChange).people.length)) ∧
    ((rotateObstacle s).obstacle = (withObstaclePoints s o (rotatedPoints o)).obstacle ∧
      (rotateObstacle s).people = s.people.filter
        (fun person => !isPointInsideObstacle (rotateObstacle s).obstacle person) ∧
      (rotateObstacle s).selectionInfo =
        rotateMessage (s.people.length - (rotateObstacle s).people.length)) := by
  constructor
  · rw [scaleObstacle_accepted s _ o hacc ho]
    obtain ⟨h1, _, _, h4, h5⟩ := afterObstacleTransform_people
      (withObstaclePoints s o
        (scaledPoints o ((s.currentScaleFactor + factorChange) / s.currentScaleFactor)))
    obtain ⟨f1, f2, _, _, _, f6⟩ := set_scale_info_fields
      (afterObstacleTransform (withObstaclePoints s o
        (scaledPoints o ((s.currentScaleFactor + factorChange) / s.currentScaleFactor)))).1
      (s.currentScaleFactor + factorChange)
      (scaleMessage (s.currentScaleFactor + factorChange)
        (afterObstacleTransform (withObstaclePoints s o
          (scaledPoints o ((s.currentScaleFactor + factorChange) / s.currentScaleFactor)))).2)
    rw [f1, f2, f6, h1, h4, h5]
    exact ⟨rfl, rfl, rfl⟩
  · rw [rotateObstacle_some s o ho]
    obtain ⟨h1, _, _, h4, h5⟩ := afterObstacleTransform_people
      (withObstaclePoints s o (rotatedPoints o))
    obtain ⟨f1, f2, _, _, _, f6⟩ := set_info_fields
      (afterObstacleTransform (withObstaclePoints s o (rotatedPoints o))).1
      (rotateMessage (afterObstacleTransform (withObstaclePoints s o (rotatedPoints o))).2)
    rw [f1, f2, f6, h1, h4, h5]
    exact ⟨rfl, rfl, rfl⟩

/-- Witness for C13: the initial 800x600 state, scaled by 0.1 and rotated. -/
theorem people_removal_exact_witness :
    (scaleObstacle state0 (1 / 10)).people = state0.people.filter
      (fun person => !isPointInsideObstacle (scaleObstacle state0 (1 / 10)).obstacle person) ∧
    (rotateObstacle state0).people = state0.people.filter
      (fun person => !isPointInsideObstacle (rotateObstacle state0).obstacle person) :=
  ⟨(people_removal_exact state0 (1 / 10) (initObstacle cv0) (by decide!) rfl).1.2.1,
    (people_removal_exact state0 (1 / 10) (initObstacle cv0) (by decide!) rfl).2.2.1⟩

/-- C15: `initSimulation` never assigns `state.currentScaleFactor`: a reset after one
accepted `scaleObstacle(0.1)` yields the fresh 100 x 70 centred obstacle with rotation 0,
but the scale factor stays at 1.1 instead of returning to 1.0. -/
theorem reset_keeps_scale_factor :
    (∀ (s : State) (cv : Canvas) (inner people : List (ℚ × ℚ)),
      (initSimulation s cv inner people).currentScaleFactor = s.currentScaleFactor) ∧
    (initSimulation state0Scaled cv0 inner0 people0).obstacle = some (initObstacle cv0) ∧
    (initObstacle cv0).width = 100 ∧ (initObstacle cv0).height = 70 ∧
    (initObstacle cv0).rotation = 0 ∧
    (initObstacle cv0).x = cv0.width / 2 ∧ (initObstacle cv0).y = cv0.height / 2 ∧
    (initSimulation state0Scaled cv0 inner0 people0).currentScaleFactor = 11 / 10 ∧
    (initSimulation state0Scaled cv0 inner0 people0).currentScaleFactor ≠ 1 := by
  refine ⟨fun _ _ _ _ => rfl, rfl, ?_, ?_, ?_, ?_, ?_, ?_, ?_⟩ <;> decide!

/-! ## Exact arithmetic: the constraint edges survive, crossing resolution is a no-op -/

theorem getD_mem_of_lt (es : List Edge) (i : Nat) (d : Edge) (h : i < es.length) :
    es.getD i d ∈ es := by
  rw [List.getD_eq_getElem _ _ h]
  exact List.getElem_mem h

theorem intersectionsInner_id (vs : List Vertex) (es : List Edge) (h : NoCross vs es)
    (i fuel : Nat) : ∀ j, i < j → intersectionsInner vs i fuel j es = es := by
  induction fuel with
  | zero => intro j _; rfl
  | succ fuel ih =>
    intro j hij
    unfold intersectionsInner
    split
    · next hj =>
      have hc : doEdgesCross vs (es.getD i (0, 0)).1 (es.getD i (0, 0)).2
          (es.getD j (0, 0)).1 (es.getD j (0, 0)).2 = false :=
        h _ (getD_mem_of_lt es i _ (by omega)) _ (getD_mem_of_lt es j _ hj)
      dsimp only
      rw [hc]
      simp only [Bool.false_eq_true, if_false, ite_self]
      exact ih (j + 1) (by omega)
    · rfl

theorem intersectionsOuter_id (vs : List Vertex) (es : List Edge) (h : NoCross vs es)
    (fuel : Nat) : ∀ i, intersectionsOuter vs fuel i es = es := by
  induction fuel with
  | zero => intro i; rfl
  | succ fuel ih =>
    intro i
    unfold intersectionsOuter
    split
    · rw [intersectionsInner_id vs es h i _ (i + 1) (by omega)]
      exact ih (i + 1)
    · rfl

theorem handleEdgeIntersections_id (vs : List Vertex) (es : List Edge) (h : NoCross vs es) :
    handleEdgeIntersections vs es = es :=
  intersectionsOuter_id vs es h _ 0

theorem generateStep_keeps (vs : List Vertex) (acc : List Edge × List Nat) (c : Candidate)
    (e : Edge) (h : e ∈ acc.1) : e ∈ (generateStep vs acc c).1 := by
  unfold generateStep
  split
  · exact h
  split
  · exact h
  split
  · split
    · exact h
    split
    · exact h
    · exact List.mem_append_left _ h
  · exact List.mem_append_left _ h

theorem generateInitialEdges_keeps (vs : List Vertex) (cons : List Edge) (e : Edge)
    (h : e ∈ cons) : e ∈ generateInitialEdges vs cons := by
  unfold generateInitialEdges
  exact foldl_invariant (fun acc : List Edge × List Nat => e ∈ acc.1) _ _ _ h
    (fun acc c _ hacc => generateStep_keeps vs acc c e hacc)

theorem hasEdge_of_mem (es : List Edge) (e : Edge) (h : e ∈ es) : hasEdge es e.1 e.2 = true := by
  unfold hasEdge
  rw [List.any_eq_true]
  exact ⟨e, h, sameEdge_self e⟩

theorem constraintsKept_generate (vs : List Vertex) :
    ConstraintsKept (generateInitialEdges vs (constraintEdgesAt obstacleStartIndex)) :=
  fun c hc => hasEdge_of_mem _ c (generateInitialEdges_keeps vs _ c hc)

theorem ConstraintsKept.resorted {es : List Edge} (h : ConstraintsKept es) :
    ConstraintsKept (edgesAfterTriangulate es) := by
  intro c hc
  rw [hasEdge_edgesAfterTriangulate]
  exact h c hc

theorem ConstraintsKept.append {es : List Edge} (h : ConstraintsKept es) (e : Edge) :
    ConstraintsKept (es ++ [e]) := by
  intro c hc
  have := h c hc
  unfold hasEdge at this ⊢
  rw [List.any_append, this]
  rfl

theorem any_eraseIdx_findIdx (p q : Edge → Bool) (es : List Edge)
    (hpq : ∀ x, p x = true → q x = false) (h : es.any q = true) :
    (es.eraseIdx (es.findIdx p)).any q = true := by
  induction es with
  | nil => exact h
  | cons a rest ih =>
    rw [List.findIdx_cons]
    cases hp : p a with
    | true =>
      simp only [cond_true, List.eraseIdx_cons_zero]
      rw [List.any_cons, hpq a hp] at h
      simpa using h
    | false =>
      simp only [cond_false, List.eraseIdx_cons_succ, List.any_cons]
      rw [List.any_cons] at h
      cases hq : q a with
      | true => rfl
      | false =>
        rw [hq] at h
        simp only [Bool.false_or] at h ⊢
        exact ih h

theorem constraint_protected (c : Edge) (hc : c ∈ constraintEdgesAt obstacleStartIndex) :
    (c.1 < 4 ∧ c.2 < 4) ∨ (c.1 ≥ obstacleStartIndex ∧ c.2 ≥ obstacleStartIndex) := by
  unfold constraintEdgesAt obstacleStartIndex BBOX_POINT_COUNT INNER_POINT_COUNT at *
  simp only [List.mem_cons, List.mem_singleton, List.not_mem_nil, or_false] at hc
  rcases hc with h | h | h | h | h | h | h | h <;> subst h <;> simp

theorem ConstraintsKept.erase {es : List Edge} (h : ConstraintsKept es) (e : Edge)
    (he : ¬ ((e.1 < 4 ∧ e.2 < 4) ∨ (e.1 ≥ obstacleStartIndex ∧ e.2 ≥ obstacleStartIndex))) :
    ConstraintsKept (es.eraseIdx (es.findIdx (sameEdge e.1 e.2))) := by
  intro c hc
  unfold hasEdge
  apply any_eraseIdx_findIdx _ _ _ _ (h c hc)
  intro x hx
  have hp := constraint_protected c hc
  unfold sameEdge at hx ⊢
  simp only [Bool.or_eq_true, Bool.and_eq_true, decide_eq_true_eq] at hx
  rw [Bool.eq_false_iff]
  intro hcx
  simp only [Bool.or_eq_true, Bool.and_eq_true, decide_eq_true_eq] at hcx
  apply he
  rcases hp with ⟨p1, p2⟩ | ⟨p1, p2⟩
  · left
    rcases hx with ⟨h1, h2⟩ | ⟨h1, h2⟩ <;> rcases hcx with ⟨h3, h4⟩ | ⟨h3, h4⟩ <;>
      constructor <;> omega
  · right
    rcases hx with ⟨h1, h2⟩ | ⟨h1, h2⟩ <;> rcases hcx with ⟨h3, h4⟩ | ⟨h3, h4⟩ <;>
      constructor <;> omega

theorem constraintsKept_handleMouseDown (s : State) (x y : ℚ) (h : ConstraintsKept s.edges) :
    ConstraintsKept (handleMouseDown s x y).edges := by
  unfold handleMouseDown
  cases hm : s.interactionMode with
  | movePoint =>
    dsimp only
    cases findClosestVertex s.vertices x y 15 with
    | none => exact h
    | some c =>
      dsimp only
      split
      · exact h
      · split <;> exact h
  | movePerson =>
    dsimp only
    cases findClosestPerson s.people x y 10 with
    | none => exact h
    | some i => exact h
  | removeEdge =>
    dsimp only
    cases findClosestEdge s.vertices s.edges x y 10 with
    | none => exact h
    | some e =>
      dsimp only
      split
      · exact h
      · next hprot =>
        split
        · exact (h.erase e hprot).resorted
        · exact h
  | addEdge =>
    dsimp only
    cases findClosestVertex s.vertices x y 15 with
    | none => exact h
    | some b =>
      dsimp only
      cases s.firstVertexForEdge with
      | none => exact h
      | some a =>
        dsimp only
        split
        · exact h
        split
        · exact h
        split
        · exact h
        split
        · exact h
        · exact (h.append (a, b)).resorted
  | select =>
    dsimp only
    cases findClosestVertex s.vertices x y 15 with
    | some v => exact h
    | none =>
      dsimp only
      cases findClosestPerson s.people x y 10 with
      | some i => exact h
      | none =>
        dsimp only
        cases findClosestEdge s.vertices s.edges x y 10 with
        | some e => exact h
        | none =>
          dsimp only
          split <;> exact h

theorem recompute_fields (s : State) :
    (recomputeEdgesAndTriangulate s).vertices = s.vertices ∧
    (recomputeEdgesAndTriangulate s).edges = edgesAfterTriangulate
      (generateInitialEdges s.vertices (constraintEdgesAt obstacleStartIndex)) := by
  unfold recomputeEdgesAndTriangulate
  dsimp only
  exact ⟨rfl, rfl⟩

theorem constraintsKept_handleMouseMove (s : State) (x y : ℚ)
    (h : obstacleClearOfBoundary s.vertices → ConstraintsKept s.edges) :
    obstacleClearOfBoundary (handleMouseMove s x y).vertices →
      ConstraintsKept (handleMouseMove s x y).edges := by
  unfold handleMouseMove
  split
  · exact h
  cases s.selectedVertex with
  | none =>
    dsimp only
    cases s.selectedPerson with
    | none => exact h
    | some p => exact h
  | some sel =>
    dsimp only
    split
    · exact h
    · unfold recomputeEdgesAndTriangulate
      dsimp only
      exact fun _ => (constraintsKept_generate _).resorted

theorem afterObstacleTransform_fields (s : State) :
    (afterObstacleTransform s).1.vertices = s.vertices ∧
    (afterObstacleTransform s).1.edges = edgesAfterTriangulate
      (handleEdgeIntersections s.vertices (edgesAfterTriangulate
        (generateInitialEdges s.vertices (constraintEdgesAt obstacleStartIndex)))) := by
  unfold afterObstacleTransform recomputeEdgesAndTriangulate
  dsimp only
  exact ⟨rfl, rfl⟩

theorem constraintsKept_afterObstacleTransform (s : State)
    (hb : Parallelogram (vtx s.vertices 0) (vtx s.vertices 1) (vtx s.vertices 2) (vtx s.vertices 3))
    (ho : Parallelogram (vtx s.vertices 16) (vtx s.vertices 17) (vtx s.vertices 18)
      (vtx s.vertices 19))
    (hc : obstacleClearOfBoundary s.vertices) :
    ConstraintsKept (afterObstacleTransform s).1.edges := by
  rw [(afterObstacleTransform_fields s).2]
  have hn : NoCross s.vertices (edgesAfterTriangulate
      (generateInitialEdges s.vertices (constraintEdgesAt obstacleStartIndex))) :=
    (generateInitialEdges_noCross s.vertices _ (constraintEdges_noCross s.vertices hb ho hc)).sorted
  rw [handleEdgeIntersections_id s.vertices _ hn]
  exact (constraintsKept_generate s.vertices).resorted.resorted

theorem constraintsKept_transform (s : State) (o : Obstacle) (q : Quad) (h : Inv s)
    (hq : Parallelogram q.p0 q.p1 q.p2 q.p3)
    (hc : obstacleClearOfBoundary (afterObstacleTransform (withObstaclePoints s o q)).1.vertices) :
    ConstraintsKept (afterObstacleTransform (withObstaclePoints s o q)).1.edges := by
  have hi := inv_transform s o q h hq
  rw [(afterObstacleTransform_fields _).1] at hc
  have hb := hi.bpar
  have ho := hi.opar
  rw [(afterObstacleTransform_fields _).1] at hb ho
  exact constraintsKept_afterObstacleTransform _ hb ho hc

theorem constraintsKept_scaleObstacle (s : State) (d : ℚ) (h : Inv s)
    (hk : obstacleClearOfBoundary s.vertices → ConstraintsKept s.edges) :
    obstacleClearOfBoundary (scaleObstacle s d).vertices →
      ConstraintsKept (scaleObstacle s d).edges := by
  by_cases hc : s.currentScaleFactor + d > MAX_SCALE_FACTOR ∨
      s.currentScaleFactor + d < MIN_SCALE_FACTOR
  · rw [scaleObstacle_rejected s _ hc]; exact hk
  cases ho : s.obstacle with
  | none => rw [scaleObstacle_none s _ ho]; exact hk
  | some o =>
    rw [scaleObstacle_accepted s _ o hc ho, (set_scale_info_fields _ _ _).2.2.1,
      (set_scale_info_fields _ _ _).2.2.2.1]
    exact constraintsKept_transform s o _ h
      (parallelogram_scale _ _ _ _ o.x o.y _ (h.qpar o ho))

theorem constraintsKept_rotateObstacle (s : State) (h : Inv s)
    (hk : obstacleClearOfBoundary s.vertices → ConstraintsKept s.edges) :
    obstacleClearOfBoundary (rotateObstacle s).vertices →
      ConstraintsKept (rotateObstacle s).edges := by
  cases ho : s.obstacle with
  | none => rw [rotateObstacle_none s ho]; exact hk
  | some o =>
    rw [rotateObstacle_some s o ho, (set_info_fields _ _).2.2.1, (set_info_fields _ _).2.2.2.1]
    exact constraintsKept_transform s o _ h
      (parallelogram_rotate _ _ _ _ o.x o.y cos15 sin15 (h.qpar o ho))

theorem constraintsKept_initSimulation (s : State) (cv : Canvas) (inner people : List (ℚ × ℚ))
    (hacc : initAccepted cv inner people) :
    ConstraintsKept (initSimulation s cv inner people).edges := by
  have key : ConstraintsKept (edgesAfterTriangulate (initEdges cv inner)) := by
    unfold initEdges
    rw [hacc.1]
    exact (constraintsKept_generate _).resorted
  unfold initSimulation
  dsimp only
  exact key

theorem reachable_constraintsKept (cv : Canvas) (allowed : Event → Prop) (s : State)
    (h : Reachable cv allowed s) :
    obstacleClearOfBoundary s.vertices → ConstraintsKept s.edges := by
  induction h with
  | init inner people hacc =>
    exact fun _ => constraintsKept_initSimulation State.initial cv inner people hacc
  | step s e hs _ he ih =>
    have hinv := reachable_inv cv allowed s hs
    cases e with
    | mouseDown x y =>
      intro hc
      have hv : (handleMouseDown s x y).vertices = s.vertices := (handleMouseDown_frame s x y).1
      exact constraintsKept_handleMouseDown s x y (ih (hv ▸ hc))
    | mouseMove x y => exact constraintsKept_handleMouseMove s x y ih
    | mouseUp =>
      intro hc
      have hv : (handleMouseUp s).vertices = s.vertices := by
        unfold handleMouseUp; dsimp only; split <;> rfl
      have hk := ih (hv ▸ hc)
      show ConstraintsKept (handleMouseUp s).edges
      unfold handleMouseUp
      dsimp only
      split
      · exact hk.resorted
      · exact hk
    | setMode mode => exact ih
    | reset inner people => exact fun _ => constraintsKept_initSimulation s cv inner people he
    | addPerson r => exact fun hc => (ih hc).resorted
    | removePerson =>
      intro hc
      have hv : (removePerson s).vertices = s.vertices := by
        unfold removePerson; split <;> rfl
      show ConstraintsKept (removePerson s).edges
      have hk := ih (hv ▸ hc)
      unfold removePerson
      split
      · exact hk.resorted
      · exact hk
    | scaleObstacle d => exact constraintsKept_scaleObstacle s d hinv ih
    | rotateObstacle => exact constraintsKept_rotateObstacle s hinv ih
    | deselect => exact ih

/-- In exact arithmetic, in every state reachable from `initSimulation` by any sequence of
handlers, as long as the obstacle edges do not cross the boundary edges, `state.edges`
contains (in one of the two orientations) the four boundary edges and the four obstacle loop
edges; `triangulate` only reorders the entries of each edge, and `handleEdgeIntersections`
returns a crossing-free edge list unchanged.  With the rounding of binary64 this fails: see
`scaling_deletes_constraint_edge`. -/
theorem constraint_edges_never_lost (cv : Canvas) (s : State)
    (h : Reachable cv (fun _ => True) s) (hclear : obstacleClearOfBoundary s.vertices) :
    (hasEdge s.edges 0 1 = true ∧ hasEdge s.edges 1 2 = true ∧ hasEdge s.edges 2 3 = true ∧
      hasEdge s.edges 3 0 = true) ∧
    (hasEdge s.edges 16 17 = true ∧ hasEdge s.edges 17 18 = true ∧
      hasEdge s.edges 18 19 = true ∧ hasEdge s.edges 19 16 = true) ∧
    (∀ a b, hasEdge (edgesAfterTriangulate s.edges) a b = hasEdge s.edges a b) ∧
    handleEdgeIntersections s.vertices s.edges = s.edges := by
  have hk := reachable_constraintsKept cv _ s h hclear
  have hn := (reachable_inv cv _ s h).nocross hclear
  refine ⟨⟨hk (0, 1) ?_, hk (1, 2) ?_, hk (2, 3) ?_, hk (3, 0) ?_⟩,
    ⟨hk (16, 17) ?_, hk (17, 18) ?_, hk (18, 19) ?_, hk (19, 16) ?_⟩,
    hasEdge_edgesAfterTriangulate s.edges, handleEdgeIntersections_id _ _ hn⟩ <;>
  simp [constraintEdgesAt, obstacleStartIndex, BBOX_POINT_COUNT, INNER_POINT_COUNT]

/-- The constraint edges in exact arithmetic on the state after one `scaleObstacle(0.1)` on
the initial layout. -/
theorem constraint_edges_never_lost_witness :
    Reachable cv0 (fun _ => True) state0Scaled ∧
    obstacleClearOfBoundary state0Scaled.vertices ∧
    hasEdge state0Scaled.edges 16 17 = true ∧
    handleEdgeIntersections state0Scaled.vertices state0Scaled.edges = state0Scaled.edges :=
  ⟨Reachable.step state0 (Event.scaleObstacle (1 / 10)) (state0_reachable _) trivial trivial,
    by decide!,
    (constraint_edges_never_lost cv0 state0Scaled
      (Reachable.step state0 (Event.scaleObstacle (1 / 10)) (state0_reachable _) trivial trivial)
      (by decide!)).2.1.1,
    (constraint_edges_never_lost cv0 state0Scaled
      (Reachable.step state0 (Event.scaleObstacle (1 / 10)) (state0_reachable _) trivial trivial)
      (by decide!)).2.2.2⟩

/-- C26 (amended): in exact arithmetic, for every vertex configuration in which the
constraint edges do not cross one another, the list returned by `generateInitialEdges` has
no pair of edges for which `doEdgesCross` is true, and `handleEdgeIntersections` run right
after `recomputeEdgesAndTriangulate` returns the edge list unchanged. -/
theorem generated_edges_crossing_free (s : State)
    (hcons : NoCross s.vertices (constraintEdgesAt obstacleStartIndex)) :
    (∀ e ∈ generateInitialEdges s.vertices (constraintEdgesAt obstacleStartIndex),
      ∀ f ∈ generateInitialEdges s.vertices (constraintEdgesAt obstacleStartIndex),
        doEdgesCross s.vertices e.1 e.2 f.1 f.2 = false) ∧
    handleEdgeIntersections (recomputeEdgesAndTriangulate s).vertices
      (recomputeEdgesAndTriangulate s).edges = (recomputeEdgesAndTriangulate s).edges := by
  have hn := generateInitialEdges_noCross s.vertices _ hcons
  refine ⟨hn, ?_⟩
  rw [(recompute_fields s).1, (recompute_fields s).2]
  exact handleEdgeIntersections_id _ _ hn.sorted

/-- Witness for C26 (amended): the initial 800x600 layout. -/
theorem generated_edges_crossing_free_witness :
    NoCross state0.vertices (constraintEdgesAt obstacleStartIndex) ∧
    handleEdgeIntersections (recomputeEdgesAndTriangulate state0).vertices
      (recomputeEdgesAndTriangulate state0).edges = (recomputeEdgesAndTriangulate state0).edges :=
  ⟨by decide!, (generated_edges_crossing_free state0 (by decide!)).2⟩

/-! ## Claims C16 to C19 and C30: the geometric predicates -/

theorem param_of_opposite_signs (c0 c1 : ℚ) (h : c0 * c1 < 0) :
    0 < c0 / (c0 - c1) ∧ c0 / (c0 - c1) < 1 := by
  rcases mul_neg_iff.mp h with ⟨h0, h1⟩ | ⟨h0, h1⟩
  · have hd : 0 < c0 - c1 := by linarith
    exact ⟨div_pos h0 hd, (div_lt_one hd).mpr (by linarith)⟩
  · have hd : c0 - c1 < 0 := by linarith
    exact ⟨div_pos_of_neg_of_neg h0 hd, (div_lt_one_of_neg hd).mpr (by linarith)⟩

theorem neg_of_params (u D : ℚ) (h0 : 0 < u) (h1 : u < 1) (hD : 0 < D * D) :
    -u * D * ((1 - u) * D) < 0 := by
  have h : 0 < u * (1 - u) * (D * D) := mul_pos (mul_pos h0 (by linarith)) hD
  have e : -u * D * ((1 - u) * D) = -(u * (1 - u) * (D * D)) := by ring
  rw [e]
  linarith

theorem neg_of_params' (t D : ℚ) (h0 : 0 < t) (h1 : t < 1) (hD : 0 < D * D) :
    t * D * (-(1 - t) * D) < 0 := by
  have h : 0 < t * (1 - t) * (D * D) := mul_pos (mul_pos h0 (by linarith)) hD
  have e : t * D * (-(1 - t) * D) = -(t * (1 - t) * (D * D)) := by ring
  rw [e]
  linarith

theorem properlyCross_of_signs (p0 p1 p2 p3 : Point)
    (h1 : crossProduct p0 p1 p2 * crossProduct p0 p1 p3 < 0)
    (h2 : crossProduct p2 p3 p0 * crossProduct p2 p3 p1 < 0) : ProperlyCross p0 p1 p2 p3 := by
  obtain ⟨x0, y0⟩ := p0
  obtain ⟨x1, y1⟩ := p1
  obtain ⟨x2, y2⟩ := p2
  obtain ⟨x3, y3⟩ := p3
  unfold ProperlyCross SegmentsCollinear StrictlyInside
  unfold crossProduct at *
  dsimp only at *
  constructor
  · rintro ⟨ha, hb⟩
    rw [ha] at h1
    simp at h1
  obtain ⟨ht0, ht1⟩ := param_of_opposite_signs _ _ h2
  obtain ⟨hu0, hu1⟩ := param_of_opposite_signs _ _ h1
  have hD : (x1 - x0) * (y3 - y2) - (y1 - y0) * (x3 - x2) ≠ 0 := by
    intro hD
    have : (x1 - x0) * (y3 - y0) - (y1 - y0) * (x3 - x0)
        = (x1 - x0) * (y2 - y0) - (y1 - y0) * (x2 - x0) := by linarith
    rw [this] at h1
    exact absurd h1 (not_lt.mpr (mul_self_nonneg _))
  have hd2 : (x3 - x2) * (y0 - y2) - (y3 - y2) * (x0 - x2)
      - ((x3 - x2) * (y1 - y2) - (y3 - y2) * (x1 - x2)) ≠ 0 := by
    intro h; apply hD; linarith
  have hd1 : (x1 - x0) * (y2 - y0) - (y1 - y0) * (x2 - x0)
      - ((x1 - x0) * (y3 - y0) - (y1 - y0) * (x3 - x0)) ≠ 0 := by
    intro h; apply hD; linarith
  refine ⟨⟨x0 + ((x3 - x2) * (y0 - y2) - (y3 - y2) * (x0 - x2))
      / ((x3 - x2) * (y0 - y2) - (y3 - y2) * (x0 - x2)
        - ((x3 - x2) * (y1 - y2) - (y3 - y2) * (x1 - x2))) * (x1 - x0),
    y0 + ((x3 - x2) * (y0 - y2) - (y3 - y2) * (x0 - x2))
      / ((x3 - x2) * (y0 - y2) - (y3 - y2) * (x0 - x2)
        - ((x3 - x2) * (y1 - y2) - (y3 - y2) * (x1 - x2))) * (y1 - y0)⟩, ⟨?_, ?_⟩, ?_⟩
  · exact ⟨_, ht0, ht1, rfl, rfl⟩
  · refine ⟨_, hu0, hu1, ?_, ?_⟩
    · dsimp only
      field_simp
      ring
    · dsimp only
      field_simp
      ring
  · rintro ⟨qx, qy⟩ ⟨⟨t, _, _, hx, hy⟩, ⟨u, _, _, hx2, hy2⟩⟩
    dsimp only at hx hy hx2 hy2
    have ht : t = ((x3 - x2) * (y0 - y2) - (y3 - y2) * (x0 - x2))
        / ((x3 - x2) * (y0 - y2) - (y3 - y2) * (x0 - x2)
          - ((x3 - x2) * (y1 - y2) - (y3 - y2) * (x1 - x2))) := by
      rw [eq_div_iff hd2]
      have e1 : x0 + t * (x1 - x0) = x2 + u * (x3 - x2) := by rw [← hx, hx2]
      have e2 : y0 + t * (y1 - y0) = y2 + u * (y3 - y2) := by rw [← hy, hy2]
      linear_combination (y3 - y2) * e1 - (x3 - x2) * e2
    rw [Point.mk.injEq]
    subst ht
    exact ⟨hx, hy⟩

theorem signs_of_properlyCross (p0 p1 p2 p3 : Point) (h : ProperlyCross p0 p1 p2 p3) :
    crossProduct p0 p1 p2 * crossProduct p0 p1 p3 < 0 ∧
      crossProduct p2 p3 p0 * crossProduct p2 p3 p1 < 0 := by
  obtain ⟨x0, y0⟩ := p0
  obtain ⟨x1, y1⟩ := p1
  obtain ⟨x2, y2⟩ := p2
  obtain ⟨x3, y3⟩ := p3
  obtain ⟨hnc, ⟨qx, qy⟩, ⟨⟨t, ht0, ht1, hx, hy⟩, ⟨u, hu0, hu1, hx2, hy2⟩⟩, _⟩ := h
  unfold SegmentsCollinear at hnc
  unfold crossProduct at *
  dsimp only at *
  have e1 : x0 + t * (x1 - x0) = x2 + u * (x3 - x2) := by rw [← hx, hx2]
  have e2 : y0 + t * (y1 - y0) = y2 + u * (y3 - y2) := by rw [← hy, hy2]
  have c2 : (x1 - x0) * (y2 - y0) - (y1 - y0) * (x2 - x0)
      = -u * ((x1 - x0) * (y3 - y2) - (y1 - y0) * (x3 - x2)) := by
    linear_combination (y1 - y0) * e1 - (x1 - x0) * e2
  have c3 : (x1 - x0) * (y3 - y0) - (y1 - y0) * (x3 - x0)
      = (1 - u) * ((x1 - x0) * (y3 - y2) - (y1 - y0) * (x3 - x2)) := by
    linear_combination (y1 - y0) * e1 - (x1 - x0) * e2
  have c0 : (x3 - x2) * (y0 - y2) - (y3 - y2) * (x0 - x2)
      = t * ((x1 - x0) * (y3 - y2) - (y1 - y0) * (x3 - x2)) := by
    linear_combination (x3 - x2) * e2 - (y3 - y2) * e1
  have c1 : (x3 - x2) * (y1 - y2) - (y3 - y2) * (x1 - x2)
      = -(1 - t) * ((x1 - x0) * (y3 - y2) - (y1 - y0) * (x3 - x2)) := by
    linear_combination (x3 - x2) * e2 - (y3 - y2) * e1
  have hD : (x1 - x0) * (y3 - y2) - (y1 - y0) * (x3 - x2) ≠ 0 := by
    intro hD
    apply hnc
    rw [c2, c3, hD]
    simp
  have hD2 : 0 < ((x1 - x0) * (y3 - y2) - (y1 - y0) * (x3 - x2))
      * ((x1 - x0) * (y3 - y2) - (y1 - y0) * (x3 - x2)) := mul_self_pos.mpr hD
  rw [c2, c3, c0, c1]
  exact ⟨neg_of_params u _ hu0 hu1 hD2, neg_of_params' t _ ht0 ht1 hD2⟩

/-- C16 (amended): in exact arithmetic, `doEdgesCross(a1, b1, a2, b2)` is true exactly when
the two edges share no endpoint index and the segments properly cross: they are not
collinear and meet in a single point lying strictly inside both segments. -/
theorem doEdgesCross_iff_properlyCross (vs : List Vertex) (a1 b1 a2 b2 : Nat) :
    doEdgesCross vs a1 b1 a2 b2 = true ↔
      (a1 ≠ a2 ∧ a1 ≠ b2 ∧ b1 ≠ a2 ∧ b1 ≠ b2) ∧
        ProperlyCross (vtx vs a1) (vtx vs b1) (vtx vs a2) (vtx vs b2) := by
  unfold doEdgesCross
  by_cases hs : a1 = a2 ∨ a1 = b2 ∨ b1 = a2 ∨ b1 = b2
  · rw [if_pos hs]
    constructor
    · intro h; exact absurd h (by simp)
    · rintro ⟨⟨h1, h2, h3, h4⟩, _⟩
      rcases hs with h | h | h | h <;> contradiction
  · rw [if_neg hs]
    dsimp only
    rw [Bool.and_eq_true, decide_eq_true_eq, decide_eq_true_eq]
    have hs' : a1 ≠ a2 ∧ a1 ≠ b2 ∧ b1 ≠ a2 ∧ b1 ≠ b2 := by
      simp only [not_or] at hs
      exact hs
    constructor
    · rintro ⟨h1, h2⟩
      exact ⟨hs', properlyCross_of_signs _ _ _ _ h1 h2⟩
    · rintro ⟨_, h⟩
      exact signs_of_properlyCross _ _ _ _ h

theorem isPointInTriangle_denom (p0 p1 p2 : Point) :
    (p1.y - p2.y) * (p0.x - p2.x) + (p2.x - p1.x) * (p0.y - p2.y) = crossProduct p0 p1 p2 := by
  unfold crossProduct
  ring

/-- C17: `isPointInTriangle(p, p0, p1, p2)` is true exactly when the triangle is
non-degenerate (its corners are not collinear) and `p` is a convex combination of the three
corners; for a degenerate triangle the denominator test returns false before any
division. -/
theorem isPointInTriangle_iff_convex (p p0 p1 p2 : Point) :
    (isPointInTriangle p p0 p1 p2 = true ↔
      crossProduct p0 p1 p2 ≠ 0 ∧ ConvexCombination p p0 p1 p2) ∧
    (crossProduct p0 p1 p2 = 0 → isPointInTriangle p p0 p1 p2 = false) := by
  have hden := isPointInTriangle_denom p0 p1 p2
  obtain ⟨x, y⟩ := p
  obtain ⟨x0, y0⟩ := p0
  obtain ⟨x1, y1⟩ := p1
  obtain ⟨x2, y2⟩ := p2
  unfold isPointInTriangle ConvexCombination
  dsimp only at hden ⊢
  rw [← hden]
  generalize hd : (y1 - y2) * (x0 - x2) + (x2 - x1) * (y0 - y2) = d
  constructor
  swap
  · intro h0
    rw [if_pos h0]
  by_cases h0 : d = 0
  · rw [if_pos h0]
    constructor
    · intro h; exact absurd h (by simp)
    · rintro ⟨h, _⟩; exact absurd h0 h
  rw [if_neg h0]
  simp only [Bool.and_eq_true, decide_eq_true_eq, ge_iff_le]
  constructor
  · rintro ⟨⟨⟨⟨⟨ha0, _⟩, hb0⟩, _⟩, hc0⟩, _⟩
    refine ⟨h0, _, _, _, ha0, hb0, hc0, by ring, ?_, ?_⟩
    · field_simp
      rw [← hd]
      ring
    · field_simp
      rw [← hd]
      ring
  · rintro ⟨_, a, b, c, ha, hb, hc, hsum, hx, hy⟩
    have hc' : c = 1 - a - b := by linarith
    subst hc'
    have ea : ((y1 - y2) * (x - x2) + (x2 - x1) * (y - y2)) / d = a := by
      rw [div_eq_iff h0, ← hd, hx, hy]
      ring
    have eb : ((y2 - y0) * (x - x2) + (x0 - x2) * (y - y2)) / d = b := by
      rw [div_eq_iff h0, ← hd, hx, hy]
      ring
    rw [ea, eb]
    refine ⟨⟨⟨⟨⟨ha, ?_⟩, hb⟩, ?_⟩, hc⟩, ?_⟩ <;> linarith

theorem lt_of_weighted (w0 w1 w2 w3 x0 x1 x2 x3 m : ℚ) (h0 : 0 < w0) (h1 : 0 < w1)
    (h2 : 0 < w2) (h3 : 0 < w3) (hsum : w0 + w1 + w2 + w3 = 1)
    (m0 : m ≤ x0) (m1 : m ≤ x1) (m2 : m ≤ x2) (m3 : m ≤ x3)
    (hne : m < x0 ∨ m < x1 ∨ m < x2 ∨ m < x3) :
    m < w0 * x0 + w1 * x1 + w2 * x2 + w3 * x3 := by
  have e : w0 * x0 + w1 * x1 + w2 * x2 + w3 * x3 - m
      = w0 * (x0 - m) + w1 * (x1 - m) + w2 * (x2 - m) + w3 * (x3 - m) := by
    have : m = (w0 + w1 + w2 + w3) * m := by rw [hsum, one_mul]
    nth_rewrite 1 [this]
    ring
  have n0 : 0 ≤ w0 * (x0 - m) := mul_nonneg h0.le (by linarith)
  have n1 : 0 ≤ w1 * (x1 - m) := mul_nonneg h1.le (by linarith)
  have n2 : 0 ≤ w2 * (x2 - m) := mul_nonneg h2.le (by linarith)
  have n3 : 0 ≤ w3 * (x3 - m) := mul_nonneg h3.le (by linarith)
  rcases hne with h | h | h | h
  · have := mul_pos h0 (sub_pos.mpr h); linarith
  · have := mul_pos h1 (sub_pos.mpr h); linarith
  · have := mul_pos h2 (sub_pos.mpr h); linarith
  · have := mul_pos h3 (sub_pos.mpr h); linarith

theorem min4_lt_of_not_all_eq (x0 x1 x2 x3 : ℚ) (h : ¬ (x0 = x1 ∧ x0 = x2 ∧ x0 = x3)) :
    min (min (min x0 x1) x2) x3 < x0 ∨ min (min (min x0 x1) x2) x3 < x1 ∨
      min (min (min x0 x1) x2) x3 < x2 ∨ min (min (min x0 x1) x2) x3 < x3 := by
  by_contra hn
  simp only [not_or, not_lt] at hn
  obtain ⟨a0, a1, a2, a3⟩ := hn
  have b0 : min (min (min x0 x1) x2) x3 ≤ x0 :=
    (min_le_left _ _).trans ((min_le_left _ _).trans (min_le_left _ _))
  have b1 : min (min (min x0 x1) x2) x3 ≤ x1 :=
    (min_le_left _ _).trans ((min_le_left _ _).trans (min_le_right _ _))
  have b2 : min (min (min x0 x1) x2) x3 ≤ x2 := (min_le_left _ _).trans (min_le_right _ _)
  have b3 : min (min (min x0 x1) x2) x3 ≤ x3 := min_le_right _ _
  exact h ⟨by linarith, by linarith, by linarith⟩

theorem lt_max4_of_not_all_eq (x0 x1 x2 x3 : ℚ) (h : ¬ (x0 = x1 ∧ x0 = x2 ∧ x0 = x3)) :
    x0 < max (max (max x0 x1) x2) x3 ∨ x1 < max (max (max x0 x1) x2) x3 ∨
      x2 < max (max (max x0 x1) x2) x3 ∨ x3 < max (max (max x0 x1) x2) x3 := by
  by_contra hn
  simp only [not_or, not_lt] at hn
  obtain ⟨a0, a1, a2, a3⟩ := hn
  have b0 : x0 ≤ max (max (max x0 x1) x2) x3 :=
    (le_max_left _ _).trans ((le_max_left _ _).trans (le_max_left _ _))
  have b1 : x1 ≤ max (max (max x0 x1) x2) x3 :=
    (le_max_right _ _).trans ((le_max_left _ _).trans (le_max_left _ _))
  have b2 : x2 ≤ max (max (max x0 x1) x2) x3 := (le_max_right _ _).trans (le_max_left _ _)
  have b3 : x3 ≤ max (max (max x0 x1) x2) x3 := le_max_right _ _
  exact h ⟨by linarith, by linarith, by linarith⟩

/-- C18: `isPointInsideObstacle` over-approximates the obstacle polygon: every strictly
positive convex combination of the four obstacle points, when those points are not all on
one line, is reported inside; the test performed is the strict bounding-box test of the four
points; and the function returns false when there is no obstacle. -/
theorem isPointInsideObstacle_overapproximates (o : Obstacle) (point : Point) :
    (∀ w0 w1 w2 w3 : ℚ, 0 < w0 → 0 < w1 → 0 < w2 → 0 < w3 → w0 + w1 + w2 + w3 = 1 →
      point.x = w0 * o.points.p0.x + w1 * o.points.p1.x + w2 * o.points.p2.x
        + w3 * o.points.p3.x →
      point.y = w0 * o.points.p0.y + w1 * o.points.p1.y + w2 * o.points.p2.y
        + w3 * o.points.p3.y →
      ¬ (crossProduct o.points.p0 o.points.p1 o.points.p2 = 0 ∧
        crossProduct o.points.p0 o.points.p1 o.points.p3 = 0 ∧
        crossProduct o.points.p0 o.points.p2 o.points.p3 = 0) →
      isPointInsideObstacle (some o) point = true) ∧
    (isPointInsideObstacle (some o) point = true ↔
      (min (min (min o.points.p0.x o.points.p1.x) o.points.p2.x) o.points.p3.x < point.x ∧
        point.x < max (max (max o.points.p0.x o.points.p1.x) o.points.p2.x) o.points.p3.x) ∧
      (min (min (min o.points.p0.y o.points.p1.y) o.points.p2.y) o.points.p3.y < point.y ∧
        point.y < max (max (max o.points.p0.y o.points.p1.y) o.points.p2.y) o.points.p3.y)) ∧
    isPointInsideObstacle none point = false := by
  have hiff : isPointInsideObstacle (some o) point = true ↔
      (min (min (min o.points.p0.x o.points.p1.x) o.points.p2.x) o.points.p3.x < point.x ∧
        point.x < max (max (max o.points.p0.x o.points.p1.x) o.points.p2.x) o.points.p3.x) ∧
      (min (min (min o.points.p0.y o.points.p1.y) o.points.p2.y) o.points.p3.y < point.y ∧
        point.y < max (max (max o.points.p0.y o.points.p1.y) o.points.p2.y) o.points.p3.y) := by
    unfold isPointInsideObstacle
    simp only [Bool.and_eq_true, decide_eq_true_eq, gt_iff_lt]
    tauto
  refine ⟨?_, hiff, rfl⟩
  intro w0 w1 w2 w3 h0 h1 h2 h3 hsum hx hy hnc
  rw [hiff]
  have hxs : ¬ (o.points.p0.x = o.points.p1.x ∧ o.points.p0.x = o.points.p2.x ∧
      o.points.p0.x = o.points.p3.x) := by
    rintro ⟨e1, e2, e3⟩
    apply hnc
    unfold crossProduct
    rw [← e1, ← e2, ← e3]
    simp
  have hys : ¬ (o.points.p0.y = o.points.p1.y ∧ o.points.p0.y = o.points.p2.y ∧
      o.points.p0.y = o.points.p3.y) := by
    rintro ⟨e1, e2, e3⟩
    apply hnc
    unfold crossProduct
    rw [← e1, ← e2, ← e3]
    simp
  refine ⟨⟨?_, ?_⟩, ⟨?_, ?_⟩⟩
  · rw [hx]
    exact lt_of_weighted w0 w1 w2 w3 _ _ _ _ _ h0 h1 h2 h3 hsum
      ((min_le_left _ _).trans ((min_le_left _ _).trans (min_le_left _ _)))
      ((min_le_left _ _).trans ((min_le_left _ _).trans (min_le_right _ _)))
      ((min_le_left _ _).trans (min_le_right _ _)) (min_le_right _ _)
      (min4_lt_of_not_all_eq _ _ _ _ hxs)
  · rw [hx]
    have := lt_of_weighted w0 w1 w2 w3 (-o.points.p0.x) (-o.points.p1.x) (-o.points.p2.x)
      (-o.points.p3.x)
      (-(max (max (max o.points.p0.x o.points.p1.x) o.points.p2.x) o.points.p3.x))
      h0 h1 h2 h3 hsum
      (neg_le_neg ((le_max_left _ _).trans ((le_max_left _ _).trans (le_max_left _ _))))
      (neg_le_neg ((le_max_right _ _).trans ((le_max_left _ _).trans (le_max_left _ _))))
      (neg_le_neg ((le_max_right _ _).trans (le_max_left _ _)))
      (neg_le_neg (le_max_right _ _))
      (by
        rcases lt_max4_of_not_all_eq _ _ _ _ hxs with h | h | h | h
        · exact Or.inl (neg_lt_neg h)
        · exact Or.inr (Or.inl (neg_lt_neg h))
        · exact Or.inr (Or.inr (Or.inl (neg_lt_neg h)))
        · exact Or.inr (Or.inr (Or.inr (neg_lt_neg h))))
    linarith
  · rw [hy]
    exact lt_of_weighted w0 w1 w2 w3 _ _ _ _ _ h0 h1 h2 h3 hsum
      ((min_le_left _ _).trans ((min_le_left _ _).trans (min_le_left _ _)))
      ((min_le_left _ _).trans ((min_le_left _ _).trans (min_le_right _ _)))
      ((min_le_left _ _).trans (min_le_right _ _)) (min_le_right _ _)
      (min4_lt_of_not_all_eq _ _ _ _ hys)
  · rw [hy]
    have := lt_of_weighted w0 w1 w2 w3 (-o.points.p0.y) (-o.points.p1.y) (-o.points.p2.y)
      (-o.points.p3.y)
      (-(max (max (max o.points.p0.y o.points.p1.y) o.points.p2.y) o.points.p3.y))
      h0 h1 h2 h3 hsum
      (neg_le_neg ((le_max_left _ _).trans ((le_max_left _ _).trans (le_max_left _ _))))
      (neg_le_neg ((le_max_right _ _).trans ((le_max_left _ _).trans (le_max_left _ _))))
      (neg_le_neg ((le_max_right _ _).trans (le_max_left _ _)))
      (neg_le_neg (le_max_right _ _))
      (by
        rcases lt_max4_of_not_all_eq _ _ _ _ hys with h | h | h | h
        · exact Or.inl (neg_lt_neg h)
        · exact Or.inr (Or.inl (neg_lt_neg h))
        · exact Or.inr (Or.inr (Or.inl (neg_lt_neg h)))
        · exact Or.inr (Or.inr (Or.inr (neg_lt_neg h))))
    linarith

/-- Witness for C17: a point inside a right triangle, and a degenerate triangle. -/
theorem isPointInTriangle_iff_convex_witness :
    isPointInTriangle ⟨1, 1⟩ ⟨0, 0⟩ ⟨4, 0⟩ ⟨0, 4⟩ = true ∧
    crossProduct ⟨0, 0⟩ ⟨1, 1⟩ ⟨2, 2⟩ = 0 ∧
    isPointInTriangle ⟨1, 1⟩ ⟨0, 0⟩ ⟨1, 1⟩ ⟨2, 2⟩ = false :=
  ⟨(isPointInTriangle_iff_convex ⟨1, 1⟩ ⟨0, 0⟩ ⟨4, 0⟩ ⟨0, 4⟩).1.mpr
      ⟨by decide!, 1 / 2, 1 / 4, 1 / 4, by decide!, by decide!, by decide!, by decide!,
        by decide!, by decide!⟩,
    by decide!,
    (isPointInTriangle_iff_convex ⟨1, 1⟩ ⟨0, 0⟩ ⟨1, 1⟩ ⟨2, 2⟩).2 (by decide!)⟩

/-- Witness for C18: the centre of the initial obstacle of the 800x600 canvas. -/
theorem isPointInsideObstacle_overapproximates_witness :
    isPointInsideObstacle (some (initObstacle cv0)) ⟨400, 300⟩ = true :=
  (isPointInsideObstacle_overapproximates (initObstacle cv0) ⟨400, 300⟩).1
    (1 / 4) (1 / 4) (1 / 4) (1 / 4) (by decide!) (by decide!) (by decide!) (by decide!)
    (by decide!) (by decide!) (by decide!) (by decide!)

theorem sqDistAt_expand (x y x1 y1 x2 y2 t : ℚ) :
    sqDistAt x y x1 y1 x2 y2 t
      = ((x - x1) * (x - x1) + (y - y1) * (y - y1))
        - 2 * t * ((x - x1) * (x2 - x1) + (y - y1) * (y2 - y1))
        + t * t * ((x2 - x1) * (x2 - x1) + (y2 - y1) * (y2 - y1)) := by
  unfold sqDistAt
  ring

theorem distanceToLineSegmentSq_cases (x y x1 y1 x2 y2 p : ℚ)
    (hp : p = if (x2 - x1) * (x2 - x1) + (y2 - y1) * (y2 - y1) ≠ 0
      then ((x - x1) * (x2 - x1) + (y - y1) * (y2 - y1))
        / ((x2 - x1) * (x2 - x1) + (y2 - y1) * (y2 - y1)) else -1) :
    distanceToLineSegmentSq x y x1 y1 x2 y2 =
      sqDistAt x y x1 y1 x2 y2 (if p < 0 then 0 else if p > 1 then 1 else p) := by
  unfold distanceToLineSegmentSq sqDistAt
  dsimp only
  rw [← hp]
  by_cases h0 : p < 0
  · simp only [h0, if_true]
    ring
  · by_cases h1 : p > 1
    · simp only [h0, h1, if_true, if_false]
      ring
    · simp only [h0, h1, if_false]

/-- In exact arithmetic the sum of squares handed to `Math.hypot` is the minimum over `t` in
`[0, 1]` of the squared distance from `(x, y)` to `(x1 + t (x2 - x1), y1 + t (y2 - y1))`: it
is a lower bound for every such `t` and is attained at one; for a zero-length segment it is
the squared distance to `(x1, y1)`. -/
theorem distanceToLineSegmentSq_is_minimum (x y x1 y1 x2 y2 : ℚ) :
    (∀ t : ℚ, 0 ≤ t → t ≤ 1 →
      distanceToLineSegmentSq x y x1 y1 x2 y2 ≤ sqDistAt x y x1 y1 x2 y2 t) ∧
    (∃ t : ℚ, 0 ≤ t ∧ t ≤ 1 ∧
      distanceToLineSegmentSq x y x1 y1 x2 y2 = sqDistAt x y x1 y1 x2 y2 t) ∧
    (x1 = x2 ∧ y1 = y2 →
      distanceToLineSegmentSq x y x1 y1 x2 y2 = (x - x1) * (x - x1) + (y - y1) * (y - y1)) := by
  rw [distanceToLineSegmentSq_cases x y x1 y1 x2 y2 _ rfl]
  generalize hL : (x2 - x1) * (x2 - x1) + (y2 - y1) * (y2 - y1) = L
  generalize hdot : (x - x1) * (x2 - x1) + (y - y1) * (y2 - y1) = dot
  have hL0 : 0 ≤ L := by
    rw [← hL]; exact add_nonneg (mul_self_nonneg _) (mul_self_nonneg _)
  refine ⟨?_, ?_, ?_⟩
  · intro t ht0 ht1
    rw [sqDistAt_expand, sqDistAt_expand, hL, hdot]
    by_cases hz : L ≠ 0
    · rw [if_pos hz]
      have hLpos : 0 < L := lt_of_le_of_ne hL0 (Ne.symm hz)
      have hdotp : dot = dot / L * L := by field_simp
      generalize dot / L = p at hdotp
      subst hdotp
      split
      · next hp =>
        have : 0 ≤ t * L * (t - 2 * p) :=
          mul_nonneg (mul_nonneg ht0 hL0) (by linarith)
        nlinarith
      · split
        · next hp =>
          have : 0 ≤ (1 - t) * L * (2 * p - 1 - t) :=
            mul_nonneg (mul_nonneg (by linarith) hL0) (by linarith)
          nlinarith
        · have : 0 ≤ L * ((t - p) * (t - p)) := mul_nonneg hL0 (mul_self_nonneg _)
          nlinarith
    · rw [if_neg hz]
      rw [not_not] at hz
      have hx : x2 - x1 = 0 := by
        have h1 : 0 ≤ (y2 - y1) * (y2 - y1) := mul_self_nonneg _
        have h2 : (x2 - x1) * (x2 - x1) = 0 := by
          have := mul_self_nonneg (x2 - x1); linarith
        exact mul_self_eq_zero.mp h2
      have hy : y2 - y1 = 0 := by
        have h1 : 0 ≤ (x2 - x1) * (x2 - x1) := mul_self_nonneg _
        have h2 : (y2 - y1) * (y2 - y1) = 0 := by
          have := mul_self_nonneg (y2 - y1); linarith
        exact mul_self_eq_zero.mp h2
      have hd : dot = 0 := by rw [← hdot, hx, hy]; ring
      rw [if_pos (by norm_num : (-1 : ℚ) < 0), hz, hd]
      simp
  · by_cases hz : L ≠ 0
    · rw [if_pos hz]
      split
      · exact ⟨0, le_refl _, zero_le_one, rfl⟩
      · next h0 =>
        split
        · exact ⟨1, zero_le_one, le_refl _, rfl⟩
        · next h1 => exact ⟨dot / L, not_lt.mp h0, not_lt.mp h1, rfl⟩
    · rw [if_neg hz, if_pos (by norm_num : (-1 : ℚ) < 0)]
      exact ⟨0, le_refl _, zero_le_one, rfl⟩
  · rintro ⟨ex, ey⟩
    have hz : ¬ L ≠ 0 := by
      rw [not_not, ← hL, ex, ey]; ring
    rw [if_neg hz, if_pos (by norm_num : (-1 : ℚ) < 0), sqDistAt_expand]
    ring

theorem distanceToLineSegment_eq (hypot : ℚ → ℚ → ℚ) (x y x1 y1 x2 y2 : ℚ) :
    distanceToLineSegment hypot x y x1 y1 x2 y2
      = hypot (x - (closestPoint x y x1 y1 x2 y2).1) (y - (closestPoint x y x1 y1 x2 y2).2) :=
  rfl

theorem distanceToLineSegmentSq_eq (x y x1 y1 x2 y2 : ℚ) :
    distanceToLineSegmentSq x y x1 y1 x2 y2
      = (x - (closestPoint x y x1 y1 x2 y2).1) * (x - (closestPoint x y x1 y1 x2 y2).1)
        + (y - (closestPoint x y x1 y1 x2 y2).2) * (y - (closestPoint x y x1 y1 x2 y2).2) :=
  rfl

/-- No rational number, hence no binary64 number, has square 2. -/
theorem mul_self_ne_two (r : ℚ) : r * r ≠ 2 := by
  intro h
  have h1 : (|r| * |r| : ℚ) = 2 := by rw [abs_mul_abs_self]; exact h
  have h2 : Real.sqrt 2 = ((|r| : ℚ) : ℝ) := by
    rw [Real.sqrt_eq_iff_mul_self_eq (by norm_num) (by positivity)]
    exact_mod_cast h1.symm
  exact irrational_sqrt_two ⟨|r|, h2.symm⟩

/-- C19 (refuted as stated): for the point `(1, 1)` and the zero-length segment at the
origin the squared distance to every point of the segment is 2, and
`distanceToLineSegment(1, 1, 0, 0, 0, 0)` returns `Math.hypot(1, 1)`; whatever binary64
number `Math.hypot` returns there, its square is not 2. -/
theorem distanceToLineSegment_square_not_minimum :
    (∀ t : ℚ, sqDistAt 1 1 0 0 0 0 t = 2) ∧
    (∀ hypot : ℚ → ℚ → ℚ, distanceToLineSegment hypot 1 1 0 0 0 0 = hypot 1 1) ∧
    ∀ hypot : ℚ → ℚ → ℚ,
      distanceToLineSegment hypot 1 1 0 0 0 0 * distanceToLineSegment hypot 1 1 0 0 0 0 ≠ 2 := by
  refine ⟨?_, ?_, ?_⟩
  · intro t
    unfold sqDistAt
    ring
  · intro hypot
    rw [distanceToLineSegment_eq]
    have h : closestPoint 1 1 0 0 0 0 = (0, 0) := by decide!
    rw [h]
    norm_num
  · intro hypot
    exact mul_self_ne_two _

/-- C19 (amended): in exact arithmetic, whenever `Math.hypot` returns for its two arguments
`x - xx`, `y - yy` a value whose square is the sum of their squares, the square of the value
`distanceToLineSegment` returns is the minimum over `t` in `[0, 1]` of the squared distance
from `(x, y)` to `(x1 + t (x2 - x1), y1 + t (y2 - y1))` (a lower bound for every such `t`,
attained at one), and for a zero-length segment it is the squared distance to `(x1, y1)`. -/
theorem distanceToLineSegment_exact_is_minimum (hypot : ℚ → ℚ → ℚ) (x y x1 y1 x2 y2 : ℚ)
    (h : hypot (x - (closestPoint x y x1 y1 x2 y2).1) (y - (closestPoint x y x1 y1 x2 y2).2)
        * hypot (x - (closestPoint x y x1 y1 x2 y2).1) (y - (closestPoint x y x1 y1 x2 y2).2)
      = (x - (closestPoint x y x1 y1 x2 y2).1) * (x - (closestPoint x y x1 y1 x2 y2).1)
        + (y - (closestPoint x y x1 y1 x2 y2).2) * (y - (closestPoint x y x1 y1 x2 y2).2)) :
    (∀ t : ℚ, 0 ≤ t → t ≤ 1 →
      distanceToLineSegment hypot x y x1 y1 x2 y2 * distanceToLineSegment hypot x y x1 y1 x2 y2
        ≤ sqDistAt x y x1 y1 x2 y2 t) ∧
    (∃ t : ℚ, 0 ≤ t ∧ t ≤ 1 ∧
      distanceToLineSegment hypot x y x1 y1 x2 y2 * distanceToLineSegment hypot x y x1 y1 x2 y2
        = sqDistAt x y x1 y1 x2 y2 t) ∧
    (x1 = x2 ∧ y1 = y2 →
      distanceToLineSegment hypot x y x1 y1 x2 y2 * distanceToLineSegment hypot x y x1 y1 x2 y2
        = (x - x1) * (x - x1) + (y - y1) * (y - y1)) := by
  have e : distanceToLineSegment hypot x y x1 y1 x2 y2
      * distanceToLineSegment hypot x y x1 y1 x2 y2 = distanceToLineSegmentSq x y x1 y1 x2 y2 := by
    rw [distanceToLineSegment_eq, h, distanceToLineSegmentSq_eq]
  rw [e]
  exact distanceToLineSegmentSq_is_minimum x y x1 y1 x2 y2

/-- Witness for C19 (amended): the point `(3, 4)` and the segment from `(0, 0)` to `(3, 0)`,
with a `Math.hypot` that is exact when one argument is 0. -/
theorem distanceToLineSegment_exact_is_minimum_witness :
    closestPoint 3 4 0 0 3 0 = (3, 0) ∧
    distanceToLineSegment (fun a b => |a| + |b|) 3 4 0 0 3 0 = 4 ∧
    distanceToLineSegment (fun a b => |a| + |b|) 3 4 0 0 3 0
        * distanceToLineSegment (fun a b => |a| + |b|) 3 4 0 0 3 0
      ≤ sqDistAt 3 4 0 0 3 0 (1 / 2) :=
  ⟨by decide!, by decide!,
    (distanceToLineSegment_exact_is_minimum (fun a b => |a| + |b|) 3 4 0 0 3 0
      (by decide!)).1 (1 / 2) (by decide!) (by decide!)⟩

/-- C30: `isLineOfSightClear(a, b)` is the negation of `doesEdgeIntersectObstacle(a, b)`;
hence a candidate of `generateInitialEdges` that passed `doesEdgeIntersectObstacle` is never
rejected by the line-of-sight check: starting at an obstacle vertex, crossing no accepted
edge and below the connection limit, it is pushed. -/
theorem lineOfSight_is_negated_intersection (vs : List Vertex) (a b : Nat) :
    isLineOfSightClear vs a b = !doesEdgeIntersectObstacle vs a b ∧
    ∀ (acc : List Edge × List Nat) (c : Candidate),
      doesEdgeIntersectObstacle vs c.from_ c.to_ = false →
      acc.1.any (fun finalEdge => doEdgesCross vs c.from_ c.to_ finalEdge.1 finalEdge.2)
        = false →
      c.from_ ≥ obstacleStartIndex → acc.2.getD c.from_ 0 < 3 →
      isLineOfSightClear vs c.from_ c.to_ = true ∧
        (generateStep vs acc c).1 = acc.1 ++ [(c.from_, c.to_)] := by
  refine ⟨rfl, ?_⟩
  intro acc c h1 h2 h3 h4
  have hlos : isLineOfSightClear vs c.from_ c.to_ = true := by
    show (!doesEdgeIntersectObstacle vs c.from_ c.to_) = true
    rw [h1]; rfl
  refine ⟨hlos, ?_⟩
  unfold generateStep
  rw [h1, h2, hlos]
  simp only [Bool.false_eq_true, if_false, if_pos h3, Bool.not_true, ge_iff_le]
  rw [if_neg (by omega)]

/-- Witness for C30: the candidate from obstacle vertex 16 to inner vertex 12 of the initial
800x600 layout, offered first. -/
theorem lineOfSight_is_negated_intersection_witness :
    (generateStep verts0 (constraintEdgesAt obstacleStartIndex, List.replicate 20 0)
        ⟨16, 12, 0⟩).1 = constraintEdgesAt obstacleStartIndex ++ [(16, 12)] :=
  ((lineOfSight_is_negated_intersection verts0 16 12).2
    (constraintEdgesAt obstacleStartIndex, List.replicate 20 0) ⟨16, 12, 0⟩
    (by decide!) (by decide!) (by decide!) (by decide!)).2

/-! ## Claim C29: scaling back and forth -/

theorem scaledPoints_inverse (o : Obstacle) (r1 r2 : ℚ) (h : r1 * r2 = 1) :
    scaledPoints (o.withPoints (scaledPoints o r1)) r2 = o.points := by
  obtain ⟨ox, oy, w, hh, rot, ⟨⟨a0, b0⟩, ⟨a1, b1⟩, ⟨a2, b2⟩, ⟨a3, b3⟩⟩⟩ := o
  unfold Obstacle.withPoints scaledPoints Quad.map
  simp only [Quad.mk.injEq, Point.mk.injEq]
  refine ⟨⟨?_, ?_⟩, ⟨?_, ?_⟩, ⟨?_, ?_⟩, ⟨?_, ?_⟩⟩
  · linear_combination (a0 - ox) * h
  · linear_combination (b0 - oy) * h
  · linear_combination (a1 - ox) * h
  · linear_combination (b1 - oy) * h
  · linear_combination (a2 - ox) * h
  · linear_combination (b2 - oy) * h
  · linear_combination (a3 - ox) * h
  · linear_combination (b3 - oy) * h

theorem scaleObstacle_accepted_fields (s : State) (d : ℚ) (o : Obstacle)
    (hc : ¬ (s.currentScaleFactor + d > MAX_SCALE_FACTOR ∨
      s.currentScaleFactor + d < MIN_SCALE_FACTOR)) (ho : s.obstacle = some o) :
    (scaleObstacle s d).obstacle = some (o.withPoints
        (scaledPoints o ((s.currentScaleFactor + d) / s.currentScaleFactor))) ∧
    (scaleObstacle s d).vertices = setObstacleVertices s.vertices
        (scaledPoints o ((s.currentScaleFactor + d) / s.currentScaleFactor)) ∧
    (scaleObstacle s d).currentScaleFactor = s.currentScaleFactor + d := by
  rw [scaleObstacle_accepted s d o hc ho]
  obtain ⟨f1, _, f3, _, f5, _⟩ := set_scale_info_fields
    (afterObstacleTransform (withObstaclePoints s o
      (scaledPoints o ((s.currentScaleFactor + d) / s.currentScaleFactor)))).1
    (s.currentScaleFactor + d)
    (scaleMessage (s.currentScaleFactor + d)
      (afterObstacleTransform (withObstaclePoints s o
        (scaledPoints o ((s.currentScaleFactor + d) / s.currentScaleFactor)))).2)
  rw [f1, f3, f5, (afterObstacleTransform_people _).1, (afterObstacleTransform_fields _).1]
  exact ⟨rfl, rfl, rfl⟩

theorem rotateObstacle_some_fields (s : State) (o : Obstacle) (ho : s.obstacle = some o) :
    (rotateObstacle s).obstacle = some (o.withPoints (rotatedPoints o)) ∧
    (rotateObstacle s).vertices = setObstacleVertices s.vertices (rotatedPoints o) := by
  rw [rotateObstacle_some s o ho]
  obtain ⟨f1, _, f3, _, _, _⟩ := set_info_fields
    (afterObstacleTransform (withObstaclePoints s o (rotatedPoints o))).1
    (rotateMessage (afterObstacleTransform (withObstaclePoints s o (rotatedPoints o))).2)
  rw [f1, f3, (afterObstacleTransform_people _).1, (afterObstacleTransform_fields _).1]
  exact ⟨rfl, rfl⟩

theorem synced_of_set (vs : List Vertex) (o : Obstacle) (q : Quad) (hlen : vs.length = 20)
    (o' : Obstacle) (h : some (o.withPoints q) = some o') :
    vtx (setObstacleVertices vs q) 16 = o'.points.p0 ∧
    vtx (setObstacleVertices vs q) 17 = o'.points.p1 ∧
    vtx (setObstacleVertices vs q) 18 = o'.points.p2 ∧
    vtx (setObstacleVertices vs q) 19 = o'.points.p3 := by
  rw [← Option.some.inj h]
  exact vtx_setObstacleVertices_obstacle vs q hlen

theorem synced_scaleObstacle (s : State) (d : ℚ) (hi : Inv s) (h : ObstacleSynced s) :
    ObstacleSynced (scaleObstacle s d) := by
  by_cases hc : s.currentScaleFactor + d > MAX_SCALE_FACTOR ∨
      s.currentScaleFactor + d < MIN_SCALE_FACTOR
  · rw [scaleObstacle_rejected s _ hc]; exact h
  cases ho : s.obstacle with
  | none => rw [scaleObstacle_none s _ ho]; exact h
  | some o =>
    obtain ⟨e1, e2, _⟩ := scaleObstacle_accepted_fields s d o hc ho
    intro o' ho'
    rw [e1] at ho'
    rw [e2]
    exact synced_of_set _ o _ hi.len o' ho'

theorem synced_rotateObstacle (s : State) (hi : Inv s) (h : ObstacleSynced s) :
    ObstacleSynced (rotateObstacle s) := by
  cases ho : s.obstacle with
  | none => rw [rotateObstacle_none s ho]; exact h
  | some o =>
    obtain ⟨e1, e2⟩ := rotateObstacle_some_fields s o ho
    intro o' ho'
    rw [e1] at ho'
    rw [e2]
    exact synced_of_set _ o _ hi.len o' ho'

theorem synced_initSimulation (s : State) (cv : Canvas) (inner people : List (ℚ × ℚ))
    (hacc : initAccepted cv inner people) :
    ObstacleSynced (initSimulation s cv inner people) := by
  obtain ⟨a1, a2, a3, a4, a5, a6, a7, a8, a9, a10, a11, a12, rfl⟩ :=
    length_twelve_cases inner hacc.1
  intro o ho
  have : some (initObstacle cv) = some o := ho
  rw [← Option.some.inj this]
  exact ⟨rfl, rfl, rfl, rfl⟩

theorem synced_handleMouseMove (s : State) (x y : ℚ) (hi : Inv s) (h : ObstacleSynced s) :
    ObstacleSynced (handleMouseMove s x y) := by
  unfold handleMouseMove
  split
  · exact h
  cases hs : s.selectedVertex with
  | none =>
    dsimp only
    cases s.selectedPerson with
    | none => exact h
    | some p => exact h
  | some sel =>
    dsimp only
    split
    · exact h
    · unfold recomputeEdgesAndTriangulate ObstacleSynced
      dsimp only
      have := hi.selected sel hs
      rw [vtx_moveVertexTo_ne _ _ 16 _ _ (by omega), vtx_moveVertexTo_ne _ _ 17 _ _ (by omega),
        vtx_moveVertexTo_ne _ _ 18 _ _ (by omega), vtx_moveVertexTo_ne _ _ 19 _ _ (by omega)]
      exact h

theorem synced_of_frame (s r : State) (hv : r.vertices = s.vertices)
    (ho : r.obstacle = s.obstacle) (h : ObstacleSynced s) : ObstacleSynced r := by
  unfold ObstacleSynced
  rw [hv, ho]
  exact h

theorem reachable_synced (cv : Canvas) (allowed : Event → Prop) (s : State)
    (h : Reachable cv allowed s) : ObstacleSynced s := by
  induction h with
  | init inner people hacc => exact synced_initSimulation State.initial cv inner people hacc
  | step s e hs _ he ih =>
    have hinv := reachable_inv cv allowed s hs
    cases e with
    | mouseDown x y =>
      exact synced_of_frame s _ (handleMouseDown_frame s x y).1 (handleMouseDown_frame s x y).2.1 ih
    | mouseMove x y => exact synced_handleMouseMove s x y hinv ih
    | mouseUp =>
      refine synced_of_frame s (handleMouseUp s) ?_ ?_ ih
      · unfold handleMouseUp; dsimp only; split <;> rfl
      · unfold handleMouseUp; dsimp only; split <;> rfl
    | setMode mode => exact ih
    | reset inner people => exact synced_initSimulation s cv inner people he
    | addPerson r => exact ih
    | removePerson =>
      refine synced_of_frame s (removePerson s) ?_ ?_ ih
      · unfold removePerson; split <;> rfl
      · unfold removePerson; split <;> rfl
    | scaleObstacle d => exact synced_scaleObstacle s d hinv ih
    | rotateObstacle => exact synced_rotateObstacle s hinv ih
    | deselect => exact ih

/-- C29: in every reachable state, when `scaleObstacle(d)` and then `scaleObstacle(-d)` are
both accepted, the obstacle (its points included), the four obstacle vertices and
`currentScaleFactor` are afterwards what they were before the first call; the obstacle
centre `(x, y)` is the same in the intermediate state. -/
theorem scaling_is_reversible (cv : Canvas) (s : State) (d : ℚ)
    (hr : Reachable cv (fun _ => True) s)
    (h1 : ¬ (s.currentScaleFactor + d > MAX_SCALE_FACTOR ∨
      s.currentScaleFactor + d < MIN_SCALE_FACTOR))
    (h2 : ¬ ((scaleObstacle s d).currentScaleFactor + -d > MAX_SCALE_FACTOR ∨
      (scaleObstacle s d).currentScaleFactor + -d < MIN_SCALE_FACTOR)) :
    (scaleObstacle (scaleObstacle s d) (-d)).obstacle = s.obstacle ∧
    (∀ i, 16 ≤ i → i < 20 →
      vtx (scaleObstacle (scaleObstacle s d) (-d)).vertices i = vtx s.vertices i) ∧
    (scaleObstacle (scaleObstacle s d) (-d)).currentScaleFactor = s.currentScaleFactor ∧
    (∀ o o1, s.obstacle = some o → (scaleObstacle s d).obstacle = some o1 →
      o1.x = o.x ∧ o1.y = o.y) := by
  cases ho : s.obstacle with
  | none =>
    have e : scaleObstacle s d = s := scaleObstacle_none s d ho
    rw [e, scaleObstacle_none s (-d) ho]
    exact ⟨ho, fun _ _ _ => rfl, rfl, fun o _ h => absurd h (by simp)⟩
  | some o =>
    obtain ⟨e1, e2, e3⟩ := scaleObstacle_accepted_fields s d o h1 ho
    obtain ⟨g1, g2, g3⟩ := scaleObstacle_accepted_fields (scaleObstacle s d) (-d) _ h2 e1
    rw [e3] at h2
    have hc : s.currentScaleFactor ≠ 0 := by
      intro h0
      apply h2
      right
      rw [h0]
      unfold MIN_SCALE_FACTOR
      norm_num
    have hcd : s.currentScaleFactor + d ≠ 0 := by
      intro h0
      apply h1
      right
      rw [h0]
      unfold MIN_SCALE_FACTOR
      norm_num
    have hq : scaledPoints
        (o.withPoints (scaledPoints o ((s.currentScaleFactor + d) / s.currentScaleFactor)))
        (((scaleObstacle s d).currentScaleFactor + -d) / (scaleObstacle s d).currentScaleFactor)
        = o.points := by
      apply scaledPoints_inverse
      rw [e3]
      field_simp
    rw [hq] at g1 g2
    have hsync := reachable_synced cv _ s hr o ho
    have hlen := (reachable_inv cv _ s hr).len
    have hlen1 : (scaleObstacle s d).vertices.length = 20 := by
      rw [e2, length_setObstacleVertices]; exact hlen
    obtain ⟨v0, v1, v2, v3⟩ := vtx_setObstacleVertices_obstacle (scaleObstacle s d).vertices
      o.points hlen1
    refine ⟨g1, ?_, ?_, ?_⟩
    · intro i hi1 hi2
      rw [g2]
      have : i = 16 ∨ i = 17 ∨ i = 18 ∨ i = 19 := by omega
      rcases this with rfl | rfl | rfl | rfl
      · rw [v0, hsync.1]
      · rw [v1, hsync.2.1]
      · rw [v2, hsync.2.2.1]
      · rw [v3, hsync.2.2.2]
    · rw [g3, e3]; ring
    · intro o' o1 ho' ho1
      rw [e1] at ho1
      have a := Option.some.inj ho'
      have b := Option.some.inj ho1
      rw [← a, ← b]
      exact ⟨rfl, rfl⟩

/-- Witness for C29: the initial 800x600 state scaled by 0.1 and back. -/
theorem scaling_is_reversible_witness :
    (scaleObstacle (scaleObstacle state0 (1 / 10)) (-(1 / 10))).obstacle = state0.obstacle ∧
    (scaleObstacle (scaleObstacle state0 (1 / 10)) (-(1 / 10))).currentScaleFactor
      = state0.currentScaleFactor :=
  ⟨(scaling_is_reversible cv0 state0 (1 / 10) (state0_reachable _) (by decide!)
      (by decide!)).1,
    (scaling_is_reversible cv0 state0 (1 / 10) (state0_reachable _) (by decide!)
      (by decide!)).2.2.1⟩

/-! ## Claim C12: five scale-up steps in binary64 -/

theorem toDouble_tenth : toDouble (1 / 10) = 3602879701896397 / 36028797018963968 := by
  decide!

theorem scaledUpDouble_four :
    (scaledUpDouble 4).currentScaleFactor = 788129934789837 / 562949953421312 := by
  decide!

/-- C12: starting from `currentScaleFactor = 1.0`, with the sum
`currentScaleFactor + factorChange` evaluated in binary64, the first four calls
`scaleObstacle(0.1)` are accepted and leave the factor at `1.4000000000000004`; the fifth
call computes `1.5000000000000004 > MAX_SCALE_FACTOR` and is rejected, so the state after
five calls is the state after four and the factor never reaches 1.5.  In exact arithmetic
the fifth call is accepted and the factor is 1.5. -/
theorem scale_up_fifth_step_rejected :
    toDouble (1 / 10) = 3602879701896397 / 36028797018963968 ∧
    (scaledUpDouble 1).currentScaleFactor = 2476979795053773 / 2251799813685248 ∧
    (scaledUpDouble 2).currentScaleFactor = 1351079888211149 / 1125899906842624 ∧
    (scaledUpDouble 3).currentScaleFactor = 2927339757790823 / 2251799813685248 ∧
    (scaledUpDouble 4).currentScaleFactor = 788129934789837 / 562949953421312 ∧
    toDouble ((scaledUpDouble 4).currentScaleFactor + toDouble (1 / 10))
      = 3377699720527873 / 2251799813685248 ∧
    toDouble ((scaledUpDouble 4).currentScaleFactor + toDouble (1 / 10)) > MAX_SCALE_FACTOR ∧
    scaledUpDouble 5 = scaledUpDouble 4 ∧
    (scaledUpDouble 5).currentScaleFactor < MAX_SCALE_FACTOR ∧
    (scaledUpExact 5).currentScaleFactor = MAX_SCALE_FACTOR := by
  have h5 : scaledUpDouble 5 = scaledUpDouble 4 :=
    scaleObstacle_rejected (scaledUpDouble 4) _ (by decide!)
  refine ⟨toDouble_tenth, by decide!, by decide!, by decide!, scaledUpDouble_four, by decide!,
    by decide!, h5, ?_, by decide!⟩
  rw [h5, scaledUpDouble_four]
  decide!

/-! ## Claim C23: `handleEdgeIntersections` skips a pair after a splice -/

/-- C23: on the edges `[0-1, 2-3, 4-5]` of `crossVertices` the pass removes `2-3` (the
longer edge of the first crossing pair) and then skips the pair `(0-1, 4-5)`, because the
splice moved `4-5` below the loop index: `0-1` and `4-5` share no endpoint and cross, and
the longer one, `4-5`, is still in the returned list. -/
theorem handleEdgeIntersections_skips_pair :
    handleEdgeIntersections crossVertices crossEdges = [(0, 1), (4, 5)] ∧
    doEdgesCross crossVertices 0 1 2 3 = true ∧
    doEdgesCross crossVertices 0 1 4 5 = true ∧
    hypotSq (vtx crossVertices 0) (vtx crossVertices 1)
      < hypotSq (vtx crossVertices 4) (vtx crossVertices 5) ∧
    (4, 5) ∈ handleEdgeIntersections crossVertices crossEdges := by
  decide!

/-! ## Claim C24: the edges generated by `generateInitialEdges` -/

theorem candidateEdges_kind (vs : List Vertex) (c : Candidate) (h : c ∈ candidateEdges vs) :
    GeneratedKind vs.length (c.from_, c.to_) := by
  unfold candidateEdges BBOX_POINT_COUNT INNER_POINT_COUNT obstacleStartIndex
    BBOX_POINT_COUNT INNER_POINT_COUNT at h
  simp only [List.mem_append, List.mem_flatMap, List.mem_map, List.mem_range,
    List.mem_range'_1, List.mem_filter, decide_eq_true_eq] at h
  unfold GeneratedKind
  rcases h with (⟨i, hi, j, hj, rfl⟩ | ⟨i, hi, j, hj, rfl⟩) | ⟨i, hi, j, hj, rfl⟩ <;>
    simp only [mkCandidate] <;> omega

theorem pairwise_grid (vs : List Vertex) (is : List Nat) (js : Nat → List Nat)
    (his : is.Nodup) (hjs : ∀ i, (js i).Nodup) :
    (is.flatMap fun i => (js i).map fun j => mkCandidate vs i j).Pairwise
      (fun c c' => (c.from_, c.to_) ≠ (c'.from_, c'.to_)) := by
  rw [List.pairwise_flatMap]
  constructor
  · intro i _
    rw [List.pairwise_map]
    exact (hjs i).imp (fun h => by simp [mkCandidate, h])
  · refine his.imp ?_
    intro a b hab x hx y hy
    rw [List.mem_map] at hx hy
    obtain ⟨j, _, rfl⟩ := hx
    obtain ⟨j', _, rfl⟩ := hy
    simp [mkCandidate, hab]

theorem candidateEdges_distinct (vs : List Vertex) :
    (candidateEdges vs).Pairwise (fun c c' => (c.from_, c.to_) ≠ (c'.from_, c'.to_)) := by
  have hk := candidateEdges_kind vs
  unfold candidateEdges at hk ⊢
  rw [List.pairwise_append, List.pairwise_append]
  refine ⟨⟨pairwise_grid vs _ _ (List.nodup_range _) (fun _ => List.nodup_range' _ _),
    pairwise_grid vs _ (fun i => (List.range' BBOX_POINT_COUNT INNER_POINT_COUNT).filter
      fun j => i < j) (List.nodup_range' _ _) (fun _ => (List.nodup_range' _ _).filter _), ?_⟩,
    pairwise_grid vs _ _ (List.nodup_range' _ _) (fun _ => List.nodup_range' _ _), ?_⟩
  · intro a ha b hb
    unfold BBOX_POINT_COUNT INNER_POINT_COUNT at ha hb
    simp only [List.mem_flatMap, List.mem_map, List.mem_range, List.mem_range'_1,
      List.mem_filter, decide_eq_true_eq] at ha hb
    obtain ⟨i, hi, j, hj, rfl⟩ := ha
    obtain ⟨i', hi', j', hj', rfl⟩ := hb
    simp only [mkCandidate, ne_eq, Prod.mk.injEq, not_and]
    omega
  · intro a ha b hb
    unfold BBOX_POINT_COUNT INNER_POINT_COUNT at ha
    unfold obstacleStartIndex BBOX_POINT_COUNT INNER_POINT_COUNT at hb
    simp only [List.mem_append, List.mem_flatMap, List.mem_map, List.mem_range,
      List.mem_range'_1, List.mem_filter, decide_eq_true_eq] at ha hb
    obtain ⟨i', hi', j', hj', rfl⟩ := hb
    rcases ha with ⟨i, hi, j, hj, rfl⟩ | ⟨i, hi, j, hj, rfl⟩ <;>
      (simp only [mkCandidate, ne_eq, Prod.mk.injEq, not_and]; omega)

theorem sortCandidates_facts (vs : List Vertex) :
    (∀ c ∈ sortCandidates (candidateEdges vs), GeneratedKind vs.length (c.from_, c.to_)) ∧
    (sortCandidates (candidateEdges vs)).Pairwise
      (fun c c' => (c.from_, c.to_) ≠ (c'.from_, c'.to_)) := by
  have hp : (sortCandidates (candidateEdges vs)).Perm (candidateEdges vs) :=
    List.perm_insertionSort _ _
  constructor
  · intro c hc
    exact candidateEdges_kind vs c (hp.mem_iff.mp hc)
  · exact (hp.pairwise_iff (fun h => Ne.symm h)).mpr (candidateEdges_distinct vs)

theorem generateStep_cases (vs : List Vertex) (acc : List Edge × List Nat) (c : Candidate) :
    generateStep vs acc c = acc ∨
    (c.from_ < 16 ∧ generateStep vs acc c = (acc.1 ++ [(c.from_, c.to_)], acc.2)) ∨
    (16 ≤ c.from_ ∧ acc.2.getD c.from_ 0 < 3 ∧
      generateStep vs acc c = (acc.1 ++ [(c.from_, c.to_)],
        acc.2.set c.from_ (acc.2.getD c.from_ 0 + 1))) := by
  unfold generateStep obstacleStartIndex BBOX_POINT_COUNT INNER_POINT_COUNT
  split
  · exact Or.inl rfl
  split
  · exact Or.inl rfl
  split
  · next h16 =>
    split
    · exact Or.inl rfl
    · next h3 =>
      split
      · exact Or.inl rfl
      · exact Or.inr (Or.inr ⟨h16, by omega, rfl⟩)
  · next h16 => exact Or.inr (Or.inl ⟨by omega, rfl⟩)

theorem getD_set_nat (l : List Nat) (i j v : Nat) (hi : i < l.length) :
    (l.set i v).getD j 0 = if j = i then v else l.getD j 0 := by
  rw [List.getD_eq_getElem?_getD, List.getD_eq_getElem?_getD, List.getElem?_set]
  by_cases h : i = j
  · subst h
    simp [hi]
  · rw [if_neg h, if_neg (Ne.symm h)]

theorem genInv_push_low (n : Nat) (g : List Edge) (counts : List Nat) (e : Edge)
    (h : GenInv n g counts) (hk : GeneratedKind n e) (hlow : e.1 < 16)
    (hnew : ∀ f ∈ g, f ≠ e) : GenInv n (g ++ [e]) counts :=
  { len := h.len
    kind := by
      intro f hf
      rw [List.mem_append, List.mem_singleton] at hf
      rcases hf with hf | rfl
      · exact h.kind f hf
      · exact hk
    count := by
      intro v hv
      rw [List.countP_append]
      have : [e].countP (fun e => decide (e.1 = v)) = 0 := by
        rw [List.countP_eq_zero]
        intro x hx
        rw [List.mem_singleton] at hx
        subst hx
        simp only [decide_eq_true_eq]
        omega
      rw [this, Nat.add_zero]
      exact h.count v hv
    distinct := by
      rw [List.pairwise_append]
      exact ⟨h.distinct, List.pairwise_singleton _ _, fun a ha b hb => by
        rw [List.mem_singleton] at hb; subst hb; exact hnew a ha⟩ }

theorem genInv_push_obstacle (n : Nat) (g : List Edge) (counts : List Nat) (e : Edge)
    (h : GenInv n g counts) (hk : GeneratedKind n e) (hhigh : 16 ≤ e.1)
    (hcount : counts.getD e.1 0 < 3) (hnew : ∀ f ∈ g, f ≠ e) :
    GenInv n (g ++ [e]) (counts.set e.1 (counts.getD e.1 0 + 1)) :=
  have hlt : e.1 < counts.length := by
    rw [h.len]
    unfold GeneratedKind at hk
    omega
  { len := by rw [List.length_set]; exact h.len
    kind := by
      intro f hf
      rw [List.mem_append, List.mem_singleton] at hf
      rcases hf with hf | rfl
      · exact h.kind f hf
      · exact hk
    count := by
      intro v hv
      rw [List.countP_append, getD_set_nat _ _ _ _ hlt]
      by_cases hve : v = e.1
      · subst hve
        rw [if_pos rfl]
        have : [e].countP (fun f => decide (f.1 = e.1)) = 1 := by simp
        rw [this, (h.count e.1 hv).1]
        exact ⟨rfl, by omega⟩
      · rw [if_neg hve]
        have : [e].countP (fun f => decide (f.1 = v)) = 0 := by
          rw [List.countP_eq_zero]
          intro x hx
          rw [List.mem_singleton] at hx
          subst hx
          simp only [decide_eq_true_eq]
          exact fun h => hve h.symm
        rw [this, Nat.add_zero]
        exact h.count v hv
    distinct := by
      rw [List.pairwise_append]
      exact ⟨h.distinct, List.pairwise_singleton _ _, fun a ha b hb => by
        rw [List.mem_singleton] at hb; subst hb; exact hnew a ha⟩ }

theorem generate_fold (vs : List Vertex) (cons : List Edge) (l : List Candidate) :
    ∀ (acc : List Edge × List Nat) (g : List Edge),
      (∀ c ∈ l, GeneratedKind vs.length (c.from_, c.to_)) →
      l.Pairwise (fun c c' => (c.from_, c.to_) ≠ (c'.from_, c'.to_)) →
      acc.1 = cons ++ g → GenInv vs.length g acc.2 →
      (∀ f ∈ g, ∀ c ∈ l, f ≠ (c.from_, c.to_)) →
      ∃ g', (l.foldl (generateStep vs) acc).1 = cons ++ g' ∧
        GenInv vs.length g' (l.foldl (generateStep vs) acc).2 := by
  induction l with
  | nil => intro acc g _ _ hacc hinv _; exact ⟨g, hacc, hinv⟩
  | cons c l ih =>
    intro acc g hkind hpw hacc hinv hfresh
    rw [List.foldl_cons]
    rw [List.pairwise_cons] at hpw
    have hkl : ∀ c ∈ l, GeneratedKind vs.length (c.from_, c.to_) :=
      fun c' hc' => hkind c' (List.mem_cons_of_mem _ hc')
    have hkc := hkind c (List.mem_cons_self _ _)
    have hfc : ∀ f ∈ g, f ≠ (c.from_, c.to_) := fun f hf => hfresh f hf c (List.mem_cons_self _ _)
    have hfresh' : ∀ f ∈ g ++ [(c.from_, c.to_)], ∀ c' ∈ l, f ≠ (c'.from_, c'.to_) := by
      intro f hf c' hc'
      rw [List.mem_append, List.mem_singleton] at hf
      rcases hf with hf | rfl
      · exact hfresh f hf c' (List.mem_cons_of_mem _ hc')
      · exact hpw.1 c' hc'
    rcases generateStep_cases vs acc c with h | ⟨hlow, h⟩ | ⟨hhigh, hcount, h⟩
    · rw [h]
      exact ih acc g hkl hpw.2 hacc hinv
        (fun f hf c' hc' => hfresh f hf c' (List.mem_cons_of_mem _ hc'))
    · rw [h]
      exact ih _ (g ++ [(c.from_, c.to_)]) hkl hpw.2
        (by rw [hacc, List.append_assoc])
        (genInv_push_low _ g acc.2 (c.from_, c.to_) hinv hkc hlow hfc) hfresh'
    · rw [h]
      exact ih _ (g ++ [(c.from_, c.to_)]) hkl hpw.2
        (by rw [hacc, List.append_assoc])
        (genInv_push_obstacle _ g acc.2 (c.from_, c.to_) hinv hkc hhigh hcount hfc) hfresh'

theorem generateInitialEdges_genInv (vs : List Vertex) (cons : List Edge) :
    generateInitialEdges vs cons = cons ++ generatedEdges vs cons ∧
    ∃ counts, GenInv vs.length (generatedEdges vs cons) counts := by
  obtain ⟨hk, hp⟩ := sortCandidates_facts vs
  obtain ⟨g', h1, h2⟩ := generate_fold vs cons (sortCandidates (candidateEdges vs))
    (cons, List.replicate vs.length 0) [] hk hp (by simp)
    { len := List.length_replicate _ _
      kind := fun e he => absurd he (List.not_mem_nil e)
      count := by
        intro v _
        simp [List.getD_eq_getElem?_getD, List.getElem?_replicate]
        split <;> simp
      distinct := List.Pairwise.nil }
    (fun f hf => absurd hf (List.not_mem_nil f))
  have hg : generatedEdges vs cons = g' := by
    unfold generatedEdges generateInitialEdges
    rw [h1, List.drop_left]
  have he : generateInitialEdges vs cons = cons ++ g' := h1
  rw [hg]
  exact ⟨he, _, h2⟩

theorem kind_not_reversed (n : Nat) (e f : Edge) (he : GeneratedKind n e)
    (hf : GeneratedKind n f) (hne : e ≠ f) : sameEdge e.1 e.2 f = false := by
  unfold sameEdge
  unfold GeneratedKind at he hf
  rw [Bool.eq_false_iff]
  intro h
  simp only [Bool.or_eq_true, Bool.and_eq_true, decide_eq_true_eq] at h
  rcases h with ⟨h1, h2⟩ | ⟨h1, h2⟩
  · exact hne (Prod.ext h1.symm h2.symm)
  · omega

theorem noDuplicate_append (n : Nat) (cons g : List Edge) (hc : NoDuplicateEdge cons)
    (hcons : ∀ c ∈ cons, (c.1 < 4 ∧ c.2 < 4) ∨ (16 ≤ c.1 ∧ 16 ≤ c.2))
    (hg : NoDuplicateEdge g) (hk : ∀ e ∈ g, GeneratedKind n e) : NoDuplicateEdge (cons ++ g) := by
  unfold NoDuplicateEdge at *
  rw [List.pairwise_append]
  refine ⟨hc, hg, ?_⟩
  intro c hc' e he
  have h1 := hcons c hc'
  have h2 := hk e he
  unfold GeneratedKind at h2
  unfold sameEdge
  rw [Bool.eq_false_iff]
  intro h
  simp only [Bool.or_eq_true, Bool.and_eq_true, decide_eq_true_eq] at h
  omega

/-- C24: for every vertex configuration, the list `generateInitialEdges` returns is the
constraint edges followed by the generated (non-constraint) edges; each obstacle vertex is
an endpoint of at most three generated edges; every generated edge joins boundary-interior,
interior-interior or obstacle-interior vertices only; no undirected edge occurs twice among
the generated edges, and none occurs twice in the whole list for the eight constraint edges
that `initSimulation` and `recomputeEdgesAndTriangulate`, the only callers, pass (nor for any
duplicate-free list of boundary-boundary and obstacle-obstacle edges). -/
theorem generated_edges_shape (vs : List Vertex) (constraintEdges : List Edge) :
    generateInitialEdges vs constraintEdges
      = constraintEdges ++ generatedEdges vs constraintEdges ∧
    (∀ v, 16 ≤ v → endpointCount (generatedEdges vs constraintEdges) v ≤ 3) ∧
    (∀ e ∈ generatedEdges vs constraintEdges, GeneratedKind vs.length e) ∧
    NoDuplicateEdge (generatedEdges vs constraintEdges) ∧
    (NoDuplicateEdge constraintEdges →
      (∀ c ∈ constraintEdges, (c.1 < 4 ∧ c.2 < 4) ∨ (16 ≤ c.1 ∧ 16 ≤ c.2)) →
      NoDuplicateEdge (generateInitialEdges vs constraintEdges)) ∧
    NoDuplicateEdge (generateInitialEdges vs (constraintEdgesAt obstacleStartIndex)) := by
  have key : ∀ cons : List Edge,
      generateInitialEdges vs cons = cons ++ generatedEdges vs cons ∧
      (∀ v, 16 ≤ v → endpointCount (generatedEdges vs cons) v ≤ 3) ∧
      (∀ e ∈ generatedEdges vs cons, GeneratedKind vs.length e) ∧
      NoDuplicateEdge (generatedEdges vs cons) := by
    intro cons
    obtain ⟨h1, counts, hinv⟩ := generateInitialEdges_genInv vs cons
    refine ⟨h1, ?_, hinv.kind, ?_⟩
    · intro v hv
      have hcongr : endpointCount (generatedEdges vs cons) v
          = (generatedEdges vs cons).countP (fun e => decide (e.1 = v)) := by
        unfold endpointCount
        apply List.countP_congr
        intro e he
        have hk := hinv.kind e he
        unfold GeneratedKind at hk
        simp only [Bool.or_eq_true, decide_eq_true_eq]
        omega
      rw [hcongr, (hinv.count v hv).1]
      exact (hinv.count v hv).2
    · unfold NoDuplicateEdge
      exact hinv.distinct.imp_of_mem
        (fun ha hb hne => kind_not_reversed _ _ _ (hinv.kind _ ha) (hinv.kind _ hb) hne)
  obtain ⟨h1, h2, h3, h4⟩ := key constraintEdges
  refine ⟨h1, h2, h3, h4, ?_, ?_⟩
  · intro hc hcons
    rw [h1]
    exact noDuplicate_append _ _ _ hc hcons h4 h3
  · obtain ⟨k1, _, k3, k4⟩ := key (constraintEdgesAt obstacleStartIndex)
    rw [k1]
    exact noDuplicate_append _ _ _ (by decide)
      (fun c hc => constraint_protected c hc) k4 k3

/-- Witness for C24: the initial 800x600 vertices with the eight constraint edges. -/
theorem generated_edges_shape_witness :
    endpointCount (generatedEdges verts0 (constraintEdgesAt obstacleStartIndex)) 16 ≤ 3 ∧
    NoDuplicateEdge (generateInitialEdges verts0 (constraintEdgesAt obstacleStartIndex)) :=
  ⟨(generated_edges_shape verts0 (constraintEdgesAt obstacleStartIndex)).2.1 16 (by decide),
    (generated_edges_shape verts0 (constraintEdgesAt obstacleStartIndex)).2.2.2.2.1
      (by decide) (by decide)⟩

/-! ## Claims C20, C21, C22, C28: densities and point location -/

theorem densityColor_iff (targetDensity : Int) (count : Nat) :
    (WebGL.densityColor targetDensity count = WebGL.DensityColor.triangleUnder ↔
      (count : Int) < targetDensity) ∧
    (WebGL.densityColor targetDensity count = WebGL.DensityColor.triangleOptimal ↔
      (count : Int) = targetDensity) ∧
    (WebGL.densityColor targetDensity count = WebGL.DensityColor.triangleOver ↔
      (count : Int) > targetDensity) := by
  unfold WebGL.densityColor
  refine ⟨?_, ?_, ?_⟩ <;> split <;> try split
  all_goals simp only [reduceCtorEq, false_iff, true_iff, not_lt, gt_iff_lt]
  all_goals omega

theorem getDensityStatus_iff (targetDensity : Int) (count : Nat) :
    (WebGL.getDensityStatus targetDensity count = "Under-populated" ↔
      (count : Int) < targetDensity) ∧
    (WebGL.getDensityStatus targetDensity count = "Optimal density" ↔
      (count : Int) = targetDensity) ∧
    (WebGL.getDensityStatus targetDensity count = "Over-populated" ↔
      (count : Int) > targetDensity) := by
  unfold WebGL.getDensityStatus
  have e1 : ("Under-populated" = "Optimal density") = False := by decide
  have e2 : ("Under-populated" = "Over-populated") = False := by decide
  have e3 : ("Optimal density" = "Under-populated") = False := by decide
  have e4 : ("Optimal density" = "Over-populated") = False := by decide
  have e5 : ("Over-populated" = "Under-populated") = False := by decide
  have e6 : ("Over-populated" = "Optimal density") = False := by decide
  refine ⟨?_, ?_, ?_⟩ <;> split <;> try split
  all_goals simp only [e1, e2, e3, e4, e5, e6, false_iff, true_iff, not_lt, gt_iff_lt]
  all_goals omega

theorem colorFor_iff (targetDensity : Int) (count : Nat) :
    (App.colorFor targetDensity count = App.Color.underPopulated ↔
      (count : Int) < targetDensity) ∧
    (App.colorFor targetDensity count = App.Color.optimal ↔ (count : Int) = targetDensity) ∧
    (App.colorFor targetDensity count = App.Color.overPopulated ↔
      (count : Int) > targetDensity) := by
  unfold App.colorFor
  refine ⟨?_, ?_, ?_⟩ <;> split <;> try split
  all_goals simp only [reduceCtorEq, false_iff, true_iff, not_lt, gt_iff_lt]
  all_goals omega

theorem updateTriangleDensity_get (ts : List WebGL.GTriangle) (dots : List WebGL.Dot)
    (targetDensity : Int) (i : Nat) (t : WebGL.GTriangle) (h : ts.get? i = some t) :
    (WebGL.updateTriangleDensity ts dots targetDensity i).get? i =
      some { t with
        density := (dots.filter fun dot => dot.triangleIndex = some i).length
        color := WebGL.densityColor targetDensity
          (dots.filter fun dot => dot.triangleIndex = some i).length } := by
  have hlt : i < ts.length := by
    rw [List.get?_eq_getElem?] at h
    exact (List.getElem?_eq_some_iff.mp h).1
  unfold WebGL.updateTriangleDensity
  rw [if_neg (by omega)]
  rw [List.get?_eq_getElem?] at h ⊢
  dsimp only
  rw [List.getElem?_modify, h]
  simp

/-- C20: with occupancy the number of dots whose stored triangle reference is this
triangle, `updateTriangleDensity(i)` (crowd_simulation_javascript.js) stores the occupancy
as `density` and colours triangle `i` UNDER iff occupancy < targetDensity, OPTIMAL iff
equal, OVER iff greater; `updateTriangleColors` (app.js) colours every triangle the same
way; `getDensityStatus` returns the matching label; four dots with target 4 are OPTIMAL
(also in `drawTriangles` of js/drawing.js, whose target is the constant 4). -/
theorem density_classification (ts : List WebGL.GTriangle) (dots : List WebGL.Dot)
    (targetDensity : Int) (i : Nat) (t : WebGL.GTriangle) (h : ts.get? i = some t)
    (ats : List App.ATriangle) (adots : List App.ADot) :
    (∃ t', (WebGL.updateTriangleDensity ts dots targetDensity i).get? i = some t' ∧
      t'.density = (dots.filter fun dot => dot.triangleIndex = some i).length ∧
      (t'.color = WebGL.DensityColor.triangleUnder ↔
        ((dots.filter fun dot => dot.triangleIndex = some i).length : Int) < targetDensity) ∧
      (t'.color = WebGL.DensityColor.triangleOptimal ↔
        ((dots.filter fun dot => dot.triangleIndex = some i).length : Int) = targetDensity) ∧
      (t'.color = WebGL.DensityColor.triangleOver ↔
        ((dots.filter fun dot => dot.triangleIndex = some i).length : Int) > targetDensity)) ∧
    (∀ a ∈ App.updateTriangleColors ats adots targetDensity, ∃ c, a.color = some c ∧
      (c = App.Color.underPopulated ↔
        ((adots.filter fun dot => dot.triangleId = a.id).length : Int) < targetDensity) ∧
      (c = App.Color.optimal ↔
        ((adots.filter fun dot => dot.triangleId = a.id).length : Int) = targetDensity) ∧
      (c = App.Color.overPopulated ↔
        ((adots.filter fun dot => dot.triangleId = a.id).length : Int) > targetDensity)) ∧
    (∀ count : Nat,
      (WebGL.getDensityStatus targetDensity count = "Under-populated" ↔
        (count : Int) < targetDensity) ∧
      (WebGL.getDensityStatus targetDensity count = "Optimal density" ↔
        (count : Int) = targetDensity) ∧
      (WebGL.getDensityStatus targetDensity count = "Over-populated" ↔
        (count : Int) > targetDensity)) ∧
    (WebGL.densityColor 4 4 = WebGL.DensityColor.triangleOptimal ∧
      App.colorFor 4 4 = App.Color.optimal ∧
      WebGL.getDensityStatus 4 4 = "Optimal density" ∧ fillColor 4 = FillColor.green) := by
  refine ⟨⟨_, updateTriangleDensity_get ts dots targetDensity i t h, rfl,
    densityColor_iff targetDensity _⟩, ?_, getDensityStatus_iff targetDensity,
    by decide, by decide, by decide, by decide⟩
  intro a ha
  unfold App.updateTriangleColors at ha
  rw [List.mem_map] at ha
  obtain ⟨a0, _, rfl⟩ := ha
  exact ⟨_, rfl, colorFor_iff targetDensity _⟩

/-- Witness for C20: one triangle holding four dots, target 4. -/
theorem density_classification_witness :
    ∃ t', (WebGL.updateTriangleDensity [⟨0, 0, 1, 2, 0, WebGL.DensityColor.triangleUnder⟩]
        [⟨0, 1, 1, some 0⟩, ⟨1, 2, 1, some 0⟩, ⟨2, 1, 2, some 0⟩, ⟨3, 2, 2, some 0⟩] 4 0).get? 0
        = some t' ∧ t'.color = WebGL.DensityColor.triangleOptimal :=
  match (density_classification [⟨0, 0, 1, 2, 0, WebGL.DensityColor.triangleUnder⟩]
      [⟨0, 1, 1, some 0⟩, ⟨1, 2, 1, some 0⟩, ⟨2, 1, 2, some 0⟩, ⟨3, 2, 2, some 0⟩] 4 0
      ⟨0, 0, 1, 2, 0, WebGL.DensityColor.triangleUnder⟩ rfl [] []).1 with
  | ⟨t', h1, _, _, hopt, _⟩ => ⟨t', h1, hopt.mpr (by decide)⟩

namespace WebGL

/-- The triangle `t` as `updateTriangleDensity(i)` leaves it. -/
theorem modify_fixed (f : GTriangle → GTriangle) (l : List GTriangle) (i : Nat)
    (h : ∀ t, l[i]? = some t → f t = t) : l.modify f i = l := by
  apply List.ext_getElem?
  intro j
  rw [List.getElem?_modify]
  by_cases hij : i = j
  · subst hij
    cases hl : l[i]? with
    | none => rfl
    | some t => simp [h t hl]
  · simp [hij]

theorem updateTriangleDensity_fixed (ts : List GTriangle) (dots : List Dot) (td : Int)
    (i : Nat)
    (h : ∀ t, ts[i]? = some t →
      t.density = (dots.filter fun dot => dot.triangleIndex = some i).length ∧
      t.color = densityColor td (dots.filter fun dot => dot.triangleIndex = some i).length) :
    updateTriangleDensity ts dots td i = ts := by
  unfold updateTriangleDensity
  split
  · rfl
  · apply modify_fixed
    intro t ht
    obtain ⟨h1, h2⟩ := h t ht
    rw [← h1] at h2 ⊢
    rw [← h2]

theorem updateTriangleDensity_getElem? (ts : List GTriangle) (dots : List Dot) (td : Int)
    (i j : Nat) :
    (updateTriangleDensity ts dots td i)[j]? =
      if i = j then
        ts[j]?.map fun t => { t with
          density := (dots.filter fun dot => dot.triangleIndex = some i).length
          color := densityColor td (dots.filter fun dot => dot.triangleIndex = some i).length }
      else ts[j]? := by
  unfold updateTriangleDensity
  split
  · next hge =>
    split
    · next hij =>
      subst hij
      rw [List.getElem?_eq_none (by omega)]
      rfl
    · rfl
  · rw [List.getElem?_modify]
    split
    · rfl
    · simp

theorem length_updateTriangleDensity (ts : List GTriangle) (dots : List Dot) (td : Int)
    (i : Nat) : (updateTriangleDensity ts dots td i).length = ts.length := by
  unfold updateTriangleDensity
  split
  · rfl
  · exact List.length_modify _ _ _

/-- After the loop over `0 .. k - 1`, every triangle below `k` carries its count and colour,
and the list has kept its length. -/
theorem densities_after_range (ts : List GTriangle) (dots : List Dot) (td : Int) (k : Nat) :
    ((List.range k).foldl (fun ts i => updateTriangleDensity ts dots td i) ts).length
      = ts.length ∧
    ∀ i, i < k → ∀ t,
      ((List.range k).foldl (fun ts i => updateTriangleDensity ts dots td i) ts)[i]? = some t →
      t.density = (dots.filter fun dot => dot.triangleIndex = some i).length ∧
      t.color = densityColor td (dots.filter fun dot => dot.triangleIndex = some i).length := by
  induction k with
  | zero => exact ⟨rfl, fun i hi => absurd hi (Nat.not_lt_zero i)⟩
  | succ k ih =>
    rw [List.range_succ, List.foldl_append, List.foldl_cons, List.foldl_nil]
    refine ⟨by rw [length_updateTriangleDensity]; exact ih.1, ?_⟩
    intro i hi t ht
    rw [updateTriangleDensity_getElem?] at ht
    by_cases hki : k = i
    · subst hki
      rw [if_pos rfl] at ht
      cases hr : ((List.range k).foldl (fun ts i => updateTriangleDensity ts dots td i) ts)[k]? with
      | none => rw [hr] at ht; exact absurd ht (by simp)
      | some r =>
        rw [hr] at ht
        simp only [Option.map_some', Option.some.injEq] at ht
        subst ht
        exact ⟨rfl, rfl⟩
    · rw [if_neg hki] at ht
      exact ih.2 i (by omega) t ht

theorem foldl_fixed (ts : List GTriangle) (dots : List Dot) (td : Int) (l : List Nat)
    (h : ∀ i ∈ l, updateTriangleDensity ts dots td i = ts) :
    l.foldl (fun ts i => updateTriangleDensity ts dots td i) ts = ts := by
  induction l with
  | nil => rfl
  | cons i l ih =>
    rw [List.foldl_cons, h i (List.mem_cons_self _ _)]
    exact ih (fun j hj => h j (List.mem_cons_of_mem _ hj))

theorem reassign_fixed (vs : List GVertex) (ts ts' : List GTriangle) (hs : SameShape ts ts')
    (dot : Dot) : reassignDot vs ts' (reassignDot vs ts dot) = reassignDot vs ts dot := by
  unfold reassignDot
  cases h : findTriangleContaining vs ts dot.x dot.y with
  | none =>
    dsimp only
    rw [← findTriangleContaining_congr vs ts ts' _ _ hs, h]
  | some i =>
    dsimp only
    rw [← findTriangleContaining_congr vs ts ts' _ _ hs, h]

theorem updateAllTriangleDensities_eq (s : State) :
    updateAllTriangleDensities s =
      { s with
        dots := s.dots.map (reassignDot s.vertices s.triangles)
        triangles := (List.range s.triangles.length).foldl
          (fun ts i => updateTriangleDensity ts (s.dots.map (reassignDot s.vertices s.triangles))
            s.targetDensity i) s.triangles } := rfl

theorem updateAllTriangleDensities_fixed (s : State)
    (hd : s.dots.map (reassignDot s.vertices s.triangles) = s.dots)
    (ht : (List.range s.triangles.length).foldl
      (fun ts i => updateTriangleDensity ts s.dots s.targetDensity i) s.triangles = s.triangles) :
    updateAllTriangleDensities s = s := by
  rw [updateAllTriangleDensities_eq, hd, ht]

/-- Running `updateAllTriangleDensities` on its own result changes nothing. -/
theorem updateAllTriangleDensities_twice (s : State) :
    updateAllTriangleDensities (updateAllTriangleDensities s) = updateAllTriangleDensities s := by
  have hshape : SameShape s.triangles (updateAllTriangleDensities s).triangles :=
    updateAll_triangles_sameShape s.triangles _ s.targetDensity _
  have hfold := densities_after_range s.triangles
    (s.dots.map (reassignDot s.vertices s.triangles)) s.targetDensity s.triangles.length
  apply updateAllTriangleDensities_fixed
  · show ((s.dots.map (reassignDot s.vertices s.triangles)).map
        (reassignDot s.vertices (updateAllTriangleDensities s).triangles))
      = s.dots.map (reassignDot s.vertices s.triangles)
    rw [List.map_map]
    apply List.map_congr_left
    intro dot _
    exact reassign_fixed s.vertices _ _ hshape dot
  · have hlen : (updateAllTriangleDensities s).triangles.length = s.triangles.length := hfold.1
    rw [hlen]
    apply foldl_fixed
    intro i hi
    rw [List.mem_range] at hi
    apply updateTriangleDensity_fixed
    intro t ht
    exact hfold.2 i hi t ht

end WebGL

/-- C21: for every state, calling `updateAllTriangleDensities` twice in a row yields exactly
the state one call yields: the same dot-to-triangle references and the same density count
and colour class for every triangle. -/
theorem refresh_is_idempotent (s : WebGL.State) :
    WebGL.updateAllTriangleDensities (WebGL.updateAllTriangleDensities s)
      = WebGL.updateAllTriangleDensities s ∧
    (WebGL.updateAllTriangleDensities (WebGL.updateAllTriangleDensities s)).dots.map
        (fun dot => dot.triangleIndex)
      = (WebGL.updateAllTriangleDensities s).dots.map (fun dot => dot.triangleIndex) ∧
    (WebGL.updateAllTriangleDensities (WebGL.updateAllTriangleDensities s)).triangles.map
        (fun triangle => (triangle.density, triangle.color))
      = (WebGL.updateAllTriangleDensities s).triangles.map
        (fun triangle => (triangle.density, triangle.color)) := by
  rw [WebGL.updateAllTriangleDensities_twice]
  exact ⟨rfl, rfl, rfl⟩

theorem findIdx_first {α : Type} (p : α → Bool) (l : List α) (i : Nat) :
    (l.findIdx p = i ∧ i < l.length) ↔
      (∃ t, l[i]? = some t ∧ p t = true) ∧
        ∀ j : Nat, j < i → ∀ t, l[j]? = some t → p t = false := by
  constructor
  · rintro ⟨h, hlt⟩
    rw [List.findIdx_eq hlt] at h
    refine ⟨⟨l[i], List.getElem?_eq_getElem hlt, h.1⟩, ?_⟩
    intro j hj t ht
    have hjl : j < l.length := by omega
    rw [List.getElem?_eq_getElem hjl, Option.some.injEq] at ht
    rw [← ht]
    exact h.2 j hj
  · rintro ⟨⟨t, ht, hp⟩, hall⟩
    have hlt : i < l.length := (List.getElem?_eq_some_iff.mp ht).1
    refine ⟨?_, hlt⟩
    rw [List.findIdx_eq hlt]
    rw [List.getElem?_eq_getElem hlt, Option.some.injEq] at ht
    refine ⟨by rw [ht]; exact hp, ?_⟩
    intro j hj
    exact hall j hj _ (List.getElem?_eq_getElem (by omega))

theorem find?_first {α : Type} (p : α → Bool) (l : List α) (b : α) :
    l.find? p = some b ↔
      ∃ i : Nat, l[i]? = some b ∧ p b = true ∧
        ∀ j : Nat, j < i → ∀ t, l[j]? = some t → p t = false := by
  rw [List.find?_eq_some_iff_getElem]
  constructor
  · rintro ⟨hp, i, hlt, hb, hall⟩
    refine ⟨i, by rw [List.getElem?_eq_getElem hlt, hb], hp, ?_⟩
    intro j hj t ht
    have hjl : j < l.length := by omega
    rw [List.getElem?_eq_getElem hjl, Option.some.injEq] at ht
    have := hall j hj
    rw [ht] at this
    simpa using this
  · rintro ⟨i, hb, hp, hall⟩
    have hlt : i < l.length := (List.getElem?_eq_some_iff.mp hb).1
    refine ⟨hp, i, hlt, ?_, ?_⟩
    · rw [List.getElem?_eq_getElem hlt, Option.some.injEq] at hb
      exact hb
    · intro j hj
      have := hall j hj _ (List.getElem?_eq_getElem (by omega))
      simpa using this

/-- C22: `findTriangleContaining` (crowd_simulation_javascript.js) returns the index `i`
exactly when `pointInTriangle` succeeds for triangle `i` and fails for every triangle at an
index `j < i`, and `-1` exactly when it fails for every triangle; `findTriangleAt` (app.js)
returns the triangle `a` exactly when `a` is stored at such a first index, and `null` exactly
when `isPointInTriangle` fails for every triangle. -/
theorem location_is_first_containing (vs : List WebGL.GVertex) (ts : List WebGL.GTriangle)
    (x y : ℚ) (avs : List App.AVertex) (ats : List App.ATriangle) (pos : Point) :
    (∀ i : Nat, WebGL.findTriangleContaining vs ts x y = some i ↔
      (∃ t, ts[i]? = some t ∧ WebGL.pointInTriangle vs x y t = true) ∧
        ∀ j : Nat, j < i → ∀ t, ts[j]? = some t → WebGL.pointInTriangle vs x y t = false) ∧
    (WebGL.findTriangleContaining vs ts x y = none ↔
      ∀ t ∈ ts, WebGL.pointInTriangle vs x y t = false) ∧
    (∀ a, App.findTriangleAt avs ats pos = some a ↔
      ∃ i : Nat, ats[i]? = some a ∧ App.isPointInTriangle avs pos a = true ∧
        ∀ j : Nat, j < i → ∀ b, ats[j]? = some b →
          App.isPointInTriangle avs pos b = false) ∧
    (App.findTriangleAt avs ats pos = none ↔
      ∀ a ∈ ats, App.isPointInTriangle avs pos a = false) := by
  refine ⟨?_, ?_, ?_, ?_⟩
  · intro i
    rw [← findIdx_first]
    unfold WebGL.findTriangleContaining
    dsimp only
    constructor
    · intro h
      split at h
      · next hlt =>
        rw [Option.some.injEq] at h
        exact ⟨h, h ▸ hlt⟩
      · exact absurd h (by simp)
    · rintro ⟨h, hlt⟩
      rw [h, if_pos hlt]
  · unfold WebGL.findTriangleContaining
    dsimp only
    rw [← List.findIdx_eq_length]
    have : List.findIdx (WebGL.pointInTriangle vs x y) ts ≤ ts.length :=
      List.findIdx_le_length _
    constructor
    · intro h
      split at h
      · exact absurd h (by simp)
      · omega
    · intro h
      rw [if_neg (by omega)]
  · intro a
    unfold App.findTriangleAt
    exact find?_first _ _ _
  · unfold App.findTriangleAt
    rw [List.find?_eq_none]
    simp only [Bool.not_eq_true]

/-- Witness for C22: the point `(300, 200)` in the boundary square with a diagonal. -/
theorem location_is_first_containing_witness :
    (∃ t, webglSquare.triangles[0]? = some t ∧
      WebGL.pointInTriangle webglSquare.vertices 300 200 t = true) ∧
    ∀ j : Nat, j < 0 → ∀ t, webglSquare.triangles[j]? = some t →
      WebGL.pointInTriangle webglSquare.vertices 300 200 t = false :=
  ((location_is_first_containing webglSquare.vertices webglSquare.triangles 300 200 [] []
    ⟨0, 0⟩).1 0).mp (by decide!)

theorem closed_tests_agree (a b : ℚ) :
    (decide (a ≥ 0) && decide (b ≥ 0) && decide (1 - a - b ≥ 0)) =
      (decide (a ≥ 0) && decide (a ≤ 1) && decide (b ≥ 0) && decide (b ≤ 1)
        && decide (1 - a - b ≥ 0) && decide (1 - a - b ≤ 1)) := by
  rw [Bool.eq_iff_iff]
  simp only [Bool.and_eq_true, decide_eq_true_eq, ge_iff_le]
  constructor
  · rintro ⟨⟨ha, hb⟩, hc⟩
    exact ⟨⟨⟨⟨⟨ha, by linarith⟩, hb⟩, by linarith⟩, hc⟩, by linarith⟩
  · rintro ⟨⟨⟨⟨⟨ha, _⟩, hb⟩, _⟩, hc⟩, _⟩
    exact ⟨⟨ha, hb⟩, hc⟩

/-- C28: for every point and every triangle whose barycentric denominator has absolute value
at least `1e-10`, the test `a >= 0 && b >= 0 && c >= 0` of `pointInTriangle`
(crowd_simulation_javascript.js) and of `isPointInTriangle` (app.js, the three vertices being
found by id) returns the same boolean as the test `a, b, c in [0, 1]` of `isPointInTriangle`
(js/geometry.js) on the same three corners, in exact arithmetic. -/
theorem point_in_triangle_tests_agree (vs : List WebGL.GVertex) (x y : ℚ)
    (t : WebGL.GTriangle) (avs : List App.AVertex) (a : App.ATriangle) (w1 w2 w3 : App.AVertex) :
    (|((WebGL.vertexAt vs t.vertex2).y - (WebGL.vertexAt vs t.vertex3).y)
          * ((WebGL.vertexAt vs t.vertex1).x - (WebGL.vertexAt vs t.vertex3).x)
        + ((WebGL.vertexAt vs t.vertex3).x - (WebGL.vertexAt vs t.vertex2).x)
          * ((WebGL.vertexAt vs t.vertex1).y - (WebGL.vertexAt vs t.vertex3).y)|
        ≥ 1 / 10000000000 →
      WebGL.pointInTriangle vs x y t =
        isPointInTriangle ⟨x, y⟩
          ⟨(WebGL.vertexAt vs t.vertex1).x, (WebGL.vertexAt vs t.vertex1).y⟩
          ⟨(WebGL.vertexAt vs t.vertex2).x, (WebGL.vertexAt vs t.vertex2).y⟩
          ⟨(WebGL.vertexAt vs t.vertex3).x, (WebGL.vertexAt vs t.vertex3).y⟩) ∧
    (App.findVertex avs a.vertices.1 = some w1 → App.findVertex avs a.vertices.2.1 = some w2 →
      App.findVertex avs a.vertices.2.2 = some w3 →
      |(w2.y - w3.y) * (w1.x - w3.x) + (w3.x - w2.x) * (w1.y - w3.y)| ≥ 1 / 10000000000 →
      App.isPointInTriangle avs ⟨x, y⟩ a =
        isPointInTriangle ⟨x, y⟩ ⟨w1.x, w1.y⟩ ⟨w2.x, w2.y⟩ ⟨w3.x, w3.y⟩) := by
  constructor
  · intro h
    unfold WebGL.pointInTriangle isPointInTriangle
    dsimp only
    rw [if_neg (not_lt.mpr h), if_neg]
    · exact closed_tests_agree _ _
    · intro h0
      rw [h0] at h
      norm_num at h
  · intro h1 h2 h3 h
    unfold App.isPointInTriangle isPointInTriangle
    rw [h1, h2, h3]
    dsimp only
    rw [if_neg (not_lt.mpr h), if_neg]
    · exact closed_tests_agree _ _
    · intro h0
      rw [h0] at h
      norm_num at h

/-- Witness for C28: the point `(1, 1)` in the triangle `(0, 0), (4, 0), (0, 4)`. -/
theorem point_in_triangle_tests_agree_witness :
    WebGL.pointInTriangle [⟨0, 0, 0, false⟩, ⟨1, 4, 0, false⟩, ⟨2, 0, 4, false⟩] 1 1
        ⟨0, 0, 1, 2, 0, WebGL.DensityColor.triangleUnder⟩ =
      isPointInTriangle ⟨1, 1⟩ ⟨0, 0⟩ ⟨4, 0⟩ ⟨0, 4⟩ ∧
    App.isPointInTriangle [⟨0, 0, 0⟩, ⟨1, 4, 0⟩, ⟨2, 0, 4⟩] ⟨1, 1⟩ ⟨0, (0, 1, 2), none⟩ =
      isPointInTriangle ⟨1, 1⟩ ⟨0, 0⟩ ⟨4, 0⟩ ⟨0, 4⟩ :=
  ⟨(point_in_triangle_tests_agree [⟨0, 0, 0, false⟩, ⟨1, 4, 0, false⟩, ⟨2, 0, 4, false⟩] 1 1
      ⟨0, 0, 1, 2, 0, WebGL.DensityColor.triangleUnder⟩ [] ⟨0, (0, 1, 2), none⟩
      ⟨0, 0, 0⟩ ⟨0, 0, 0⟩ ⟨0, 0, 0⟩).1 (by decide!),
    (point_in_triangle_tests_agree [] 1 1 ⟨0, 0, 1, 2, 0, WebGL.DensityColor.triangleUnder⟩
      [⟨0, 0, 0⟩, ⟨1, 4, 0⟩, ⟨2, 0, 4⟩] ⟨0, (0, 1, 2), none⟩
      ⟨0, 0, 0⟩ ⟨1, 4, 0⟩ ⟨2, 0, 4⟩).2 rfl rfl rfl (by decide!)⟩

/-! ## Claim C25: obstacle corners and `linesIntersect` -/

/-- A segment that starts at the start point of another, non-parallel segment is reported as
intersecting it (`ua = ub = 0`). -/
theorem linesIntersect_shared_start (p1 p2 p3 p4 : WebGL.GVertex) (hx : p1.x = p3.x)
    (hy : p1.y = p3.y)
    (hd : ¬ |(p4.y - p3.y) * (p2.x - p1.x) - (p4.x - p3.x) * (p2.y - p1.y)| < 1 / 10000000000) :
    WebGL.linesIntersect p1 p2 p3 p4 = true := by
  unfold WebGL.linesIntersect
  dsimp only
  rw [if_neg hd, hx, hy]
  simp

/-- C25: on `obstacleDemo` the obstacle corner 5 at `(350, 270)` has the inner vertex 4 at
`(300, 250)` as its nearest non-obstacle vertex, at squared distance 2900 (below `200 * 200`)
and not yet connected; the segment leaves the obstacle at the corner, yet `linesIntersect`
reports it as intersecting the obstacle edge `5-6` that starts at the same corner, so
`edgeIntersectsObstacle(5, 4, obstacle)` is true and `connectObstacleToTriangulation` returns
the state unchanged: no edge is added for any corner. -/
theorem obstacle_corner_never_connected :
    (WebGL.closestVertices obstacleDemo.vertices [5, 6, 7, 8] 5).take 2
      = [⟨4, 2900⟩, ⟨0, 128200⟩] ∧
    WebGL.edgeExists obstacleDemo.edges 5 4 = false ∧
    WebGL.linesIntersect (WebGL.vertexAt obstacleDemo.vertices 5)
      (WebGL.vertexAt obstacleDemo.vertices 4) (WebGL.vertexAt obstacleDemo.vertices 5)
      (WebGL.vertexAt obstacleDemo.vertices 6) = true ∧
    WebGL.edgeIntersectsObstacle obstacleDemo.vertices 5 4 [5, 6, 7, 8] = true ∧
    WebGL.connectObstacleToTriangulation obstacleDemo [5, 6, 7, 8] = obstacleDemo ∧
    WebGL.edgeExists (WebGL.connectObstacleToTriangulation obstacleDemo [5, 6, 7, 8]).edges 5 4
      = false := by
  decide!

/-! ## Claim C27: edge-triple and vertex-triple triangle discovery -/

namespace WebGL

theorem distinctInOrder_fold (l acc : List Nat) (hacc : acc.Nodup) :
    (l.foldl (fun acc v => if v ∈ acc then acc else acc ++ [v]) acc).Nodup ∧
    (∀ v, v ∈ l.foldl (fun acc v => if v ∈ acc then acc else acc ++ [v]) acc ↔
      v ∈ acc ∨ v ∈ l) := by
  induction l generalizing acc with
  | nil => exact ⟨hacc, fun v => by simp⟩
  | cons a l ih =>
    rw [List.foldl_cons]
    by_cases ha : a ∈ acc
    · rw [if_pos ha]
      obtain ⟨h1, h2⟩ := ih acc hacc
      refine ⟨h1, ?_⟩
      intro v
      rw [h2 v, List.mem_cons]
      constructor
      · rintro (h | h)
        · exact Or.inl h
        · exact Or.inr (Or.inr h)
      · rintro (h | h | h)
        · exact Or.inl h
        · exact Or.inl (h ▸ ha)
        · exact Or.inr h
    · rw [if_neg ha]
      have hn : (acc ++ [a]).Nodup := by
        rw [List.nodup_append]
        refine ⟨hacc, List.nodup_singleton a, ?_⟩
        intro x hx hx'
        rw [List.mem_singleton] at hx'
        exact ha (hx' ▸ hx)
      obtain ⟨h1, h2⟩ := ih (acc ++ [a]) hn
      refine ⟨h1, ?_⟩
      intro v
      rw [h2 v, List.mem_append, List.mem_singleton, List.mem_cons]
      tauto

theorem distinctInOrder_nodup (l : List Nat) : (distinctInOrder l).Nodup :=
  (distinctInOrder_fold l [] List.nodup_nil).1

theorem mem_distinctInOrder (l : List Nat) (v : Nat) : v ∈ distinctInOrder l ↔ v ∈ l := by
  unfold distinctInOrder
  rw [(distinctInOrder_fold l [] List.nodup_nil).2 v]
  simp

theorem length_three (l : List Nat) (h : l.length = 3) :
    l = [l.getD 0 0, l.getD 1 0, l.getD 2 0] := by
  match l, h with
  | [a, b, c], _ => rfl

/-- What a successful `findTriangleFromEdges` tells about the six endpoints: the three
vertices of the triangle are pairwise distinct and every endpoint is one of them. -/
theorem findTriangleFromEdges_some (nextId : Nat) (e1 e2 e3 : GEdge) (t : GTriangle)
    (h : findTriangleFromEdges nextId e1 e2 e3 = some t) :
    (t.vertex1 ≠ t.vertex2 ∧ t.vertex1 ≠ t.vertex3 ∧ t.vertex2 ≠ t.vertex3) ∧
    ∀ v ∈ [e1.vertex1, e1.vertex2, e2.vertex1, e2.vertex2, e3.vertex1, e3.vertex2],
      v = t.vertex1 ∨ v = t.vertex2 ∨ v = t.vertex3 := by
  unfold findTriangleFromEdges at h
  dsimp only at h
  split at h
  · exact absurd h (by simp)
  · next hlen =>
    rw [not_not] at hlen
    split at h
    · rw [Option.some.injEq] at h
      subst h
      dsimp only
      have hnd := distinctInOrder_nodup
        [e1.vertex1, e1.vertex2, e2.vertex1, e2.vertex2, e3.vertex1, e3.vertex2]
      have hmem := mem_distinctInOrder
        [e1.vertex1, e1.vertex2, e2.vertex1, e2.vertex2, e3.vertex1, e3.vertex2]
      have h3 := length_three _ hlen
      generalize distinctInOrder
        [e1.vertex1, e1.vertex2, e2.vertex1, e2.vertex2, e3.vertex1, e3.vertex2] = D at *
      rw [h3] at hnd hmem
      constructor
      · simp only [List.nodup_cons, List.mem_cons, List.mem_singleton, List.not_mem_nil,
          or_false, not_or, List.nodup_nil, and_true] at hnd
        exact ⟨hnd.1.1, hnd.1.2, hnd.2.1⟩
      · intro v hv
        have := (hmem v).mpr hv
        simpa using this
    · exact absurd h (by simp)

theorem edge_is_side (e : GEdge) (a b c : Nat)
    (h1 : e.vertex1 = a ∨ e.vertex1 = b ∨ e.vertex1 = c)
    (h2 : e.vertex2 = a ∨ e.vertex2 = b ∨ e.vertex2 = c) (l : e.vertex1 ≠ e.vertex2) :
    joins e a b ∨ joins e a c ∨ joins e b c := by
  unfold joins
  rcases h1 with h1 | h1 | h1 <;> rcases h2 with h2 | h2 | h2
  · exact absurd (h1.trans h2.symm) l
  · exact Or.inl (Or.inl ⟨h1, h2⟩)
  · exact Or.inr (Or.inl (Or.inl ⟨h1, h2⟩))
  · exact Or.inl (Or.inr ⟨h1, h2⟩)
  · exact absurd (h1.trans h2.symm) l
  · exact Or.inr (Or.inr (Or.inl ⟨h1, h2⟩))
  · exact Or.inr (Or.inl (Or.inr ⟨h1, h2⟩))
  · exact Or.inr (Or.inr (Or.inr ⟨h1, h2⟩))
  · exact absurd (h1.trans h2.symm) l

theorem same_side_joins (e f : GEdge) (a b : Nat) (h1 : joins e a b) (h2 : joins f a b) :
    joins e f.vertex1 f.vertex2 := by
  unfold joins at *
  rcases h1 with ⟨h1, h1'⟩ | ⟨h1, h1'⟩ <;> rcases h2 with ⟨h2, h2'⟩ | ⟨h2, h2'⟩
  · exact Or.inl ⟨h1.trans h2.symm, h1'.trans h2'.symm⟩
  · exact Or.inr ⟨h1.trans h2'.symm, h1'.trans h2.symm⟩
  · exact Or.inr ⟨h1.trans h2'.symm, h1'.trans h2.symm⟩
  · exact Or.inl ⟨h1.trans h2.symm, h1'.trans h2'.symm⟩

theorem sides_of_three (e1 e2 e3 : GEdge) (a b c : Nat)
    (j1 : joins e1 a b ∨ joins e1 a c ∨ joins e1 b c)
    (j2 : joins e2 a b ∨ joins e2 a c ∨ joins e2 b c)
    (j3 : joins e3 a b ∨ joins e3 a c ∨ joins e3 b c)
    (n12 : ¬ joins e1 e2.vertex1 e2.vertex2) (n13 : ¬ joins e1 e3.vertex1 e3.vertex2)
    (n23 : ¬ joins e2 e3.vertex1 e3.vertex2) :
    (joins e1 a b ∨ joins e2 a b ∨ joins e3 a b) ∧
    (joins e1 a c ∨ joins e2 a c ∨ joins e3 a c) ∧
    (joins e1 b c ∨ joins e2 b c ∨ joins e3 b c) := by
  rcases j1 with j1 | j1 | j1 <;> rcases j2 with j2 | j2 | j2 <;>
    rcases j3 with j3 | j3 | j3 <;>
    first
      | exact absurd (same_side_joins _ _ _ _ j1 j2) n12
      | exact absurd (same_side_joins _ _ _ _ j1 j3) n13
      | exact absurd (same_side_joins _ _ _ _ j2 j3) n23
      | exact ⟨by first | exact Or.inl j1 | exact Or.inr (Or.inl j2) | exact Or.inr (Or.inr j3),
          by first | exact Or.inl j1 | exact Or.inr (Or.inl j2) | exact Or.inr (Or.inr j3),
          by first | exact Or.inl j1 | exact Or.inr (Or.inl j2) | exact Or.inr (Or.inr j3)⟩

/-- Three edges without self-loop, no two joining the same pair, whose endpoints all lie
among three distinct vertices, are the three sides of the triangle on these vertices. -/
theorem sides_covered (e1 e2 e3 : GEdge) (a b c : Nat)
    (h11 : e1.vertex1 = a ∨ e1.vertex1 = b ∨ e1.vertex1 = c)
    (h12 : e1.vertex2 = a ∨ e1.vertex2 = b ∨ e1.vertex2 = c)
    (h21 : e2.vertex1 = a ∨ e2.vertex1 = b ∨ e2.vertex1 = c)
    (h22 : e2.vertex2 = a ∨ e2.vertex2 = b ∨ e2.vertex2 = c)
    (h31 : e3.vertex1 = a ∨ e3.vertex1 = b ∨ e3.vertex1 = c)
    (h32 : e3.vertex2 = a ∨ e3.vertex2 = b ∨ e3.vertex2 = c)
    (l1 : e1.vertex1 ≠ e1.vertex2) (l2 : e2.vertex1 ≠ e2.vertex2) (l3 : e3.vertex1 ≠ e3.vertex2)
    (n12 : ¬ joins e1 e2.vertex1 e2.vertex2) (n13 : ¬ joins e1 e3.vertex1 e3.vertex2)
    (n23 : ¬ joins e2 e3.vertex1 e3.vertex2) :
    (joins e1 a b ∨ joins e2 a b ∨ joins e3 a b) ∧
    (joins e1 a c ∨ joins e2 a c ∨ joins e3 a c) ∧
    (joins e1 b c ∨ joins e2 b c ∨ joins e3 b c) :=
  sides_of_three e1 e2 e3 a b c (edge_is_side e1 a b c h11 h12 l1)
    (edge_is_side e2 a b c h21 h22 l2) (edge_is_side e3 a b c h31 h32 l3) n12 n13 n23

theorem joins_symm (e : GEdge) (a b : Nat) (h : joins e a b) : joins e b a := by
  unfold joins at *
  exact h.symm

theorem mem_of_joins (e : GEdge) (a b v : Nat) (h : joins e a b) :
    (v = e.vertex1 ∨ v = e.vertex2) ↔ (v = a ∨ v = b) := by
  unfold joins at h
  rcases h with ⟨h1, h2⟩ | ⟨h1, h2⟩ <;> rw [h1, h2]
  exact Or.comm

theorem count_of_joins (e : GEdge) (a b : Nat) (h : joins e a b) (hab : a ≠ b) :
    [e.vertex1, e.vertex2].count a = 1 ∧ [e.vertex1, e.vertex2].count b = 1 ∧
    ∀ c, c ≠ a → c ≠ b → [e.vertex1, e.vertex2].count c = 0 := by
  unfold joins at h
  rcases h with ⟨h1, h2⟩ | ⟨h1, h2⟩ <;> rw [h1, h2]
  · refine ⟨by simp [List.count_cons, hab.symm], by simp [List.count_cons, hab], ?_⟩
    intro c hca hcb
    simp [List.count_cons, hca.symm, hcb.symm]
  · refine ⟨by simp [List.count_cons, hab.symm], by simp [List.count_cons, hab], ?_⟩
    intro c hca hcb
    simp [List.count_cons, hca.symm, hcb.symm]

theorem count_six (v x1 y1 x2 y2 x3 y3 : Nat) :
    [x1, y1, x2, y2, x3, y3].count v = [x1, y1].count v + [x2, y2].count v + [x3, y3].count v := by
  show ([x1, y1] ++ [x2, y2] ++ [x3, y3]).count v = _
  rw [List.count_append, List.count_append]

theorem or_shuffle (p q r : Prop) : ((p ∨ q) ∨ (p ∨ r) ∨ (q ∨ r)) ↔ (p ∨ q ∨ r) := by
  tauto

/-- The edges `e1`, `e2`, `e3` joining `x-y`, `x-z` and `y-z` of three distinct vertices pass
both tests of `findTriangleFromEdges`. -/
theorem findTriangleFromEdges_arranged (nextId : Nat) (e1 e2 e3 : GEdge) (x y z : Nat)
    (hxy : x ≠ y) (hxz : x ≠ z) (hyz : y ≠ z)
    (j1 : joins e1 x y) (j2 : joins e2 x z) (j3 : joins e3 y z) :
    ∃ t, findTriangleFromEdges nextId e1 e2 e3 = some t := by
  have hmem : ∀ v, v ∈ [e1.vertex1, e1.vertex2, e2.vertex1, e2.vertex2, e3.vertex1, e3.vertex2]
      ↔ v ∈ [x, y, z] := by
    intro v
    have m1 := mem_of_joins e1 x y v j1
    have m2 := mem_of_joins e2 x z v j2
    have m3 := mem_of_joins e3 y z v j3
    have e : v ∈ [e1.vertex1, e1.vertex2, e2.vertex1, e2.vertex2, e3.vertex1, e3.vertex2] ↔
        (v = e1.vertex1 ∨ v = e1.vertex2) ∨ (v = e2.vertex1 ∨ v = e2.vertex2) ∨
          (v = e3.vertex1 ∨ v = e3.vertex2) := by
      simp only [List.mem_cons, List.mem_singleton, List.not_mem_nil, or_false, or_assoc]
    rw [e, m1, m2, m3]
    simp only [List.mem_cons, List.mem_singleton, List.not_mem_nil, or_false]
    exact or_shuffle _ _ _
  have hcount : ∀ v ∈ [e1.vertex1, e1.vertex2, e2.vertex1, e2.vertex2, e3.vertex1, e3.vertex2],
      [e1.vertex1, e1.vertex2, e2.vertex1, e2.vertex2, e3.vertex1, e3.vertex2].count v = 2 := by
    intro v hv
    rw [hmem v] at hv
    obtain ⟨a1, a2, a3⟩ := count_of_joins e1 x y j1 hxy
    obtain ⟨b1, b2, b3⟩ := count_of_joins e2 x z j2 hxz
    obtain ⟨c1, c2, c3⟩ := count_of_joins e3 y z j3 hyz
    rw [count_six]
    simp only [List.mem_cons, List.mem_singleton, List.not_mem_nil, or_false] at hv
    rcases hv with rfl | rfl | rfl
    · rw [a1, b1, c3 v hxy hxz]
    · rw [a2, b3 v hxy.symm hyz, c1]
    · rw [a3 v hxz.symm hyz.symm, b2, c2]
  have hlen : (distinctInOrder
      [e1.vertex1, e1.vertex2, e2.vertex1, e2.vertex2, e3.vertex1, e3.vertex2]).length = 3 := by
    have hp : (distinctInOrder
        [e1.vertex1, e1.vertex2, e2.vertex1, e2.vertex2, e3.vertex1, e3.vertex2]).Perm
        [x, y, z] := by
      rw [List.perm_ext_iff_of_nodup (distinctInOrder_nodup _) (by simp [hxy, hxz, hyz])]
      intro v
      rw [mem_distinctInOrder, hmem]
    exact hp.length_eq
  unfold findTriangleFromEdges
  dsimp only
  rw [if_neg (by rw [hlen]; simp)]
  have hform : edgesFormTriangle e1 e2 e3 = true := by
    unfold edgesFormTriangle
    dsimp only
    rw [List.all_eq_true]
    intro v hv
    rw [decide_eq_true_eq]
    exact hcount v hv
  rw [if_pos hform]
  exact ⟨_, rfl⟩

theorem joins_two_sides (e : GEdge) (a b c : Nat) (hbc : b ≠ c) (h1 : joins e a b)
    (h2 : joins e a c) (hab : a ≠ b) : False := by
  unfold joins at *
  rcases h1 with ⟨h1, h1'⟩ | ⟨h1, h1'⟩ <;> rcases h2 with ⟨h2, h2'⟩ | ⟨h2, h2'⟩
  · exact hbc (h1'.symm.trans h2')
  · exact hab (h2'.symm.trans h1')
  · exact hab (h2.symm.trans h1)
  · exact hbc (h1.symm.trans h2)

/-- When each side of the triangle on three distinct vertices is joined by one of `e1`, `e2`,
`e3`, `findTriangleFromEdges` succeeds. -/
theorem findTriangleFromEdges_of_sides (nextId : Nat) (e1 e2 e3 : GEdge) (a b c : Nat)
    (hab : a ≠ b) (hac : a ≠ c) (hbc : b ≠ c)
    (cab : joins e1 a b ∨ joins e2 a b ∨ joins e3 a b)
    (cac : joins e1 a c ∨ joins e2 a c ∨ joins e3 a c)
    (cbc : joins e1 b c ∨ joins e2 b c ∨ joins e3 b c) :
    ∃ t, findTriangleFromEdges nextId e1 e2 e3 = some t := by
  have s := joins_symm
  have two := joins_two_sides
  rcases cab with j | j | j <;> rcases cac with k | k | k <;> rcases cbc with l | l | l
  all_goals first
    | exact absurd (two _ a b c hbc j k hab) id
    | exact absurd (two _ b a c hac (s _ _ _ j) l hab.symm) id
    | exact absurd (two _ c a b hab (s _ _ _ k) (s _ _ _ l) hac.symm) id
    | exact findTriangleFromEdges_arranged nextId e1 e2 e3 a b c hab hac hbc j k l
    | exact findTriangleFromEdges_arranged nextId e1 e2 e3 b a c hab.symm hbc hac (s _ _ _ j) l k
    | exact findTriangleFromEdges_arranged nextId e1 e2 e3 a c b hac hab hbc.symm k j (s _ _ _ l)
    | exact findTriangleFromEdges_arranged nextId e1 e2 e3 c a b hac.symm hbc.symm hab
        (s _ _ _ k) (s _ _ _ l) j
    | exact findTriangleFromEdges_arranged nextId e1 e2 e3 b c a hbc hab.symm hac.symm l
        (s _ _ _ j) (s _ _ _ k)
    | exact findTriangleFromEdges_arranged nextId e1 e2 e3 c b a hbc.symm hac.symm hab.symm
        (s _ _ _ l) (s _ _ _ k) (s _ _ _ j)

end WebGL

theorem mem_triples (n : Nat) (t : Triangle) :
    t ∈ triples n ↔ t.1 < t.2.1 ∧ t.2.1 < t.2.2 ∧ t.2.2 < n := by
  obtain ⟨i, j, k⟩ := t
  unfold triples
  simp only [List.mem_flatMap, List.mem_map, List.mem_filter, List.mem_range,
    decide_eq_true_eq, Prod.mk.injEq]
  constructor
  · rintro ⟨i', _, j', ⟨_, hij⟩, k', ⟨hk, hjk⟩, rfl, rfl, rfl⟩
    exact ⟨hij, hjk, hk⟩
  · rintro ⟨hij, hjk, hk⟩
    exact ⟨i, by omega, j, ⟨by omega, hij⟩, k, ⟨hk, hjk⟩, rfl, rfl, rfl⟩

theorem nodup_triples (n : Nat) : (triples n).Nodup := by
  unfold triples List.Nodup
  rw [List.pairwise_flatMap]
  constructor
  · intro i _
    rw [List.pairwise_flatMap]
    constructor
    · intro j _
      rw [List.pairwise_map]
      exact ((List.nodup_range n).filter _).imp (fun h => by simp [h])
    · refine ((List.nodup_range n).filter _).imp ?_
      intro a b hab x hx y hy
      rw [List.mem_map] at hx hy
      obtain ⟨_, _, rfl⟩ := hx
      obtain ⟨_, _, rfl⟩ := hy
      simp [hab]
  · refine (List.nodup_range n).imp ?_
    intro a b hab x hx y hy
    rw [List.mem_flatMap] at hx hy
    obtain ⟨_, _, hx⟩ := hx
    obtain ⟨_, _, hy⟩ := hy
    rw [List.mem_map] at hx hy
    obtain ⟨_, _, rfl⟩ := hx
    obtain ⟨_, _, rfl⟩ := hy
    simp [hab]

namespace WebGL

/-- The vertex triple of a triangle object. -/
theorem findTriangleFromEdges_verts (n m : Nat) (e1 e2 e3 : GEdge) :
    (findTriangleFromEdges n e1 e2 e3).map (fun t => (t.vertex1, t.vertex2, t.vertex3)) =
      (findTriangleFromEdges m e1 e2 e3).map (fun t => (t.vertex1, t.vertex2, t.vertex3)) := by
  unfold findTriangleFromEdges
  dsimp only
  split
  · rfl
  · split <;> rfl

theorem triangulation_fold (es : List GEdge)
    (f : List GTriangle × Nat → Triangle → List GTriangle × Nat)
    (hsome : ∀ acc t triangle,
      findTriangleFromEdges acc.2 (edgeAt es t.1) (edgeAt es t.2.1) (edgeAt es t.2.2)
        = some triangle → f acc t = (acc.1 ++ [triangle], acc.2 + 1))
    (hnone : ∀ acc t,
      findTriangleFromEdges acc.2 (edgeAt es t.1) (edgeAt es t.2.1) (edgeAt es t.2.2) = none →
      f acc t = acc)
    (l : List Triangle) :
    ∀ acc : List GTriangle × Nat,
      ((l.foldl f acc).1).map (fun t => (t.vertex1, t.vertex2, t.vertex3)) =
      acc.1.map (fun t => (t.vertex1, t.vertex2, t.vertex3)) ++
        l.filterMap (fun t =>
          (findTriangleFromEdges 0 (edgeAt es t.1) (edgeAt es t.2.1) (edgeAt es t.2.2)).map
            (fun t => (t.vertex1, t.vertex2, t.vertex3))) := by
  induction l with
  | nil => intro acc; simp
  | cons t l ih =>
    intro acc
    rw [List.foldl_cons, ih, List.filterMap_cons]
    have hv := findTriangleFromEdges_verts acc.2 0 (edgeAt es t.1) (edgeAt es t.2.1)
      (edgeAt es t.2.2)
    cases h : findTriangleFromEdges acc.2 (edgeAt es t.1) (edgeAt es t.2.1) (edgeAt es t.2.2) with
    | none =>
      rw [h] at hv
      rw [← hv, hnone acc t h]
      rfl
    | some tri =>
      rw [h] at hv
      rw [← hv, hsome acc t tri h]
      simp

theorem sameShape_map (l l' : List GTriangle) (h : SameShape l l') :
    l.map (fun t => (t.vertex1, t.vertex2, t.vertex3)) =
      l'.map (fun t => (t.vertex1, t.vertex2, t.vertex3)) := by
  unfold SameShape at h
  induction h with
  | nil => rfl
  | cons hab _ ih =>
    rw [List.map_cons, List.map_cons, ih, hab.1, hab.2.1, hab.2.2]

end WebGL

theorem updateAllTriangleDensities_sameShape (s : WebGL.State) :
    WebGL.SameShape s.triangles (WebGL.updateAllTriangleDensities s).triangles :=
  WebGL.updateAll_triangles_sameShape s.triangles _ s.targetDensity _

theorem updateAllTriangleDensities_verts (s : WebGL.State) :
    (WebGL.updateAllTriangleDensities s).triangles.map
        (fun t => (t.vertex1, t.vertex2, t.vertex3)) =
      s.triangles.map (fun t => (t.vertex1, t.vertex2, t.vertex3)) :=
  (WebGL.sameShape_map _ _ (updateAllTriangleDensities_sameShape s)).symm

/-- The vertex triples found by `updateTriangulation`, as a filter over the index triples of
the edge array. -/
theorem crowdTriples_eq (s : WebGL.State) :
    crowdTriples s = (triples s.edges.length).filterMap (fun t =>
      (WebGL.findTriangleFromEdges 0 (WebGL.edgeAt s.edges t.1) (WebGL.edgeAt s.edges t.2.1)
        (WebGL.edgeAt s.edges t.2.2)).map (fun t => (t.vertex1, t.vertex2, t.vertex3))) := by
  unfold crowdTriples WebGL.updateTriangulation
  dsimp only
  rw [updateAllTriangleDensities_verts]
  dsimp only
  refine (WebGL.triangulation_fold s.edges _ ?_ ?_ (triples s.edges.length)
    ([], s.triangleIdCounter)).trans ?_
  · intro acc t triangle h
    dsimp only
    rw [h]
  · intro acc t h
    dsimp only
    rw [h]
  · rw [List.map_nil, List.nil_append]

namespace App

theorem updateTriangles_fold (vs : List AVertex) (es : List AEdge) (l : List Triangle) :
    ∀ acc : List ATriangle × Nat,
      ((l.foldl (updateTrianglesStep vs es) acc).1).map (fun t => t.vertices) =
      acc.1.map (fun t => t.vertices) ++
        (l.filter (fun t => edgeSome es (idAt vs t.1) (idAt vs t.2.1)
          && edgeSome es (idAt vs t.2.1) (idAt vs t.2.2)
          && edgeSome es (idAt vs t.2.2) (idAt vs t.1))).map
          (fun t => (idAt vs t.1, idAt vs t.2.1, idAt vs t.2.2)) := by
  induction l with
  | nil => intro acc; simp
  | cons t l ih =>
    intro acc
    rw [List.foldl_cons, ih, List.filter_cons]
    unfold updateTrianglesStep
    dsimp only
    split
    · simp
    · rfl

end App

/-- The vertex triples found by `updateTriangles` when the ids are the indices: the index
triples all of whose sides are edges. -/
theorem appTriples_eq (vs : List App.AVertex) (es : List App.AEdge) (dots : List App.ADot)
    (targetDensity : Int) (hid : ∀ i, i < vs.length → App.idAt vs i = i) :
    appTriples vs es dots targetDensity =
      (triples vs.length).filter (fun t => App.edgeSome es t.1 t.2.1
        && App.edgeSome es t.2.1 t.2.2 && App.edgeSome es t.2.2 t.1) := by
  have h := App.updateTriangles_fold vs es (triples vs.length) ([], 0)
  rw [List.map_nil, List.nil_append] at h
  unfold appTriples App.updateTriangles App.updateTriangleColors
  rw [List.map_map]
  have hm : ((fun t : App.ATriangle => t.vertices) ∘ fun triangle : App.ATriangle =>
      { triangle with
        color := some (App.colorFor targetDensity
          (dots.filter fun dot => dot.triangleId = triangle.id).length) })
      = fun t => t.vertices := rfl
  rw [hm, h]
  have hf : (triples vs.length).filter (fun t =>
        App.edgeSome es (App.idAt vs t.1) (App.idAt vs t.2.1)
          && App.edgeSome es (App.idAt vs t.2.1) (App.idAt vs t.2.2)
          && App.edgeSome es (App.idAt vs t.2.2) (App.idAt vs t.1))
      = (triples vs.length).filter (fun t => App.edgeSome es t.1 t.2.1
        && App.edgeSome es t.2.1 t.2.2 && App.edgeSome es t.2.2 t.1) := by
    apply List.filter_congr
    intro t ht
    rw [mem_triples] at ht
    rw [hid t.1 (by omega), hid t.2.1 (by omega), hid t.2.2 ht.2.2]
  rw [hf]
  conv_rhs => rw [← List.map_id ((triples vs.length).filter (fun t => App.edgeSome es t.1 t.2.1
        && App.edgeSome es t.2.1 t.2.2 && App.edgeSome es t.2.2 t.1))]
  apply List.map_congr_left
  intro t ht
  have ht' := (List.mem_filter.mp ht).1
  rw [mem_triples] at ht'
  rw [hid t.1 (by omega), hid t.2.1 (by omega), hid t.2.2 ht'.2.2]
  rfl

theorem edgeAt_mem (es : List WebGL.GEdge) (i : Nat) (h : i < es.length) :
    WebGL.edgeAt es i ∈ es := by
  unfold WebGL.edgeAt
  rw [List.getD_eq_getElem _ _ h]
  exact List.getElem_mem h

theorem exists_edgeAt (es : List WebGL.GEdge) (e : WebGL.GEdge) (h : e ∈ es) :
    ∃ i, i < es.length ∧ WebGL.edgeAt es i = e := by
  obtain ⟨i, hi, he⟩ := List.getElem_of_mem h
  refine ⟨i, hi, ?_⟩
  unfold WebGL.edgeAt
  rw [List.getD_eq_getElem _ _ hi, he]

theorem joins_comm (e f : WebGL.GEdge) (h : joins e f.vertex1 f.vertex2) :
    joins f e.vertex1 e.vertex2 := by
  unfold joins at *
  rcases h with ⟨h1, h2⟩ | ⟨h1, h2⟩
  · exact Or.inl ⟨h1.symm, h2.symm⟩
  · exact Or.inr ⟨h2.symm, h1.symm⟩

/-- In an edge list without duplicate undirected edges, two positions holding edges that join
the same pair are the same position. -/
theorem index_unique (es : List WebGL.GEdge)
    (hnodup : es.Pairwise (fun e f => ¬ joins e f.vertex1 f.vertex2)) (u w a b : Nat)
    (hu : u < es.length) (hw : w < es.length) (ju : joins (WebGL.edgeAt es u) a b)
    (jw : joins (WebGL.edgeAt es w) a b) : u = w := by
  rw [List.pairwise_iff_getElem] at hnodup
  have key : ∀ i j (hi : i < es.length) (hj : j < es.length), i < j →
      ¬ joins (WebGL.edgeAt es i) (WebGL.edgeAt es j).vertex1 (WebGL.edgeAt es j).vertex2 := by
    intro i j hi hj hij
    unfold WebGL.edgeAt
    rw [List.getD_eq_getElem _ _ hi, List.getD_eq_getElem _ _ hj]
    exact hnodup i j hi hj hij
  rcases Nat.lt_trichotomy u w with h | h | h
  · exact absurd (WebGL.same_side_joins _ _ a b ju jw) (key u w hu hw h)
  · exact h
  · exact absurd (WebGL.same_side_joins _ _ a b jw ju) (key w u hw hu h)

theorem edgeSome_iff (es : List WebGL.GEdge) (a b : Nat) :
    App.edgeSome (toAppEdges es) a b = true ↔ ∃ e ∈ es, joins e a b := by
  unfold App.edgeSome toAppEdges joins
  rw [List.any_eq_true]
  simp only [List.mem_map, Bool.or_eq_true, Bool.and_eq_true, decide_eq_true_eq]
  constructor
  · rintro ⟨x, ⟨e, he, rfl⟩, h⟩
    exact ⟨e, he, h⟩
  · rintro ⟨e, he, h⟩
    exact ⟨_, ⟨e, he, rfl⟩, h⟩

theorem mem_appTriples (vs : List App.AVertex) (es : List WebGL.GEdge) (dots : List App.ADot)
    (targetDensity : Int) (hid : ∀ i, i < vs.length → App.idAt vs i = i) (T : Triangle) :
    T ∈ appTriples vs (toAppEdges es) dots targetDensity ↔
      (T.1 < T.2.1 ∧ T.2.1 < T.2.2 ∧ T.2.2 < vs.length) ∧
      (∃ e ∈ es, joins e T.1 T.2.1) ∧ (∃ e ∈ es, joins e T.2.1 T.2.2) ∧
      (∃ e ∈ es, joins e T.2.2 T.1) := by
  rw [appTriples_eq vs _ dots targetDensity hid, List.mem_filter, mem_triples,
    Bool.and_eq_true, Bool.and_eq_true, edgeSome_iff, edgeSome_iff, edgeSome_iff]
  tauto

theorem mem_crowdTriples (s : WebGL.State) (T : Triangle) :
    T ∈ crowdTriples s ↔
      ∃ i j k, i < j ∧ j < k ∧ k < s.edges.length ∧
        ∃ t, WebGL.findTriangleFromEdges 0 (WebGL.edgeAt s.edges i) (WebGL.edgeAt s.edges j)
          (WebGL.edgeAt s.edges k) = some t ∧ (t.vertex1, t.vertex2, t.vertex3) = T := by
  rw [crowdTriples_eq, List.mem_filterMap]
  constructor
  · rintro ⟨⟨i, j, k⟩, ht, h⟩
    rw [mem_triples] at ht
    rw [Option.map_eq_some'] at h
    exact ⟨i, j, k, ht.1, ht.2.1, ht.2.2, h⟩
  · rintro ⟨i, j, k, hij, hjk, hk, h⟩
    refine ⟨(i, j, k), (mem_triples _ _).mpr ⟨hij, hjk, hk⟩, ?_⟩
    rw [Option.map_eq_some']
    exact h

theorem edgeAt_not_joins (es : List WebGL.GEdge)
    (hnodup : es.Pairwise (fun e f => ¬ joins e f.vertex1 f.vertex2)) (i j : Nat)
    (hj : j < es.length) (hij : i < j) :
    ¬ joins (WebGL.edgeAt es i) (WebGL.edgeAt es j).vertex1 (WebGL.edgeAt es j).vertex2 := by
  rw [List.pairwise_iff_getElem] at hnodup
  unfold WebGL.edgeAt
  rw [List.getD_eq_getElem _ _ (by omega : i < es.length), List.getD_eq_getElem _ _ hj]
  exact hnodup i j (by omega) hj hij

theorem bounds_of_joins (n : Nat) (es : List WebGL.GEdge)
    (hvalid : ∀ e ∈ es, e.vertex1 < n ∧ e.vertex2 < n) (a b : Nat)
    (h : ∃ e ∈ es, joins e a b) : a < n ∧ b < n := by
  obtain ⟨e, he, hj⟩ := h
  have := hvalid e he
  unfold joins at hj
  rcases hj with ⟨h1, h2⟩ | ⟨h1, h2⟩
  · rw [← h1, ← h2]; exact this
  · rw [← h1, ← h2]; exact ⟨this.2, this.1⟩

theorem exists_joins_symm (es : List WebGL.GEdge) (a b : Nat) (h : ∃ e ∈ es, joins e a b) :
    ∃ e ∈ es, joins e b a := by
  obtain ⟨e, he, hj⟩ := h
  exact ⟨e, he, WebGL.joins_symm e a b hj⟩

/-- Three distinct vertices below `n` whose three sides are edges are found, in ascending
order, by `updateTriangles`. -/
theorem app_of_sides (vs : List App.AVertex) (es : List WebGL.GEdge) (dots : List App.ADot)
    (targetDensity : Int) (hid : ∀ i, i < vs.length → App.idAt vs i = i)
    (hvalid : ∀ e ∈ es, e.vertex1 < vs.length ∧ e.vertex2 < vs.length) (a b c : Nat)
    (hab : a ≠ b) (hac : a ≠ c) (hbc : b ≠ c) (eab : ∃ e ∈ es, joins e a b)
    (eac : ∃ e ∈ es, joins e a c) (ebc : ∃ e ∈ es, joins e b c) :
    ∃ T ∈ appTriples vs (toAppEdges es) dots targetDensity, sameTriple (a, b, c) T := by
  have ba := bounds_of_joins _ es hvalid a b eab
  have bc := bounds_of_joins _ es hvalid a c eac
  have eba := exists_joins_symm es a b eab
  have eca := exists_joins_symm es a c eac
  have ecb := exists_joins_symm es b c ebc
  have m := mem_appTriples vs es dots targetDensity hid
  have horder : (a < b ∧ b < c) ∨ (a < c ∧ c < b) ∨ (b < a ∧ a < c) ∨ (b < c ∧ c < a) ∨
      (c < a ∧ a < b) ∨ (c < b ∧ b < a) := by omega
  rcases horder with h | h | h | h | h | h
  · exact ⟨(a, b, c), (m _).mpr ⟨⟨h.1, h.2, bc.2⟩, eab, ebc, eca⟩, by unfold sameTriple; simp⟩
  · exact ⟨(a, c, b), (m _).mpr ⟨⟨h.1, h.2, ba.2⟩, eac, ecb, eba⟩, by unfold sameTriple; simp⟩
  · exact ⟨(b, a, c), (m _).mpr ⟨⟨h.1, h.2, bc.2⟩, eba, eac, ecb⟩, by unfold sameTriple; simp⟩
  · exact ⟨(b, c, a), (m _).mpr ⟨⟨h.1, h.2, ba.1⟩, ebc, eca, eab⟩, by unfold sameTriple; simp⟩
  · exact ⟨(c, a, b), (m _).mpr ⟨⟨h.1, h.2, ba.2⟩, eca, eab, ebc⟩, by unfold sameTriple; simp⟩
  · exact ⟨(c, b, a), (m _).mpr ⟨⟨h.1, h.2, ba.1⟩, ecb, eba, eac⟩, by unfold sameTriple; simp⟩

theorem cover_exists (es : List WebGL.GEdge) (i j k a b : Nat) (hi : i < es.length)
    (hj : j < es.length) (hk : k < es.length)
    (h : joins (WebGL.edgeAt es i) a b ∨ joins (WebGL.edgeAt es j) a b ∨
      joins (WebGL.edgeAt es k) a b) : ∃ e ∈ es, joins e a b := by
  rcases h with h | h | h
  · exact ⟨_, edgeAt_mem es i hi, h⟩
  · exact ⟨_, edgeAt_mem es j hj, h⟩
  · exact ⟨_, edgeAt_mem es k hk, h⟩

/-- What a triangle found by `findTriangleFromEdges` on three positions `i < j < k` of a
well-formed edge list tells: its sides are joined by the three edges. -/
theorem crowd_sides (es : List WebGL.GEdge) (hloop : ∀ e ∈ es, e.vertex1 ≠ e.vertex2)
    (hnodup : es.Pairwise (fun e f => ¬ joins e f.vertex1 f.vertex2)) (i j k : Nat)
    (hij : i < j) (hjk : j < k) (hk : k < es.length) (t : WebGL.GTriangle)
    (h : WebGL.findTriangleFromEdges 0 (WebGL.edgeAt es i) (WebGL.edgeAt es j)
      (WebGL.edgeAt es k) = some t) :
    (t.vertex1 ≠ t.vertex2 ∧ t.vertex1 ≠ t.vertex3 ∧ t.vertex2 ≠ t.vertex3) ∧
    (joins (WebGL.edgeAt es i) t.vertex1 t.vertex2 ∨ joins (WebGL.edgeAt es j) t.vertex1 t.vertex2
      ∨ joins (WebGL.edgeAt es k) t.vertex1 t.vertex2) ∧
    (joins (WebGL.edgeAt es i) t.vertex1 t.vertex3 ∨ joins (WebGL.edgeAt es j) t.vertex1 t.vertex3
      ∨ joins (WebGL.edgeAt es k) t.vertex1 t.vertex3) ∧
    (joins (WebGL.edgeAt es i) t.vertex2 t.vertex3 ∨ joins (WebGL.edgeAt es j) t.vertex2 t.vertex3
      ∨ joins (WebGL.edgeAt es k) t.vertex2 t.vertex3) := by
  obtain ⟨hd, hm⟩ := WebGL.findTriangleFromEdges_some 0 _ _ _ t h
  refine ⟨hd, WebGL.sides_covered _ _ _ _ _ _
    (hm _ (by simp)) (hm _ (by simp)) (hm _ (by simp)) (hm _ (by simp)) (hm _ (by simp))
    (hm _ (by simp))
    (hloop _ (edgeAt_mem es i (by omega))) (hloop _ (edgeAt_mem es j (by omega)))
    (hloop _ (edgeAt_mem es k hk))
    (edgeAt_not_joins es hnodup i j (by omega) hij)
    (edgeAt_not_joins es hnodup i k hk (by omega))
    (edgeAt_not_joins es hnodup j k hk hjk)⟩

theorem crowd_subset_app (s : WebGL.State) (vs : List App.AVertex) (dots : List App.ADot)
    (targetDensity : Int) (hid : ∀ i, i < vs.length → App.idAt vs i = i)
    (hvalid : ∀ e ∈ s.edges, e.vertex1 < vs.length ∧ e.vertex2 < vs.length)
    (hloop : ∀ e ∈ s.edges, e.vertex1 ≠ e.vertex2)
    (hnodup : s.edges.Pairwise (fun e f => ¬ joins e f.vertex1 f.vertex2)) (T : Triangle)
    (hT : T ∈ crowdTriples s) :
    ∃ T' ∈ appTriples vs (toAppEdges s.edges) dots targetDensity, sameTriple T T' := by
  rw [mem_crowdTriples] at hT
  obtain ⟨i, j, k, hij, hjk, hk, t, h, rfl⟩ := hT
  obtain ⟨hd, c12, c13, c23⟩ := crowd_sides s.edges hloop hnodup i j k hij hjk hk t h
  exact app_of_sides vs s.edges dots targetDensity hid hvalid _ _ _ hd.1 hd.2.1 hd.2.2
    (cover_exists _ i j k _ _ (by omega) (by omega) hk c12)
    (cover_exists _ i j k _ _ (by omega) (by omega) hk c13)
    (cover_exists _ i j k _ _ (by omega) (by omega) hk c23)

theorem mem_six_of_cover (e1 e2 e3 : WebGL.GEdge) (a b : Nat)
    (h : joins e1 a b ∨ joins e2 a b ∨ joins e3 a b) :
    a ∈ [e1.vertex1, e1.vertex2, e2.vertex1, e2.vertex2, e3.vertex1, e3.vertex2] ∧
    b ∈ [e1.vertex1, e1.vertex2, e2.vertex1, e2.vertex2, e3.vertex1, e3.vertex2] := by
  unfold joins at h
  rcases h with (⟨h1, h2⟩ | ⟨h1, h2⟩) | (⟨h1, h2⟩ | ⟨h1, h2⟩) | (⟨h1, h2⟩ | ⟨h1, h2⟩) <;>
    (rw [← h1, ← h2]; simp)

theorem sameTriple_of_mem (a b c t1 t2 t3 : Nat) (hab : a ≠ b) (hac : a ≠ c) (hbc : b ≠ c)
    (ha : a = t1 ∨ a = t2 ∨ a = t3) (hb : b = t1 ∨ b = t2 ∨ b = t3)
    (hc : c = t1 ∨ c = t2 ∨ c = t3) : sameTriple (t1, t2, t3) (a, b, c) := by
  unfold sameTriple
  dsimp only
  rcases ha with rfl | rfl | rfl <;> rcases hb with rfl | rfl | rfl <;>
    rcases hc with rfl | rfl | rfl <;> simp at hab hac hbc ⊢

/-- Three positions `i < j < k` whose edges join the three sides of a triangle on distinct
vertices yield a triangle with these vertices. -/
theorem crowd_finds_sorted (s : WebGL.State) (i j k a b c : Nat) (hij : i < j) (hjk : j < k)
    (hk : k < s.edges.length) (hab : a ≠ b) (hac : a ≠ c) (hbc : b ≠ c)
    (cab : joins (WebGL.edgeAt s.edges i) a b ∨ joins (WebGL.edgeAt s.edges j) a b ∨
      joins (WebGL.edgeAt s.edges k) a b)
    (cac : joins (WebGL.edgeAt s.edges i) a c ∨ joins (WebGL.edgeAt s.edges j) a c ∨
      joins (WebGL.edgeAt s.edges k) a c)
    (cbc : joins (WebGL.edgeAt s.edges i) b c ∨ joins (WebGL.edgeAt s.edges j) b c ∨
      joins (WebGL.edgeAt s.edges k) b c) :
    ∃ T ∈ crowdTriples s, sameTriple T (a, b, c) := by
  obtain ⟨t, ht⟩ := WebGL.findTriangleFromEdges_of_sides 0 _ _ _ a b c hab hac hbc cab cac cbc
  obtain ⟨_, hm⟩ := WebGL.findTriangleFromEdges_some 0 _ _ _ t ht
  refine ⟨(t.vertex1, t.vertex2, t.vertex3),
    (mem_crowdTriples s _).mpr ⟨i, j, k, hij, hjk, hk, t, ht, rfl⟩, ?_⟩
  exact sameTriple_of_mem a b c _ _ _ hab hac hbc (hm a (mem_six_of_cover _ _ _ a b cab).1)
    (hm b (mem_six_of_cover _ _ _ a b cab).2) (hm c (mem_six_of_cover _ _ _ a c cac).2)

theorem crowd_finds (s : WebGL.State) (p q r a b c : Nat) (hp : p < s.edges.length)
    (hq : q < s.edges.length) (hr : r < s.edges.length) (hab : a ≠ b) (hac : a ≠ c)
    (hbc : b ≠ c) (jp : joins (WebGL.edgeAt s.edges p) a b)
    (jq : joins (WebGL.edgeAt s.edges q) a c) (jr : joins (WebGL.edgeAt s.edges r) b c) :
    ∃ T ∈ crowdTriples s, sameTriple T (a, b, c) := by
  have hpq : p ≠ q := by
    rintro rfl
    exact WebGL.joins_two_sides _ a b c hbc jp jq hab
  have hpr : p ≠ r := by
    rintro rfl
    exact WebGL.joins_two_sides _ b a c hac (WebGL.joins_symm _ _ _ jp) jr hab.symm
  have hqr : q ≠ r := by
    rintro rfl
    exact WebGL.joins_two_sides _ c a b hab (WebGL.joins_symm _ _ _ jq)
      (WebGL.joins_symm _ _ _ jr) hac.symm
  have horder : (p < q ∧ q < r) ∨ (p < r ∧ r < q) ∨ (q < p ∧ p < r) ∨ (q < r ∧ r < p) ∨
      (r < p ∧ p < q) ∨ (r < q ∧ q < p) := by omega
  rcases horder with h | h | h | h | h | h
  · exact crowd_finds_sorted s p q r a b c h.1 h.2 hr hab hac hbc (Or.inl jp)
      (Or.inr (Or.inl jq)) (Or.inr (Or.inr jr))
  · exact crowd_finds_sorted s p r q a b c h.1 h.2 hq hab hac hbc (Or.inl jp)
      (Or.inr (Or.inr jq)) (Or.inr (Or.inl jr))
  · exact crowd_finds_sorted s q p r a b c h.1 h.2 hr hab hac hbc (Or.inr (Or.inl jp))
      (Or.inl jq) (Or.inr (Or.inr jr))
  · exact crowd_finds_sorted s q r p a b c h.1 h.2 hp hab hac hbc (Or.inr (Or.inr jp))
      (Or.inl jq) (Or.inr (Or.inl jr))
  · exact crowd_finds_sorted s r p q a b c h.1 h.2 hq hab hac hbc (Or.inr (Or.inl jp))
      (Or.inr (Or.inr jq)) (Or.inl jr)
  · exact crowd_finds_sorted s r q p a b c h.1 h.2 hp hab hac hbc (Or.inr (Or.inr jp))
      (Or.inr (Or.inl jq)) (Or.inl jr)

theorem app_subset_crowd (s : WebGL.State) (vs : List App.AVertex) (dots : List App.ADot)
    (targetDensity : Int) (hid : ∀ i, i < vs.length → App.idAt vs i = i) (T : Triangle)
    (hT : T ∈ appTriples vs (toAppEdges s.edges) dots targetDensity) :
    ∃ T' ∈ crowdTriples s, sameTriple T' T := by
  rw [mem_appTriples vs s.edges dots targetDensity hid] at hT
  obtain ⟨⟨h12, h23, _⟩, ⟨e1, he1, j1⟩, ⟨e2, he2, j2⟩, ⟨e3, he3, j3⟩⟩ := hT
  obtain ⟨p, hp, rfl⟩ := exists_edgeAt _ _ he1
  obtain ⟨q, hq, rfl⟩ := exists_edgeAt _ _ he2
  obtain ⟨r, hr, rfl⟩ := exists_edgeAt _ _ he3
  obtain ⟨a, b, c⟩ := T
  exact crowd_finds s p r q a b c hp hr hq (by dsimp only at h12; omega)
    (by dsimp only at h12 h23; omega) (by dsimp only at h23; omega) j1
    (WebGL.joins_symm _ _ _ j3) j2

theorem sameTriple_mem (p q : Triangle) (h : sameTriple p q) (v : Nat)
    (hv : v = q.1 ∨ v = q.2.1 ∨ v = q.2.2) : v = p.1 ∨ v = p.2.1 ∨ v = p.2.2 := by
  unfold sameTriple at h
  rcases h with ⟨h1, h2, h3⟩ | ⟨h1, h2, h3⟩ | ⟨h1, h2, h3⟩ | ⟨h1, h2, h3⟩ | ⟨h1, h2, h3⟩ |
    ⟨h1, h2, h3⟩ <;> rw [h1, h2, h3] at hv <;> tauto

/-- An edge position whose edge joins a side covered by the positions `i`, `j`, `k` is one of
them. -/
theorem index_among (es : List WebGL.GEdge)
    (hnodup : es.Pairwise (fun e f => ¬ joins e f.vertex1 f.vertex2)) (i j k w a b : Nat)
    (hi : i < es.length) (hj : j < es.length) (hk : k < es.length) (hw : w < es.length)
    (c : joins (WebGL.edgeAt es i) a b ∨ joins (WebGL.edgeAt es j) a b ∨
      joins (WebGL.edgeAt es k) a b)
    (jw : joins (WebGL.edgeAt es w) a b) : w = i ∨ w = j ∨ w = k := by
  rcases c with c | c | c
  · exact Or.inl (index_unique es hnodup w i a b hw hi jw c)
  · exact Or.inr (Or.inl (index_unique es hnodup w j a b hw hj jw c))
  · exact Or.inr (Or.inr (index_unique es hnodup w k a b hw hk jw c))

theorem crowd_index_among (es : List WebGL.GEdge) (hloop : ∀ e ∈ es, e.vertex1 ≠ e.vertex2)
    (hnodup : es.Pairwise (fun e f => ¬ joins e f.vertex1 f.vertex2)) (i j k w a b c : Nat)
    (hi : i < es.length) (hj : j < es.length) (hk : k < es.length) (hw : w < es.length)
    (cab : joins (WebGL.edgeAt es i) a b ∨ joins (WebGL.edgeAt es j) a b ∨
      joins (WebGL.edgeAt es k) a b)
    (cac : joins (WebGL.edgeAt es i) a c ∨ joins (WebGL.edgeAt es j) a c ∨
      joins (WebGL.edgeAt es k) a c)
    (cbc : joins (WebGL.edgeAt es i) b c ∨ joins (WebGL.edgeAt es j) b c ∨
      joins (WebGL.edgeAt es k) b c)
    (h1 : (WebGL.edgeAt es w).vertex1 = a ∨ (WebGL.edgeAt es w).vertex1 = b ∨
      (WebGL.edgeAt es w).vertex1 = c)
    (h2 : (WebGL.edgeAt es w).vertex2 = a ∨ (WebGL.edgeAt es w).vertex2 = b ∨
      (WebGL.edgeAt es w).vertex2 = c) : w = i ∨ w = j ∨ w = k := by
  rcases WebGL.edge_is_side _ a b c h1 h2 (hloop _ (edgeAt_mem es w hw)) with h | h | h
  · exact index_among es hnodup i j k w a b hi hj hk hw cab h
  · exact index_among es hnodup i j k w a c hi hj hk hw cac h
  · exact index_among es hnodup i j k w b c hi hj hk hw cbc h

/-- Two different index triples never yield the same set of three vertices. -/
theorem crowdTriples_once (s : WebGL.State) (hloop : ∀ e ∈ s.edges, e.vertex1 ≠ e.vertex2)
    (hnodup : s.edges.Pairwise (fun e f => ¬ joins e f.vertex1 f.vertex2)) :
    (crowdTriples s).Pairwise (fun T T' => ¬ sameTriple T T') := by
  rw [crowdTriples_eq, List.pairwise_filterMap]
  refine (nodup_triples s.edges.length).imp_of_mem ?_
  rintro ⟨i, j, k⟩ ⟨i', j', k'⟩ hx hy hne T hT T' hT' hsame
  rw [mem_triples] at hx hy
  dsimp only at hx hy
  rw [Option.mem_def, Option.map_eq_some'] at hT hT'
  obtain ⟨t, ht, rfl⟩ := hT
  obtain ⟨t', ht', rfl⟩ := hT'
  obtain ⟨_, c12, c13, c23⟩ := crowd_sides s.edges hloop hnodup i j k hx.1 hx.2.1 hx.2.2 t ht
  obtain ⟨_, hm'⟩ := WebGL.findTriangleFromEdges_some 0 _ _ _ t' ht'
  have hin : ∀ v ∈ [(WebGL.edgeAt s.edges i').vertex1, (WebGL.edgeAt s.edges i').vertex2,
      (WebGL.edgeAt s.edges j').vertex1, (WebGL.edgeAt s.edges j').vertex2,
      (WebGL.edgeAt s.edges k').vertex1, (WebGL.edgeAt s.edges k').vertex2],
      v = t.vertex1 ∨ v = t.vertex2 ∨ v = t.vertex3 :=
    fun v hv => sameTriple_mem _ _ hsame v (hm' v hv)
  have a1 := crowd_index_among s.edges hloop hnodup i j k i' _ _ _ (by omega) (by omega)
    hx.2.2 (by omega) c12 c13 c23 (hin _ (by simp)) (hin _ (by simp))
  have a2 := crowd_index_among s.edges hloop hnodup i j k j' _ _ _ (by omega) (by omega)
    hx.2.2 (by omega) c12 c13 c23 (hin _ (by simp)) (hin _ (by simp))
  have a3 := crowd_index_among s.edges hloop hnodup i j k k' _ _ _ (by omega) (by omega)
    hx.2.2 hy.2.2 c12 c13 c23 (hin _ (by simp)) (hin _ (by simp))
  apply hne
  have : i = i' ∧ j = j' ∧ k = k' := by omega
  rw [this.1, this.2.1, this.2.2]

/-- C27: for every vertex list whose ids equal their indices and every edge list between
these vertices without duplicate undirected edges and without self-loops, the edge-triple
enumeration (`updateTriangulation`, crowd_simulation_javascript.js) and the vertex-triple
enumeration (`updateTriangles`, app.js) find the same sets of three vertices: every triple
of one is, up to the order of its entries, a triple of the other; the triples of
`updateTriangles` are exactly the ascending triples whose three sides are all edges; and each
is found exactly once (no triple occurs twice in either list, in any order of entries). -/
theorem triangle_discoveries_agree (s : WebGL.State) (vs : List App.AVertex)
    (dots : List App.ADot) (targetDensity : Int)
    (hid : ∀ i, i < vs.length → App.idAt vs i = i)
    (hvalid : ∀ e ∈ s.edges, e.vertex1 < vs.length ∧ e.vertex2 < vs.length)
    (hloop : ∀ e ∈ s.edges, e.vertex1 ≠ e.vertex2)
    (hnodup : s.edges.Pairwise (fun e f => ¬ joins e f.vertex1 f.vertex2)) :
    (∀ T ∈ crowdTriples s,
      ∃ T' ∈ appTriples vs (toAppEdges s.edges) dots targetDensity, sameTriple T T') ∧
    (∀ T' ∈ appTriples vs (toAppEdges s.edges) dots targetDensity,
      ∃ T ∈ crowdTriples s, sameTriple T T') ∧
    (∀ T, T ∈ appTriples vs (toAppEdges s.edges) dots targetDensity ↔
      (T.1 < T.2.1 ∧ T.2.1 < T.2.2 ∧ T.2.2 < vs.length) ∧
      (∃ e ∈ s.edges, joins e T.1 T.2.1) ∧ (∃ e ∈ s.edges, joins e T.2.1 T.2.2) ∧
      (∃ e ∈ s.edges, joins e T.2.2 T.1)) ∧
    (appTriples vs (toAppEdges s.edges) dots targetDensity).Nodup ∧
    (crowdTriples s).Pairwise (fun T T' => ¬ sameTriple T T') := by
  refine ⟨crowd_subset_app s vs dots targetDensity hid hvalid hloop hnodup,
    app_subset_crowd s vs dots targetDensity hid,
    mem_appTriples vs s.edges dots targetDensity hid, ?_, crowdTriples_once s hloop hnodup⟩
  rw [appTriples_eq vs _ dots targetDensity hid]
  exact (nodup_triples vs.length).filter _

/-- Witness for C27: the boundary square with the diagonal `0-2`; both enumerations find the
two triangles `0, 1, 2` and `0, 2, 3`. -/
theorem triangle_discoveries_agree_witness :
    (∀ T ∈ crowdTriples webglSquare,
      ∃ T' ∈ appTriples [⟨0, 60, 60⟩, ⟨1, 740, 60⟩, ⟨2, 740, 540⟩, ⟨3, 60, 540⟩]
        (toAppEdges webglSquare.edges) [] 4, sameTriple T T') ∧
    (appTriples [⟨0, 60, 60⟩, ⟨1, 740, 60⟩, ⟨2, 740, 540⟩, ⟨3, 60, 540⟩]
      (toAppEdges webglSquare.edges) [] 4).Nodup :=
  ⟨(triangle_discoveries_agree webglSquare
      [⟨0, 60, 60⟩, ⟨1, 740, 60⟩, ⟨2, 740, 540⟩, ⟨3, 60, 540⟩] [] 4
      (by decide!) (by decide!) (by decide!) (by decide!)).1,
    (triangle_discoveries_agree webglSquare
      [⟨0, 60, 60⟩, ⟨1, 740, 60⟩, ⟨2, 740, 540⟩, ⟨3, 60, 540⟩] [] 4
      (by decide!) (by decide!) (by decide!) (by decide!)).2.2.2.1⟩

/-! ## Binary64 evaluation of the edge pipeline -/

namespace F64

theorem stepLo_spec (n lo k w : Nat) (hw : w = k + k) (h1 : 2 ^ lo ≤ n)
    (h2 : n < 2 ^ (lo + w)) :
    2 ^ stepLo n lo k ≤ n ∧ n < 2 ^ (stepLo n lo k + k) := by
  subst hw
  unfold stepLo
  cases h : Nat.ble (Nat.pow 2 (Nat.add lo k)) n
  · have hlt : ¬ 2 ^ (lo + k) ≤ n := fun hle => by
      have := Nat.ble_eq_true_of_le hle
      exact absurd (this.symm.trans h) (by decide)
    exact ⟨h1, Nat.lt_of_not_le hlt⟩
  · have hle : 2 ^ (lo + k) ≤ n := Nat.le_of_ble_eq_true h
    refine ⟨hle, ?_⟩
    show n < 2 ^ (lo + k + k)
    rw [Nat.add_assoc]
    exact h2

/-- The search `log2` finds the leading bit: `2 ^ log2 n ≤ n < 2 ^ (log2 n + 1)`. -/
theorem log2_spec (n : Nat) (h0 : 0 < n) (h : n < 2 ^ 4096) :
    2 ^ log2 n ≤ n ∧ n < 2 ^ (log2 n + 1) := by
  have h1 : 2 ^ 0 ≤ n := h0
  unfold log2
  cases hb : Nat.ble (Nat.pow 2 128) n
  · have hlt : n < 2 ^ (0 + 128) := by
      rw [Nat.zero_add]
      apply Nat.lt_of_not_le
      intro hle
      have := Nat.ble_eq_true_of_le hle
      exact absurd (this.symm.trans hb) (by decide)
    rw [cond_false]
    unfold log2Narrow
    obtain ⟨a1, b1⟩ := stepLo_spec n 0 64 128 rfl h1 hlt
    obtain ⟨a2, b2⟩ := stepLo_spec n _ 32 64 rfl a1 b1
    obtain ⟨a3, b3⟩ := stepLo_spec n _ 16 32 rfl a2 b2
    obtain ⟨a4, b4⟩ := stepLo_spec n _ 8 16 rfl a3 b3
    obtain ⟨a5, b5⟩ := stepLo_spec n _ 4 8 rfl a4 b4
    obtain ⟨a6, b6⟩ := stepLo_spec n _ 2 4 rfl a5 b5
    exact stepLo_spec n _ 1 2 rfl a6 b6
  · have hlt : n < 2 ^ (0 + 4096) := by
      rw [Nat.zero_add]
      exact h
    rw [cond_true]
    unfold log2Wide
    obtain ⟨a1, b1⟩ := stepLo_spec n 0 2048 4096 rfl h1 hlt
    obtain ⟨a2, b2⟩ := stepLo_spec n _ 1024 2048 rfl a1 b1
    obtain ⟨a3, b3⟩ := stepLo_spec n _ 512 1024 rfl a2 b2
    obtain ⟨a4, b4⟩ := stepLo_spec n _ 256 512 rfl a3 b3
    obtain ⟨a5, b5⟩ := stepLo_spec n _ 128 256 rfl a4 b4
    obtain ⟨a6, b6⟩ := stepLo_spec n _ 64 128 rfl a5 b5
    obtain ⟨a7, b7⟩ := stepLo_spec n _ 32 64 rfl a6 b6
    obtain ⟨a8, b8⟩ := stepLo_spec n _ 16 32 rfl a7 b7
    obtain ⟨a9, b9⟩ := stepLo_spec n _ 8 16 rfl a8 b8
    obtain ⟨a10, b10⟩ := stepLo_spec n _ 4 8 rfl a9 b9
    obtain ⟨a11, b11⟩ := stepLo_spec n _ 2 4 rfl a10 b10
    exact stepLo_spec n _ 1 2 rfl a11 b11

theorem generateStep_eq (vs : List Pt) (acc : List Edge × List Nat) (c : Cand) :
    generateStep vs acc c =
      bif accepts vs acc c.from_ c.to_ then push acc c.from_ c.to_ else acc := by
  unfold generateStep accepts push
  cases h1 : doesEdgeIntersectObstacle vs c.from_ c.to_
  · cases h2 : (acc.1.any fun finalEdge =>
        doEdgesCross vs c.from_ c.to_ finalEdge.1 finalEdge.2)
    · by_cases h3 : c.from_ ≥ obstacleStartIndex
      · have h3' : ¬ c.from_ < obstacleStartIndex := by omega
        by_cases h4 : acc.2.getD c.from_ 0 ≥ 3
        · have h4' : ¬ acc.2.getD c.from_ 0 < 3 := by omega
          simp only [Bool.false_eq_true, if_false, if_pos h3, if_pos h4, Bool.not_false,
            Bool.true_and, Bool.and_self, decide_eq_false h3', decide_eq_false h4',
            Bool.false_and, Bool.or_self, cond_false]
        · have h4' : acc.2.getD c.from_ 0 < 3 := by omega
          cases h5 : isLineOfSightClear vs c.from_ c.to_
          · simp only [Bool.false_eq_true, if_false, if_pos h3, if_neg h4, Bool.not_false,
              Bool.true_and, Bool.and_self, decide_eq_false h3', decide_eq_true h4',
              Bool.and_false, Bool.or_self, cond_false, if_true, Bool.not_eq_true']
          · simp only [Bool.false_eq_true, if_false, if_pos h3, if_neg h4, Bool.not_false,
              Bool.true_and, Bool.and_self, decide_eq_false h3', decide_eq_true h4',
              Bool.and_true, Bool.false_or, cond_true, Bool.not_true]
      · have h3' : c.from_ < obstacleStartIndex := by omega
        simp only [Bool.false_eq_true, if_false, if_neg h3, Bool.not_false,
          Bool.true_and, Bool.and_self, decide_eq_true h3', Bool.true_or, cond_true]
    · simp only [Bool.false_eq_true, if_false, if_true, Bool.not_false, Bool.not_true,
        Bool.true_and, Bool.false_and, Bool.and_false, cond_false]
  · simp only [if_true, Bool.not_true, Bool.false_and, cond_false]

theorem replay_sound (vs : List Pt) :
    ∀ (cs : List Cand) (bs : List Bool) (acc r : List Edge × List Nat),
      replay vs (cs.map fun c => (c.from_, c.to_)) bs acc = some r →
        cs.foldl (generateStep vs) acc = r := by
  intro cs
  induction cs with
  | nil =>
    intro bs acc r h
    cases bs with
    | nil => simpa [replay] using h
    | cons b bs => simp [replay] at h
  | cons c cs ih =>
    intro bs acc r h
    cases bs with
    | nil => simp [replay] at h
    | cons b bs =>
      simp only [List.map_cons, replay] at h
      by_cases hb : (accepts vs acc c.from_ c.to_ == b) = true
      · rw [hb, cond_true] at h
        rw [List.foldl_cons, generateStep_eq]
        have hb' : accepts vs acc c.from_ c.to_ = b := by simpa using hb
        rw [hb']
        exact ih bs _ r h
      · have hb' : (accepts vs acc c.from_ c.to_ == b) = false := by simpa using hb
        rw [hb', cond_false] at h
        exact absurd h (by simp)

theorem generateInitialEdges_of_replay (vs : List Pt) (constraintEdges : List Edge)
    (ps : List (Nat × Nat)) (bs : List Bool) (r : List Edge × List Nat)
    (hmap : (sortCandidates (candidateEdges vs)).map (fun c => (c.from_, c.to_)) = ps)
    (hr : replay vs ps bs (constraintEdges, List.replicate vs.length 0) = some r) :
    generateInitialEdges vs constraintEdges = r.1 := by
  subst hmap
  unfold generateInitialEdges
  rw [replay_sound vs _ bs _ r hr]

theorem isValidTriangle_sides_binary64 (vs : List Pt) (i j k : Nat) (ex bn : List Edge)
    (h : isValidTriangle vs i j k ex bn = true) :
    ∀ e ∈ [sortEdge (i, j), sortEdge (j, k), sortEdge (k, i)],
      e ∈ ex ∨ ∀ f ∈ ex, doEdgesCross vs e.1 e.2 f.1 f.2 = false := by
  unfold isValidTriangle at h
  simp only [] at h
  split at h
  · exact absurd h (by simp)
  split at h
  · exact absurd h (by simp)
  split at h
  · exact absurd h (by simp)
  · next hn =>
    rw [Bool.not_eq_true, List.any_eq_false] at hn
    intro e he
    have h1 := hn e he
    by_cases hmem : e ∈ ex
    · exact Or.inl hmem
    · right
      intro f hf
      have h2 : (ex.any fun existingEdge => doEdgesCross vs e.1 e.2 existingEdge.1 existingEdge.2)
          = false := by
        simpa [hmem] using h1
      rw [List.any_eq_false] at h2
      simpa using h2 f hf

/-- In binary64 as in exact arithmetic: each side of a triangle accepted by `triangulate`,
in the order `e.sort()` leaves its indices, is a stored edge or has `doEdgesCross` false
against every stored edge. -/
theorem triangulate_sides_binary64 (vs : List Pt) (edges banned : List Edge) (t : Triangle)
    (h : t ∈ triangulate vs edges banned) :
    ∀ e ∈ [sortEdge (t.1, t.2.1), sortEdge (t.2.1, t.2.2), sortEdge (t.2.2, t.1)],
      e ∈ edgesAfterTriangulate edges ∨
        ∀ f ∈ edgesAfterTriangulate edges, doEdgesCross vs e.1 e.2 f.1 f.2 = false := by
  have key := foldl_invariant
    (fun acc : List Triangle × List Edge =>
      (∀ x ∈ setOf (edges.map sortEdge), x ∈ acc.2) ∧
      (∀ x ∈ acc.2, x ∈ edges.map sortEdge ∨
        ∀ f ∈ edges.map sortEdge, doEdgesCross vs x.1 x.2 f.1 f.2 = false) ∧
      (∀ t ∈ acc.1,
        ∀ e ∈ [sortEdge (t.1, t.2.1), sortEdge (t.2.1, t.2.2), sortEdge (t.2.2, t.1)], e ∈ acc.2))
    (triangulateStep vs (setOf (banned.map sortEdge))) (triples vs.length)
    ([], setOf (edges.map sortEdge))
    ⟨fun x hx => hx, fun x hx => Or.inl ((mem_setOf _ _).mp hx), by simp⟩
    (by
      intro acc a _ ih
      obtain ⟨ih1, ih2, ih3⟩ := ih
      unfold triangulateStep
      split
      · next hv =>
        have hs := isValidTriangle_sides_binary64 vs a.1 a.2.1 a.2.2 acc.2 _ hv
        refine ⟨?_, ?_, ?_⟩
        · intro x hx
          exact (mem_foldl_setAdd _ _ _).mpr (Or.inl (ih1 x hx))
        · intro x hx
          rcases (mem_foldl_setAdd _ _ _).mp hx with hx | hx
          · exact ih2 x hx
          · rcases hs x hx with h1 | h1
            · exact ih2 x h1
            · right
              intro f hf
              exact h1 f (ih1 f ((mem_setOf _ _).mpr hf))
        · intro t1 ht1 e he
          rcases List.mem_append.mp ht1 with h1 | h1
          · exact (mem_foldl_setAdd _ _ _).mpr (Or.inl (ih3 t1 h1 e he))
          · rw [List.mem_singleton] at h1
            subst h1
            exact (mem_foldl_setAdd _ _ _).mpr (Or.inr he)
      · exact ⟨ih1, ih2, ih3⟩)
  intro e he
  exact key.2.1 e (key.2.2 t h e he)

theorem scaleObstacle_edges (s : State) (d : Num) (o : Obstacle)
    (h1 : lt (dyadic 3 1) (add s.currentScaleFactor d) = false)
    (h2 : lt (add s.currentScaleFactor d) (dyadic 1 1) = false)
    (ho : s.obstacle = some o) :
    (scaleObstacle s d).edges = edgesAfterTransform (scaleObstacle s d).vertices := by
  unfold scaleObstacle
  simp only [h1, h2, ho, Bool.false_eq_true, or_self, if_false]

end F64

set_option maxRecDepth 100000 in
/-- The vertex array of `stateFScaled`, written out. -/
theorem vertsF_eq : stateFScaled.vertices = vertsF := by decide!

set_option maxRecDepth 100000 in
/-- The sorted candidates of `vertsF`; successive lengths differ by more than one part in
`2 ^ 13` (their squares by more than one part in `2 ^ 12`), far beyond the rounding of any
`Math.hypot`. -/
theorem orderF_eq :
    (F64.sortCandidates (F64.candidateEdges vertsF)).map (fun c => (c.from_, c.to_)) = orderF ∧
    F64.wellSeparated (F64.sortCandidates (F64.candidateEdges vertsF)) = true := by
  decide!

set_option maxRecDepth 100000 in
theorem replayF :
    F64.replay vertsF orderF flagsF
        (constraintEdgesAt obstacleStartIndex, List.replicate vertsF.length 0)
      = some (genF, [0, 0, 0, 0, 0, 0, 0, 0, 0, 0, 0, 0, 0, 0, 0, 0, 1, 3, 3, 3]) := by
  decide!

/-- The edge array `generateInitialEdges` returns for `vertsF` in binary64. -/
theorem genF_eq :
    F64.generateInitialEdges vertsF (constraintEdgesAt obstacleStartIndex) = genF :=
  F64.generateInitialEdges_of_replay vertsF _ orderF flagsF _ orderF_eq.1 replayF

theorem sortedF_eq : edgesAfterTriangulate genF = sortedF := by decide!

set_option maxRecDepth 100000 in
/-- The pass `handleEdgeIntersections` on `sortedF` in binary64: it removes `17-18`. -/
theorem resolvedF_eq : F64.handleEdgeIntersections vertsF sortedF = resolvedF := by decide!

theorem resolvedF_sorted : edgesAfterTriangulate resolvedF = resolvedF := by decide!

/-- The edge array of `stateFScaled`, written out. -/
theorem stateFScaled_edges : stateFScaled.edges = resolvedF := by
  have h := F64.scaleObstacle_edges stateF tenthF (F64.initObstacle 800 600)
    (by decide!) (by decide!) rfl
  show (F64.scaleObstacle stateF tenthF).edges = resolvedF
  rw [h]
  have hv : (F64.scaleObstacle stateF tenthF).vertices = vertsF := vertsF_eq
  rw [hv]
  unfold F64.edgesAfterTransform
  rw [genF_eq, sortedF_eq, resolvedF_eq, resolvedF_sorted]

/-- The two binary64 models agree on the scale factor after one `scaleObstacle(0.1)`. -/
theorem binary64_models_agree :
    F64.value tenthF = toDouble (1 / 10) ∧
    F64.value stateFScaled.currentScaleFactor = toDouble (1 + toDouble (1 / 10)) := by
  decide!

/-- The twelve draws `innerF` are accepted by the inner-point loop of `initSimulation`. -/
theorem innerF_accepted : innerF.all (F64.innerAccepted 800 600) = true := by decide!

/-- In `stateFScaled` the obstacle edges do not cross the boundary edges. -/
theorem stateFScaled_clear : F64.obstacleClearOfBoundary stateFScaled.vertices := by
  rw [vertsF_eq]
  decide!

/-- C1: in binary64, after `initSimulation()` on an 800 by 600 canvas with the inner-point
draws `innerF` and one `scaleObstacle(0.1)`, the obstacle edges do not cross the boundary
edges, and `state.edges` holds the obstacle edge `[18, 19]` and the edge `[13, 5]`, which share
no endpoint and for which `doEdgesCross(18, 19, 13, 5)` is true. -/
theorem scaling_leaves_crossing_edges :
    innerF.all (F64.innerAccepted 800 600) = true ∧
    F64.obstacleClearOfBoundary stateFScaled.vertices ∧
    (18, 19) ∈ stateFScaled.edges ∧ (13, 5) ∈ stateFScaled.edges ∧
    F64.doEdgesCross stateFScaled.vertices 18 19 13 5 = true := by
  refine ⟨innerF_accepted, stateFScaled_clear, ?_, ?_, ?_⟩
  · rw [stateFScaled_edges]; decide
  · rw [stateFScaled_edges]; decide
  · rw [vertsF_eq]; decide!

/-- C14: in binary64, after `initSimulation()` on an 800 by 600 canvas with the inner-point
draws `innerF` and one `scaleObstacle(0.1)`, `generateInitialEdges` has returned the obstacle
edge `[17, 18]` with the other constraint edges, `handleEdgeIntersections` has removed it (it
crosses `[13, 5]` and is the longer of the two), and `state.edges` no longer holds it. -/
theorem scaling_deletes_constraint_edge :
    innerF.all (F64.innerAccepted 800 600) = true ∧
    F64.obstacleClearOfBoundary stateFScaled.vertices ∧
    (17, 18) ∈ F64.generateInitialEdges stateFScaled.vertices
      (constraintEdgesAt obstacleStartIndex) ∧
    F64.doEdgesCross stateFScaled.vertices 17 18 13 5 = true ∧
    F64.hypotSq (F64.vtx stateFScaled.vertices 13) (F64.vtx stateFScaled.vertices 5) * 3
      < F64.hypotSq (F64.vtx stateFScaled.vertices 17) (F64.vtx stateFScaled.vertices 18) ∧
    hasEdge stateFScaled.edges 17 18 = false := by
  refine ⟨innerF_accepted, stateFScaled_clear, ?_, ?_, ?_, ?_⟩
  · rw [vertsF_eq, genF_eq]; decide
  · rw [vertsF_eq]; decide!
  · rw [vertsF_eq]; decide!
  · rw [stateFScaled_edges]; decide

/-- C26 (refuted as stated): in binary64, on the vertices `vertsF` (an 800 by 600 canvas
after one `scaleObstacle(0.1)`), no two constraint edges cross, yet the array returned by
`generateInitialEdges`, once `triangulate()` has sorted its entries, holds the pair `[17, 18]`,
`[13, 5]` for which `doEdgesCross` is true, and `handleEdgeIntersections` returns an array
one edge shorter. -/
theorem crossing_resolution_removes_edge :
    (∀ e ∈ constraintEdgesAt obstacleStartIndex, ∀ f ∈ constraintEdgesAt obstacleStartIndex,
      F64.doEdgesCross vertsF e.1 e.2 f.1 f.2 = false) ∧
    (17, 18) ∈ edgesAfterTriangulate
      (F64.generateInitialEdges vertsF (constraintEdgesAt obstacleStartIndex)) ∧
    (13, 5) ∈ edgesAfterTriangulate
      (F64.generateInitialEdges vertsF (constraintEdgesAt obstacleStartIndex)) ∧
    F64.doEdgesCross vertsF 17 18 13 5 = true ∧
    (F64.handleEdgeIntersections vertsF (edgesAfterTriangulate
      (F64.generateInitialEdges vertsF (constraintEdgesAt obstacleStartIndex)))).length + 1
      = (edgesAfterTriangulate
        (F64.generateInitialEdges vertsF (constraintEdgesAt obstacleStartIndex))).length := by
  rw [genF_eq, sortedF_eq, resolvedF_eq]
  refine ⟨by decide!, by decide, by decide, by decide!, by decide⟩

/-- The exact positions of the vertices 5, 13, 17 and 18 of `vertsF`. -/
theorem vertsF_points :
    (F64.vtx vertsF 5).toPoint
        = { x := 1949824306940639 / 4398046511104, y := 391471261792357 / 1099511627776 } ∧
    (F64.vtx vertsF 13).toPoint
        = { x := 8220076716185039 / 17592186044416, y := 5630598636880533 / 17592186044416 } ∧
    (F64.vtx vertsF 17).toPoint = { x := 455, y := 523 / 2 } ∧
    (F64.vtx vertsF 18).toPoint = { x := 455, y := 677 / 2 } := by
  decide!

/-- C16 (refuted as stated): in binary64, on the vertices `vertsF`, the edges `5-13` and
`17-18` share no endpoint index and their segments properly cross, but `doEdgesCross(5, 13,
17, 18)` is false (`crossProduct(p5, p13, p18)` is rounded to `0`), while
`doEdgesCross(13, 5, 17, 18)` is true. -/
theorem doEdgesCross_misses_proper_crossing :
    F64.doEdgesCross vertsF 5 13 17 18 = false ∧
    F64.eqZero (F64.crossProduct (F64.vtx vertsF 5) (F64.vtx vertsF 13) (F64.vtx vertsF 18))
      = true ∧
    F64.doEdgesCross vertsF 13 5 17 18 = true ∧
    ProperlyCross (F64.vtx vertsF 5).toPoint (F64.vtx vertsF 13).toPoint
      (F64.vtx vertsF 17).toPoint (F64.vtx vertsF 18).toPoint := by
  refine ⟨by decide!, by decide!, by decide!, ?_⟩
  rw [vertsF_points.1, vertsF_points.2.1, vertsF_points.2.2.1, vertsF_points.2.2.2]
  exact properlyCross_of_signs _ _ _ _ (by decide!) (by decide!)

end CrowdSim
